import Mathlib

/-!
# Command engines of the Thyone-I and Proteus-III drivers

A shallow embedding of the framing, reassembly, dispatch and confirmation-wait code of
`WCON_Drivers/ThyoneI/ThyoneI.c` and `WCON_Drivers/ProteusIII/ProteusIII.c`.

Conventions of the embedding

* A byte is a natural number below 256; a C array is a `List Nat` whose length is the
  array size.  A read or write at an index outside the array has no defined result in C
  and yields `none` here.
* 16-bit and 32-bit unsigned arithmetic is written with an explicit `% 65536` or
  `% 4294967296`; `int` is 32 bits wide (the target is an STM32), so the sum of two
  `uint16_t` values is computed without wrap-around.
* The static variables of each driver are the fields of its `State`.  The field `trace`
  is a ghost log of the externally visible actions (frames handed to `HandleRxPacket`,
  callback invocations, clock reads, delays, frames handed to `WE_UART_Transmit`); no
  code path reads it.
* A confirmation array is a `List Confirmation` of `CMDCONFIRMATIONARRAY_LENGTH` slots;
  the `for` loops over it are written as recursion on the list, visiting the slots in
  index order and stopping where the C loop executes `break`.
* A loop whose number of iterations is not bounded by its counter type takes a fuel
  argument; running out of fuel yields `none`, and the theorems about such a loop say
  for which fuel it returns.
* A request function is given in two parts: `X.request` builds the frame in the command
  array and hands it to `WE_UART_Transmit` (it is total), and `X` continues with
  `Wait4CNF` and what follows it.
* A pointer argument is the list of the elements it points to (with an index where the
  code moves the pointer); what a function stores through an out-parameter is part of
  its result, `none` when it stores nothing.
-/

namespace WCON

/-! ## Definitions shared by both drivers (the two source files repeat them verbatim) -/

/-- The pair `ThyoneI_CMD_Confirmation_t` / `ProteusIII_CMD_Confirmation_t`. -/
structure Confirmation where
  cmd : Nat
  status : Nat
deriving DecidableEq, Repr

abbrev CNFINVALID : Nat := 255
abbrev LENGTH_CMD_OVERHEAD : Nat := 5
abbrev LENGTH_CMD_OVERHEAD_WITHOUT_CRC : Nat := 4
abbrev CMD_POSITION_STX : Nat := 0
abbrev CMD_POSITION_CMD : Nat := 1
abbrev CMD_POSITION_LENGTH_LSB : Nat := 2
abbrev CMD_POSITION_LENGTH_MSB : Nat := 3
abbrev CMD_POSITION_DATA : Nat := 4
abbrev CMD_STX : Nat := 2

abbrev CMD_Status_Success : Nat := 0
abbrev CMD_Status_Failed : Nat := 1
abbrev CMD_Status_Invalid : Nat := 2
abbrev CMD_Status_Reset : Nat := 3
abbrev CMD_Status_NoStatus : Nat := 4

/-- XOR of all bytes of a list, the value a checksum loop computes from 0. -/
def xorAll (l : List Nat) : Nat := l.foldl (fun c b => c ^^^ b) 0

/-- The loop `for (i = start; i < start + n; i++) checksum ^= buf[i];` with an `int`
counter: `n` iterations are left, `i` is the counter, `cs` the running checksum. -/
def xorFrom (buf : List Nat) : Nat → Nat → Nat → Option Nat
  | 0, _, cs => some cs
  | n + 1, i, cs =>
    match buf[i]? with
    | none => none
    | some b => xorFrom buf n (i + 1) (cs ^^^ b)

/-- The loop of `FillChecksum`,
`for (i = 0; i < (payload_length + LENGTH_CMD_OVERHEAD_WITHOUT_CRC); i++) checksum ^= pArray[i];`
whose counter `i` is a `uint16_t` while the bound is an `int`.  The first argument is
fuel; the result is `none` when the fuel runs out or a read leaves the array. -/
def FillChecksum.loop (pArray : List Nat) (bound : Nat) : Nat → Nat → Nat → Option Nat
  | 0, _, _ => none
  | fuel + 1, i, cs =>
    if i < bound then
      match pArray[i]? with
      | none => none
      | some b => FillChecksum.loop pArray bound fuel ((i + 1) % 65536) (cs ^^^ b)
    else some cs

/-- `FillChecksum` (ThyoneI.c 341-360, ProteusIII.c 716-735): returns the flag `ret` and
the array after the call.  The counter takes at most 65536 values, so 65537 steps of
fuel cover every run that leaves the loop. -/
def FillChecksum (pArray : List Nat) (length : Nat) : Option (Bool × List Nat) :=
  if length ≥ LENGTH_CMD_OVERHEAD then
    match pArray[0]? with
    | none => none
    | some stx =>
      if stx = CMD_STX then
        match pArray[CMD_POSITION_LENGTH_MSB]?, pArray[CMD_POSITION_LENGTH_LSB]? with
        | some msb, some lsb =>
          let payload_length := ((msb <<< 8) % 65536 + lsb) % 65536
          match FillChecksum.loop pArray (payload_length + LENGTH_CMD_OVERHEAD_WITHOUT_CRC)
              65537 0 0 with
          | none => none
          | some checksum =>
            if payload_length + LENGTH_CMD_OVERHEAD_WITHOUT_CRC < pArray.length then
              some (true, pArray.set (payload_length + LENGTH_CMD_OVERHEAD_WITHOUT_CRC) checksum)
            else none
        | _, _ => none
      else some (false, pArray)
  else some (false, pArray)

/-- `memcpy(dst, src, n)` on arrays: the first `n` bytes of `dst` are replaced by the
first `n` bytes of `src`; undefined when either array is shorter than `n`. -/
def memcpy (dst src : List Nat) (n : Nat) : Option (List Nat) :=
  if n ≤ src.length ∧ n ≤ dst.length then some (src.take n ++ dst.drop n) else none

/-- The insertion loop at the end of `HandleRxPacket`: the first slot whose `cmd` is
`CNFINVALID` receives `cmd` and `status` of the new confirmation, then the loop breaks. -/
def storeConfirmation (c : Confirmation) : List Confirmation → List Confirmation
  | [] => []
  | slot :: rest =>
    if slot.cmd = CNFINVALID then { cmd := c.cmd, status := c.status } :: rest
    else slot :: storeConfirmation c rest

/-- The reset loop of `Wait4CNF` (and of `ClearReceiveBuffers`): every slot gets
`cmd = CNFINVALID`; the `status` fields are not touched. -/
def resetConfirmations (arr : List Confirmation) : List Confirmation :=
  arr.map (fun slot => { slot with cmd := CNFINVALID })

/-- The scan loop of `Wait4CNF`: the first slot whose `cmd` equals the expected code
decides the result (`some` of the status comparison); `none` when no slot matches. -/
def scanConfirmations (expectedCmdConfirmation expectedStatus : Nat) :
    List Confirmation → Option Bool
  | [] => none
  | slot :: rest =>
    if expectedCmdConfirmation = slot.cmd then some (decide (slot.status = expectedStatus))
    else scanConfirmations expectedCmdConfirmation expectedStatus rest

/-- Bytes `start .. start+len-1` of an array, as far as the array reaches: what a callee
can read through a pointer to `&arr[start]` with a length of `len`. -/
def slice (arr : List Nat) (start len : Nat) : List Nat := (arr.drop start).take len

/-- Conversion of a byte to `int8_t`. -/
def toInt8 (b : Nat) : Int := if b % 256 < 128 then (b % 256 : Nat) else ((b % 256 : Nat) : Int) - 256

/-- The assignment `arr[i] = v`; it has no defined result outside the array. -/
def write (arr : List Nat) (i v : Nat) : Option (List Nat) :=
  if i < arr.length then some (arr.set i v) else none

/-- Assignments `arr[i] = v`, carried out in the order of the list. -/
def writes (arr : List Nat) : List (Nat × Nat) → Option (List Nat)
  | [] => some arr
  | (i, v) :: rest =>
    match write arr i v with
    | none => none
    | some arr => writes arr rest

/-- `memcpy(&dst[off], src, n)`: `n` bytes of `src` replace the bytes of `dst` from index
`off` on; it has no defined result when either array is left. -/
def memcpyAt (dst : List Nat) (off : Nat) (src : List Nat) (n : Nat) : Option (List Nat) :=
  if n ≤ src.length ∧ off + n ≤ dst.length then
    some (dst.take off ++ src.take n ++ dst.drop (off + n))
  else none

/-- The four bytes of a `uint32_t` in memory (the target is little-endian). -/
def bytesOfUInt32 (x : Nat) : List Nat :=
  [x % 256, x / 256 % 256, x / 65536 % 256, x / 16777216 % 256]

/-- A frame as it arrives from the module: start byte, command code, payload length (low
byte first), payload and the XOR of all these bytes.  It is the byte sequence that
`FillChecksum` completes and that the checksum test of the reassemblers accepts. -/
def frame (cmd : Nat) (payload : List Nat) : List Nat :=
  [CMD_STX, cmd, payload.length % 256, payload.length / 256] ++ payload
    ++ [xorAll ([CMD_STX, cmd, payload.length % 256, payload.length / 256] ++ payload)]

/-- Number of slots that are empty (`cmd = CNFINVALID`) in the first array and occupied
at the same index in the second. -/
def newlyOccupied : List Confirmation → List Confirmation → Nat
  | o :: old, n :: new =>
    (if o.cmd = CNFINVALID ∧ n.cmd ≠ CNFINVALID then 1 else 0) + newlyOccupied old new
  | _, _ => 0

end WCON

/-! ## Thyone-I -/

namespace ThyoneI
open WCON

abbrev CMD_WAIT_TIME : Nat := 1500
abbrev CMD_WAIT_TIME_STEP_MS : Nat := 0
abbrev LENGTH_CMD_OVERHEAD_MAX : Nat := 11
abbrev MAX_PAYLOAD_LENGTH : Nat := 224
abbrev MAX_PAYLOAD_LENGTH_MULTICAST_EX : Nat := 223
abbrev MAX_PAYLOAD_LENGTH_UNICAST_EX : Nat := 220
abbrev MAX_CMD_LENGTH : Nat := (MAX_PAYLOAD_LENGTH + LENGTH_CMD_OVERHEAD_MAX) % 65536
abbrev CMDCONFIRMATIONARRAY_LENGTH : Nat := 3

abbrev THYONEI_CMD_TYPE_REQ : Nat := 0
abbrev THYONEI_CMD_TYPE_CNF : Nat := 64
abbrev THYONEI_CMD_TYPE_IND : Nat := 128
abbrev THYONEI_CMD_TYPE_RSP : Nat := 192

abbrev THYONEI_CMD_RESET_REQ : Nat := 0x00 ||| THYONEI_CMD_TYPE_REQ
abbrev THYONEI_CMD_RESET_CNF : Nat := 0x00 ||| THYONEI_CMD_TYPE_CNF
abbrev THYONEI_CMD_GETSTATE_REQ : Nat := 0x01 ||| THYONEI_CMD_TYPE_REQ
abbrev THYONEI_CMD_GETSTATE_CNF : Nat := 0x01 ||| THYONEI_CMD_TYPE_CNF
abbrev THYONEI_CMD_SLEEP_REQ : Nat := 0x02 ||| THYONEI_CMD_TYPE_REQ
abbrev THYONEI_CMD_SLEEP_CNF : Nat := 0x02 ||| THYONEI_CMD_TYPE_CNF
abbrev THYONEI_CMD_SLEEP_IND : Nat := 0x02 ||| THYONEI_CMD_TYPE_IND
abbrev THYONEI_CMD_START_IND : Nat := 0x73
abbrev THYONEI_CMD_UNICAST_DATA_REQ : Nat := 0x04 ||| THYONEI_CMD_TYPE_REQ
abbrev THYONEI_CMD_DATA_CNF : Nat := 0x04 ||| THYONEI_CMD_TYPE_CNF
abbrev THYONEI_CMD_DATA_IND : Nat := 0x04 ||| THYONEI_CMD_TYPE_IND
abbrev THYONEI_CMD_TXCOMPLETE_RSP : Nat := 0x04 ||| THYONEI_CMD_TYPE_RSP
abbrev THYONEI_CMD_MULTICAST_DATA_REQ : Nat := 0x05 ||| THYONEI_CMD_TYPE_REQ
abbrev THYONEI_CMD_BROADCAST_DATA_REQ : Nat := 0x06 ||| THYONEI_CMD_TYPE_REQ
abbrev THYONEI_CMD_UNICAST_DATA_EX_REQ : Nat := 0x07 ||| THYONEI_CMD_TYPE_REQ
abbrev THYONEI_CMD_MULTICAST_DATA_EX_REQ : Nat := 0x08 ||| THYONEI_CMD_TYPE_REQ
abbrev THYONEI_CMD_SNIFFER_IND : Nat := 0x99
abbrev THYONEI_CMD_SETCHANNEL_REQ : Nat := 0x09 ||| THYONEI_CMD_TYPE_REQ
abbrev THYONEI_CMD_SETCHANNEL_CNF : Nat := 0x09 ||| THYONEI_CMD_TYPE_CNF
abbrev THYONEI_CMD_GET_REQ : Nat := 0x10 ||| THYONEI_CMD_TYPE_REQ
abbrev THYONEI_CMD_GET_CNF : Nat := 0x10 ||| THYONEI_CMD_TYPE_CNF
abbrev THYONEI_CMD_SET_REQ : Nat := 0x11 ||| THYONEI_CMD_TYPE_REQ
abbrev THYONEI_CMD_SET_CNF : Nat := 0x11 ||| THYONEI_CMD_TYPE_CNF
abbrev THYONEI_CMD_FACTORYRESET_REQ : Nat := 0x1C ||| THYONEI_CMD_TYPE_REQ
abbrev THYONEI_CMD_FACTORYRESET_CNF : Nat := 0x1C ||| THYONEI_CMD_TYPE_CNF
abbrev THYONEI_CMD_GPIO_LOCAL_SETCONFIG_REQ : Nat := 0x25 ||| THYONEI_CMD_TYPE_REQ
abbrev THYONEI_CMD_GPIO_LOCAL_SETCONFIG_CNF : Nat := 0x25 ||| THYONEI_CMD_TYPE_CNF
abbrev THYONEI_CMD_GPIO_LOCAL_GETCONFIG_REQ : Nat := 0x26 ||| THYONEI_CMD_TYPE_REQ
abbrev THYONEI_CMD_GPIO_LOCAL_GETCONFIG_CNF : Nat := 0x26 ||| THYONEI_CMD_TYPE_CNF
abbrev THYONEI_CMD_GPIO_LOCAL_WRITE_REQ : Nat := 0x27 ||| THYONEI_CMD_TYPE_REQ
abbrev THYONEI_CMD_GPIO_LOCAL_WRITE_CNF : Nat := 0x27 ||| THYONEI_CMD_TYPE_CNF
abbrev THYONEI_CMD_GPIO_LOCAL_READ_REQ : Nat := 0x28 ||| THYONEI_CMD_TYPE_REQ
abbrev THYONEI_CMD_GPIO_LOCAL_READ_CNF : Nat := 0x28 ||| THYONEI_CMD_TYPE_CNF
abbrev THYONEI_CMD_GPIO_REMOTE_SETCONFIG_REQ : Nat := 0x29 ||| THYONEI_CMD_TYPE_REQ
abbrev THYONEI_CMD_GPIO_REMOTE_SETCONFIG_CNF : Nat := 0x29 ||| THYONEI_CMD_TYPE_CNF
abbrev THYONEI_CMD_GPIO_REMOTE_GETCONFIG_REQ : Nat := 0x2A ||| THYONEI_CMD_TYPE_REQ
abbrev THYONEI_CMD_GPIO_REMOTE_GETCONFIG_CNF : Nat := 0x2A ||| THYONEI_CMD_TYPE_CNF
abbrev THYONEI_CMD_GPIO_REMOTE_GETCONFIG_RSP : Nat := 0x2A ||| THYONEI_CMD_TYPE_RSP
abbrev THYONEI_CMD_GPIO_REMOTE_WRITE_REQ : Nat := 0x2B ||| THYONEI_CMD_TYPE_REQ
abbrev THYONEI_CMD_GPIO_REMOTE_WRITE_CNF : Nat := 0x2B ||| THYONEI_CMD_TYPE_CNF
abbrev THYONEI_CMD_GPIO_REMOTE_READ_REQ : Nat := 0x2C ||| THYONEI_CMD_TYPE_REQ
abbrev THYONEI_CMD_GPIO_REMOTE_READ_CNF : Nat := 0x2C ||| THYONEI_CMD_TYPE_CNF
abbrev THYONEI_CMD_GPIO_REMOTE_READ_RSP : Nat := 0x2C ||| THYONEI_CMD_TYPE_RSP

/-- Ghost log entries: the actions of the driver that are visible from outside. -/
inductive Event where
  /-- `HandleRxPacket` was entered; `frame` is the block it copies into `RxPacket`. -/
  | dispatch (frame : List Nat)
  /-- Call of `RxCallback(payload, payload_length, sourceAddress, rssi)`; `payload` holds
  the bytes readable through the pointer for the given length. -/
  | rxCallback (payload : List Nat) (payload_length : Nat) (sourceAddress : Nat) (rssi : Int)
  /-- Call of `WE_GetTick()` with the value it returned. -/
  | getTick (value : Nat)
  /-- Call of `WE_Delay(ms)`. -/
  | delay (ms : Nat)
  /-- Call of `WE_UART_Transmit(data, length)`; `data` holds the bytes readable through
  the pointer for the given length. -/
  | transmit (data : List Nat) (length : Nat)
deriving DecidableEq, Repr

/-- The static variables of ThyoneI.c that the command engine uses. -/
structure State where
  CMD_Array : List Nat
  RxPacket : List Nat
  cmdConfirmation_array : List Confirmation
  checksum : Nat
  RxByteCounter : Nat
  BytesToReceive : Nat
  RxBuffer : List Nat
  /-- Whether `RxCallback` is registered (not `NULL`). -/
  RxCallback : Bool
  trace : List Event
deriving DecidableEq, Repr

/-- Codes of the first `case` group of `HandleRxPacket` (no status byte). -/
def noStatusCodes : List Nat :=
  [THYONEI_CMD_RESET_CNF, THYONEI_CMD_GETSTATE_CNF, THYONEI_CMD_START_IND,
   THYONEI_CMD_GPIO_REMOTE_GETCONFIG_RSP, THYONEI_CMD_GPIO_REMOTE_READ_RSP]

/-- Codes of the second `case` group of `HandleRxPacket` (status in the first payload byte). -/
def statusCodes : List Nat :=
  [THYONEI_CMD_DATA_CNF, THYONEI_CMD_GET_CNF, THYONEI_CMD_SET_CNF, THYONEI_CMD_SETCHANNEL_CNF,
   THYONEI_CMD_FACTORYRESET_CNF, THYONEI_CMD_SLEEP_CNF, THYONEI_CMD_GPIO_LOCAL_SETCONFIG_CNF,
   THYONEI_CMD_GPIO_LOCAL_GETCONFIG_CNF, THYONEI_CMD_GPIO_LOCAL_WRITE_CNF,
   THYONEI_CMD_GPIO_LOCAL_READ_CNF, THYONEI_CMD_GPIO_REMOTE_SETCONFIG_CNF,
   THYONEI_CMD_GPIO_REMOTE_GETCONFIG_CNF, THYONEI_CMD_GPIO_REMOTE_WRITE_CNF,
   THYONEI_CMD_TXCOMPLETE_RSP]

/-- Codes of the `case` labels whose branch invokes `RxCallback` (ThyoneI.c 253, 265). -/
def indicationCodes : List Nat := [THYONEI_CMD_DATA_IND, THYONEI_CMD_SNIFFER_IND]

/-- The `switch` of `HandleRxPacket` (ThyoneI.c 212-282) on the copied frame: the local
`cmdConfirmation` after the switch and the callback invocations it made. -/
def HandleRxPacket.switch (RxCallback : Bool) (RxPacket : List Nat) :
    Option (Confirmation × List Event) :=
  match RxPacket[CMD_POSITION_CMD]? with
  | none => none
  | some cmd =>
    if cmd ∈ noStatusCodes then
      some ({ cmd := cmd, status := CMD_Status_NoStatus }, [])
    else if cmd ∈ statusCodes then
      match RxPacket[CMD_POSITION_DATA]? with
      | none => none
      | some st => some ({ cmd := cmd, status := st }, [])
    else if cmd = THYONEI_CMD_GPIO_REMOTE_READ_CNF then
      some ({ cmd := cmd, status := CMD_Status_Invalid }, [])
    else if cmd = THYONEI_CMD_DATA_IND ∨ cmd = THYONEI_CMD_SNIFFER_IND then
      let skip := if cmd = THYONEI_CMD_DATA_IND then 5 else 6
      match RxPacket[CMD_POSITION_LENGTH_LSB]?, RxPacket[CMD_POSITION_LENGTH_MSB]?,
          RxPacket[CMD_POSITION_DATA]?, RxPacket[CMD_POSITION_DATA + 1]?,
          RxPacket[CMD_POSITION_DATA + 2]?, RxPacket[CMD_POSITION_DATA + 3]?,
          RxPacket[CMD_POSITION_DATA + 4]? with
      | some lsb, some msb, some a0, some a1, some a2, some a3, some rssi =>
        let payload_length := (((lsb <<< 0) ||| (msb <<< 8)) % 65536 + 65536 - skip) % 65536
        let sourceAddress := a0 + a1 * 256 + a2 * 65536 + a3 * 16777216
        some ({ cmd := CNFINVALID, status := CMD_Status_Invalid },
          if RxCallback then
            [Event.rxCallback (slice RxPacket (CMD_POSITION_DATA + skip) payload_length)
              payload_length sourceAddress (toInt8 rssi)]
          else [])
      | _, _, _, _, _, _, _ => none
    else
      some ({ cmd := CNFINVALID, status := CMD_Status_Invalid }, [])

/-- `HandleRxPacket` (ThyoneI.c 203-294). -/
def HandleRxPacket (s : State) (pRxBuffer : List Nat) : Option State :=
  match pRxBuffer[CMD_POSITION_LENGTH_LSB]?, pRxBuffer[CMD_POSITION_LENGTH_MSB]? with
  | some lsb, some msb =>
    let cmd_length := (lsb + (msb <<< 8)) % 65536
    match memcpy s.RxPacket pRxBuffer (cmd_length + LENGTH_CMD_OVERHEAD) with
    | none => none
    | some RxPacket =>
      match HandleRxPacket.switch s.RxCallback RxPacket with
      | none => none
      | some (cmdConfirmation, calls) =>
        some { s with
          RxPacket := RxPacket
          cmdConfirmation_array := storeConfirmation cmdConfirmation s.cmdConfirmation_array
          trace := s.trace
            ++ [Event.dispatch (pRxBuffer.take (cmd_length + LENGTH_CMD_OVERHEAD))] ++ calls }
  | _, _ => none

/-- The block `/* check CRC */` of `WE_UART_HandleRxByte`: the value of `checksum` after
the loop over `RxBuffer[0 .. BytesToReceive-2]` and the byte `RxBuffer[BytesToReceive-1]`
it is compared with. -/
def checkCRC (RxBuffer : List Nat) (BytesToReceive : Nat) : Option (Nat × Nat) :=
  match xorFrom RxBuffer (BytesToReceive - 1) 0 0 with
  | none => none
  | some checksum =>
    if BytesToReceive = 0 then none
    else
      match RxBuffer[BytesToReceive - 1]? with
      | none => none
      | some last => some (checksum, last)

/-- `WE_UART_HandleRxByte` (ThyoneI.c 366-428). -/
def WE_UART_HandleRxByte (s : State) (received_byte : Nat) : Option State :=
  if s.RxByteCounter < s.RxBuffer.length then
    let RxBuffer := s.RxBuffer.set s.RxByteCounter received_byte
    let s := { s with RxBuffer := RxBuffer }
    if s.RxByteCounter = 0 then
      if RxBuffer[s.RxByteCounter]? = some CMD_STX then
        some { s with BytesToReceive := 0, RxByteCounter := 1 }
      else some s
    else if s.RxByteCounter = 1 then
      some { s with RxByteCounter := (s.RxByteCounter + 1) % 65536 }
    else if s.RxByteCounter = 2 then
      match RxBuffer[CMD_POSITION_LENGTH_LSB]? with
      | none => none
      | some lsb =>
        some { s with RxByteCounter := (s.RxByteCounter + 1) % 65536, BytesToReceive := lsb }
    else if s.RxByteCounter = 3 then
      match RxBuffer[CMD_POSITION_LENGTH_MSB]? with
      | none => none
      | some msb =>
        let BytesToReceive := (s.BytesToReceive + ((msb <<< 8) + LENGTH_CMD_OVERHEAD)) % 65536
        if BytesToReceive > MAX_CMD_LENGTH then
          some { s with BytesToReceive := 0, RxByteCounter := 0 }
        else
          some { s with RxByteCounter := (s.RxByteCounter + 1) % 65536,
                        BytesToReceive := BytesToReceive }
    else
      let s := { s with RxByteCounter := (s.RxByteCounter + 1) % 65536 }
      if s.RxByteCounter = s.BytesToReceive then
        match checkCRC RxBuffer s.BytesToReceive with
        | none => none
        | some (checksum, last) =>
          let s := { s with checksum := checksum }
          if checksum = last then
            match HandleRxPacket s RxBuffer with
            | none => none
            | some s => some { s with RxByteCounter := 0, BytesToReceive := 0 }
          else some { s with RxByteCounter := 0, BytesToReceive := 0 }
      else some s
  else none

/-- Successive calls of `WE_UART_HandleRxByte`, one per byte of the stream, in order. -/
def feed : State → List Nat → Option State
  | s, [] => some s
  | s, b :: bs =>
    match WE_UART_HandleRxByte s b with
    | none => none
    | some s => feed s bs

/-- What surrounds a call of `Wait4CNF`: `tick k` is the value the `k`-th call of
`WE_GetTick` returns (the call that sets `t0` is number 0) and `arrive k` is the byte
block the receive interrupt handles during pass `k` of the polling loop, after the
time-out test of that pass. -/
structure Env where
  tick : Nat → Nat
  arrive : Nat → List Nat

/-- The `while (1)` loop of `Wait4CNF` (ThyoneI.c 312-334); `k` counts the passes and the
first argument is fuel (`none` when it runs out). -/
def Wait4CNF.loop (env : Env) (t0 : Nat) (max_time_ms : Int)
    (expectedCmdConfirmation expectedStatus : Nat) : Nat → Nat → State → Option (Bool × State)
  | 0, _, _ => none
  | fuel + 1, k, s =>
    match scanConfirmations expectedCmdConfirmation expectedStatus s.cmdConfirmation_array with
    | some r => some (r, s)
    | none =>
      let now := env.tick (k + 1) % 4294967296
      let s := { s with trace := s.trace ++ [Event.getTick now] }
      if (now + 4294967296 - t0) % 4294967296 > (max_time_ms % 4294967296).toNat then
        some (false, s)
      else
        let s := if CMD_WAIT_TIME_STEP_MS > 0 then
            { s with trace := s.trace ++ [Event.delay CMD_WAIT_TIME_STEP_MS] } else s
        match feed s (env.arrive k) with
        | none => none
        | some s => Wait4CNF.loop env t0 max_time_ms expectedCmdConfirmation expectedStatus
            fuel (k + 1) s

/-- `Wait4CNF` (ThyoneI.c 299-336): the returned flag and the state after the call. -/
def Wait4CNF (env : Env) (fuel : Nat) (s : State) (max_time_ms : Int)
    (expectedCmdConfirmation expectedStatus : Nat) (reset_confirmstate : Bool) :
    Option (Bool × State) :=
  let t0 := env.tick 0 % 4294967296
  let s := { s with trace := s.trace ++ [Event.getTick t0] }
  let s := if reset_confirmstate then
      { s with cmdConfirmation_array := resetConfirmations s.cmdConfirmation_array } else s
  Wait4CNF.loop env t0 max_time_ms expectedCmdConfirmation expectedStatus fuel 0 s

/-- `CMD_ARRAY_SIZE()` (ThyoneI.c 163), a value of type `int`: the length of the frame
that `CMD_Array` holds. -/
def CMD_ARRAY_SIZE (CMD_Array : List Nat) : Option Nat :=
  match CMD_Array[CMD_POSITION_LENGTH_LSB]?, CMD_Array[CMD_POSITION_LENGTH_MSB]? with
  | some lsb, some msb => some (((lsb <<< 0) ||| (msb <<< 8)) + LENGTH_CMD_OVERHEAD)
  | _, _ => none

/-- The first part of `ThyoneI_Reset` (ThyoneI.c 567-578): the request is written into
`CMD_Array`, completed by `FillChecksum` and handed to `WE_UART_Transmit`.  The flag is
the result of `FillChecksum`. -/
def ThyoneI_Reset.request (s : State) : Option (Bool × State) :=
  match write s.CMD_Array CMD_POSITION_STX CMD_STX with
  | none => none
  | some a0 =>
    match write a0 CMD_POSITION_CMD THYONEI_CMD_RESET_REQ with
    | none => none
    | some a1 =>
      match write a1 CMD_POSITION_LENGTH_LSB 0 with
      | none => none
      | some a2 =>
        match write a2 CMD_POSITION_LENGTH_MSB 0 with
        | none => none
        | some a3 =>
          match CMD_ARRAY_SIZE a3 with
          | none => none
          | some size =>
            match FillChecksum a3 (size % 65536) with
            | none => none
            | some (false, a4) => some (false, { s with CMD_Array := a4 })
            | some (true, a4) =>
              match CMD_ARRAY_SIZE a4 with
              | none => none
              | some size =>
                some (true, { s with
                  CMD_Array := a4
                  trace := s.trace ++ [Event.transmit (slice a4 0 size) size] })

/-- `ThyoneI_Reset` (ThyoneI.c 565-584): the flag it returns and the state after the call. -/
def ThyoneI_Reset (env : Env) (fuel : Nat) (s : State) : Option (Bool × State) :=
  match ThyoneI_Reset.request s with
  | none => none
  | some (false, s) => some (false, s)
  | some (true, s) =>
    Wait4CNF env fuel s CMD_WAIT_TIME THYONEI_CMD_START_IND CMD_Status_NoStatus true

/-- The block `if (FillChecksum(CMD_Array, CMD_ARRAY_SIZE())) { WE_UART_Transmit(CMD_Array,
CMD_ARRAY_SIZE()); ... }` that ends every request function, applied to the command array
`a` that the function has filled: the result of `FillChecksum` and the state after the
call of `WE_UART_Transmit`, if it is made. -/
def fillAndTransmit (s : State) (a : List Nat) : Option (Bool × State) :=
  match CMD_ARRAY_SIZE a with
  | none => none
  | some size =>
    match FillChecksum a (size % 65536) with
    | none => none
    | some (false, a1) => some (false, { s with CMD_Array := a1 })
    | some (true, a1) =>
      match CMD_ARRAY_SIZE a1 with
      | none => none
      | some size =>
        some (true, { s with
          CMD_Array := a1
          trace := s.trace ++ [Event.transmit (slice a1 0 size) size] })

/-- A block of `len` bytes read from `arr` at `start`; `none` when it leaves the array. -/
def readBlock (arr : List Nat) (start len : Nat) : Option (List Nat) :=
  if start + len ≤ arr.length then some (slice arr start len) else none

/-- The part up to `WE_UART_Transmit` of `ThyoneI_TransmitBroadcast`,
`ThyoneI_TransmitMulticast` and `ThyoneI_TransmitUnicast` (ThyoneI.c 621-703), whose
bodies differ in the request code `cmd` only.  `payloadP` is the memory the pointer
refers to, `length` the `uint16_t` argument.  The flag is `false` when the length is
refused or `FillChecksum` fails. -/
def transmitData.request (cmd : Nat) (s : State) (payloadP : List Nat) (length : Nat) :
    Option (Bool × State) :=
  if length ≤ MAX_PAYLOAD_LENGTH then
    match writes s.CMD_Array
        [(CMD_POSITION_STX, CMD_STX), (CMD_POSITION_CMD, cmd),
         (CMD_POSITION_LENGTH_LSB, (length >>> 0) % 256),
         (CMD_POSITION_LENGTH_MSB, (length >>> 8) % 256)] with
    | none => none
    | some a =>
      match memcpyAt a CMD_POSITION_DATA payloadP length with
      | none => none
      | some a => fillAndTransmit s a
  else some (false, s)

/-- The common body of the three transmit functions: the request, then the wait for
`TXCOMPLETE_RSP`. -/
def transmitData (cmd : Nat) (env : Env) (fuel : Nat) (s : State) (payloadP : List Nat)
    (length : Nat) : Option (Bool × State) :=
  match transmitData.request cmd s payloadP length with
  | none => none
  | some (false, s) => some (false, s)
  | some (true, s) =>
    Wait4CNF env fuel s CMD_WAIT_TIME THYONEI_CMD_TXCOMPLETE_RSP CMD_Status_Success true

/-- `ThyoneI_TransmitBroadcast` (ThyoneI.c 621-641). -/
def ThyoneI_TransmitBroadcast (env : Env) (fuel : Nat) (s : State) (payloadP : List Nat)
    (length : Nat) : Option (Bool × State) :=
  transmitData THYONEI_CMD_BROADCAST_DATA_REQ env fuel s payloadP length

/-- `ThyoneI_TransmitMulticast` (ThyoneI.c 652-672). -/
def ThyoneI_TransmitMulticast (env : Env) (fuel : Nat) (s : State) (payloadP : List Nat)
    (length : Nat) : Option (Bool × State) :=
  transmitData THYONEI_CMD_MULTICAST_DATA_REQ env fuel s payloadP length

/-- `ThyoneI_TransmitUnicast` (ThyoneI.c 683-703). -/
def ThyoneI_TransmitUnicast (env : Env) (fuel : Nat) (s : State) (payloadP : List Nat)
    (length : Nat) : Option (Bool × State) :=
  transmitData THYONEI_CMD_UNICAST_DATA_REQ env fuel s payloadP length

/-- The part up to `WE_UART_Transmit` of `ThyoneI_TransmitMulticastExtended`
(ThyoneI.c 716-731). -/
def ThyoneI_TransmitMulticastExtended.request (s : State) (groupID : Nat)
    (payloadP : List Nat) (length : Nat) : Option (Bool × State) :=
  if length ≤ MAX_PAYLOAD_LENGTH_MULTICAST_EX then
    let cmdLength := (length + 1) % 65536
    match writes s.CMD_Array
        [(CMD_POSITION_STX, CMD_STX), (CMD_POSITION_CMD, THYONEI_CMD_MULTICAST_DATA_EX_REQ),
         (CMD_POSITION_LENGTH_LSB, (cmdLength >>> 0) % 256),
         (CMD_POSITION_LENGTH_MSB, (cmdLength >>> 8) % 256),
         (CMD_POSITION_CMD, groupID)] with
    | none => none
    | some a =>
      match memcpyAt a (CMD_POSITION_DATA + 1) payloadP length with
      | none => none
      | some a => fillAndTransmit s a
  else some (false, s)

/-- `ThyoneI_TransmitMulticastExtended` (ThyoneI.c 714-737). -/
def ThyoneI_TransmitMulticastExtended (env : Env) (fuel : Nat) (s : State) (groupID : Nat)
    (payloadP : List Nat) (length : Nat) : Option (Bool × State) :=
  match ThyoneI_TransmitMulticastExtended.request s groupID payloadP length with
  | none => none
  | some (false, s) => some (false, s)
  | some (true, s) =>
    Wait4CNF env fuel s CMD_WAIT_TIME THYONEI_CMD_TXCOMPLETE_RSP CMD_Status_Success true

/-- The part up to `WE_UART_Transmit` of `ThyoneI_Get` (ThyoneI.c 1117-1127);
`userSetting` is stored as a byte. -/
def ThyoneI_Get.request (s : State) (userSetting : Nat) : Option (Bool × State) :=
  match writes s.CMD_Array
      [(CMD_POSITION_STX, CMD_STX), (CMD_POSITION_CMD, THYONEI_CMD_GET_REQ),
       (CMD_POSITION_LENGTH_LSB, 1), (CMD_POSITION_LENGTH_MSB, 0),
       (CMD_POSITION_DATA, userSetting % 256)] with
  | none => none
  | some a => fillAndTransmit s a

/-- `ThyoneI_Get` (ThyoneI.c 1113-1139): the flag it returns, what it has written through
`ResponseP` and `Response_LengthP` (`none` when it has written neither) and the state
after the call.  The length of the copy is the `int` value `length - 1`, which for
`length = 0` is no valid size. -/
def ThyoneI_Get (env : Env) (fuel : Nat) (s : State) (userSetting : Nat) :
    Option (Bool × Option (List Nat × Nat) × State) :=
  match ThyoneI_Get.request s userSetting with
  | none => none
  | some (false, s) => some (false, none, s)
  | some (true, s) =>
    match Wait4CNF env fuel s CMD_WAIT_TIME THYONEI_CMD_GET_CNF CMD_Status_Success true with
    | none => none
    | some (false, s) => some (false, none, s)
    | some (true, s) =>
      match s.RxPacket[CMD_POSITION_LENGTH_LSB]?, s.RxPacket[CMD_POSITION_LENGTH_MSB]? with
      | some lsb, some msb =>
        let length := ((lsb <<< 0) + (msb <<< 8)) % 65536
        if length = 0 then none
        else
          match readBlock s.RxPacket (CMD_POSITION_DATA + 1) (length - 1) with
          | none => none
          | some response => some (true, some (response, (length - 1) % 65536), s)
      | _, _ => none

/-- The part up to `WE_UART_Transmit` of `ThyoneI_GetState` (ThyoneI.c 1427-1436). -/
def ThyoneI_GetState.request (s : State) : Option (Bool × State) :=
  match writes s.CMD_Array
      [(CMD_POSITION_STX, CMD_STX), (CMD_POSITION_CMD, THYONEI_CMD_GETSTATE_REQ),
       (CMD_POSITION_LENGTH_LSB, 0), (CMD_POSITION_LENGTH_MSB, 0)] with
  | none => none
  | some a => fillAndTransmit s a

/-- `ThyoneI_GetState` (ThyoneI.c 1425-1447): the flag it returns, what it has written to
`*state` (`none` when it has not written) and the state after the call. -/
def ThyoneI_GetState (env : Env) (fuel : Nat) (s : State) :
    Option (Bool × Option Nat × State) :=
  match ThyoneI_GetState.request s with
  | none => none
  | some (false, s) => some (false, none, s)
  | some (true, s) =>
    match Wait4CNF env fuel s CMD_WAIT_TIME THYONEI_CMD_GETSTATE_CNF CMD_Status_Success
        true with
    | none => none
    | some (false, s) => some (false, none, s)
    | some (true, s) =>
      match s.RxPacket[CMD_POSITION_DATA + 1]? with
      | none => none
      | some st => some (true, some st, s)

/-- `ThyoneI_GPIOControlBlock_t` as far as ThyoneI.c reads it (the type is declared in
`ThyoneI.h`): the members `GPIO_ID` and `value.output`. -/
structure GPIOControlBlock where
  GPIO_ID : Nat
  output : Nat
deriving DecidableEq, Repr

/-- The `for` loop of `ThyoneI_GPIOLocalWrite` and `ThyoneI_GPIORemoteWrite`
(ThyoneI.c 1647-1654, 1924-1931).  `control` is the array that the argument `controlP`
points into and `p` the index the pointer has reached; `stride` is the number of
elements the pointer advances per pass (`controlP++` is 1,
`controlP += sizeof(ThyoneI_GPIOControlBlock_t)` is the size of the type).  The first
argument counts the passes that are left; the result is `length` and the command array
after the loop. -/
def gpioControlLoop (control : List GPIOControlBlock) (stride : Nat) :
    Nat → Nat → Nat → List Nat → Option (Nat × List Nat)
  | 0, length, _, a => some (length, a)
  | n + 1, length, p, a =>
    match control[p]? with
    | none => none
    | some c =>
      match writes a
          [(CMD_POSITION_DATA + length, 2),
           (CMD_POSITION_DATA + length + 1, c.GPIO_ID % 256),
           (CMD_POSITION_DATA + length + 2, c.output % 256)] with
      | none => none
      | some a => gpioControlLoop control stride n ((length + 3) % 65536) (p + stride) a

/-- The part up to `WE_UART_Transmit` of `ThyoneI_GPIOLocalWrite` (ThyoneI.c 1642-1663). -/
def ThyoneI_GPIOLocalWrite.request (s : State) (controlP : List GPIOControlBlock)
    (number_of_controls : Nat) : Option (Bool × State) :=
  match gpioControlLoop controlP 1 number_of_controls 0 0 s.CMD_Array with
  | none => none
  | some (length, a) =>
    match writes a
        [(CMD_POSITION_STX, CMD_STX), (CMD_POSITION_CMD, THYONEI_CMD_GPIO_LOCAL_WRITE_REQ),
         (CMD_POSITION_LENGTH_LSB, length &&& 0x00FF),
         (CMD_POSITION_LENGTH_MSB, (length &&& 0xFF00) >>> 8)] with
    | none => none
    | some a => fillAndTransmit s a

/-- `ThyoneI_GPIOLocalWrite` (ThyoneI.c 1642-1671). -/
def ThyoneI_GPIOLocalWrite (env : Env) (fuel : Nat) (s : State)
    (controlP : List GPIOControlBlock) (number_of_controls : Nat) : Option (Bool × State) :=
  match ThyoneI_GPIOLocalWrite.request s controlP number_of_controls with
  | none => none
  | some (false, s) => some (false, s)
  | some (true, s) =>
    Wait4CNF env fuel s CMD_WAIT_TIME THYONEI_CMD_GPIO_LOCAL_WRITE_CNF CMD_Status_Success true

/-- The part up to `WE_UART_Transmit` of `ThyoneI_GPIORemoteWrite` (ThyoneI.c 1919-1953).
`sizeofControlBlock` is `sizeof(ThyoneI_GPIOControlBlock_t)`, a constant of `ThyoneI.h`. -/
def ThyoneI_GPIORemoteWrite.request (sizeofControlBlock : Nat) (s : State)
    (destAddress : Nat) (controlP : List GPIOControlBlock) (number_of_controls : Nat) :
    Option (Bool × State) :=
  match gpioControlLoop controlP sizeofControlBlock number_of_controls 4 0 s.CMD_Array with
  | none => none
  | some (length, a) =>
    match writes a
        [(CMD_POSITION_STX, CMD_STX), (CMD_POSITION_CMD, THYONEI_CMD_GPIO_REMOTE_WRITE_REQ),
         (CMD_POSITION_LENGTH_LSB, length &&& 0x00FF),
         (CMD_POSITION_LENGTH_MSB, (length &&& 0xFF00) >>> 8)] with
    | none => none
    | some a =>
      match memcpyAt a CMD_POSITION_DATA (bytesOfUInt32 destAddress) 4 with
      | none => none
      | some a => fillAndTransmit s a

/-- `ThyoneI_GPIORemoteWrite` (ThyoneI.c 1919-1961). -/
def ThyoneI_GPIORemoteWrite (sizeofControlBlock : Nat) (env : Env) (fuel : Nat) (s : State)
    (destAddress : Nat) (controlP : List GPIOControlBlock) (number_of_controls : Nat) :
    Option (Bool × State) :=
  match ThyoneI_GPIORemoteWrite.request sizeofControlBlock s destAddress controlP
      number_of_controls with
  | none => none
  | some (false, s) => some (false, s)
  | some (true, s) =>
    Wait4CNF env fuel s CMD_WAIT_TIME THYONEI_CMD_GPIO_REMOTE_WRITE_CNF CMD_Status_Success
      true

/-- The enumerators of `ThyoneI_UartParity_t` that ThyoneI.c names (the type is declared
in `ThyoneI.h`). -/
inductive UartParity where
  | ThyoneI_UartParity_Even
  | ThyoneI_UartParity_None
deriving DecidableEq, Repr

/-- The value of the `uint8_t` variable `baudrateIndex` that `ThyoneI_SetBaudrateIndex`
(ThyoneI.c 861-878) hands to `ThyoneI_Set`. -/
def ThyoneI_SetBaudrateIndex.index (baudrate : Nat) (parity : UartParity)
    (flowcontrolEnable : Bool) : Nat :=
  let baudrateIndex := baudrate % 256
  let baudrateIndex := if flowcontrolEnable then (baudrateIndex + 1) % 256 else baudrateIndex
  if UartParity.ThyoneI_UartParity_Even = parity then (baudrateIndex + 64) % 256
  else baudrateIndex

/-- What `ThyoneI_GetBaudrateIndex` (ThyoneI.c 1200-1228) stores through `baudrateP`,
`parityP` and `flowcontrolEnableP` once `ThyoneI_Get` has delivered the byte `uartIndex`. -/
def ThyoneI_GetBaudrateIndex.decode (uartIndex : Nat) : Nat × UartParity × Bool :=
  let flowcontrolEnable := decide (0x01 = uartIndex &&& 0x01)
  let uartIndex := if flowcontrolEnable then (uartIndex + 256 - 1) % 256 else uartIndex
  if uartIndex < 64 then (uartIndex, UartParity.ThyoneI_UartParity_None, flowcontrolEnable)
  else ((uartIndex + 256 - 64) % 256, UartParity.ThyoneI_UartParity_Even, flowcontrolEnable)

/-- The receiver waiting for a start byte with all buffers of their declared sizes, no
confirmation stored and nothing logged. -/
def idleState (RxCallback : Bool) : State :=
  { CMD_Array := List.replicate MAX_CMD_LENGTH 0
    RxPacket := List.replicate MAX_CMD_LENGTH 0
    cmdConfirmation_array :=
      List.replicate CMDCONFIRMATIONARRAY_LENGTH { cmd := CNFINVALID, status := 0 }
    checksum := 0
    RxByteCounter := 0
    BytesToReceive := 0
    RxBuffer := List.replicate MAX_CMD_LENGTH 0
    RxCallback := RxCallback
    trace := [] }

end ThyoneI

/-! ## Proteus-III -/

namespace ProteusIII
open WCON

/-- Constants that ProteusIII.c takes from `ProteusIII.h`, whose text is not at hand;
every definition that needs one of them receives this record. -/
structure Header where
  PROTEUSIII_MAX_PAYLOAD_LENGTH : Nat
  ProteusIII_GPIO_IO_Disconnected : Nat
  ProteusIII_GPIO_IO_Input : Nat
  ProteusIII_GPIO_IO_Output : Nat
  ProteusIII_GPIO_IO_PWM : Nat
deriving DecidableEq, Repr

abbrev CMD_WAIT_TIME : Nat := 500
abbrev CMDCONFIRMATIONARRAY_LENGTH : Nat := 2

/-- `MAX_CMD_LENGTH`, a `uint16_t` value. -/
def MAX_CMD_LENGTH (h : Header) : Nat :=
  (h.PROTEUSIII_MAX_PAYLOAD_LENGTH + LENGTH_CMD_OVERHEAD) % 65536

/-- `MAX_RX_PACKET_LENGTH`. -/
def MAX_RX_PACKET_LENGTH (h : Header) : Nat := MAX_CMD_LENGTH h + 7

abbrev PROTEUSIII_CMD_TYPE_REQ : Nat := 0
abbrev PROTEUSIII_CMD_TYPE_CNF : Nat := 64
abbrev PROTEUSIII_CMD_TYPE_IND : Nat := 128
abbrev PROTEUSIII_CMD_TYPE_RSP : Nat := 192

abbrev PROTEUSIII_CMD_RESET_REQ : Nat := 0x00 ||| PROTEUSIII_CMD_TYPE_REQ
abbrev PROTEUSIII_CMD_RESET_CNF : Nat := 0x00 ||| PROTEUSIII_CMD_TYPE_CNF
abbrev PROTEUSIII_CMD_GETSTATE_REQ : Nat := 0x01 ||| PROTEUSIII_CMD_TYPE_REQ
abbrev PROTEUSIII_CMD_GETSTATE_CNF : Nat := 0x01 ||| PROTEUSIII_CMD_TYPE_CNF
abbrev PROTEUSIII_CMD_GETSTATE_IND : Nat := 0x01 ||| PROTEUSIII_CMD_TYPE_IND
abbrev PROTEUSIII_CMD_SLEEP_REQ : Nat := 0x02 ||| PROTEUSIII_CMD_TYPE_REQ
abbrev PROTEUSIII_CMD_SLEEP_CNF : Nat := 0x02 ||| PROTEUSIII_CMD_TYPE_CNF
abbrev PROTEUSIII_CMD_SLEEP_IND : Nat := 0x02 ||| PROTEUSIII_CMD_TYPE_IND
abbrev PROTEUSIII_CMD_UART_DISABLE_REQ : Nat := 0x1B ||| PROTEUSIII_CMD_TYPE_REQ
abbrev PROTEUSIII_CMD_UART_DISABLE_CNF : Nat := 0x1B ||| PROTEUSIII_CMD_TYPE_CNF
abbrev PROTEUSIII_CMD_UART_ENABLE_IND : Nat := 0x9B
abbrev PROTEUSIII_CMD_DATA_REQ : Nat := 0x04 ||| PROTEUSIII_CMD_TYPE_REQ
abbrev PROTEUSIII_CMD_DATA_CNF : Nat := 0x04 ||| PROTEUSIII_CMD_TYPE_CNF
abbrev PROTEUSIII_CMD_DATA_IND : Nat := 0x04 ||| PROTEUSIII_CMD_TYPE_IND
abbrev PROTEUSIII_CMD_TXCOMPLETE_RSP : Nat := 0x04 ||| PROTEUSIII_CMD_TYPE_RSP
abbrev PROTEUSIII_CMD_CONNECT_REQ : Nat := 0x06 ||| PROTEUSIII_CMD_TYPE_REQ
abbrev PROTEUSIII_CMD_CONNECT_CNF : Nat := 0x06 ||| PROTEUSIII_CMD_TYPE_CNF
abbrev PROTEUSIII_CMD_CONNECT_IND : Nat := 0x06 ||| PROTEUSIII_CMD_TYPE_IND
abbrev PROTEUSIII_CMD_CHANNELOPEN_RSP : Nat := 0x06 ||| PROTEUSIII_CMD_TYPE_RSP
abbrev PROTEUSIII_CMD_DISCONNECT_REQ : Nat := 0x07 ||| PROTEUSIII_CMD_TYPE_REQ
abbrev PROTEUSIII_CMD_DISCONNECT_CNF : Nat := 0x07 ||| PROTEUSIII_CMD_TYPE_CNF
abbrev PROTEUSIII_CMD_DISCONNECT_IND : Nat := 0x07 ||| PROTEUSIII_CMD_TYPE_IND
abbrev PROTEUSIII_CMD_SECURITY_IND : Nat := 0x88
abbrev PROTEUSIII_CMD_SCANSTART_REQ : Nat := 0x09 ||| PROTEUSIII_CMD_TYPE_REQ
abbrev PROTEUSIII_CMD_SCANSTART_CNF : Nat := 0x09 ||| PROTEUSIII_CMD_TYPE_CNF
abbrev PROTEUSIII_CMD_SCANSTART_IND : Nat := 0x09 ||| PROTEUSIII_CMD_TYPE_IND
abbrev PROTEUSIII_CMD_SCANSTOP_REQ : Nat := 0x0A ||| PROTEUSIII_CMD_TYPE_REQ
abbrev PROTEUSIII_CMD_SCANSTOP_CNF : Nat := 0x0A ||| PROTEUSIII_CMD_TYPE_CNF
abbrev PROTEUSIII_CMD_SCANSTOP_IND : Nat := 0x0A ||| PROTEUSIII_CMD_TYPE_IND
abbrev PROTEUSIII_CMD_GETDEVICES_REQ : Nat := 0x0B ||| PROTEUSIII_CMD_TYPE_REQ
abbrev PROTEUSIII_CMD_GETDEVICES_CNF : Nat := 0x0B ||| PROTEUSIII_CMD_TYPE_CNF
abbrev PROTEUSIII_CMD_SETBEACON_REQ : Nat := 0x0C ||| PROTEUSIII_CMD_TYPE_REQ
abbrev PROTEUSIII_CMD_SETBEACON_CNF : Nat := 0x0C ||| PROTEUSIII_CMD_TYPE_CNF
abbrev PROTEUSIII_CMD_BEACON_IND : Nat := 0x0C ||| PROTEUSIII_CMD_TYPE_IND
abbrev PROTEUSIII_CMD_BEACON_RSP : Nat := 0x0C ||| PROTEUSIII_CMD_TYPE_RSP
abbrev PROTEUSIII_CMD_RSSI_IND : Nat := 0x8B
abbrev PROTEUSIII_CMD_PASSKEY_REQ : Nat := 0x0D ||| PROTEUSIII_CMD_TYPE_REQ
abbrev PROTEUSIII_CMD_PASSKEY_CNF : Nat := 0x0D ||| PROTEUSIII_CMD_TYPE_CNF
abbrev PROTEUSIII_CMD_PASSKEY_IND : Nat := 0x0D ||| PROTEUSIII_CMD_TYPE_IND
abbrev PROTEUSIII_CMD_GET_REQ : Nat := 0x10 ||| PROTEUSIII_CMD_TYPE_REQ
abbrev PROTEUSIII_CMD_GET_CNF : Nat := 0x10 ||| PROTEUSIII_CMD_TYPE_CNF
abbrev PROTEUSIII_CMD_SET_REQ : Nat := 0x11 ||| PROTEUSIII_CMD_TYPE_REQ
abbrev PROTEUSIII_CMD_SET_CNF : Nat := 0x11 ||| PROTEUSIII_CMD_TYPE_CNF
abbrev PROTEUSIII_CMD_PHYUPDATE_REQ : Nat := 0x1A ||| PROTEUSIII_CMD_TYPE_REQ
abbrev PROTEUSIII_CMD_PHYUPDATE_CNF : Nat := 0x1A ||| PROTEUSIII_CMD_TYPE_CNF
abbrev PROTEUSIII_CMD_PHYUPDATE_IND : Nat := 0x1A ||| PROTEUSIII_CMD_TYPE_IND
abbrev PROTEUSIII_CMD_FACTORYRESET_REQ : Nat := 0x1C ||| PROTEUSIII_CMD_TYPE_REQ
abbrev PROTEUSIII_CMD_FACTORYRESET_CNF : Nat := 0x1C ||| PROTEUSIII_CMD_TYPE_CNF
abbrev PROTEUSIII_CMD_NUMERIC_COMP_REQ : Nat := 0x24 ||| PROTEUSIII_CMD_TYPE_REQ
abbrev PROTEUSIII_CMD_NUMERIC_COMP_CNF : Nat := 0x24 ||| PROTEUSIII_CMD_TYPE_CNF
abbrev PROTEUSIII_CMD_DISPLAY_PASSKEY_IND : Nat := 0x24 ||| PROTEUSIII_CMD_TYPE_CNF
abbrev PROTEUSIII_CMD_GPIO_LOCAL_WRITECONFIG_REQ : Nat := 0x25 ||| PROTEUSIII_CMD_TYPE_REQ
abbrev PROTEUSIII_CMD_GPIO_LOCAL_WRITECONFIG_CNF : Nat := 0x25 ||| PROTEUSIII_CMD_TYPE_CNF
abbrev PROTEUSIII_CMD_GPIO_LOCAL_READCONFIG_REQ : Nat := 0x2B ||| PROTEUSIII_CMD_TYPE_REQ
abbrev PROTEUSIII_CMD_GPIO_LOCAL_READCONFIG_CNF : Nat := 0x2B ||| PROTEUSIII_CMD_TYPE_CNF
abbrev PROTEUSIII_CMD_GPIO_LOCAL_WRITE_REQ : Nat := 0x26 ||| PROTEUSIII_CMD_TYPE_REQ
abbrev PROTEUSIII_CMD_GPIO_LOCAL_WRITE_CNF : Nat := 0x26 ||| PROTEUSIII_CMD_TYPE_CNF
abbrev PROTEUSIII_CMD_GPIO_LOCAL_WRITE_IND : Nat := 0x26 ||| PROTEUSIII_CMD_TYPE_IND
abbrev PROTEUSIII_CMD_GPIO_LOCAL_READ_REQ : Nat := 0x27 ||| PROTEUSIII_CMD_TYPE_REQ
abbrev PROTEUSIII_CMD_GPIO_LOCAL_READ_CNF : Nat := 0x27 ||| PROTEUSIII_CMD_TYPE_CNF
abbrev PROTEUSIII_CMD_GPIO_REMOTE_WRITECONFIG_REQ : Nat := 0x28 ||| PROTEUSIII_CMD_TYPE_REQ
abbrev PROTEUSIII_CMD_GPIO_REMOTE_WRITECONFIG_CNF : Nat := 0x28 ||| PROTEUSIII_CMD_TYPE_CNF
abbrev PROTEUSIII_CMD_GPIO_REMOTE_WRITECONFIG_IND : Nat := 0x28 ||| PROTEUSIII_CMD_TYPE_IND
abbrev PROTEUSIII_CMD_GPIO_REMOTE_READCONFIG_REQ : Nat := 0x2C ||| PROTEUSIII_CMD_TYPE_REQ
abbrev PROTEUSIII_CMD_GPIO_REMOTE_READCONFIG_CNF : Nat := 0x2C ||| PROTEUSIII_CMD_TYPE_CNF
abbrev PROTEUSIII_CMD_GPIO_REMOTE_WRITE_REQ : Nat := 0x29 ||| PROTEUSIII_CMD_TYPE_REQ
abbrev PROTEUSIII_CMD_GPIO_REMOTE_WRITE_CNF : Nat := 0x29 ||| PROTEUSIII_CMD_TYPE_CNF
abbrev PROTEUSIII_CMD_GPIO_REMOTE_WRITE_IND : Nat := 0x29 ||| PROTEUSIII_CMD_TYPE_IND
abbrev PROTEUSIII_CMD_GPIO_REMOTE_READ_REQ : Nat := 0x2A ||| PROTEUSIII_CMD_TYPE_REQ
abbrev PROTEUSIII_CMD_GPIO_REMOTE_READ_CNF : Nat := 0x2A ||| PROTEUSIII_CMD_TYPE_CNF
abbrev PROTEUSIII_CMD_GET_BONDS_REQ : Nat := 0x0F ||| PROTEUSIII_CMD_TYPE_REQ
abbrev PROTEUSIII_CMD_GET_BONDS_CNF : Nat := 0x0F ||| PROTEUSIII_CMD_TYPE_CNF
abbrev PROTEUSIII_CMD_DELETE_BONDS_REQ : Nat := 0x0E ||| PROTEUSIII_CMD_TYPE_REQ
abbrev PROTEUSIII_CMD_DELETE_BONDS_CNF : Nat := 0x0E ||| PROTEUSIII_CMD_TYPE_CNF
abbrev PROTEUSIII_CMD_ALLOWUNBONDEDCONNECTIONS_REQ : Nat := 0x2D ||| PROTEUSIII_CMD_TYPE_REQ
abbrev PROTEUSIII_CMD_ALLOWUNBONDEDCONNECTIONS_CNF : Nat := 0x2D ||| PROTEUSIII_CMD_TYPE_CNF
abbrev PROTEUSIII_CMD_ERROR_IND : Nat := 0xA2

/-- `ProteusIII_DriverState_t`, as far as ProteusIII.c names its values. -/
inductive DriverState where
  | BLE_Invalid
  | BLE_Connected
  | BLE_ChannelOpen
deriving DecidableEq, Repr

/-- `ProteusIII_OperationMode_t`. -/
inductive OperationMode where
  | CommandMode
  | PeripheralOnlyMode
deriving DecidableEq, Repr

/-- `ProteusIII_DisconnectReason_t`. -/
inductive DisconnectReason where
  | Unknown
  | ConnectionTimeout
  | UserTerminatedConnection
  | HostTerminatedConnection
  | ConnectionIntervalUnacceptable
  | MicFailure
  | ConnectionSetupFailed
deriving DecidableEq, Repr

/-- The union `value` of `ProteusIII_GPIOConfigBlock_t`; `zero` is the state left by the
initialiser `= {0}`. -/
inductive GPIOValue where
  | zero
  | input (v : Nat)
  | output (v : Nat)
  | pwm (period : Nat) (pwmRatio : Nat)
deriving DecidableEq, Repr

/-- `ProteusIII_GPIOConfigBlock_t`. -/
structure GPIOConfigBlock where
  gpioId : Nat
  function : Nat
  value : GPIOValue
deriving DecidableEq, Repr

/-- `ProteusIII_CallbackConfig_t`: for each callback, whether it is registered. -/
structure CallbackConfig where
  rxCb : Bool
  beaconRxCb : Bool
  connectCb : Bool
  securityCb : Bool
  passkeyCb : Bool
  displayPasskeyCb : Bool
  disconnectCb : Bool
  channelOpenCb : Bool
  phyUpdateCb : Bool
  sleepCb : Bool
  rssiCb : Bool
  gpioWriteCb : Bool
  gpioRemoteConfigCb : Bool
  errorCb : Bool
deriving DecidableEq, Repr

/-- Ghost log entries: the actions of the driver that are visible from outside.  A
pointer argument of a callback is recorded as the bytes it points to. -/
inductive Event where
  /-- `HandleRxPacket` was entered; `frame` is the block it copies into `rxPacket`. -/
  | dispatch (frame : List Nat)
  | channelOpenCb (btMac : List Nat) (maxPayload : Nat)
  | connectCb (success : Bool) (btMac : List Nat)
  | disconnectCb (reason : DisconnectReason)
  | rxCb (payload : List Nat) (payloadLength : Nat) (btMac : List Nat) (rssi : Nat)
  | beaconRxCb (payload : List Nat) (payloadLength : Nat) (btMac : List Nat) (rssi : Nat)
  | rssiCb (btMac : List Nat) (rssi : Nat) (txPower : Nat)
  | securityCb (btMac : List Nat) (status : Nat)
  | passkeyCb (btMac : List Nat)
  | displayPasskeyCb (action : Nat) (btMac : List Nat) (passkey : List Nat)
  | phyUpdateCb (success : Bool) (btMac : List Nat) (phyRx : Nat) (phyTx : Nat)
  | sleepCb
  | gpioWriteCb (remote : Bool) (gpioId : Nat) (value : Nat)
  | gpioRemoteConfigCb (gpioConfig : GPIOConfigBlock)
  | errorCb (errorCode : Nat)
  /-- Call of `WE_Delay(ms)`. -/
  | delay (ms : Nat)
  /-- Call of `WE_UART_Transmit(data, length)`; `data` holds the bytes readable through
  the pointer for the given length. -/
  | transmit (data : List Nat) (length : Nat)
deriving DecidableEq, Repr

/-- The static variables of ProteusIII.c that the command engine uses. -/
structure State where
  cmdArray : List Nat
  rxPacket : List Nat
  cmdConfirmationArray : List Confirmation
  operationMode : OperationMode
  bleState : DriverState
  askedForState : Bool
  callbacks : CallbackConfig
  checksum : Nat
  rxByteCounter : Nat
  bytesToReceive : Nat
  rxBuffer : List Nat
  trace : List Event
deriving DecidableEq, Repr

/-- `ClearReceiveBuffers` (ProteusIII.c 257-266). -/
def ClearReceiveBuffers (s : State) : State :=
  { s with
    bytesToReceive := 0
    rxByteCounter := 0
    checksum := 0
    cmdConfirmationArray := resetConfirmations s.cmdConfirmationArray }

/-- A block of `len` bytes read from `arr` at `start`; `none` when it leaves the array. -/
def readBlock (arr : List Nat) (start len : Nat) : Option (List Nat) :=
  if start + len ≤ arr.length then some (slice arr start len) else none

/-- The block loop of the `GPIO_LOCAL_WRITE_IND` / `GPIO_REMOTE_WRITE_IND` case
(ProteusIII.c 531-542).  `pos` and `blockLength` are `uint8_t`.  The first argument is
fuel; `none` when it runs out or a read leaves `rxPacket`. -/
def gpioWriteLoop (rxPacket : List Nat) (packetLength : Nat) : Nat → Nat → Option (List Event)
  | 0, _ => none
  | fuel + 1, pos =>
    if pos < packetLength then
      match rxPacket[CMD_POSITION_DATA + pos]?, rxPacket[CMD_POSITION_DATA + 1 + pos]?,
          rxPacket[CMD_POSITION_DATA + 2 + pos]?, rxPacket[CMD_POSITION_CMD]? with
      | some len, some gpioId, some value, some cmd =>
        let blockLength := (len + 1) % 256
        match gpioWriteLoop rxPacket packetLength fuel ((pos + blockLength) % 256) with
        | none => none
        | some rest =>
          some (Event.gpioWriteCb (decide (PROTEUSIII_CMD_GPIO_REMOTE_WRITE_IND = cmd))
            gpioId value :: rest)
      | _, _, _, _ => none
    else some []

/-- The `switch (gpioConfig.function)` of the `GPIO_REMOTE_WRITECONFIG_IND` case: the
union after the switch; `value` is the position of the pointer `value` in `rxPacket`. -/
def gpioConfigValue (h : Header) (rxPacket : List Nat) (function value : Nat) :
    Option GPIOValue :=
  if function = h.ProteusIII_GPIO_IO_Disconnected then some GPIOValue.zero
  else if function = h.ProteusIII_GPIO_IO_Input then
    match rxPacket[value]? with
    | none => none
    | some v => some (GPIOValue.input v)
  else if function = h.ProteusIII_GPIO_IO_Output then
    match rxPacket[value]? with
    | none => none
    | some v => some (GPIOValue.output v)
  else if function = h.ProteusIII_GPIO_IO_PWM then
    match rxPacket[value + 1]?, rxPacket[value]?, rxPacket[value + 2]? with
    | some v1, some v0, some v2 => some (GPIOValue.pwm (((v1 <<< 8) ||| v0) % 65536) v2)
    | _, _, _ => none
  else some GPIOValue.zero

/-- The block loop of the `GPIO_REMOTE_WRITECONFIG_IND` case (ProteusIII.c 552-584), with
the same conventions as `gpioWriteLoop`. -/
def gpioRemoteConfigLoop (h : Header) (rxPacket : List Nat) (packetLength : Nat) :
    Nat → Nat → Option (List Event)
  | 0, _ => none
  | fuel + 1, pos =>
    if pos < packetLength then
      match rxPacket[CMD_POSITION_DATA + pos]?, rxPacket[CMD_POSITION_DATA + 1 + pos]?,
          rxPacket[CMD_POSITION_DATA + 2 + pos]? with
      | some len, some gpioId, some function =>
        let blockLength := (len + 1) % 256
        match gpioConfigValue h rxPacket function (CMD_POSITION_DATA + 3 + pos) with
        | none => none
        | some v =>
          match gpioRemoteConfigLoop h rxPacket packetLength fuel ((pos + blockLength) % 256) with
          | none => none
          | some rest =>
            some (Event.gpioRemoteConfigCb { gpioId := gpioId, function := function, value := v }
              :: rest)
      | _, _, _ => none
    else some []

/-- Codes of the large `case` group of `HandleRxPacket` (ProteusIII.c 307-333): the
status is the first payload byte. -/
def statusCodes : List Nat :=
  [PROTEUSIII_CMD_RESET_CNF, PROTEUSIII_CMD_SCANSTART_CNF, PROTEUSIII_CMD_SCANSTOP_CNF,
   PROTEUSIII_CMD_GET_CNF, PROTEUSIII_CMD_SET_CNF, PROTEUSIII_CMD_SETBEACON_CNF,
   PROTEUSIII_CMD_PASSKEY_CNF, PROTEUSIII_CMD_PHYUPDATE_CNF, PROTEUSIII_CMD_CONNECT_CNF,
   PROTEUSIII_CMD_DATA_CNF, PROTEUSIII_CMD_DISCONNECT_CNF, PROTEUSIII_CMD_FACTORYRESET_CNF,
   PROTEUSIII_CMD_SLEEP_CNF, PROTEUSIII_CMD_UART_DISABLE_CNF, PROTEUSIII_CMD_UART_ENABLE_IND,
   PROTEUSIII_CMD_GPIO_LOCAL_WRITECONFIG_CNF, PROTEUSIII_CMD_GPIO_LOCAL_READCONFIG_CNF,
   PROTEUSIII_CMD_GPIO_LOCAL_WRITE_CNF, PROTEUSIII_CMD_GPIO_LOCAL_READ_CNF,
   PROTEUSIII_CMD_GPIO_REMOTE_WRITECONFIG_CNF, PROTEUSIII_CMD_GPIO_REMOTE_READCONFIG_CNF,
   PROTEUSIII_CMD_GPIO_REMOTE_WRITE_CNF, PROTEUSIII_CMD_GPIO_REMOTE_READ_CNF,
   PROTEUSIII_CMD_GET_BONDS_CNF, PROTEUSIII_CMD_DELETE_BONDS_CNF,
   PROTEUSIII_CMD_ALLOWUNBONDEDCONNECTIONS_CNF, PROTEUSIII_CMD_TXCOMPLETE_RSP]

/-- Codes of the `case` labels whose branch invokes a callback (ProteusIII.c 348-588). -/
def indicationCodes : List Nat :=
  [PROTEUSIII_CMD_CHANNELOPEN_RSP, PROTEUSIII_CMD_CONNECT_IND, PROTEUSIII_CMD_DISCONNECT_IND,
   PROTEUSIII_CMD_DATA_IND, PROTEUSIII_CMD_BEACON_IND, PROTEUSIII_CMD_BEACON_RSP,
   PROTEUSIII_CMD_RSSI_IND, PROTEUSIII_CMD_SECURITY_IND, PROTEUSIII_CMD_PASSKEY_IND,
   PROTEUSIII_CMD_DISPLAY_PASSKEY_IND, PROTEUSIII_CMD_PHYUPDATE_IND, PROTEUSIII_CMD_SLEEP_IND,
   PROTEUSIII_CMD_GPIO_LOCAL_WRITE_IND, PROTEUSIII_CMD_GPIO_REMOTE_WRITE_IND,
   PROTEUSIII_CMD_GPIO_REMOTE_WRITECONFIG_IND, PROTEUSIII_CMD_ERROR_IND]

/-- The inner `switch (rxPacket[CMD_POSITION_DATA])` of the `DISCONNECT_IND` case. -/
def disconnectReason (b : Nat) : DisconnectReason :=
  if b = 0x08 then DisconnectReason.ConnectionTimeout
  else if b = 0x13 then DisconnectReason.UserTerminatedConnection
  else if b = 0x16 then DisconnectReason.HostTerminatedConnection
  else if b = 0x3B then DisconnectReason.ConnectionIntervalUnacceptable
  else if b = 0x3D then DisconnectReason.MicFailure
  else if b = 0x3E then DisconnectReason.ConnectionSetupFailed
  else DisconnectReason.Unknown

/-- What the `switch` of `HandleRxPacket` leaves behind: the local `cmdConfirmation`, the
driver state and the callbacks invoked. -/
structure SwitchResult where
  cmdConfirmation : Confirmation
  bleState : DriverState
  calls : List Event
deriving DecidableEq, Repr

/-- The address block handed to `connectCb` / `phyUpdateCb`: six bytes copied from
`rxPacket` at `start` when the packet is at least `minLength` long, six zero bytes
otherwise. -/
def btMacOrZero (rxPacket : List Nat) (packetLength minLength start : Nat) :
    Option (List Nat) :=
  if packetLength ≥ minLength then readBlock rxPacket start 6 else some (List.replicate 6 0)

/-- The `switch` of `HandleRxPacket` (ProteusIII.c 277-600) on the copied frame.  In the
`GETDEVICES_CNF` case the copy of the device list into `*ProteusIII_getDevicesP`
(ProteusIII.c 283-304) is left out: its types are declared in `ProteusIII.h`, and it
writes to the caller's structure only. -/
def HandleRxPacket.switch (h : Header) (s : State) (rxPacket : List Nat) :
    Option SwitchResult :=
  let skip : SwitchResult :=
    { cmdConfirmation := { cmd := CNFINVALID, status := CMD_Status_Invalid }
      bleState := s.bleState
      calls := [] }
  match rxPacket[CMD_POSITION_CMD]? with
  | none => none
  | some cmd =>
    if cmd = PROTEUSIII_CMD_GETDEVICES_CNF then
      match rxPacket[CMD_POSITION_DATA]? with
      | none => none
      | some st => some { skip with cmdConfirmation := { cmd := cmd, status := st } }
    else if cmd ∈ statusCodes then
      match rxPacket[CMD_POSITION_DATA]? with
      | none => none
      | some st => some { skip with cmdConfirmation := { cmd := cmd, status := st } }
    else if cmd = PROTEUSIII_CMD_GETSTATE_CNF then
      some { skip with cmdConfirmation := { cmd := cmd, status := CMD_Status_NoStatus } }
    else if cmd = PROTEUSIII_CMD_CHANNELOPEN_RSP then
      if s.callbacks.channelOpenCb then
        match rxPacket[CMD_POSITION_DATA + 7]? with
        | none => none
        | some maxPayload =>
          some { skip with
            bleState := DriverState.BLE_ChannelOpen
            calls := [Event.channelOpenCb (slice rxPacket (CMD_POSITION_DATA + 1) 6)
              (maxPayload % 65536)] }
      else some { skip with bleState := DriverState.BLE_ChannelOpen }
    else if cmd = PROTEUSIII_CMD_CONNECT_IND then
      match rxPacket[CMD_POSITION_DATA]? with
      | none => none
      | some st =>
        let success := decide (st = CMD_Status_Success)
        let bleState := if success then DriverState.BLE_Connected else s.bleState
        if s.callbacks.connectCb then
          match rxPacket[CMD_POSITION_LENGTH_LSB]?, rxPacket[CMD_POSITION_LENGTH_MSB]? with
          | some lsb, some msb =>
            let packetLength := ((lsb <<< 0) ||| (msb <<< 8)) % 256
            match btMacOrZero rxPacket packetLength 7 (CMD_POSITION_DATA + 1) with
            | none => none
            | some btMac =>
              some { skip with bleState := bleState, calls := [Event.connectCb success btMac] }
          | _, _ => none
        else some { skip with bleState := bleState }
    else if cmd = PROTEUSIII_CMD_DISCONNECT_IND then
      if s.callbacks.disconnectCb then
        match rxPacket[CMD_POSITION_DATA]? with
        | none => none
        | some b =>
          some { skip with
            bleState := DriverState.BLE_Invalid
            calls := [Event.disconnectCb (disconnectReason b)] }
      else some { skip with bleState := DriverState.BLE_Invalid }
    else if cmd = PROTEUSIII_CMD_DATA_IND then
      if s.callbacks.rxCb then
        match rxPacket[CMD_POSITION_LENGTH_LSB]?, rxPacket[CMD_POSITION_LENGTH_MSB]?,
            rxPacket[CMD_POSITION_DATA + 6]? with
        | some lsb, some msb, some rssi =>
          let payloadLength := (((lsb <<< 0) ||| (msb <<< 8)) + 65536 - 7) % 65536
          some { skip with
            calls := [Event.rxCb (slice rxPacket (CMD_POSITION_DATA + 7) payloadLength)
              payloadLength (slice rxPacket CMD_POSITION_DATA 6) rssi] }
        | _, _, _ => none
      else some skip
    else if cmd = PROTEUSIII_CMD_BEACON_IND ∨ cmd = PROTEUSIII_CMD_BEACON_RSP then
      if s.callbacks.beaconRxCb then
        match rxPacket[CMD_POSITION_LENGTH_LSB]?, rxPacket[CMD_POSITION_LENGTH_MSB]?,
            rxPacket[CMD_POSITION_DATA + 6]? with
        | some lsb, some msb, some rssi =>
          let payloadLength := (((lsb <<< 0) ||| (msb <<< 8)) + 65536 - 7) % 65536
          some { skip with
            calls := [Event.beaconRxCb (slice rxPacket (CMD_POSITION_DATA + 7) payloadLength)
              payloadLength (slice rxPacket CMD_POSITION_DATA 6) rssi] }
        | _, _, _ => none
      else some skip
    else if cmd = PROTEUSIII_CMD_RSSI_IND then
      if s.callbacks.rssiCb then
        match rxPacket[CMD_POSITION_LENGTH_LSB]?, rxPacket[CMD_POSITION_LENGTH_MSB]? with
        | some lsb, some msb =>
          let packetLength := ((lsb <<< 0) ||| (msb <<< 8)) % 65536
          if packetLength ≥ 8 then
            match rxPacket[CMD_POSITION_DATA + 6]?, rxPacket[CMD_POSITION_DATA + 7]? with
            | some rssi, some txPower =>
              some { skip with
                calls := [Event.rssiCb (slice rxPacket CMD_POSITION_DATA 6) rssi txPower] }
            | _, _ => none
          else some skip
        | _, _ => none
      else some skip
    else if cmd = PROTEUSIII_CMD_SECURITY_IND then
      if s.callbacks.securityCb then
        match rxPacket[CMD_POSITION_DATA]? with
        | none => none
        | some st =>
          some { skip with
            calls := [Event.securityCb (slice rxPacket (CMD_POSITION_DATA + 1) 6) st] }
      else some skip
    else if cmd = PROTEUSIII_CMD_PASSKEY_IND then
      if s.callbacks.passkeyCb then
        some { skip with calls := [Event.passkeyCb (slice rxPacket (CMD_POSITION_DATA + 1) 6)] }
      else some skip
    else if cmd = PROTEUSIII_CMD_DISPLAY_PASSKEY_IND then
      if s.callbacks.displayPasskeyCb then
        match rxPacket[CMD_POSITION_DATA]? with
        | none => none
        | some action =>
          some { skip with
            calls := [Event.displayPasskeyCb action (slice rxPacket (CMD_POSITION_DATA + 1) 6)
              (slice rxPacket (CMD_POSITION_DATA + 7) 6)] }
      else some skip
    else if cmd = PROTEUSIII_CMD_PHYUPDATE_IND then
      if s.callbacks.phyUpdateCb then
        match rxPacket[CMD_POSITION_DATA]?, rxPacket[CMD_POSITION_LENGTH_LSB]?,
            rxPacket[CMD_POSITION_LENGTH_MSB]?, rxPacket[CMD_POSITION_DATA + 1]?,
            rxPacket[CMD_POSITION_DATA + 2]? with
        | some st, some lsb, some msb, some phyRx, some phyTx =>
          let success := decide (st = CMD_Status_Success)
          let packetLength := ((lsb <<< 0) ||| (msb <<< 8)) % 256
          match btMacOrZero rxPacket packetLength 9 (CMD_POSITION_DATA + 3) with
          | none => none
          | some btMac =>
            some { skip with calls := [Event.phyUpdateCb success btMac phyRx phyTx] }
        | _, _, _, _, _ => none
      else some skip
    else if cmd = PROTEUSIII_CMD_SLEEP_IND then
      if s.callbacks.sleepCb then some { skip with calls := [Event.sleepCb] } else some skip
    else if cmd = PROTEUSIII_CMD_GPIO_LOCAL_WRITE_IND
        ∨ cmd = PROTEUSIII_CMD_GPIO_REMOTE_WRITE_IND then
      if s.callbacks.gpioWriteCb then
        match rxPacket[CMD_POSITION_LENGTH_LSB]?, rxPacket[CMD_POSITION_LENGTH_MSB]? with
        | some lsb, some msb =>
          let packetLength := ((lsb <<< 0) ||| (msb <<< 8)) % 256
          match gpioWriteLoop rxPacket packetLength 257 0 with
          | none => none
          | some calls => some { skip with calls := calls }
        | _, _ => none
      else some skip
    else if cmd = PROTEUSIII_CMD_GPIO_REMOTE_WRITECONFIG_IND then
      if s.callbacks.gpioRemoteConfigCb then
        match rxPacket[CMD_POSITION_LENGTH_LSB]?, rxPacket[CMD_POSITION_LENGTH_MSB]? with
        | some lsb, some msb =>
          let packetLength := ((lsb <<< 0) ||| (msb <<< 8)) % 256
          match gpioRemoteConfigLoop h rxPacket packetLength 257 0 with
          | none => none
          | some calls => some { skip with calls := calls }
        | _, _ => none
      else some skip
    else if cmd = PROTEUSIII_CMD_ERROR_IND then
      if s.callbacks.errorCb then
        match rxPacket[CMD_POSITION_DATA]? with
        | none => none
        | some e => some { skip with calls := [Event.errorCb e] }
      else some skip
    else some skip

/-- `HandleRxPacket` (ProteusIII.c 268-612).  The block loops of the GPIO indications
run on a `uint8_t` position, which takes at most 256 values: a loop that has not left
after 257 steps never leaves, and the result is `none`. -/
def HandleRxPacket (h : Header) (s : State) (pRxBuffer : List Nat) : Option State :=
  match pRxBuffer[CMD_POSITION_LENGTH_LSB]?, pRxBuffer[CMD_POSITION_LENGTH_MSB]? with
  | some lsb, some msb =>
    let cmdLength := (lsb + (msb <<< 8)) % 65536
    match memcpy s.rxPacket pRxBuffer (cmdLength + LENGTH_CMD_OVERHEAD) with
    | none => none
    | some rxPacket =>
      match HandleRxPacket.switch h s rxPacket with
      | none => none
      | some r =>
        some { s with
          rxPacket := rxPacket
          bleState := r.bleState
          cmdConfirmationArray := storeConfirmation r.cmdConfirmation s.cmdConfirmationArray
          trace := s.trace
            ++ [Event.dispatch (pRxBuffer.take (cmdLength + LENGTH_CMD_OVERHEAD))] ++ r.calls }
  | _, _ => none

/-- The block `/* check CRC */` of `ProteusIII_HandleRxByte`: the value of `checksum`
after the loop over `rxBuffer[0 .. bytesToReceive-2]` and the byte
`rxBuffer[bytesToReceive-1]` it is compared with. -/
def checkCRC (rxBuffer : List Nat) (bytesToReceive : Nat) : Option (Nat × Nat) :=
  match xorFrom rxBuffer (bytesToReceive - 1) 0 0 with
  | none => none
  | some checksum =>
    if bytesToReceive = 0 then none
    else
      match rxBuffer[bytesToReceive - 1]? with
      | none => none
      | some last => some (checksum, last)

/-- `ProteusIII_HandleRxByte` (ProteusIII.c 614-670), the default `byteRxCallback` that
`WE_UART_HandleRxByte` forwards every received byte to. -/
def ProteusIII_HandleRxByte (h : Header) (s : State) (receivedByte : Nat) : Option State :=
  if s.rxByteCounter < s.rxBuffer.length then
    let rxBuffer := s.rxBuffer.set s.rxByteCounter receivedByte
    let s := { s with rxBuffer := rxBuffer }
    if s.rxByteCounter = 0 then
      if rxBuffer[s.rxByteCounter]? = some CMD_STX then
        some { s with bytesToReceive := 0, rxByteCounter := 1 }
      else some s
    else if s.rxByteCounter = 1 then
      some { s with rxByteCounter := (s.rxByteCounter + 1) % 65536 }
    else if s.rxByteCounter = 2 then
      let s := { s with rxByteCounter := (s.rxByteCounter + 1) % 65536 }
      match rxBuffer[s.rxByteCounter - 1]? with
      | none => none
      | some lsb => some { s with bytesToReceive := lsb }
    else if s.rxByteCounter = 3 then
      let s := { s with rxByteCounter := (s.rxByteCounter + 1) % 65536 }
      match rxBuffer[s.rxByteCounter - 1]? with
      | none => none
      | some msb =>
        some { s with
          bytesToReceive := (s.bytesToReceive + ((msb <<< 8) + LENGTH_CMD_OVERHEAD)) % 65536 }
    else
      let s := { s with rxByteCounter := (s.rxByteCounter + 1) % 65536 }
      if s.rxByteCounter = s.bytesToReceive then
        match checkCRC rxBuffer s.bytesToReceive with
        | none => none
        | some (checksum, last) =>
          let s := { s with checksum := checksum }
          if checksum = last then
            match HandleRxPacket h s rxBuffer with
            | none => none
            | some s => some { s with rxByteCounter := 0, bytesToReceive := 0 }
          else some { s with rxByteCounter := 0, bytesToReceive := 0 }
      else some s
  else none

/-- Successive calls of `ProteusIII_HandleRxByte`, one per byte of the stream, in order. -/
def feed (h : Header) : State → List Nat → Option State
  | s, [] => some s
  | s, b :: bs =>
    match ProteusIII_HandleRxByte h s b with
    | none => none
    | some s => feed h s bs

/-- What surrounds a call of `Wait4CNF`: `arrive k` is the byte block the receive
interrupt handles while the `k`-th call of `WE_Delay` (counted from 0) is pending. -/
structure Env where
  arrive : Nat → List Nat

/-- The `while (1)` loop of `Wait4CNF` (ProteusIII.c 690-709); the first argument is
fuel (`none` when it runs out), `count` the loop counter. -/
def Wait4CNF.loop (h : Header) (env : Env) (maxCount : Int)
    (expectedCmdConfirmation expectedStatus : Nat) : Nat → Int → State → Option (Bool × State)
  | 0, _, _ => none
  | fuel + 1, count, s =>
    match scanConfirmations expectedCmdConfirmation expectedStatus s.cmdConfirmationArray with
    | some r => some (r, s)
    | none =>
      if count ≥ maxCount then some (false, s)
      else
        let s := { s with trace := s.trace ++ [Event.delay 5] }
        match feed h s (env.arrive count.toNat) with
        | none => none
        | some s => Wait4CNF.loop h env maxCount expectedCmdConfirmation expectedStatus
            fuel (count + 1) s

/-- `Wait4CNF` (ProteusIII.c 676-711): the returned flag and the state after the call.
The loop body runs at most `maxCount + 1` times, which is the fuel given to it. -/
def Wait4CNF (h : Header) (env : Env) (s : State) (maxTimeMs : Int)
    (expectedCmdConfirmation expectedStatus : Nat) (resetConfirmState : Bool) :
    Option (Bool × State) :=
  let timeStepMs : Int := 5
  let maxCount : Int := Int.tdiv maxTimeMs timeStepMs
  let s := if resetConfirmState then
      { s with cmdConfirmationArray := resetConfirmations s.cmdConfirmationArray } else s
  Wait4CNF.loop h env maxCount expectedCmdConfirmation expectedStatus
    (maxCount.toNat + 1) 0 s

/-- `CMD_ARRAY_SIZE()` (ProteusIII.c 209), a value of type `int`: the length of the frame
that `cmdArray` holds. -/
def CMD_ARRAY_SIZE (cmdArray : List Nat) : Option Nat :=
  match cmdArray[CMD_POSITION_LENGTH_LSB]?, cmdArray[CMD_POSITION_LENGTH_MSB]? with
  | some lsb, some msb => some (((lsb <<< 0) ||| (msb <<< 8)) + LENGTH_CMD_OVERHEAD)
  | _, _ => none

/-- The first part of `ProteusIII_Reset` (ProteusIII.c 944-955): the request is written
into `cmdArray`, completed by `FillChecksum` and handed to `WE_UART_Transmit`.  The flag
is the result of `FillChecksum`. -/
def ProteusIII_Reset.request (s : State) : Option (Bool × State) :=
  match write s.cmdArray CMD_POSITION_STX CMD_STX with
  | none => none
  | some a0 =>
    match write a0 CMD_POSITION_CMD PROTEUSIII_CMD_RESET_REQ with
    | none => none
    | some a1 =>
      match write a1 CMD_POSITION_LENGTH_LSB 0 with
      | none => none
      | some a2 =>
        match write a2 CMD_POSITION_LENGTH_MSB 0 with
        | none => none
        | some a3 =>
          match CMD_ARRAY_SIZE a3 with
          | none => none
          | some size =>
            match FillChecksum a3 (size % 65536) with
            | none => none
            | some (false, a4) => some (false, { s with cmdArray := a4 })
            | some (true, a4) =>
              match CMD_ARRAY_SIZE a4 with
              | none => none
              | some size =>
                some (true, { s with
                  cmdArray := a4
                  trace := s.trace ++ [Event.transmit (slice a4 0 size) size] })

/-- `ProteusIII_Reset` (ProteusIII.c 942-961): the flag it returns and the state after
the call. -/
def ProteusIII_Reset (h : Header) (env : Env) (s : State) : Option (Bool × State) :=
  match ProteusIII_Reset.request s with
  | none => none
  | some (false, s) => some (false, s)
  | some (true, s) =>
    Wait4CNF h env s CMD_WAIT_TIME PROTEUSIII_CMD_GETSTATE_CNF CMD_Status_NoStatus true

/-- The block `if (FillChecksum(cmdArray, CMD_ARRAY_SIZE())) { WE_UART_Transmit(cmdArray,
CMD_ARRAY_SIZE()); ... }` that ends every request function, applied to the command array
`a` that the function has filled: the result of `FillChecksum` and the state after the
call of `WE_UART_Transmit`, if it is made. -/
def fillAndTransmit (s : State) (a : List Nat) : Option (Bool × State) :=
  match CMD_ARRAY_SIZE a with
  | none => none
  | some size =>
    match FillChecksum a (size % 65536) with
    | none => none
    | some (false, a1) => some (false, { s with cmdArray := a1 })
    | some (true, a1) =>
      match CMD_ARRAY_SIZE a1 with
      | none => none
      | some size =>
        some (true, { s with
          cmdArray := a1
          trace := s.trace ++ [Event.transmit (slice a1 0 size) size] })

/-- The part up to `WE_UART_Transmit` of `ProteusIII_NumericCompareConfirm`
(ProteusIII.c 2174-2199). -/
def ProteusIII_NumericCompareConfirm.request (s : State) (keyIsOk : Bool) :
    Option (Bool × State) :=
  let lescStatus := if keyIsOk then 0x00 else 0x01
  match writes s.cmdArray
      [(CMD_POSITION_STX, CMD_STX), (CMD_POSITION_CMD, PROTEUSIII_CMD_NUMERIC_COMP_REQ),
       (CMD_POSITION_LENGTH_LSB, 1), (CMD_POSITION_LENGTH_MSB, 0),
       (CMD_POSITION_DATA, lescStatus)] with
  | none => none
  | some a => fillAndTransmit s a

/-- `ProteusIII_NumericCompareConfirm` (ProteusIII.c 2174-2207). -/
def ProteusIII_NumericCompareConfirm (h : Header) (env : Env) (s : State) (keyIsOk : Bool) :
    Option (Bool × State) :=
  match ProteusIII_NumericCompareConfirm.request s keyIsOk with
  | none => none
  | some (false, s) => some (false, s)
  | some (true, s) =>
    Wait4CNF h env s CMD_WAIT_TIME PROTEUSIII_CMD_NUMERIC_COMP_CNF CMD_Status_Success true

/-- The part up to `WE_UART_Transmit` of `ProteusIII_Get` (ProteusIII.c 1519-1529);
`userSetting` is stored as a byte. -/
def ProteusIII_Get.request (s : State) (userSetting : Nat) : Option (Bool × State) :=
  match writes s.cmdArray
      [(CMD_POSITION_STX, CMD_STX), (CMD_POSITION_CMD, PROTEUSIII_CMD_GET_REQ),
       (CMD_POSITION_LENGTH_LSB, 1), (CMD_POSITION_LENGTH_MSB, 0),
       (CMD_POSITION_DATA, userSetting % 256)] with
  | none => none
  | some a => fillAndTransmit s a

/-- `ProteusIII_Get` (ProteusIII.c 1515-1541): the flag it returns, what it has written
through `responseP` and `responseLengthP` (`none` when it has written neither) and the
state after the call.  The length of the copy is the `int` value `length - 1`, which for
`length = 0` is no valid size. -/
def ProteusIII_Get (h : Header) (env : Env) (s : State) (userSetting : Nat) :
    Option (Bool × Option (List Nat × Nat) × State) :=
  match ProteusIII_Get.request s userSetting with
  | none => none
  | some (false, s) => some (false, none, s)
  | some (true, s) =>
    match Wait4CNF h env s CMD_WAIT_TIME PROTEUSIII_CMD_GET_CNF CMD_Status_Success true with
    | none => none
    | some (false, s) => some (false, none, s)
    | some (true, s) =>
      match s.rxPacket[CMD_POSITION_LENGTH_LSB]?, s.rxPacket[CMD_POSITION_LENGTH_MSB]? with
      | some lsb, some msb =>
        let length := ((lsb <<< 0) + (msb <<< 8)) % 65536
        if length = 0 then none
        else
          match readBlock s.rxPacket (CMD_POSITION_DATA + 1) (length - 1) with
          | none => none
          | some response => some (true, some (response, (length - 1) % 65536), s)
      | _, _ => none

/-- The number of times the scan loop of `Wait4CNF` runs: the `while (1)` loop of
`Wait4CNF.loop` once more, counting its passes. -/
def Wait4CNF.scans (h : Header) (env : Env) (maxCount : Int)
    (expectedCmdConfirmation expectedStatus : Nat) : Nat → Int → State → Option Nat
  | 0, _, _ => none
  | fuel + 1, count, s =>
    match scanConfirmations expectedCmdConfirmation expectedStatus s.cmdConfirmationArray with
    | some _ => some 1
    | none =>
      if count ≥ maxCount then some 1
      else
        let s := { s with trace := s.trace ++ [Event.delay 5] }
        match feed h s (env.arrive count.toNat) with
        | none => none
        | some s =>
          match Wait4CNF.scans h env maxCount expectedCmdConfirmation expectedStatus
              fuel (count + 1) s with
          | none => none
          | some n => some (n + 1)

/-- `ProteusIII_PinWakeup` (ProteusIII.c 866-881).  The pin levels are not part of the
state; the call is the delay of 5 ms, the loop that clears the confirmation array and the
wait for the state confirmation. -/
def ProteusIII_PinWakeup (h : Header) (env : Env) (s : State) : Option (Bool × State) :=
  let s := { s with trace := s.trace ++ [Event.delay 5] }
  let s := { s with
    cmdConfirmationArray := s.cmdConfirmationArray.map
      (fun _ => { cmd := CNFINVALID, status := CMD_Status_Invalid }) }
  Wait4CNF h env s CMD_WAIT_TIME PROTEUSIII_CMD_GETSTATE_CNF CMD_Status_NoStatus false

/-- What can happen to the confirmation array between two looks at it: the receive
interrupt handles a byte, `Wait4CNF` is called, or `ProteusIII_PinWakeup` is called. -/
inductive Action where
  | receive (receivedByte : Nat)
  | wait (env : Env) (maxTimeMs : Int) (expectedCmdConfirmation expectedStatus : Nat)
      (resetConfirmState : Bool)
  | pinWakeup (env : Env)

/-- The state after one action; `none` when the call has no result. -/
def perform (h : Header) (s : State) : Action → Option State
  | Action.receive b => ProteusIII_HandleRxByte h s b
  | Action.wait env maxTimeMs c st reset =>
    match Wait4CNF h env s maxTimeMs c st reset with
    | none => none
    | some (_, s) => some s
  | Action.pinWakeup env =>
    match ProteusIII_PinWakeup h env s with
    | none => none
    | some (_, s) => some s

/-- The state after a sequence of actions, carried out in order. -/
def performAll (h : Header) : State → List Action → Option State
  | s, [] => some s
  | s, a :: rest =>
    match perform h s a with
    | none => none
    | some s => performAll h s rest

/-- The codes of the `case` labels of `HandleRxPacket` whose branch fills
`cmdConfirmation.cmd` (ProteusIII.c 279, 307-346). -/
def correlatableCodes : List Nat :=
  PROTEUSIII_CMD_GETDEVICES_CNF :: PROTEUSIII_CMD_GETSTATE_CNF :: statusCodes

/-- The enumerators of `ProteusIII_UartParity_t` that ProteusIII.c names (the type is
declared in `ProteusIII.h`). -/
inductive UartParity where
  | ProteusIII_UartParity_Even
  | ProteusIII_UartParity_None
deriving DecidableEq, Repr

/-- The value of the `uint8_t` variable `baudrateIndex` that `ProteusIII_SetBaudrateIndex`
(ProteusIII.c 1386-1403) hands to `ProteusIII_Set`. -/
def ProteusIII_SetBaudrateIndex.index (baudrate : Nat) (parity : UartParity)
    (flowControlEnable : Bool) : Nat :=
  let baudrateIndex := baudrate % 256
  let baudrateIndex := if flowControlEnable then (baudrateIndex + 1) % 256 else baudrateIndex
  if UartParity.ProteusIII_UartParity_Even = parity then (baudrateIndex + 64) % 256
  else baudrateIndex

/-- What `ProteusIII_GetBaudrateIndex` (ProteusIII.c 1808-1846) stores through
`baudrateP`, `parityP` and `flowControlEnableP` once `ProteusIII_Get` has delivered the
byte `uartIndex`. -/
def ProteusIII_GetBaudrateIndex.decode (uartIndex : Nat) : Nat × UartParity × Bool :=
  let flowControlEnable := decide (0x01 = uartIndex &&& 0x01)
  let uartIndex := if flowControlEnable then (uartIndex + 256 - 1) % 256 else uartIndex
  if uartIndex < 64 then (uartIndex, UartParity.ProteusIII_UartParity_None, flowControlEnable)
  else ((uartIndex + 256 - 64) % 256, UartParity.ProteusIII_UartParity_Even,
    flowControlEnable)

/-- `ProteusIII_GetDriverState` (ProteusIII.c 2010-2013). -/
def ProteusIII_GetDriverState (s : State) : DriverState := s.bleState

/-- The part up to `WE_UART_Transmit` of `ProteusIII_Transmit` (ProteusIII.c 1054-1068).
`payloadP` is the memory the pointer refers to.  The flag is `false` when the call is
refused or `FillChecksum` fails. -/
def ProteusIII_Transmit.request (h : Header) (s : State) (payloadP : List Nat)
    (length : Nat) : Option (Bool × State) :=
  if length ≤ h.PROTEUSIII_MAX_PAYLOAD_LENGTH
      ∧ DriverState.BLE_ChannelOpen = ProteusIII_GetDriverState s then
    match writes s.cmdArray
        [(CMD_POSITION_STX, CMD_STX), (CMD_POSITION_CMD, PROTEUSIII_CMD_DATA_REQ),
         (CMD_POSITION_LENGTH_LSB, (length >>> 0) % 256),
         (CMD_POSITION_LENGTH_MSB, (length >>> 8) % 256)] with
    | none => none
    | some a =>
      match memcpyAt a CMD_POSITION_DATA payloadP length with
      | none => none
      | some a => fillAndTransmit s a
  else some (false, s)

/-- `ProteusIII_Transmit` (ProteusIII.c 1054-1073). -/
def ProteusIII_Transmit (h : Header) (env : Env) (s : State) (payloadP : List Nat)
    (length : Nat) : Option (Bool × State) :=
  match ProteusIII_Transmit.request h s payloadP length with
  | none => none
  | some (false, s) => some (false, s)
  | some (true, s) =>
    Wait4CNF h env s CMD_WAIT_TIME PROTEUSIII_CMD_TXCOMPLETE_RSP CMD_Status_Success true

/-- One pass of the `for` loop of `ProteusIII_GPIOLocalWriteConfig` (the `switch` of
ProteusIII.c 2289-2333) for the element `c`: the new value of `length` and the command
array.  A member of the union `value` other than the one the element holds is not read
here: what it would deliver depends on the layout of the type. -/
def gpioWriteConfigBlock (h : Header) (c : GPIOConfigBlock) (length : Nat) (a : List Nat) :
    Option (Nat × List Nat) :=
  if c.function = h.ProteusIII_GPIO_IO_Disconnected then
    match writes a
        [(CMD_POSITION_DATA + length, 3), (CMD_POSITION_DATA + length + 1, c.gpioId % 256),
         (CMD_POSITION_DATA + length + 2, c.function % 256),
         (CMD_POSITION_DATA + length + 3, 0x00)] with
    | none => none
    | some a => some ((length + 4) % 65536, a)
  else if c.function = h.ProteusIII_GPIO_IO_Input then
    match c.value with
    | GPIOValue.input v =>
      match writes a
          [(CMD_POSITION_DATA + length, 3), (CMD_POSITION_DATA + length + 1, c.gpioId % 256),
           (CMD_POSITION_DATA + length + 2, c.function % 256),
           (CMD_POSITION_DATA + length + 3, v % 256)] with
      | none => none
      | some a => some ((length + 4) % 65536, a)
    | _ => none
  else if c.function = h.ProteusIII_GPIO_IO_Output then
    match c.value with
    | GPIOValue.output v =>
      match writes a
          [(CMD_POSITION_DATA + length, 3), (CMD_POSITION_DATA + length + 1, c.gpioId % 256),
           (CMD_POSITION_DATA + length + 2, c.function % 256),
           (CMD_POSITION_DATA + length + 3, v % 256)] with
      | none => none
      | some a => some ((length + 4) % 65536, a)
    | _ => none
  else if c.function = h.ProteusIII_GPIO_IO_PWM then
    match c.value with
    | GPIOValue.pwm period ratio =>
      match writes a
          [(CMD_POSITION_DATA + length, 5), (CMD_POSITION_DATA + length + 1, c.gpioId % 256),
           (CMD_POSITION_DATA + length + 2, c.function % 256)] with
      | none => none
      | some a =>
        match memcpyAt a (CMD_POSITION_DATA + length + 3)
            [period % 256, period / 256 % 256] 2 with
        | none => none
        | some a =>
          match write a (CMD_POSITION_DATA + length + 5) (ratio % 256) with
          | none => none
          | some a => some ((length + 6) % 65536, a)
    | _ => none
  else some (length, a)

/-- The bytes that one pass of the `for` loop of `ProteusIII_GPIOLocalWriteConfig`
assigns for the element `c`, in the order of their indices (ProteusIII.c 2291-2329): the
block length, the pin, the function and the value bytes, the period of a PWM block low
byte first.  An element whose function has no `case` contributes nothing. -/
def gpioConfigBlockBytes (h : Header) (c : GPIOConfigBlock) : List Nat :=
  if c.function = h.ProteusIII_GPIO_IO_Disconnected then
    [3, c.gpioId % 256, c.function % 256, 0x00]
  else if c.function = h.ProteusIII_GPIO_IO_Input then
    match c.value with
    | GPIOValue.input v => [3, c.gpioId % 256, c.function % 256, v % 256]
    | _ => []
  else if c.function = h.ProteusIII_GPIO_IO_Output then
    match c.value with
    | GPIOValue.output v => [3, c.gpioId % 256, c.function % 256, v % 256]
    | _ => []
  else if c.function = h.ProteusIII_GPIO_IO_PWM then
    match c.value with
    | GPIOValue.pwm period ratio =>
      [5, c.gpioId % 256, c.function % 256, period % 256, period / 256 % 256, ratio % 256]
    | _ => []
  else []

/-- The `for` loop of `ProteusIII_GPIOLocalWriteConfig` (ProteusIII.c 2287-2337).
`configP` is the array the argument points into and `p` the index the pointer has
reached (`configP++`); the first argument counts the passes that are left. -/
def gpioWriteConfigLoop (h : Header) (configP : List GPIOConfigBlock) :
    Nat → Nat → Nat → List Nat → Option (Nat × List Nat)
  | 0, length, _, a => some (length, a)
  | n + 1, length, p, a =>
    match configP[p]? with
    | none => none
    | some c =>
      match gpioWriteConfigBlock h c length a with
      | none => none
      | some (length, a) => gpioWriteConfigLoop h configP n length (p + 1) a

/-- The part up to `WE_UART_Transmit` of `ProteusIII_GPIOLocalWriteConfig`
(ProteusIII.c 2282-2346). -/
def ProteusIII_GPIOLocalWriteConfig.request (h : Header) (s : State)
    (configP : List GPIOConfigBlock) (numberOfConfigs : Nat) : Option (Bool × State) :=
  match gpioWriteConfigLoop h configP numberOfConfigs 0 0 s.cmdArray with
  | none => none
  | some (length, a) =>
    match writes a
        [(CMD_POSITION_STX, CMD_STX),
         (CMD_POSITION_CMD, PROTEUSIII_CMD_GPIO_LOCAL_WRITECONFIG_REQ),
         (CMD_POSITION_LENGTH_LSB, length &&& 0x00FF),
         (CMD_POSITION_LENGTH_MSB, (length &&& 0xFF00) >>> 8)] with
    | none => none
    | some a => fillAndTransmit s a

/-- `ProteusIII_GPIOLocalWriteConfig` (ProteusIII.c 2282-2351). -/
def ProteusIII_GPIOLocalWriteConfig (h : Header) (env : Env) (s : State)
    (configP : List GPIOConfigBlock) (numberOfConfigs : Nat) : Option (Bool × State) :=
  match ProteusIII_GPIOLocalWriteConfig.request h s configP numberOfConfigs with
  | none => none
  | some (false, s) => some (false, s)
  | some (true, s) =>
    Wait4CNF h env s CMD_WAIT_TIME PROTEUSIII_CMD_GPIO_LOCAL_WRITECONFIG_CNF
      CMD_Status_Success true

/-- The `switch` in the `while` loop of `ProteusIII_GPIOLocalReadConfig`
(ProteusIII.c 2388-2443) for the block at index `uartP` of `rxPacket`, whose length byte
is `len` and whose function byte is `function`: the caller's array, the index of
`configP_running` and `*numberOfConfigsP` after it. -/
def gpioReadConfigBlock (h : Header) (rxPacket : List Nat) (uartP len function : Nat)
    (configP : List GPIOConfigBlock) (running numberOfConfigs : Nat) :
    Option (List GPIOConfigBlock × Nat × Nat) :=
  if function = h.ProteusIII_GPIO_IO_Disconnected then
    if len = 3 then
      match rxPacket[uartP + 1]?, configP[running]? with
      | some gpioId, some old =>
        some (configP.set running { old with gpioId := gpioId, function := function },
          running + 1, (numberOfConfigs + 1) % 65536)
      | _, _ => none
    else some (configP, running, numberOfConfigs)
  else if function = h.ProteusIII_GPIO_IO_Input then
    if len = 3 then
      match rxPacket[uartP + 1]?, rxPacket[uartP + 3]?, configP[running]? with
      | some gpioId, some v, some _ =>
        some (configP.set running
            { gpioId := gpioId, function := function, value := GPIOValue.input v },
          running + 1, (numberOfConfigs + 1) % 65536)
      | _, _, _ => none
    else some (configP, running, numberOfConfigs)
  else if function = h.ProteusIII_GPIO_IO_Output then
    if len = 3 then
      match rxPacket[uartP + 1]?, rxPacket[uartP + 3]?, configP[running]? with
      | some gpioId, some v, some _ =>
        some (configP.set running
            { gpioId := gpioId, function := function, value := GPIOValue.output v },
          running + 1, (numberOfConfigs + 1) % 65536)
      | _, _, _ => none
    else some (configP, running, numberOfConfigs)
  else if function = h.ProteusIII_GPIO_IO_PWM then
    if len = 5 then
      match rxPacket[uartP + 1]?, rxPacket[uartP + 3]?, rxPacket[uartP + 4]?,
          rxPacket[uartP + 5]?, configP[running]? with
      | some gpioId, some p0, some p1, some ratio, some _ =>
        some (configP.set running
            { gpioId := gpioId, function := function,
              value := GPIOValue.pwm (p0 + p1 * 256) ratio },
          running + 1, (numberOfConfigs + 1) % 65536)
      | _, _, _, _, _ => none
    else some (configP, running, numberOfConfigs)
  else some (configP, running, numberOfConfigs)

/-- The `while` loop of `ProteusIII_GPIOLocalReadConfig` (ProteusIII.c 2386-2446).
`uartP` is the index in `rxPacket` that the pointer has reached and `stop` the index of
`&rxPacket[CMD_POSITION_DATA + length]`; `configP` is the caller's array, `running` the
index of `configP_running`.  The first argument is fuel; the result is the caller's array
and `*numberOfConfigsP` after the loop. -/
def gpioReadConfigLoop (h : Header) (rxPacket : List Nat) (stop : Nat) :
    Nat → Nat → List GPIOConfigBlock → Nat → Nat → Option (List GPIOConfigBlock × Nat)
  | 0, _, _, _, _ => none
  | fuel + 1, uartP, configP, running, numberOfConfigs =>
    if uartP < stop then
      match rxPacket[uartP + 2]?, rxPacket[uartP]? with
      | some function, some len =>
        match gpioReadConfigBlock h rxPacket uartP len function configP running
            numberOfConfigs with
        | none => none
        | some (configP, running, numberOfConfigs) =>
          gpioReadConfigLoop h rxPacket stop fuel (uartP + (len + 1)) configP running
            numberOfConfigs
      | _, _ => none
    else some (configP, numberOfConfigs)

/-- The part up to `WE_UART_Transmit` of `ProteusIII_GPIOLocalReadConfig`
(ProteusIII.c 2362-2375). -/
def ProteusIII_GPIOLocalReadConfig.request (s : State) : Option (Bool × State) :=
  match writes s.cmdArray
      [(CMD_POSITION_STX, CMD_STX),
       (CMD_POSITION_CMD, PROTEUSIII_CMD_GPIO_LOCAL_READCONFIG_REQ),
       (CMD_POSITION_LENGTH_LSB, 0), (CMD_POSITION_LENGTH_MSB, 0)] with
  | none => none
  | some a => fillAndTransmit s a

/-- `ProteusIII_GPIOLocalReadConfig` (ProteusIII.c 2362-2453): the flag it returns, the
caller's array and `*numberOfConfigsP` when it has written them, and the state after the
call.  Every pass of the block loop moves `uartP` forward by at least one byte, so that
`length + 1` passes are enough fuel. -/
def ProteusIII_GPIOLocalReadConfig (h : Header) (env : Env) (s : State)
    (configP : List GPIOConfigBlock) :
    Option (Bool × Option (List GPIOConfigBlock × Nat) × State) :=
  match ProteusIII_GPIOLocalReadConfig.request s with
  | none => none
  | some (false, s) => some (false, none, s)
  | some (true, s) =>
    match Wait4CNF h env s CMD_WAIT_TIME PROTEUSIII_CMD_GPIO_LOCAL_READCONFIG_CNF
        CMD_Status_Success true with
    | none => none
    | some (false, s) => some (false, none, s)
    | some (true, s) =>
      match s.rxPacket[CMD_POSITION_LENGTH_LSB]?, s.rxPacket[CMD_POSITION_LENGTH_MSB]? with
      | some lsb, some msb =>
        let length := ((lsb <<< 0) + (msb <<< 8)) % 65536
        match gpioReadConfigLoop h s.rxPacket (CMD_POSITION_DATA + length) (length + 1)
            (CMD_POSITION_DATA + 1) configP 0 0 with
        | none => none
        | some out => some (true, some out, s)
      | _, _ => none

/-- The receiver waiting for a start byte with all buffers of their declared sizes, no
confirmation stored and nothing logged. -/
def idleState (h : Header) (callbacks : CallbackConfig) : State :=
  { cmdArray := List.replicate (MAX_CMD_LENGTH h) 0
    rxPacket := List.replicate (MAX_RX_PACKET_LENGTH h) 0
    cmdConfirmationArray :=
      List.replicate CMDCONFIRMATIONARRAY_LENGTH { cmd := CNFINVALID, status := 0 }
    operationMode := OperationMode.CommandMode
    bleState := DriverState.BLE_Invalid
    askedForState := false
    callbacks := callbacks
    checksum := 0
    rxByteCounter := 0
    bytesToReceive := 0
    rxBuffer := List.replicate (MAX_RX_PACKET_LENGTH h) 0
    trace := [] }

end ProteusIII

/-! ## Reading the ghost log -/

namespace ThyoneI

/-- The frames handed to `HandleRxPacket`, in call order, as recorded in a log. -/
def dispatched : List Event → List (List Nat)
  | [] => []
  | Event.dispatch frame :: t => frame :: dispatched t
  | _ :: t => dispatched t

/-- Number of `WE_Delay` calls recorded in a log. -/
def delayCalls : List Event → Nat
  | [] => 0
  | Event.delay _ :: t => delayCalls t + 1
  | _ :: t => delayCalls t

/-- Number of `WE_GetTick` calls recorded in a log. -/
def tickReads : List Event → Nat
  | [] => 0
  | Event.getTick _ :: t => tickReads t + 1
  | _ :: t => tickReads t

/-- The byte blocks handed to `WE_UART_Transmit`, in call order, as recorded in a log. -/
def transmitted : List Event → List (List Nat)
  | [] => []
  | Event.transmit data _ :: t => data :: transmitted t
  | _ :: t => transmitted t

/-- The callback invocations recorded in a log, in call order: every entry that is not
a `dispatch`, `getTick`, `delay` or `transmit` mark. -/
def callbackCalls : List Event → List Event
  | [] => []
  | Event.dispatch _ :: t => callbackCalls t
  | Event.getTick _ :: t => callbackCalls t
  | Event.delay _ :: t => callbackCalls t
  | Event.transmit _ _ :: t => callbackCalls t
  | e :: t => e :: callbackCalls t

/-- The receive interrupt delivers nothing during the wait. -/
def Env.silent (env : Env) : Prop := ∀ k, env.arrive k = []

/-- The time-out test `now - t0 > max_time_ms` of pass `k` of the polling loop succeeds
(unsigned 32-bit arithmetic, `max_time_ms` converted to `uint32_t`). -/
def Env.timedOut (env : Env) (max_time_ms : Int) (k : Nat) : Prop :=
  (env.tick (k + 1) % 4294967296 + 4294967296 - env.tick 0 % 4294967296) % 4294967296
    > (max_time_ms % 4294967296).toNat

end ThyoneI

namespace ProteusIII

/-- The frames handed to `HandleRxPacket`, in call order, as recorded in a log. -/
def dispatched : List Event → List (List Nat)
  | [] => []
  | Event.dispatch frame :: t => frame :: dispatched t
  | _ :: t => dispatched t

/-- The byte blocks handed to `WE_UART_Transmit`, in call order, as recorded in a log. -/
def transmitted : List Event → List (List Nat)
  | [] => []
  | Event.transmit data _ :: t => data :: transmitted t
  | _ :: t => transmitted t

/-- The callback invocations recorded in a log, in call order: every entry that is not
a `dispatch`, `delay` or `transmit` mark. -/
def callbackCalls : List Event → List Event
  | [] => []
  | Event.dispatch _ :: t => callbackCalls t
  | Event.delay _ :: t => callbackCalls t
  | Event.transmit _ _ :: t => callbackCalls t
  | e :: t => e :: callbackCalls t

/-- The arguments of the `WE_Delay` calls recorded in a log, in call order. -/
def delays : List Event → List Nat
  | [] => []
  | Event.delay ms :: t => ms :: delays t
  | _ :: t => delays t

/-- The receive interrupt delivers nothing during the wait. -/
def Env.silent (env : Env) : Prop := ∀ k, env.arrive k = []

/-- A header instance for the worked examples (a payload maximum of 243 bytes and the
GPIO function codes 0 to 3); no example depends on the values chosen. -/
def exampleHeader : Header :=
  { PROTEUSIII_MAX_PAYLOAD_LENGTH := 243
    ProteusIII_GPIO_IO_Disconnected := 0
    ProteusIII_GPIO_IO_Input := 1
    ProteusIII_GPIO_IO_Output := 2
    ProteusIII_GPIO_IO_PWM := 3 }

/-- No callback registered. -/
def noCallbacks : CallbackConfig :=
  { rxCb := false, beaconRxCb := false, connectCb := false, securityCb := false,
    passkeyCb := false, displayPasskeyCb := false, disconnectCb := false,
    channelOpenCb := false, phyUpdateCb := false, sleepCb := false, rssiCb := false,
    gpioWriteCb := false, gpioRemoteConfigCb := false, errorCb := false }

end ProteusIII

/-! ## Checksum loops -/

namespace WCON

theorem foldl_xor_start (l : List Nat) (cs : Nat) :
    l.foldl (fun c b => c ^^^ b) cs = cs ^^^ xorAll l := by
  unfold xorAll
  induction l generalizing cs with
  | nil => simp
  | cons a t ih =>
    simp only [List.foldl_cons]
    rw [ih (cs ^^^ a), ih (0 ^^^ a), Nat.zero_xor, Nat.xor_assoc]

theorem xorAll_nil : xorAll [] = 0 := rfl

theorem xorAll_cons (a : Nat) (l : List Nat) : xorAll (a :: l) = a ^^^ xorAll l := by
  unfold xorAll
  rw [List.foldl_cons, foldl_xor_start, Nat.zero_xor]
  rfl

theorem xorAll_append (l m : List Nat) : xorAll (l ++ m) = xorAll l ^^^ xorAll m := by
  unfold xorAll
  rw [List.foldl_append, foldl_xor_start]
  rfl

/-- The `int`-counter loop reads the `n` bytes from `i` on and folds them into `cs`. -/
theorem xorFrom_eq (buf : List Nat) (n i cs : Nat) (hb : i + n ≤ buf.length) :
    xorFrom buf n i cs = some (cs ^^^ xorAll ((buf.drop i).take n)) := by
  induction n generalizing i cs with
  | zero => simp [xorFrom, xorAll_nil]
  | succ n ih =>
    have hi : i < buf.length := by omega
    rw [xorFrom, List.getElem?_eq_getElem hi]
    simp only
    rw [ih (i + 1) (cs ^^^ buf[i]) (by omega), List.drop_eq_getElem_cons hi, List.take_succ_cons,
      xorAll_cons, Nat.xor_assoc]

theorem xorFrom_zero (buf : List Nat) (n : Nat) (hb : n ≤ buf.length) :
    xorFrom buf n 0 0 = some (xorAll (buf.take n)) := by
  rw [xorFrom_eq buf n 0 0 (by omega), Nat.zero_xor, List.drop_zero]

/-- The `uint16_t`-counter loop of `FillChecksum` leaves with the XOR of the bytes below
the bound whenever the bound fits in 16 bits and the array is long enough. -/
theorem FillChecksum_loop_eq (pArray : List Nat) (bound : Nat) (hb : bound ≤ 65535)
    (hl : bound ≤ pArray.length) (fuel i cs : Nat) (hi : i ≤ bound) (hf : bound - i < fuel) :
    FillChecksum.loop pArray bound fuel i cs
      = some (cs ^^^ xorAll ((pArray.drop i).take (bound - i))) := by
  induction fuel generalizing i cs with
  | zero => omega
  | succ fuel ih =>
    rw [FillChecksum.loop]
    by_cases hlt : i < bound
    · have hil : i < pArray.length := by omega
      have hmod : (i + 1) % 65536 = i + 1 := Nat.mod_eq_of_lt (by omega)
      rw [if_pos hlt, List.getElem?_eq_getElem hil]
      simp only
      rw [hmod, ih (i + 1) (cs ^^^ pArray[i]) (by omega) (by omega),
        List.drop_eq_getElem_cons hil]
      have hsub : bound - i = (bound - (i + 1)) + 1 := by omega
      rw [hsub, List.take_succ_cons, xorAll_cons, Nat.xor_assoc]
    · have hz : bound - i = 0 := by omega
      rw [if_neg hlt, hz, List.take_zero, xorAll_nil, Nat.xor_zero]

/-- The length field as `FillChecksum` reads it equals the declared length `lsb + 256 * msb`
whenever that length fits in 16 bits. -/
theorem payload_length_eq (lsb msb : Nat) (h : lsb + 256 * msb ≤ 65535) :
    ((msb <<< 8) % 65536 + lsb) % 65536 = lsb + 256 * msb := by
  rw [Nat.shiftLeft_eq]
  omega

/-- Result of `FillChecksum` on a frame whose declared length `L` fits the array. -/
theorem FillChecksum_eq (pArray : List Nat) (length lsb msb : Nat)
    (hlen : length ≥ LENGTH_CMD_OVERHEAD) (h0 : pArray[0]? = some CMD_STX)
    (h2 : pArray[CMD_POSITION_LENGTH_LSB]? = some lsb)
    (h3 : pArray[CMD_POSITION_LENGTH_MSB]? = some msb)
    (hL : lsb + 256 * msb ≤ 65531) (hsize : lsb + 256 * msb + 5 ≤ pArray.length) :
    FillChecksum pArray length
      = some (true, pArray.set (lsb + 256 * msb + 4) (xorAll (pArray.take (lsb + 256 * msb + 4)))) := by
  unfold FillChecksum
  rw [if_pos hlen, h0]
  simp only [if_true, h2, h3]
  simp only [LENGTH_CMD_OVERHEAD_WITHOUT_CRC]
  rw [payload_length_eq lsb msb (by omega),
    FillChecksum_loop_eq pArray _ (by omega) (by omega) 65537 0 0 (by omega) (by omega)]
  simp only [Nat.zero_xor, List.drop_zero, Nat.sub_zero]
  rw [if_pos (by omega)]

end WCON

/-! ## Frame codec (C1, C2) -/

namespace WCON

theorem set_append_cons (l : List Nat) (x y : Nat) (t : List Nat) :
    (l ++ x :: t).set l.length y = l ++ y :: t := by
  induction l with
  | nil => rfl
  | cons a l ih => simp [ih]

theorem getElem?_append_cons_length (l : List Nat) (x : Nat) (t : List Nat) :
    (l ++ x :: t)[l.length]? = some x := by
  induction l with
  | nil => simp
  | cons a l ih => simpa using ih

/-- `FillChecksum` on a header, a payload and room for the checksum: the checksum slot
receives the XOR of header and payload, nothing else changes. -/
theorem FillChecksum_frame (c : Nat) (p : List Nat) (x : Nat) (tail : List Nat)
    (hp : p.length ≤ 65531) :
    FillChecksum ([0x02, c, p.length &&& 0xFF, p.length >>> 8] ++ p ++ x :: tail) (p.length + 5)
      = some (true, [0x02, c, p.length &&& 0xFF, p.length >>> 8] ++ p
          ++ xorAll ([0x02, c, p.length &&& 0xFF, p.length >>> 8] ++ p) :: tail) := by
  have hand : p.length &&& 0xFF = p.length % 256 := Nat.and_pow_two_sub_one_eq_mod p.length 8
  have hshr : p.length >>> 8 = p.length / 256 := Nat.shiftRight_eq_div_pow p.length 8
  have hL : p.length % 256 + 256 * (p.length / 256) = p.length := Nat.mod_add_div p.length 256
  have hlen : ([0x02, c, p.length &&& 0xFF, p.length >>> 8] ++ p).length = p.length + 4 := by
    simp
  rw [FillChecksum_eq _ (p.length + 5) (p.length &&& 0xFF) (p.length >>> 8)
    (by simp [LENGTH_CMD_OVERHEAD]) (by simp [CMD_STX]) (by simp [CMD_POSITION_LENGTH_LSB])
    (by simp [CMD_POSITION_LENGTH_MSB]) (by rw [hand, hshr, hL]; exact hp)
    (by rw [hand, hshr, hL]; simp)]
  rw [hand, hshr, hL, ← hand, ← hshr, ← hlen, List.take_left, set_append_cons]

/-- The receive-side test on a frame body followed by its XOR: both values agree. -/
theorem checkCRC_frame (body : List Nat) (cs : Nat) (tail : List Nat) :
    xorFrom (body ++ cs :: tail) body.length 0 0 = some (xorAll body)
      ∧ (body ++ cs :: tail)[body.length]? = some cs := by
  constructor
  · rw [xorFrom_zero _ _ (by simp), List.take_left]
  · exact getElem?_append_cons_length body cs tail

end WCON

/-- C1 (round-trip framing, both drivers): for a command code `c` and a payload `p` no
longer than the module maximum, the array holding `[0x02, c, len & 0xFF, len >> 8] ++ p`
and a free checksum slot is completed by `FillChecksum`; the completed frame passes the
receive-side checksum test of the reassembler (the XOR of all bytes but the last equals
the last byte), and the command byte and the payload read back from it are `c` and `p`. -/
theorem C1_roundtrip_framing :
    (∀ (c : Nat) (p : List Nat) (x : Nat) (tail : List Nat),
      p.length ≤ ThyoneI.MAX_PAYLOAD_LENGTH →
      ∃ out v, WCON.FillChecksum
            ([0x02, c, p.length &&& 0xFF, p.length >>> 8] ++ p ++ x :: tail) (p.length + 5)
          = some (true, out)
        ∧ ThyoneI.checkCRC out (p.length + 5) = some (v, v)
        ∧ out[WCON.CMD_POSITION_CMD]? = some c
        ∧ WCON.slice out WCON.CMD_POSITION_DATA p.length = p) ∧
    (∀ (h : ProteusIII.Header) (c : Nat) (p : List Nat) (x : Nat) (tail : List Nat),
      h.PROTEUSIII_MAX_PAYLOAD_LENGTH + WCON.LENGTH_CMD_OVERHEAD < 65536 →
      p.length ≤ h.PROTEUSIII_MAX_PAYLOAD_LENGTH →
      ∃ out v, WCON.FillChecksum
            ([0x02, c, p.length &&& 0xFF, p.length >>> 8] ++ p ++ x :: tail) (p.length + 5)
          = some (true, out)
        ∧ ProteusIII.checkCRC out (p.length + 5) = some (v, v)
        ∧ out[WCON.CMD_POSITION_CMD]? = some c
        ∧ WCON.slice out WCON.CMD_POSITION_DATA p.length = p) := by
  have key : ∀ (c : Nat) (p : List Nat) (x : Nat) (tail : List Nat), p.length ≤ 65531 →
      ∃ out v, WCON.FillChecksum
            ([0x02, c, p.length &&& 0xFF, p.length >>> 8] ++ p ++ x :: tail) (p.length + 5)
          = some (true, out)
        ∧ (match WCON.xorFrom out (p.length + 5 - 1) 0 0 with
            | none => none
            | some checksum =>
              if p.length + 5 = 0 then none
              else
                match out[p.length + 5 - 1]? with
                | none => none
                | some last => some (checksum, last)) = some (v, v)
        ∧ out[1]? = some c
        ∧ ((out.drop 4).take p.length) = p := by
    intro c p x tail hp
    have hlen : ([0x02, c, p.length &&& 0xFF, p.length >>> 8] ++ p).length = p.length + 4 := by
      simp
    obtain ⟨h1, h2⟩ := WCON.checkCRC_frame ([0x02, c, p.length &&& 0xFF, p.length >>> 8] ++ p)
      (WCON.xorAll ([0x02, c, p.length &&& 0xFF, p.length >>> 8] ++ p)) tail
    rw [hlen] at h1 h2
    refine ⟨_, WCON.xorAll ([0x02, c, p.length &&& 0xFF, p.length >>> 8] ++ p),
      WCON.FillChecksum_frame c p x tail hp, ?_, ?_, ?_⟩
    · have e : p.length + 5 - 1 = p.length + 4 := by omega
      rw [e, h1]
      simp only [h2]
      simp
    · simp
    · simp
  constructor
  · intro c p x tail hp
    exact key c p x tail (by simp only [ThyoneI.MAX_PAYLOAD_LENGTH] at hp; omega)
  · intro h c p x tail hM hp
    exact key c p x tail (by simp only [WCON.LENGTH_CMD_OVERHEAD] at hM; omega)

/-- Witness of C1: the Thyone-I part at the code `0x10` with the one-byte payload `[7]`. -/
theorem C1_roundtrip_framing_witness :
    ∃ out v, WCON.FillChecksum ([0x02, 0x10, 1 &&& 0xFF, 1 >>> 8] ++ [7] ++ 0 :: []) (1 + 5)
          = some (true, out)
        ∧ ThyoneI.checkCRC out (1 + 5) = some (v, v)
        ∧ out[WCON.CMD_POSITION_CMD]? = some 0x10
        ∧ WCON.slice out WCON.CMD_POSITION_DATA 1 = [7] :=
  C1_roundtrip_framing.1 0x10 [7] 0 [] (by decide)

/-- C2 (`FillChecksum`, both drivers): on an array that starts with `0x02`, with a
`length` argument of at least 5 and a declared payload length `L = pArray[2] + 256 *
pArray[3]` within the module maximum (the array holding the `L + 5` bytes of the frame),
`FillChecksum` returns `true`, stores the XOR of the bytes `0 .. L+3` at index `L + 4`
and leaves every other byte as it was. -/
theorem C2_FillChecksum_stores_xor :
    (∀ (pArray : List Nat) (length lsb msb : Nat),
      pArray[0]? = some 0x02 → length ≥ 5 →
      pArray[2]? = some lsb → pArray[3]? = some msb →
      lsb + 256 * msb ≤ ThyoneI.MAX_PAYLOAD_LENGTH →
      lsb + 256 * msb + 5 ≤ pArray.length →
      ∃ out, WCON.FillChecksum pArray length = some (true, out)
        ∧ out.length = pArray.length
        ∧ out[lsb + 256 * msb + 4]? = some (WCON.xorAll (pArray.take (lsb + 256 * msb + 4)))
        ∧ ∀ i, i ≠ lsb + 256 * msb + 4 → out[i]? = pArray[i]?) ∧
    (∀ (h : ProteusIII.Header) (pArray : List Nat) (length lsb msb : Nat),
      h.PROTEUSIII_MAX_PAYLOAD_LENGTH + WCON.LENGTH_CMD_OVERHEAD < 65536 →
      pArray[0]? = some 0x02 → length ≥ 5 →
      pArray[2]? = some lsb → pArray[3]? = some msb →
      lsb + 256 * msb ≤ h.PROTEUSIII_MAX_PAYLOAD_LENGTH →
      lsb + 256 * msb + 5 ≤ pArray.length →
      ∃ out, WCON.FillChecksum pArray length = some (true, out)
        ∧ out.length = pArray.length
        ∧ out[lsb + 256 * msb + 4]? = some (WCON.xorAll (pArray.take (lsb + 256 * msb + 4)))
        ∧ ∀ i, i ≠ lsb + 256 * msb + 4 → out[i]? = pArray[i]?) := by
  have key : ∀ (pArray : List Nat) (length lsb msb : Nat),
      pArray[0]? = some 0x02 → length ≥ 5 →
      pArray[2]? = some lsb → pArray[3]? = some msb →
      lsb + 256 * msb ≤ 65531 →
      lsb + 256 * msb + 5 ≤ pArray.length →
      ∃ out, WCON.FillChecksum pArray length = some (true, out)
        ∧ out.length = pArray.length
        ∧ out[lsb + 256 * msb + 4]? = some (WCON.xorAll (pArray.take (lsb + 256 * msb + 4)))
        ∧ ∀ i, i ≠ lsb + 256 * msb + 4 → out[i]? = pArray[i]? := by
    intro pArray length lsb msb h0 hlen h2 h3 hL hsize
    refine ⟨_, WCON.FillChecksum_eq pArray length lsb msb hlen h0 h2 h3 hL hsize, ?_, ?_, ?_⟩
    · simp
    · exact List.getElem?_set_self (by omega)
    · intro i hi
      exact List.getElem?_set_ne (Ne.symm hi)
  constructor
  · intro pArray length lsb msb h0 hlen h2 h3 hL hsize
    exact key pArray length lsb msb h0 hlen h2 h3
      (by simp only [ThyoneI.MAX_PAYLOAD_LENGTH] at hL; omega) hsize
  · intro h pArray length lsb msb hM h0 hlen h2 h3 hL hsize
    exact key pArray length lsb msb h0 hlen h2 h3
      (by simp only [WCON.LENGTH_CMD_OVERHEAD] at hM; omega) hsize

/-- Witness of C2: the Thyone-I part on the reset request `[0x02, 0x00, 0x00, 0x00, _]`. -/
theorem C2_FillChecksum_stores_xor_witness :
    ∃ out, WCON.FillChecksum [2, 0, 0, 0, 0] 5 = some (true, out)
      ∧ out.length = [2, 0, 0, 0, 0].length
      ∧ out[0 + 256 * 0 + 4]? = some (WCON.xorAll ([2, 0, 0, 0, 0].take (0 + 256 * 0 + 4)))
      ∧ ∀ i, i ≠ 0 + 256 * 0 + 4 → out[i]? = [2, 0, 0, 0, 0][i]? :=
  C2_FillChecksum_stores_xor.1 [2, 0, 0, 0, 0] 5 0 0 (by decide) (by decide) (by decide)
    (by decide) (by decide) (by decide)

/-! ## Thyone-I reassembler: one step -/

namespace ThyoneI
open WCON

theorem thy_step_idle_stx (s : State) (h0 : s.RxByteCounter = 0) (hl : 0 < s.RxBuffer.length) :
    WE_UART_HandleRxByte s CMD_STX
      = some { s with RxBuffer := s.RxBuffer.set 0 CMD_STX, BytesToReceive := 0,
                      RxByteCounter := 1 } := by
  simp [WE_UART_HandleRxByte, h0, hl]

theorem thy_step_idle_other (s : State) (b : Nat) (h0 : s.RxByteCounter = 0) (hb : b ≠ CMD_STX)
    (hl : 0 < s.RxBuffer.length) :
    WE_UART_HandleRxByte s b = some { s with RxBuffer := s.RxBuffer.set 0 b } := by
  simp [WE_UART_HandleRxByte, h0, hl, hb]

theorem thy_step_cmd (s : State) (b : Nat) (h1 : s.RxByteCounter = 1) (hl : 1 < s.RxBuffer.length) :
    WE_UART_HandleRxByte s b
      = some { s with RxBuffer := s.RxBuffer.set 1 b, RxByteCounter := 2 } := by
  simp [WE_UART_HandleRxByte, h1, hl]

theorem thy_step_lsb (s : State) (b : Nat) (h2 : s.RxByteCounter = 2) (hl : 2 < s.RxBuffer.length) :
    WE_UART_HandleRxByte s b
      = some { s with RxBuffer := s.RxBuffer.set 2 b, RxByteCounter := 3,
                      BytesToReceive := b } := by
  simp [WE_UART_HandleRxByte, h2, hl]

theorem thy_step_msb (s : State) (b : Nat) (h3 : s.RxByteCounter = 3) (hl : 3 < s.RxBuffer.length) :
    WE_UART_HandleRxByte s b
      = if (s.BytesToReceive + ((b <<< 8) + 5)) % 65536 > MAX_CMD_LENGTH then
          some { s with RxBuffer := s.RxBuffer.set 3 b, BytesToReceive := 0, RxByteCounter := 0 }
        else
          some { s with RxBuffer := s.RxBuffer.set 3 b, RxByteCounter := 4,
                        BytesToReceive := (s.BytesToReceive + ((b <<< 8) + 5)) % 65536 } := by
  simp [WE_UART_HandleRxByte, h3, hl]

theorem thy_step_data (s : State) (b : Nat) (h4 : 4 ≤ s.RxByteCounter)
    (hl : s.RxByteCounter < s.RxBuffer.length) (hw : s.RxByteCounter + 1 < 65536)
    (hne : s.RxByteCounter + 1 ≠ s.BytesToReceive) :
    WE_UART_HandleRxByte s b
      = some { s with RxBuffer := s.RxBuffer.set s.RxByteCounter b,
                      RxByteCounter := s.RxByteCounter + 1 } := by
  have e0 : s.RxByteCounter ≠ 0 := by omega
  have e1 : s.RxByteCounter ≠ 1 := by omega
  have e2 : s.RxByteCounter ≠ 2 := by omega
  have e3 : s.RxByteCounter ≠ 3 := by omega
  have hm : (s.RxByteCounter + 1) % 65536 = s.RxByteCounter + 1 := Nat.mod_eq_of_lt hw
  simp [WE_UART_HandleRxByte, hl, e0, e1, e2, e3, hm, hne]

theorem thy_step_last (s : State) (b : Nat) (h4 : 4 ≤ s.RxByteCounter)
    (hl : s.RxByteCounter < s.RxBuffer.length) (hw : s.RxByteCounter + 1 < 65536)
    (he : s.BytesToReceive = s.RxByteCounter + 1) :
    WE_UART_HandleRxByte s b
      = match checkCRC (s.RxBuffer.set s.RxByteCounter b) (s.RxByteCounter + 1) with
        | none => none
        | some (checksum, last) =>
          if checksum = last then
            match HandleRxPacket
                { s with RxBuffer := s.RxBuffer.set s.RxByteCounter b,
                         RxByteCounter := s.RxByteCounter + 1, checksum := checksum }
                (s.RxBuffer.set s.RxByteCounter b) with
            | none => none
            | some s1 => some { s1 with RxByteCounter := 0, BytesToReceive := 0 }
          else
            some { s with RxBuffer := s.RxBuffer.set s.RxByteCounter b, checksum := checksum,
                          RxByteCounter := 0, BytesToReceive := 0 } := by
  have e0 : s.RxByteCounter ≠ 0 := by omega
  have e1 : s.RxByteCounter ≠ 1 := by omega
  have e2 : s.RxByteCounter ≠ 2 := by omega
  have e3 : s.RxByteCounter ≠ 3 := by omega
  have hm : (s.RxByteCounter + 1) % 65536 = s.RxByteCounter + 1 := Nat.mod_eq_of_lt hw
  simp only [WE_UART_HandleRxByte, hl, e0, e1, e2, e3, hm, he, if_true, if_false]

end ThyoneI

/-! ## Thyone-I reassembler: a whole frame -/

namespace WCON

theorem set_four (buf : List Nat) (a b c d : Nat) (hl : 4 ≤ buf.length) :
    (((buf.set 0 a).set 1 b).set 2 c).set 3 d = [a, b, c, d] ++ buf.drop 4 := by
  match buf, hl with
  | _ :: _ :: _ :: _ :: _, _ => rfl

theorem header_length_eq (lsb msb : Nat) (h : lsb + 256 * msb + 5 < 65536) :
    (lsb + ((msb <<< 8) + 5)) % 65536 = lsb + 256 * msb + 5 := by
  rw [Nat.shiftLeft_eq]
  omega

theorem cmd_length_eq (lsb msb : Nat) (h : lsb + 256 * msb < 65536) :
    (lsb + (msb <<< 8)) % 65536 = lsb + 256 * msb := by
  rw [Nat.shiftLeft_eq]
  omega

theorem memcpy_eq (dst src : List Nat) (n : Nat) (hs : n ≤ src.length) (hd : n ≤ dst.length) :
    memcpy dst src n = some (src.take n ++ dst.drop n) := by
  simp [memcpy, hs, hd]

theorem memcpy_length (dst src : List Nat) (n : Nat) (hs : n ≤ src.length)
    (hd : n ≤ dst.length) : (src.take n ++ dst.drop n).length = dst.length := by
  simp [List.length_take, List.length_drop]
  omega

end WCON

namespace ThyoneI
open WCON

theorem thy_MAX_CMD_LENGTH_eq : MAX_CMD_LENGTH = 235 := rfl

theorem thy_feed_nil (s : State) : feed s [] = some s := rfl

theorem thy_feed_cons (s : State) (b : Nat) (bs : List Nat) :
    feed s (b :: bs) = (WE_UART_HandleRxByte s b).bind (fun s1 => feed s1 bs) := by
  rw [feed]
  cases WE_UART_HandleRxByte s b <;> rfl

theorem thy_feed_append (s : State) (a b : List Nat) :
    feed s (a ++ b) = (feed s a).bind (fun s1 => feed s1 b) := by
  induction a generalizing s with
  | nil => rfl
  | cons x a ih =>
    rw [List.cons_append, thy_feed_cons, thy_feed_cons]
    cases WE_UART_HandleRxByte s x with
    | none => rfl
    | some s1 => exact ih s1

/-- The four header bytes of an acceptable frame, fed to the idle receiver. -/
theorem thy_feed_header (s : State) (c lsb msb : Nat) (h0 : s.RxByteCounter = 0)
    (hl : 4 ≤ s.RxBuffer.length) (hN : lsb + 256 * msb + 5 ≤ MAX_CMD_LENGTH) :
    feed s [CMD_STX, c, lsb, msb]
      = some { s with RxBuffer := [CMD_STX, c, lsb, msb] ++ s.RxBuffer.drop 4,
                      RxByteCounter := 4, BytesToReceive := lsb + 256 * msb + 5 } := by
  have hN' : lsb + 256 * msb + 5 ≤ 235 := hN
  have hlen := header_length_eq lsb msb (by omega)
  have hbig : ¬ (lsb + 256 * msb + 5 > MAX_CMD_LENGTH) := by rw [thy_MAX_CMD_LENGTH_eq]; omega
  obtain ⟨cmdArr, rxPacket, arr, cs, cnt, btr, buf, cb, tr⟩ := s
  simp only at h0 hl
  subst h0
  have h1 : 1 < buf.length := by omega
  have h2 : 2 < buf.length := by omega
  have h3 : 3 < buf.length := by omega
  have h0' : 0 < buf.length := by omega
  rw [thy_feed_cons, thy_step_idle_stx _ rfl (by simpa using h0')]
  simp only [Option.some_bind]
  rw [thy_feed_cons, thy_step_cmd _ c rfl (by simpa using h1)]
  simp only [Option.some_bind]
  rw [thy_feed_cons, thy_step_lsb _ lsb rfl (by simpa using h2)]
  simp only [Option.some_bind]
  rw [thy_feed_cons, thy_step_msb _ msb rfl (by simpa using h3)]
  simp only [hlen]
  rw [if_neg hbig]
  simp only [Option.some_bind, thy_feed_nil, set_four _ _ _ _ _ hl]

/-- Bytes that do not complete the frame are appended to the receive buffer. -/
theorem thy_feed_data (rest : List Nat) : ∀ (s : State) (pre tail : List Nat),
    s.RxBuffer = pre ++ tail → s.RxByteCounter = pre.length → 4 ≤ pre.length →
    pre.length + rest.length < s.BytesToReceive → s.BytesToReceive ≤ 65535 →
    rest.length ≤ tail.length →
    feed s rest = some { s with RxBuffer := pre ++ rest ++ tail.drop rest.length,
                                RxByteCounter := pre.length + rest.length } := by
  induction rest with
  | nil =>
    intro s pre tail hb hc _ _ _ _
    rw [thy_feed_nil]
    cases s
    simp_all
  | cons x rest ih =>
    intro s pre tail hb hc h4 hlt hB ht
    match tail, ht with
    | t :: tail', ht =>
      have hlen : s.RxBuffer.length = pre.length + (tail'.length + 1) := by simp [hb]
      simp only [List.length_cons] at hlt ht
      rw [thy_feed_cons, thy_step_data s x (by omega) (by omega) (by omega) (by omega),
        Option.some_bind]
      have hset : s.RxBuffer.set s.RxByteCounter x = (pre ++ [x]) ++ tail' := by
        rw [hb, hc, set_append_cons]; simp
      rw [ih { s with RxBuffer := s.RxBuffer.set s.RxByteCounter x,
                      RxByteCounter := s.RxByteCounter + 1 }
        (pre ++ [x]) tail' hset (by simp [hc]) (by simp; omega) (by simp; omega) hB (by omega)]
      simp [Nat.add_assoc, Nat.add_comm 1]

/-- The byte that completes the frame: the checksum test decides between dispatch and
silent drop, and the receiver returns to the idle state. -/
theorem thy_step_complete (s : State) (pre : List Nat) (t : Nat) (tail : List Nat) (last : Nat)
    (hb : s.RxBuffer = pre ++ t :: tail) (hc : s.RxByteCounter = pre.length)
    (h4 : 4 ≤ pre.length) (hB : s.BytesToReceive = pre.length + 1)
    (hw : pre.length + 1 < 65536) :
    WE_UART_HandleRxByte s last
      = if xorAll pre = last then
          match HandleRxPacket
              { s with RxBuffer := pre ++ last :: tail, RxByteCounter := pre.length + 1,
                       checksum := xorAll pre }
              (pre ++ last :: tail) with
          | none => none
          | some s1 => some { s1 with RxByteCounter := 0, BytesToReceive := 0 }
        else
          some { s with RxBuffer := pre ++ last :: tail, checksum := xorAll pre,
                        RxByteCounter := 0, BytesToReceive := 0 } := by
  have hlen : s.RxBuffer.length = pre.length + (tail.length + 1) := by simp [hb]
  rw [thy_step_last s last (by omega) (by omega) (by omega) (by omega)]
  have hset : s.RxBuffer.set s.RxByteCounter last = pre ++ last :: tail := by
    rw [hb, hc, set_append_cons]
  obtain ⟨hx, hg⟩ := checkCRC_frame pre last tail
  have hcrc : checkCRC (pre ++ last :: tail) (pre.length + 1) = some (xorAll pre, last) := by
    simp only [checkCRC, Nat.add_sub_cancel, hx, hg]
    simp
  rw [hset, hc, hcrc]

/-- A whole frame with an acceptable declared length, fed to the idle receiver. -/
theorem thy_feed_frame (s : State) (c lsb msb : Nat) (payload : List Nat) (last : Nat)
    (h0 : s.RxByteCounter = 0) (hp : payload.length = lsb + 256 * msb)
    (hN : payload.length + 5 ≤ MAX_CMD_LENGTH) (hl : payload.length + 5 ≤ s.RxBuffer.length) :
    feed s ([CMD_STX, c, lsb, msb] ++ payload ++ [last])
      = if xorAll ([CMD_STX, c, lsb, msb] ++ payload) = last then
          match HandleRxPacket
              { s with RxBuffer := [CMD_STX, c, lsb, msb] ++ payload
                          ++ last :: s.RxBuffer.drop (payload.length + 5)
                       RxByteCounter := payload.length + 5
                       BytesToReceive := payload.length + 5
                       checksum := xorAll ([CMD_STX, c, lsb, msb] ++ payload) }
              ([CMD_STX, c, lsb, msb] ++ payload ++ last :: s.RxBuffer.drop (payload.length + 5))
            with
          | none => none
          | some s1 => some { s1 with RxByteCounter := 0, BytesToReceive := 0 }
        else
          some { s with RxBuffer := [CMD_STX, c, lsb, msb] ++ payload
                            ++ last :: s.RxBuffer.drop (payload.length + 5)
                        checksum := xorAll ([CMD_STX, c, lsb, msb] ++ payload)
                        RxByteCounter := 0, BytesToReceive := 0 } := by
  have hN' : payload.length + 5 ≤ 235 := hN
  have hdrop : (s.RxBuffer.drop 4).drop payload.length
      = s.RxBuffer[payload.length + 4] :: s.RxBuffer.drop (payload.length + 5) := by
    rw [List.drop_drop, Nat.add_comm 4, List.drop_eq_getElem_cons (by omega)]
  have hpre : ([CMD_STX, c, lsb, msb] ++ payload).length = payload.length + 4 := by simp
  rw [List.append_assoc, thy_feed_append, thy_feed_header s c lsb msb h0 (by omega) (by omega),
    Option.some_bind, thy_feed_append,
    thy_feed_data payload _ [CMD_STX, c, lsb, msb] (s.RxBuffer.drop 4) rfl rfl (by simp)
      (by simp; omega) (by simp; omega) (by simp; omega),
    Option.some_bind, thy_feed_cons, hdrop,
    thy_step_complete _ ([CMD_STX, c, lsb, msb] ++ payload) _ _ last rfl (by simp; omega) (by simp)
      (by simp; omega) (by simp; omega)]
  simp only [thy_feed_nil, Option.bind_some, hpre, ← hp, Nat.add_assoc, Nat.reduceAdd]

end ThyoneI

/-! ## Thyone-I dispatcher -/

namespace ThyoneI
open WCON

theorem thy_dispatched_append (a b : List Event) :
    dispatched (a ++ b) = dispatched a ++ dispatched b := by
  induction a with
  | nil => rfl
  | cons e a ih => cases e <;> simp [dispatched, ih]

/-- The `switch` has a result on every packet buffer of at least nine bytes, and the
calls it makes are callback invocations only. -/
theorem thy_switch_total (cb : Bool) (pkt : List Nat) (h9 : 9 ≤ pkt.length) :
    ∃ conf calls, HandleRxPacket.switch cb pkt = some (conf, calls) ∧ dispatched calls = [] := by
  match pkt, h9 with
  | a0 :: a1 :: a2 :: a3 :: a4 :: a5 :: a6 :: a7 :: a8 :: rest, _ =>
    simp only [HandleRxPacket.switch, CMD_POSITION_CMD, CMD_POSITION_DATA,
      CMD_POSITION_LENGTH_LSB, CMD_POSITION_LENGTH_MSB, List.getElem?_cons_succ,
      List.getElem?_cons_zero]
    split_ifs <;> exact ⟨_, _, rfl, rfl⟩

/-- `HandleRxPacket` on a buffer that holds a whole frame: the frame is copied and logged,
the `switch` runs on the copy, and its confirmation goes through the insertion loop. -/
theorem thy_HandleRxPacket_eq (s : State) (buf : List Nat) (lsb msb : Nat)
    (h2 : buf[CMD_POSITION_LENGTH_LSB]? = some lsb)
    (h3 : buf[CMD_POSITION_LENGTH_MSB]? = some msb)
    (hL : lsb + 256 * msb < 65536) (hb : lsb + 256 * msb + 5 ≤ buf.length)
    (hp : lsb + 256 * msb + 5 ≤ s.RxPacket.length) (h9 : 9 ≤ s.RxPacket.length) :
    ∃ conf calls,
      HandleRxPacket.switch s.RxCallback
          (buf.take (lsb + 256 * msb + 5) ++ s.RxPacket.drop (lsb + 256 * msb + 5))
        = some (conf, calls)
      ∧ dispatched calls = []
      ∧ HandleRxPacket s buf = some { s with
          RxPacket := buf.take (lsb + 256 * msb + 5) ++ s.RxPacket.drop (lsb + 256 * msb + 5)
          cmdConfirmation_array := storeConfirmation conf s.cmdConfirmation_array
          trace := s.trace ++ [Event.dispatch (buf.take (lsb + 256 * msb + 5))] ++ calls } := by
  obtain ⟨conf, calls, hsw, hd⟩ := thy_switch_total s.RxCallback
    (buf.take (lsb + 256 * msb + 5) ++ s.RxPacket.drop (lsb + 256 * msb + 5))
    (by rw [memcpy_length _ _ _ hb hp]; exact h9)
  refine ⟨conf, calls, hsw, hd, ?_⟩
  simp only [HandleRxPacket, h2, h3, cmd_length_eq lsb msb hL, LENGTH_CMD_OVERHEAD,
    memcpy_eq _ _ _ hb hp, hsw]

end ThyoneI

/-! ## Incremental equivalence (C3) -/

namespace WCON

/-- A buffer of `n + 5` bytes is four header bytes, `n` payload bytes and a last byte. -/
theorem frame_split (b : List Nat) (n : Nat) (hlen : b.length = n + 5) :
    ∃ b0 c l m payload last, b = [b0, c, l, m] ++ payload ++ [last] ∧ payload.length = n := by
  match b, hlen with
  | b0 :: c :: l :: m :: rest, hlen =>
    have hr : rest ≠ [] := by
      intro h
      simp [h] at hlen
    refine ⟨b0, c, l, m, rest.dropLast, rest.getLast hr, ?_, ?_⟩
    · simp [List.dropLast_append_getLast hr]
    · simp at hlen
      simp [List.length_dropLast]
      omega

end WCON

namespace ThyoneI
open WCON

/-- Effect of one whole frame on the idle Thyone-I receiver, in terms of the log. -/
theorem thy_feed_frame_log (s : State) (c lsb msb : Nat) (payload : List Nat) (last : Nat)
    (hidle : s.RxByteCounter = 0) (hp : payload.length = lsb + 256 * msb)
    (hN : payload.length + 5 ≤ MAX_CMD_LENGTH) (hbuf : s.RxBuffer.length = MAX_CMD_LENGTH)
    (hpkt : s.RxPacket.length = MAX_CMD_LENGTH) :
    ∃ s1, feed s ([CMD_STX, c, lsb, msb] ++ payload ++ [last]) = some s1
      ∧ s1.RxByteCounter = 0 ∧ s1.BytesToReceive = 0
      ∧ s1.RxBuffer.length = MAX_CMD_LENGTH ∧ s1.RxPacket.length = MAX_CMD_LENGTH
      ∧ s1.RxCallback = s.RxCallback
      ∧ dispatched s1.trace = dispatched s.trace
          ++ (if xorAll ([CMD_STX, c, lsb, msb] ++ payload) = last then
                [[CMD_STX, c, lsb, msb] ++ payload ++ [last]] else []) := by
  have hN' : payload.length + 5 ≤ 235 := hN
  have hbuf' : s.RxBuffer.length = 235 := hbuf
  have hpkt' : s.RxPacket.length = 235 := hpkt
  have hlenbuf : ([CMD_STX, c, lsb, msb] ++ payload
      ++ last :: s.RxBuffer.drop (payload.length + 5)).length = 235 := by
    simp [List.length_drop]; omega
  rw [thy_feed_frame s c lsb msb payload last hidle hp hN (by omega)]
  by_cases hx : xorAll ([CMD_STX, c, lsb, msb] ++ payload) = last
  · rw [if_pos hx, if_pos hx]
    obtain ⟨conf, calls, _, hd, hH⟩ := thy_HandleRxPacket_eq
      { s with RxBuffer := [CMD_STX, c, lsb, msb] ++ payload
                  ++ last :: s.RxBuffer.drop (payload.length + 5)
               RxByteCounter := payload.length + 5
               BytesToReceive := payload.length + 5
               checksum := xorAll ([CMD_STX, c, lsb, msb] ++ payload) }
      ([CMD_STX, c, lsb, msb] ++ payload ++ last :: s.RxBuffer.drop (payload.length + 5))
      lsb msb (by simp [CMD_POSITION_LENGTH_LSB]) (by simp [CMD_POSITION_LENGTH_MSB])
      (by omega) (by rw [hlenbuf]; omega) (by simp only; omega) (by simp only; omega)
    rw [hH]
    have htake : List.take (lsb + 256 * msb + 5)
        ([CMD_STX, c, lsb, msb] ++ payload ++ last :: s.RxBuffer.drop (payload.length + 5))
        = [CMD_STX, c, lsb, msb] ++ payload ++ [last] := by
      have e : [CMD_STX, c, lsb, msb] ++ payload ++ last :: s.RxBuffer.drop (payload.length + 5)
          = ([CMD_STX, c, lsb, msb] ++ payload ++ [last])
            ++ s.RxBuffer.drop (payload.length + 5) := by simp
      rw [e]
      exact List.take_left' (by simp; omega)
    refine ⟨_, rfl, rfl, rfl, ?_, ?_, rfl, ?_⟩
    · simp only
      rw [thy_MAX_CMD_LENGTH_eq]
      exact hlenbuf
    · simp only
      rw [htake, thy_MAX_CMD_LENGTH_eq]
      simp [List.length_drop]
      omega
    · simp only [thy_dispatched_append, dispatched, hd, htake, List.append_nil]
  · rw [if_neg hx, if_neg hx]
    refine ⟨_, rfl, rfl, rfl, ?_, hpkt, rfl, by simp⟩
    simp only
    rw [thy_MAX_CMD_LENGTH_eq]
    exact hlenbuf

end ThyoneI

/-- C3 (incremental equivalence, Thyone-I reassembler): a buffer `b` that starts with
`0x02`, declares a payload length `L` with `L + 5 <= MAX_CMD_LENGTH` and is exactly
`L + 5` bytes long, fed byte by byte to `WE_UART_HandleRxByte` from the idle state, is
handed to `HandleRxPacket` exactly once, as a buffer equal to `b`, when the XOR of
`b[0 .. L+3]` equals `b[L+4]`, and not at all otherwise; either way the receiver ends
with `RxByteCounter = 0` and `BytesToReceive = 0`. -/
theorem C3_incremental_equivalence (s : ThyoneI.State) (b : List Nat) (lsb msb : Nat)
    (hidle : s.RxByteCounter = 0)
    (hbuf : s.RxBuffer.length = ThyoneI.MAX_CMD_LENGTH)
    (hpkt : s.RxPacket.length = ThyoneI.MAX_CMD_LENGTH)
    (h0 : b[0]? = some 0x02) (h2 : b[2]? = some lsb) (h3 : b[3]? = some msb)
    (hmax : lsb + 256 * msb + 5 ≤ ThyoneI.MAX_CMD_LENGTH)
    (hlen : b.length = lsb + 256 * msb + 5) :
    ∃ s1, ThyoneI.feed s b = some s1
      ∧ s1.RxByteCounter = 0 ∧ s1.BytesToReceive = 0
      ∧ ThyoneI.dispatched s1.trace = ThyoneI.dispatched s.trace
          ++ (if b[lsb + 256 * msb + 4]? = some (WCON.xorAll (b.take (lsb + 256 * msb + 4)))
              then [b] else []) := by
  obtain ⟨b0, c, l, m, payload, last, rfl, hpl⟩ := WCON.frame_split b (lsb + 256 * msb) hlen
  simp at h0 h2 h3
  subst h0 h2 h3
  have hbody : ([2, c, l, m] ++ payload).length = l + 256 * m + 4 := by simp [hpl]
  have htake : List.take (l + 256 * m + 4) ([2, c, l, m] ++ payload ++ [last])
      = [2, c, l, m] ++ payload := List.take_left' hbody
  have hget : ([2, c, l, m] ++ payload ++ [last])[l + 256 * m + 4]? = some last := by
    rw [← hbody]
    exact WCON.getElem?_append_cons_length _ last []
  obtain ⟨s1, hf, hc, hB, _, _, _, hd⟩ := ThyoneI.thy_feed_frame_log s c l m payload last hidle hpl
    (by omega) hbuf hpkt
  refine ⟨s1, hf, hc, hB, ?_⟩
  rw [hd, htake, hget]
  by_cases hx : WCON.xorAll ([2, c, l, m] ++ payload) = last
  · rw [if_pos hx, if_pos (by rw [hx])]
  · rw [if_neg hx, if_neg (by intro h; exact hx (Option.some.inj h).symm)]

/-- Witness of C3: the frame `[0x02, 0x50, 0x01, 0x00, 0x07, 0x54]` (a `SET_CNF` with one
payload byte and a correct checksum) fed to the freshly initialised receiver. -/
theorem C3_incremental_equivalence_witness :
    ∃ s1, ThyoneI.feed (ThyoneI.idleState false) [0x02, 0x50, 0x01, 0x00, 0x07, 0x54] = some s1
      ∧ s1.RxByteCounter = 0 ∧ s1.BytesToReceive = 0
      ∧ ThyoneI.dispatched s1.trace = ThyoneI.dispatched (ThyoneI.idleState false).trace
          ++ (if [0x02, 0x50, 0x01, 0x00, 0x07, 0x54][1 + 256 * 0 + 4]?
                = some (WCON.xorAll ([0x02, 0x50, 0x01, 0x00, 0x07, 0x54].take (1 + 256 * 0 + 4)))
              then [[0x02, 0x50, 0x01, 0x00, 0x07, 0x54]] else []) :=
  C3_incremental_equivalence (ThyoneI.idleState false) [0x02, 0x50, 0x01, 0x00, 0x07, 0x54] 1 0
    rfl (by simp [ThyoneI.idleState]) (by simp [ThyoneI.idleState]) rfl rfl rfl (by decide) rfl

/-! ## Proteus-III reassembler -/

namespace ProteusIII
open WCON

theorem pro_step_idle_stx (h : Header) (s : State) (h0 : s.rxByteCounter = 0)
    (hl : 0 < s.rxBuffer.length) :
    ProteusIII_HandleRxByte h s CMD_STX
      = some { s with rxBuffer := s.rxBuffer.set 0 CMD_STX, bytesToReceive := 0,
                      rxByteCounter := 1 } := by
  simp [ProteusIII_HandleRxByte, h0, hl]

theorem pro_step_idle_other (h : Header) (s : State) (b : Nat) (h0 : s.rxByteCounter = 0)
    (hb : b ≠ CMD_STX) (hl : 0 < s.rxBuffer.length) :
    ProteusIII_HandleRxByte h s b = some { s with rxBuffer := s.rxBuffer.set 0 b } := by
  simp [ProteusIII_HandleRxByte, h0, hl, hb]

theorem pro_step_cmd (h : Header) (s : State) (b : Nat) (h1 : s.rxByteCounter = 1)
    (hl : 1 < s.rxBuffer.length) :
    ProteusIII_HandleRxByte h s b
      = some { s with rxBuffer := s.rxBuffer.set 1 b, rxByteCounter := 2 } := by
  simp [ProteusIII_HandleRxByte, h1, hl]

theorem pro_step_lsb (h : Header) (s : State) (b : Nat) (h2 : s.rxByteCounter = 2)
    (hl : 2 < s.rxBuffer.length) :
    ProteusIII_HandleRxByte h s b
      = some { s with rxBuffer := s.rxBuffer.set 2 b, rxByteCounter := 3,
                      bytesToReceive := b } := by
  simp [ProteusIII_HandleRxByte, h2, hl]

theorem pro_step_msb (h : Header) (s : State) (b : Nat) (h3 : s.rxByteCounter = 3)
    (hl : 3 < s.rxBuffer.length) :
    ProteusIII_HandleRxByte h s b
      = some { s with rxBuffer := s.rxBuffer.set 3 b, rxByteCounter := 4,
                      bytesToReceive := (s.bytesToReceive + ((b <<< 8) + 5)) % 65536 } := by
  simp [ProteusIII_HandleRxByte, h3, hl]

theorem pro_step_data (h : Header) (s : State) (b : Nat) (h4 : 4 ≤ s.rxByteCounter)
    (hl : s.rxByteCounter < s.rxBuffer.length) (hw : s.rxByteCounter + 1 < 65536)
    (hne : s.rxByteCounter + 1 ≠ s.bytesToReceive) :
    ProteusIII_HandleRxByte h s b
      = some { s with rxBuffer := s.rxBuffer.set s.rxByteCounter b,
                      rxByteCounter := s.rxByteCounter + 1 } := by
  have e0 : s.rxByteCounter ≠ 0 := by omega
  have e1 : s.rxByteCounter ≠ 1 := by omega
  have e2 : s.rxByteCounter ≠ 2 := by omega
  have e3 : s.rxByteCounter ≠ 3 := by omega
  have hm : (s.rxByteCounter + 1) % 65536 = s.rxByteCounter + 1 := Nat.mod_eq_of_lt hw
  simp [ProteusIII_HandleRxByte, hl, e0, e1, e2, e3, hm, hne]

theorem pro_step_last (h : Header) (s : State) (b : Nat) (h4 : 4 ≤ s.rxByteCounter)
    (hl : s.rxByteCounter < s.rxBuffer.length) (hw : s.rxByteCounter + 1 < 65536)
    (he : s.bytesToReceive = s.rxByteCounter + 1) :
    ProteusIII_HandleRxByte h s b
      = match checkCRC (s.rxBuffer.set s.rxByteCounter b) (s.rxByteCounter + 1) with
        | none => none
        | some (checksum, last) =>
          if checksum = last then
            match HandleRxPacket h
                { s with rxBuffer := s.rxBuffer.set s.rxByteCounter b,
                         rxByteCounter := s.rxByteCounter + 1, checksum := checksum }
                (s.rxBuffer.set s.rxByteCounter b) with
            | none => none
            | some s1 => some { s1 with rxByteCounter := 0, bytesToReceive := 0 }
          else
            some { s with rxBuffer := s.rxBuffer.set s.rxByteCounter b, checksum := checksum,
                          rxByteCounter := 0, bytesToReceive := 0 } := by
  have e0 : s.rxByteCounter ≠ 0 := by omega
  have e1 : s.rxByteCounter ≠ 1 := by omega
  have e2 : s.rxByteCounter ≠ 2 := by omega
  have e3 : s.rxByteCounter ≠ 3 := by omega
  have hm : (s.rxByteCounter + 1) % 65536 = s.rxByteCounter + 1 := Nat.mod_eq_of_lt hw
  simp only [ProteusIII_HandleRxByte, hl, e0, e1, e2, e3, hm, he, if_true, if_false]

theorem pro_feed_nil (h : Header) (s : State) : feed h s [] = some s := rfl

theorem pro_feed_cons (h : Header) (s : State) (b : Nat) (bs : List Nat) :
    feed h s (b :: bs) = (ProteusIII_HandleRxByte h s b).bind (fun s1 => feed h s1 bs) := by
  rw [feed]
  cases ProteusIII_HandleRxByte h s b <;> rfl

theorem pro_feed_append (h : Header) (s : State) (a b : List Nat) :
    feed h s (a ++ b) = (feed h s a).bind (fun s1 => feed h s1 b) := by
  induction a generalizing s with
  | nil => rfl
  | cons x a ih =>
    rw [List.cons_append, pro_feed_cons, pro_feed_cons]
    cases ProteusIII_HandleRxByte h s x with
    | none => rfl
    | some s1 => exact ih s1

/-- The four header bytes of a frame, fed to the idle receiver. -/
theorem pro_feed_header (h : Header) (s : State) (c lsb msb : Nat) (h0 : s.rxByteCounter = 0)
    (hl : 4 ≤ s.rxBuffer.length) (hN : lsb + 256 * msb + 5 < 65536) :
    feed h s [CMD_STX, c, lsb, msb]
      = some { s with rxBuffer := [CMD_STX, c, lsb, msb] ++ s.rxBuffer.drop 4,
                      rxByteCounter := 4, bytesToReceive := lsb + 256 * msb + 5 } := by
  have hlen := header_length_eq lsb msb hN
  obtain ⟨cmdArr, rxPacket, arr, om, bs, asked, cbs, cs, cnt, btr, buf, tr⟩ := s
  simp only at h0 hl
  subst h0
  have h1 : 1 < buf.length := by omega
  have h2 : 2 < buf.length := by omega
  have h3 : 3 < buf.length := by omega
  have h0' : 0 < buf.length := by omega
  rw [pro_feed_cons, pro_step_idle_stx _ _ rfl (by simpa using h0')]
  simp only [Option.some_bind]
  rw [pro_feed_cons, pro_step_cmd _ _ c rfl (by simpa using h1)]
  simp only [Option.some_bind]
  rw [pro_feed_cons, pro_step_lsb _ _ lsb rfl (by simpa using h2)]
  simp only [Option.some_bind]
  rw [pro_feed_cons, pro_step_msb _ _ msb rfl (by simpa using h3)]
  simp only [hlen, Option.some_bind, pro_feed_nil, set_four _ _ _ _ _ hl]

/-- Bytes that do not complete the frame are appended to the receive buffer. -/
theorem pro_feed_data (h : Header) (rest : List Nat) : ∀ (s : State) (pre tail : List Nat),
    s.rxBuffer = pre ++ tail → s.rxByteCounter = pre.length → 4 ≤ pre.length →
    pre.length + rest.length < s.bytesToReceive → s.bytesToReceive ≤ 65535 →
    rest.length ≤ tail.length →
    feed h s rest = some { s with rxBuffer := pre ++ rest ++ tail.drop rest.length,
                                  rxByteCounter := pre.length + rest.length } := by
  induction rest with
  | nil =>
    intro s pre tail hb hc _ _ _ _
    rw [pro_feed_nil]
    cases s
    simp_all
  | cons x rest ih =>
    intro s pre tail hb hc h4 hlt hB ht
    match tail, ht with
    | t :: tail', ht =>
      have hlen : s.rxBuffer.length = pre.length + (tail'.length + 1) := by simp [hb]
      simp only [List.length_cons] at hlt ht
      rw [pro_feed_cons, pro_step_data h s x (by omega) (by omega) (by omega) (by omega),
        Option.some_bind]
      have hset : s.rxBuffer.set s.rxByteCounter x = (pre ++ [x]) ++ tail' := by
        rw [hb, hc, set_append_cons]; simp
      rw [ih { s with rxBuffer := s.rxBuffer.set s.rxByteCounter x,
                      rxByteCounter := s.rxByteCounter + 1 }
        (pre ++ [x]) tail' hset (by simp [hc]) (by simp; omega) (by simp; omega) hB (by omega)]
      simp [Nat.add_assoc, Nat.add_comm 1]

/-- The byte that completes the frame: the checksum test decides between dispatch and
silent drop, and the receiver returns to the idle state once `HandleRxPacket` is back. -/
theorem pro_step_complete (h : Header) (s : State) (pre : List Nat) (t : Nat)
    (tail : List Nat) (last : Nat)
    (hb : s.rxBuffer = pre ++ t :: tail) (hc : s.rxByteCounter = pre.length)
    (h4 : 4 ≤ pre.length) (hB : s.bytesToReceive = pre.length + 1)
    (hw : pre.length + 1 < 65536) :
    ProteusIII_HandleRxByte h s last
      = if xorAll pre = last then
          match HandleRxPacket h
              { s with rxBuffer := pre ++ last :: tail, rxByteCounter := pre.length + 1,
                       checksum := xorAll pre }
              (pre ++ last :: tail) with
          | none => none
          | some s1 => some { s1 with rxByteCounter := 0, bytesToReceive := 0 }
        else
          some { s with rxBuffer := pre ++ last :: tail, checksum := xorAll pre,
                        rxByteCounter := 0, bytesToReceive := 0 } := by
  have hlen : s.rxBuffer.length = pre.length + (tail.length + 1) := by simp [hb]
  rw [pro_step_last h s last (by omega) (by omega) (by omega) (by omega)]
  have hset : s.rxBuffer.set s.rxByteCounter last = pre ++ last :: tail := by
    rw [hb, hc, set_append_cons]
  obtain ⟨hx, hg⟩ := checkCRC_frame pre last tail
  have hcrc : checkCRC (pre ++ last :: tail) (pre.length + 1) = some (xorAll pre, last) := by
    simp only [checkCRC, Nat.add_sub_cancel, hx, hg]
    simp
  rw [hset, hc, hcrc]

/-- A whole frame that fits the receive buffer, fed to the idle receiver. -/
theorem pro_feed_frame (h : Header) (s : State) (c lsb msb : Nat) (payload : List Nat)
    (last : Nat) (h0 : s.rxByteCounter = 0) (hp : payload.length = lsb + 256 * msb)
    (hN : payload.length + 5 < 65536) (hl : payload.length + 5 ≤ s.rxBuffer.length) :
    feed h s ([CMD_STX, c, lsb, msb] ++ payload ++ [last])
      = if xorAll ([CMD_STX, c, lsb, msb] ++ payload) = last then
          match HandleRxPacket h
              { s with rxBuffer := [CMD_STX, c, lsb, msb] ++ payload
                          ++ last :: s.rxBuffer.drop (payload.length + 5)
                       rxByteCounter := payload.length + 5
                       bytesToReceive := payload.length + 5
                       checksum := xorAll ([CMD_STX, c, lsb, msb] ++ payload) }
              ([CMD_STX, c, lsb, msb] ++ payload ++ last :: s.rxBuffer.drop (payload.length + 5))
            with
          | none => none
          | some s1 => some { s1 with rxByteCounter := 0, bytesToReceive := 0 }
        else
          some { s with rxBuffer := [CMD_STX, c, lsb, msb] ++ payload
                            ++ last :: s.rxBuffer.drop (payload.length + 5)
                        checksum := xorAll ([CMD_STX, c, lsb, msb] ++ payload)
                        rxByteCounter := 0, bytesToReceive := 0 } := by
  have hdrop : (s.rxBuffer.drop 4).drop payload.length
      = s.rxBuffer[payload.length + 4] :: s.rxBuffer.drop (payload.length + 5) := by
    rw [List.drop_drop, Nat.add_comm 4, List.drop_eq_getElem_cons (by omega)]
  have hpre : ([CMD_STX, c, lsb, msb] ++ payload).length = payload.length + 4 := by simp
  rw [List.append_assoc, pro_feed_append, pro_feed_header h s c lsb msb h0 (by omega) (by omega),
    Option.some_bind, pro_feed_append,
    pro_feed_data h payload _ [CMD_STX, c, lsb, msb] (s.rxBuffer.drop 4) rfl rfl (by simp)
      (by simp; omega) (by simp; omega) (by simp; omega),
    Option.some_bind, pro_feed_cons, hdrop,
    pro_step_complete h _ ([CMD_STX, c, lsb, msb] ++ payload) _ _ last rfl (by simp; omega)
      (by simp) (by simp; omega) (by simp; omega)]
  simp only [pro_feed_nil, Option.bind_some, hpre, ← hp, Nat.add_assoc, Nat.reduceAdd]

theorem pro_dispatched_append (a b : List Event) :
    dispatched (a ++ b) = dispatched a ++ dispatched b := by
  induction a with
  | nil => rfl
  | cons e a ih => cases e <;> simp [dispatched, ih]

end ProteusIII

/-! ## Proteus-III dispatcher -/

namespace ProteusIII
open WCON

theorem gpioWriteLoop_dispatched (pkt : List Nat) (n : Nat) :
    ∀ (fuel pos : Nat) (evs : List Event),
      gpioWriteLoop pkt n fuel pos = some evs → dispatched evs = [] := by
  intro fuel
  induction fuel with
  | zero => intro pos evs h; simp [gpioWriteLoop] at h
  | succ fuel ih =>
    intro pos evs h
    rw [gpioWriteLoop] at h
    split_ifs at h with hlt
    · split at h
      · dsimp only at h
        split at h
        · simp at h
        · rename_i rest hrec
          simp only [Option.some.injEq] at h
          subst h
          simp [dispatched, ih _ _ hrec]
      · simp at h
    · simp only [Option.some.injEq] at h
      subst h
      rfl

theorem gpioRemoteConfigLoop_dispatched (h : Header) (pkt : List Nat) (n : Nat) :
    ∀ (fuel pos : Nat) (evs : List Event),
      gpioRemoteConfigLoop h pkt n fuel pos = some evs → dispatched evs = [] := by
  intro fuel
  induction fuel with
  | zero => intro pos evs hh; simp [gpioRemoteConfigLoop] at hh
  | succ fuel ih =>
    intro pos evs hh
    rw [gpioRemoteConfigLoop] at hh
    split_ifs at hh with hlt
    · split at hh
      · split at hh
        · simp at hh
        · dsimp only at hh
          split at hh
          · simp at hh
          · rename_i rest hrec
            simp only [Option.some.injEq] at hh
            subst hh
            simp [dispatched, ih _ _ hrec]
      · simp at hh
    · simp only [Option.some.injEq] at hh
      subst hh
      rfl

end ProteusIII

namespace ProteusIII
open WCON

/-- The calls the `switch` makes are callback invocations only. -/
theorem pro_switch_dispatched (h : Header) (s : State) (pkt : List Nat) (r : SwitchResult)
    (hs : HandleRxPacket.switch h s pkt = some r) : dispatched r.calls = [] := by
  unfold HandleRxPacket.switch at hs
  dsimp only at hs
  split at hs
  · simp at hs
  rename_i cmd hcmd
  by_cases c0 : cmd = PROTEUSIII_CMD_GETDEVICES_CNF
  · rw [if_pos c0] at hs
    repeat' (split at hs)
    all_goals first
      | (simp only [Option.some.injEq] at hs; subst hs; rfl)
      | (exact absurd hs (by simp))
  rw [if_neg c0] at hs
  by_cases c1 : cmd ∈ statusCodes
  · rw [if_pos c1] at hs
    repeat' (split at hs)
    all_goals first
      | (simp only [Option.some.injEq] at hs; subst hs; rfl)
      | (exact absurd hs (by simp))
  rw [if_neg c1] at hs
  by_cases c2 : cmd = PROTEUSIII_CMD_GETSTATE_CNF
  · rw [if_pos c2] at hs
    repeat' (split at hs)
    all_goals first
      | (simp only [Option.some.injEq] at hs; subst hs; rfl)
      | (exact absurd hs (by simp))
  rw [if_neg c2] at hs
  by_cases c3 : cmd = PROTEUSIII_CMD_CHANNELOPEN_RSP
  · rw [if_pos c3] at hs
    repeat' (split at hs)
    all_goals first
      | (simp only [Option.some.injEq] at hs; subst hs; rfl)
      | (exact absurd hs (by simp))
  rw [if_neg c3] at hs
  by_cases c4 : cmd = PROTEUSIII_CMD_CONNECT_IND
  · rw [if_pos c4] at hs
    repeat' (split at hs)
    all_goals first
      | (simp only [Option.some.injEq] at hs; subst hs; rfl)
      | (exact absurd hs (by simp))
  rw [if_neg c4] at hs
  by_cases c5 : cmd = PROTEUSIII_CMD_DISCONNECT_IND
  · rw [if_pos c5] at hs
    repeat' (split at hs)
    all_goals first
      | (simp only [Option.some.injEq] at hs; subst hs; rfl)
      | (exact absurd hs (by simp))
  rw [if_neg c5] at hs
  by_cases c6 : cmd = PROTEUSIII_CMD_DATA_IND
  · rw [if_pos c6] at hs
    repeat' (split at hs)
    all_goals first
      | (simp only [Option.some.injEq] at hs; subst hs; rfl)
      | (exact absurd hs (by simp))
  rw [if_neg c6] at hs
  by_cases c7 : cmd = PROTEUSIII_CMD_BEACON_IND ∨ cmd = PROTEUSIII_CMD_BEACON_RSP
  · rw [if_pos c7] at hs
    repeat' (split at hs)
    all_goals first
      | (simp only [Option.some.injEq] at hs; subst hs; rfl)
      | (exact absurd hs (by simp))
  rw [if_neg c7] at hs
  by_cases c8 : cmd = PROTEUSIII_CMD_RSSI_IND
  · rw [if_pos c8] at hs
    repeat' (split at hs)
    all_goals first
      | (simp only [Option.some.injEq] at hs; subst hs; rfl)
      | (exact absurd hs (by simp))
  rw [if_neg c8] at hs
  by_cases c9 : cmd = PROTEUSIII_CMD_SECURITY_IND
  · rw [if_pos c9] at hs
    repeat' (split at hs)
    all_goals first
      | (simp only [Option.some.injEq] at hs; subst hs; rfl)
      | (exact absurd hs (by simp))
  rw [if_neg c9] at hs
  by_cases c10 : cmd = PROTEUSIII_CMD_PASSKEY_IND
  · rw [if_pos c10] at hs
    repeat' (split at hs)
    all_goals first
      | (simp only [Option.some.injEq] at hs; subst hs; rfl)
      | (exact absurd hs (by simp))
  rw [if_neg c10] at hs
  by_cases c11 : cmd = PROTEUSIII_CMD_DISPLAY_PASSKEY_IND
  · rw [if_pos c11] at hs
    repeat' (split at hs)
    all_goals first
      | (simp only [Option.some.injEq] at hs; subst hs; rfl)
      | (exact absurd hs (by simp))
  rw [if_neg c11] at hs
  by_cases c12 : cmd = PROTEUSIII_CMD_PHYUPDATE_IND
  · rw [if_pos c12] at hs
    repeat' (split at hs)
    all_goals first
      | (simp only [Option.some.injEq] at hs; subst hs; rfl)
      | (exact absurd hs (by simp))
  rw [if_neg c12] at hs
  by_cases c13 : cmd = PROTEUSIII_CMD_SLEEP_IND
  · rw [if_pos c13] at hs
    repeat' (split at hs)
    all_goals first
      | (simp only [Option.some.injEq] at hs; subst hs; rfl)
      | (exact absurd hs (by simp))
  rw [if_neg c13] at hs
  by_cases c14 : cmd = PROTEUSIII_CMD_GPIO_LOCAL_WRITE_IND ∨ cmd = PROTEUSIII_CMD_GPIO_REMOTE_WRITE_IND
  · rw [if_pos c14] at hs
    repeat' (split at hs)
    all_goals first
      | (simp only [Option.some.injEq] at hs; subst hs; rfl)
      | (simp only [Option.some.injEq] at hs; subst hs; exact gpioWriteLoop_dispatched _ _ _ _ _ (by assumption))
      | (exact absurd hs (by simp))
  rw [if_neg c14] at hs
  by_cases c15 : cmd = PROTEUSIII_CMD_GPIO_REMOTE_WRITECONFIG_IND
  · rw [if_pos c15] at hs
    repeat' (split at hs)
    all_goals first
      | (simp only [Option.some.injEq] at hs; subst hs; rfl)
      | (simp only [Option.some.injEq] at hs; subst hs; exact gpioRemoteConfigLoop_dispatched _ _ _ _ _ _ (by assumption))
      | (exact absurd hs (by simp))
  rw [if_neg c15] at hs
  by_cases c16 : cmd = PROTEUSIII_CMD_ERROR_IND
  · rw [if_pos c16] at hs
    repeat' (split at hs)
    all_goals first
      | (simp only [Option.some.injEq] at hs; subst hs; rfl)
      | (exact absurd hs (by simp))
  rw [if_neg c16] at hs
  simp only [Option.some.injEq] at hs
  subst hs
  rfl

end ProteusIII

/-! ## A valid frame, end to end -/

namespace WCON

theorem take_frame (frame tail : List Nat) (n : Nat) (hn : frame.length = n) :
    (frame ++ tail).take n = frame := List.take_left' hn

end WCON

namespace ThyoneI
open WCON

/-- A frame with a correct checksum, fed to the idle receiver: the frame is copied into
`RxPacket`, logged, and the result of the `switch` is stored. -/
theorem thy_feed_valid (s : State) (c lsb msb : Nat) (payload : List Nat)
    (h0 : s.RxByteCounter = 0) (hp : payload.length = lsb + 256 * msb)
    (hN : payload.length + 5 ≤ MAX_CMD_LENGTH) (hl : payload.length + 5 ≤ s.RxBuffer.length)
    (hk : payload.length + 5 ≤ s.RxPacket.length) :
    feed s ([CMD_STX, c, lsb, msb] ++ payload ++ [xorAll ([CMD_STX, c, lsb, msb] ++ payload)])
      = match HandleRxPacket.switch s.RxCallback
            ([CMD_STX, c, lsb, msb] ++ payload ++ [xorAll ([CMD_STX, c, lsb, msb] ++ payload)]
              ++ s.RxPacket.drop (payload.length + 5)) with
        | none => none
        | some (conf, calls) =>
          some { s with
            RxBuffer := [CMD_STX, c, lsb, msb] ++ payload
              ++ [xorAll ([CMD_STX, c, lsb, msb] ++ payload)]
              ++ s.RxBuffer.drop (payload.length + 5)
            checksum := xorAll ([CMD_STX, c, lsb, msb] ++ payload)
            RxPacket := [CMD_STX, c, lsb, msb] ++ payload
              ++ [xorAll ([CMD_STX, c, lsb, msb] ++ payload)]
              ++ s.RxPacket.drop (payload.length + 5)
            cmdConfirmation_array := storeConfirmation conf s.cmdConfirmation_array
            trace := s.trace ++ [Event.dispatch ([CMD_STX, c, lsb, msb] ++ payload
              ++ [xorAll ([CMD_STX, c, lsb, msb] ++ payload)])] ++ calls
            RxByteCounter := 0
            BytesToReceive := 0 } := by
  have hN' : payload.length + 5 ≤ 235 := hN
  have hflen : ([CMD_STX, c, lsb, msb] ++ payload
      ++ [xorAll ([CMD_STX, c, lsb, msb] ++ payload)]).length = lsb + 256 * msb + 5 := by
    simp [hp]
  have hbuf : [CMD_STX, c, lsb, msb] ++ payload
      ++ xorAll ([CMD_STX, c, lsb, msb] ++ payload) :: s.RxBuffer.drop (payload.length + 5)
      = ([CMD_STX, c, lsb, msb] ++ payload ++ [xorAll ([CMD_STX, c, lsb, msb] ++ payload)])
        ++ s.RxBuffer.drop (payload.length + 5) := by simp
  rw [thy_feed_frame s c lsb msb payload _ h0 hp hN hl, if_pos rfl, hbuf]
  simp only [HandleRxPacket, LENGTH_CMD_OVERHEAD]
  have h2 : (([CMD_STX, c, lsb, msb] ++ payload
      ++ [xorAll ([CMD_STX, c, lsb, msb] ++ payload)])
        ++ s.RxBuffer.drop (payload.length + 5))[CMD_POSITION_LENGTH_LSB]? = some lsb := by
    simp [CMD_POSITION_LENGTH_LSB]
  have h3 : (([CMD_STX, c, lsb, msb] ++ payload
      ++ [xorAll ([CMD_STX, c, lsb, msb] ++ payload)])
        ++ s.RxBuffer.drop (payload.length + 5))[CMD_POSITION_LENGTH_MSB]? = some msb := by
    simp [CMD_POSITION_LENGTH_MSB]
  rw [h2, h3]
  simp only [cmd_length_eq lsb msb (by omega)]
  rw [memcpy_eq _ _ _ (by simp [hp]) (by omega), take_frame _ _ _ hflen, ← hp]
  simp only
  cases HandleRxPacket.switch s.RxCallback _ with
  | none => rfl
  | some r => rfl

end ThyoneI

namespace ProteusIII
open WCON

/-- The `switch` reads only `bleState` and `callbacks` of the state. -/
theorem pro_switch_congr (h : Header) (s t : State) (pkt : List Nat)
    (hb : t.bleState = s.bleState) (hc : t.callbacks = s.callbacks) :
    HandleRxPacket.switch h t pkt = HandleRxPacket.switch h s pkt := by
  simp only [HandleRxPacket.switch, hb, hc]

/-- A frame with a correct checksum, fed to the idle receiver: the frame is copied into
`rxPacket`, logged, and the result of the `switch` is stored. -/
theorem pro_feed_valid (h : Header) (s : State) (c lsb msb : Nat) (payload : List Nat)
    (h0 : s.rxByteCounter = 0) (hp : payload.length = lsb + 256 * msb)
    (hN : payload.length + 5 < 65536) (hl : payload.length + 5 ≤ s.rxBuffer.length)
    (hk : payload.length + 5 ≤ s.rxPacket.length) :
    feed h s ([CMD_STX, c, lsb, msb] ++ payload ++ [xorAll ([CMD_STX, c, lsb, msb] ++ payload)])
      = match HandleRxPacket.switch h s
            ([CMD_STX, c, lsb, msb] ++ payload ++ [xorAll ([CMD_STX, c, lsb, msb] ++ payload)]
              ++ s.rxPacket.drop (payload.length + 5)) with
        | none => none
        | some r =>
          some { s with
            rxBuffer := [CMD_STX, c, lsb, msb] ++ payload
              ++ [xorAll ([CMD_STX, c, lsb, msb] ++ payload)]
              ++ s.rxBuffer.drop (payload.length + 5)
            checksum := xorAll ([CMD_STX, c, lsb, msb] ++ payload)
            rxPacket := [CMD_STX, c, lsb, msb] ++ payload
              ++ [xorAll ([CMD_STX, c, lsb, msb] ++ payload)]
              ++ s.rxPacket.drop (payload.length + 5)
            bleState := r.bleState
            cmdConfirmationArray := storeConfirmation r.cmdConfirmation s.cmdConfirmationArray
            trace := s.trace ++ [Event.dispatch ([CMD_STX, c, lsb, msb] ++ payload
              ++ [xorAll ([CMD_STX, c, lsb, msb] ++ payload)])] ++ r.calls
            rxByteCounter := 0
            bytesToReceive := 0 } := by
  have hflen : ([CMD_STX, c, lsb, msb] ++ payload
      ++ [xorAll ([CMD_STX, c, lsb, msb] ++ payload)]).length = lsb + 256 * msb + 5 := by
    simp [hp]
  have hbuf : [CMD_STX, c, lsb, msb] ++ payload
      ++ xorAll ([CMD_STX, c, lsb, msb] ++ payload) :: s.rxBuffer.drop (payload.length + 5)
      = ([CMD_STX, c, lsb, msb] ++ payload ++ [xorAll ([CMD_STX, c, lsb, msb] ++ payload)])
        ++ s.rxBuffer.drop (payload.length + 5) := by simp
  rw [pro_feed_frame h s c lsb msb payload _ h0 hp hN hl, if_pos rfl, hbuf]
  simp only [HandleRxPacket, LENGTH_CMD_OVERHEAD]
  have h2 : (([CMD_STX, c, lsb, msb] ++ payload
      ++ [xorAll ([CMD_STX, c, lsb, msb] ++ payload)])
        ++ s.rxBuffer.drop (payload.length + 5))[CMD_POSITION_LENGTH_LSB]? = some lsb := by
    simp [CMD_POSITION_LENGTH_LSB]
  have h3 : (([CMD_STX, c, lsb, msb] ++ payload
      ++ [xorAll ([CMD_STX, c, lsb, msb] ++ payload)])
        ++ s.rxBuffer.drop (payload.length + 5))[CMD_POSITION_LENGTH_MSB]? = some msb := by
    simp [CMD_POSITION_LENGTH_MSB]
  rw [h2, h3]
  simp only [cmd_length_eq lsb msb (by omega)]
  rw [memcpy_eq _ _ _ (by simp [hp]) (by omega), take_frame _ _ _ hflen, ← hp]
  simp only
  rw [pro_switch_congr h s
    { s with rxBuffer := [CMD_STX, c, lsb, msb] ++ payload
              ++ [xorAll ([CMD_STX, c, lsb, msb] ++ payload)]
              ++ s.rxBuffer.drop (payload.length + 5)
             rxByteCounter := payload.length + 5
             bytesToReceive := payload.length + 5
             checksum := xorAll ([CMD_STX, c, lsb, msb] ++ payload) } _ rfl rfl]
  cases HandleRxPacket.switch h s _ with
  | none => rfl
  | some r => rfl

end ProteusIII

/-! ## Resynchronisation (C4) -/

namespace ProteusIII
open WCON

/-- A block whose length byte is `0xFF` has `blockLength = 0`: the block loop of the GPIO
write indication stays at the same position, whatever the fuel. -/
theorem gpioWriteLoop_stuck (pkt : List Nat) (n pos gpioId value cmd : Nat) (hpos : pos < n)
    (hp : pos < 256)
    (h0 : pkt[CMD_POSITION_DATA + pos]? = some 0xFF)
    (h1 : pkt[CMD_POSITION_DATA + 1 + pos]? = some gpioId)
    (h2 : pkt[CMD_POSITION_DATA + 2 + pos]? = some value)
    (hc : pkt[CMD_POSITION_CMD]? = some cmd) :
    ∀ fuel, gpioWriteLoop pkt n fuel pos = none := by
  intro fuel
  induction fuel with
  | zero => rfl
  | succ fuel ih =>
    rw [gpioWriteLoop, if_pos hpos, h0, h1, h2, hc]
    have e : (pos + (0xFF + 1) % 256) % 256 = pos := by omega
    simp only [e, ih]

end ProteusIII

set_option maxRecDepth 200000 in
/-- C4, the failing input on Proteus-III: with `gpioWriteCb` registered, the frame
`[0x02, 0x41, 0x00, 0x00, 0x00]` (wrong checksum) followed by the checksum-valid
`GPIO_LOCAL_WRITE_IND` frame `[0x02, 0xA6, 0x01, 0x00, 0xFF, 0x5A]`.  The second frame is
handed to `HandleRxPacket`, whose block loop never leaves (first part, for every amount of
fuel), so that the byte-wise feed has no final state (second part). -/
theorem C4_resync_blocked_in_dispatcher :
    (∀ fuel, ProteusIII.gpioWriteLoop
        ([0x02, 0xA6, 0x01, 0x00, 0xFF, 0x5A] ++ List.replicate 249 0) 1 fuel 0 = none) ∧
    ProteusIII.feed ProteusIII.exampleHeader
        (ProteusIII.idleState ProteusIII.exampleHeader
          { ProteusIII.noCallbacks with gpioWriteCb := true })
        ([0x02, 0x41, 0x00, 0x00, 0x00] ++ [0x02, 0xA6, 0x01, 0x00, 0xFF, 0x5A]) = none := by
  constructor
  · exact ProteusIII.gpioWriteLoop_stuck _ 1 0 0x5A 0 0xA6 (by decide) (by decide) rfl rfl rfl rfl
  · decide

namespace ThyoneI
open WCON

/-- Resynchronisation on Thyone-I: a frame with a wrong checksum byte followed by a valid
frame, fed from the idle state, leads to exactly one dispatch, of the valid frame, and
back to the idle state. -/
theorem thy_resync (s : State) (c1 l1 m1 : Nat) (p1 : List Nat) (x1 : Nat)
    (c2 l2 m2 : Nat) (p2 : List Nat)
    (hidle : s.RxByteCounter = 0) (hbuf : s.RxBuffer.length = MAX_CMD_LENGTH)
    (hpkt : s.RxPacket.length = MAX_CMD_LENGTH)
    (hp1 : p1.length = l1 + 256 * m1) (hN1 : p1.length + 5 ≤ MAX_CMD_LENGTH)
    (hx1 : xorAll ([CMD_STX, c1, l1, m1] ++ p1) ≠ x1)
    (hp2 : p2.length = l2 + 256 * m2) (hN2 : p2.length + 5 ≤ MAX_CMD_LENGTH) :
    ∃ s2, feed s (([CMD_STX, c1, l1, m1] ++ p1 ++ [x1])
          ++ ([CMD_STX, c2, l2, m2] ++ p2 ++ [xorAll ([CMD_STX, c2, l2, m2] ++ p2)]))
        = some s2
      ∧ s2.RxByteCounter = 0 ∧ s2.BytesToReceive = 0
      ∧ dispatched s2.trace = dispatched s.trace
          ++ [[CMD_STX, c2, l2, m2] ++ p2 ++ [xorAll ([CMD_STX, c2, l2, m2] ++ p2)]] := by
  obtain ⟨s1, hf1, hc1, _, hb1, hk1, _, hd1⟩ :=
    thy_feed_frame_log s c1 l1 m1 p1 x1 hidle hp1 hN1 hbuf hpkt
  obtain ⟨s2, hf2, hc2, hB2, _, _, _, hd2⟩ :=
    thy_feed_frame_log s1 c2 l2 m2 p2 (xorAll ([CMD_STX, c2, l2, m2] ++ p2)) hc1 hp2 hN2 hb1 hk1
  refine ⟨s2, ?_, hc2, hB2, ?_⟩
  · rw [thy_feed_append, hf1, Option.some_bind, hf2]
  · rw [hd2, hd1, if_neg hx1, if_pos rfl, List.append_nil]

end ThyoneI

namespace ProteusIII
open WCON

/-- Resynchronisation on Proteus-III: a frame with a wrong checksum byte followed by a
valid frame, fed from the idle state, amounts to one run of the `switch` on the valid
frame; when that run returns, exactly the valid frame has been dispatched and the
receiver is back in the idle state. -/
theorem pro_resync (h : Header) (s : State) (c1 l1 m1 : Nat) (p1 : List Nat) (x1 : Nat)
    (c2 l2 m2 : Nat) (p2 : List Nat)
    (hidle : s.rxByteCounter = 0)
    (hp1 : p1.length = l1 + 256 * m1) (hN1 : p1.length + 5 < 65536)
    (hl1 : p1.length + 5 ≤ s.rxBuffer.length)
    (hx1 : xorAll ([CMD_STX, c1, l1, m1] ++ p1) ≠ x1)
    (hp2 : p2.length = l2 + 256 * m2) (hN2 : p2.length + 5 < 65536)
    (hl2 : p2.length + 5 ≤ s.rxBuffer.length) (hk2 : p2.length + 5 ≤ s.rxPacket.length)
    (r : SwitchResult)
    (hr : HandleRxPacket.switch h s
        ([CMD_STX, c2, l2, m2] ++ p2 ++ [xorAll ([CMD_STX, c2, l2, m2] ++ p2)]
          ++ s.rxPacket.drop (p2.length + 5)) = some r) :
    ∃ s2, feed h s (([CMD_STX, c1, l1, m1] ++ p1 ++ [x1])
          ++ ([CMD_STX, c2, l2, m2] ++ p2 ++ [xorAll ([CMD_STX, c2, l2, m2] ++ p2)]))
        = some s2
      ∧ s2.rxByteCounter = 0 ∧ s2.bytesToReceive = 0
      ∧ dispatched s2.trace = dispatched s.trace
          ++ [[CMD_STX, c2, l2, m2] ++ p2 ++ [xorAll ([CMD_STX, c2, l2, m2] ++ p2)]] := by
  have hlen1 : ([CMD_STX, c1, l1, m1] ++ p1
      ++ x1 :: s.rxBuffer.drop (p1.length + 5)).length = s.rxBuffer.length := by
    simp [List.length_drop]; omega
  rw [pro_feed_append, pro_feed_frame h s c1 l1 m1 p1 x1 hidle hp1 hN1 hl1, if_neg hx1,
    Option.some_bind,
    pro_feed_valid h _ c2 l2 m2 p2 rfl hp2 hN2 (by simp only; rw [hlen1]; exact hl2)
      (by simpa using hk2)]
  have key : ∀ t : State, t.bleState = s.bleState → t.callbacks = s.callbacks →
      HandleRxPacket.switch h t
        ([CMD_STX, c2, l2, m2] ++ p2 ++ [xorAll ([CMD_STX, c2, l2, m2] ++ p2)]
          ++ s.rxPacket.drop (p2.length + 5)) = some r :=
    fun t hb hc => (pro_switch_congr h s t _ hb hc).trans hr
  simp only []
  rw [key { s with rxBuffer := [CMD_STX, c1, l1, m1] ++ p1
                      ++ x1 :: s.rxBuffer.drop (p1.length + 5)
                   checksum := xorAll ([CMD_STX, c1, l1, m1] ++ p1)
                   rxByteCounter := 0, bytesToReceive := 0 } rfl rfl]
  refine ⟨_, rfl, rfl, rfl, ?_⟩
  simp only [pro_dispatched_append, dispatched, pro_switch_dispatched h s _ r hr,
    List.append_nil]

end ProteusIII

/-! ## The confirmation array -/

namespace WCON

/-- The scan finds nothing exactly when no slot holds the expected code. -/
theorem scan_eq_none_iff (c st : Nat) (arr : List Confirmation) :
    scanConfirmations c st arr = none ↔ ∀ slot ∈ arr, slot.cmd ≠ c := by
  induction arr with
  | nil => simp [scanConfirmations]
  | cons a arr ih =>
    rw [scanConfirmations]
    by_cases hc : c = a.cmd
    · simp [hc]
    · rw [if_neg hc, ih]
      simp [Ne.symm hc]

/-- The scan returns the status comparison of the lowest-index slot that holds the
expected code. -/
theorem scan_eq_some_iff (c st : Nat) (arr : List Confirmation) (r : Bool) :
    scanConfirmations c st arr = some r ↔
      ∃ (i : Nat) (slot : Confirmation), arr[i]? = some slot ∧ slot.cmd = c
        ∧ (∀ j, j < i → ∀ sj : Confirmation, arr[j]? = some sj → sj.cmd ≠ c)
        ∧ r = decide (slot.status = st) := by
  induction arr with
  | nil => simp [scanConfirmations]
  | cons a arr ih =>
    rw [scanConfirmations]
    by_cases hc : c = a.cmd
    · rw [if_pos hc]
      constructor
      · intro h
        refine ⟨0, a, List.getElem?_cons_zero, hc.symm, ?_, ?_⟩
        · intro j hj
          omega
        · exact (Option.some.inj h).symm
      · rintro ⟨i, slot, hi, hs, hmin, hr⟩
        cases i with
        | zero =>
          simp only [List.getElem?_cons_zero, Option.some.injEq] at hi
          subst hi
          rw [hr]
        | succ i =>
          exact absurd hc.symm (hmin 0 (by omega) a List.getElem?_cons_zero)
    · rw [if_neg hc, ih]
      constructor
      · rintro ⟨i, slot, hi, hs, hmin, hr⟩
        refine ⟨i + 1, slot, by simpa using hi, hs, ?_, hr⟩
        intro j hj sj hsj
        cases j with
        | zero =>
          simp only [List.getElem?_cons_zero, Option.some.injEq] at hsj
          subst hsj
          exact fun h => hc h.symm
        | succ j =>
          exact hmin j (by omega) sj (by simpa using hsj)
      · rintro ⟨i, slot, hi, hs, hmin, hr⟩
        cases i with
        | zero =>
          simp only [List.getElem?_cons_zero, Option.some.injEq] at hi
          subst hi
          exact absurd hs.symm hc
        | succ i =>
          refine ⟨i, slot, by simpa using hi, hs, ?_, hr⟩
          intro j hj sj hsj
          exact hmin (j + 1) (by omega) sj (by simpa using hsj)

/-- The insertion loop writes the lowest-index empty slot and nothing else. -/
theorem storeConfirmation_eq_set (c : Confirmation) (arr : List Confirmation) (i : Nat)
    (slot : Confirmation) (hi : arr[i]? = some slot) (he : slot.cmd = CNFINVALID)
    (hmin : ∀ j, j < i → ∀ sj : Confirmation, arr[j]? = some sj → sj.cmd ≠ CNFINVALID) :
    storeConfirmation c arr = arr.set i { cmd := c.cmd, status := c.status } := by
  induction arr generalizing i with
  | nil => simp at hi
  | cons a arr ih =>
    rw [storeConfirmation]
    cases i with
    | zero =>
      simp only [List.getElem?_cons_zero, Option.some.injEq] at hi
      subst hi
      rw [if_pos he]
      rfl
    | succ i =>
      have ha : a.cmd ≠ CNFINVALID := hmin 0 (by omega) a List.getElem?_cons_zero
      rw [if_neg ha, List.set_cons_succ,
        ih i (by simpa using hi) (fun j hj sj hsj => hmin (j + 1) (by omega) sj (by simpa using hsj))]

/-- With no empty slot the insertion loop changes nothing. -/
theorem storeConfirmation_full (c : Confirmation) (arr : List Confirmation)
    (hfull : ∀ slot ∈ arr, slot.cmd ≠ CNFINVALID) : storeConfirmation c arr = arr := by
  induction arr with
  | nil => rfl
  | cons a arr ih =>
    rw [storeConfirmation, if_neg (hfull a (by simp)), ih (fun s hs => hfull s (by simp [hs]))]

theorem resetConfirmations_cmd (arr : List Confirmation) :
    ∀ slot ∈ resetConfirmations arr, slot.cmd = CNFINVALID := by
  intro slot hs
  simp only [resetConfirmations, List.mem_map] at hs
  obtain ⟨a, _, rfl⟩ := hs
  rfl

theorem resetConfirmations_length (arr : List Confirmation) :
    (resetConfirmations arr).length = arr.length := by
  simp [resetConfirmations]

/-- After the reset loop a new confirmation lands in slot 0. -/
theorem store_after_reset (c : Confirmation) (a : Confirmation) (arr : List Confirmation) :
    storeConfirmation c (resetConfirmations (a :: arr))
      = { cmd := c.cmd, status := c.status } :: resetConfirmations arr := by
  simp [resetConfirmations, storeConfirmation]

end WCON

/-! ## `Wait4CNF` -/

namespace ProteusIII
open WCON

theorem delays_append (a b : List Event) : delays (a ++ b) = delays a ++ delays b := by
  induction a with
  | nil => rfl
  | cons e a ih => cases e <;> simp [delays, ih]

theorem delays_replicate (n : Nat) :
    delays (List.replicate n (Event.delay 5)) = List.replicate n 5 := by
  induction n with
  | zero => rfl
  | succ n ih => simp [List.replicate_succ, delays, ih]

/-- A poll that finds the expected code ends the wait at once. -/
theorem pro_loop_found (h : Header) (env : Env) (maxCount : Int) (c st : Nat) (fuel : Nat)
    (count : Int) (s : State) (r : Bool)
    (hscan : scanConfirmations c st s.cmdConfirmationArray = some r) :
    Wait4CNF.loop h env maxCount c st (fuel + 1) count s = some (r, s) := by
  simp only [Wait4CNF.loop, hscan]

/-- With nothing arriving and no slot holding the expected code, the loop delays until
the counter reaches `maxCount` and returns `false`. -/
theorem pro_loop_silent (h : Header) (env : Env) (hq : env.silent) (maxCount : Int)
    (c st : Nat) (n : Nat) : ∀ (fuel : Nat) (count : Int) (s : State),
    scanConfirmations c st s.cmdConfirmationArray = none →
    0 ≤ count → n = (maxCount - count).toNat → n < fuel →
    Wait4CNF.loop h env maxCount c st fuel count s
      = some (false, { s with trace := s.trace ++ List.replicate n (Event.delay 5) }) := by
  induction n with
  | zero =>
    intro fuel count s hscan _ hn hf
    obtain ⟨fuel, rfl⟩ : ∃ f, fuel = f + 1 := ⟨fuel - 1, by omega⟩
    have hge : count ≥ maxCount := by omega
    simp only [Wait4CNF.loop, hscan, hge, if_true, List.replicate_zero, List.append_nil]
  | succ n ih =>
    intro fuel count s hscan hc hn hf
    obtain ⟨fuel, rfl⟩ : ∃ f, fuel = f + 1 := ⟨fuel - 1, by omega⟩
    have hlt : ¬ (count ≥ maxCount) := by omega
    simp only [Wait4CNF.loop, hscan, hlt, if_false, hq count.toNat, pro_feed_nil]
    rw [ih fuel (count + 1) { s with trace := s.trace ++ [Event.delay 5] } hscan (by omega)
      (by omega) (by omega)]
    simp [List.replicate_succ]

theorem pro_wait_found (h : Header) (env : Env) (s : State) (maxTimeMs : Int) (c st : Nat)
    (r : Bool) (hscan : scanConfirmations c st s.cmdConfirmationArray = some r) :
    Wait4CNF h env s maxTimeMs c st false = some (r, s) := by
  simp only [Wait4CNF, Bool.false_eq_true, if_false]
  exact pro_loop_found h env _ c st _ 0 s r hscan

theorem pro_wait_silent (h : Header) (env : Env) (hq : env.silent) (s : State)
    (maxTimeMs : Int) (c st : Nat) (reset : Bool)
    (hscan : scanConfirmations c st
      (if reset then resetConfirmations s.cmdConfirmationArray else s.cmdConfirmationArray)
        = none) :
    Wait4CNF h env s maxTimeMs c st reset
      = some (false,
          { s with
            cmdConfirmationArray :=
              if reset then resetConfirmations s.cmdConfirmationArray
              else s.cmdConfirmationArray
            trace := s.trace
              ++ List.replicate (Int.tdiv maxTimeMs 5).toNat (Event.delay 5) }) := by
  simp only [Wait4CNF]
  cases reset with
  | false =>
    simp only [Bool.false_eq_true, if_false] at hscan ⊢
    rw [pro_loop_silent h env hq _ c st (Int.tdiv maxTimeMs 5).toNat _ 0 s hscan (le_refl 0)
      (by simp) (by omega)]
  | true =>
    simp only [if_true] at hscan ⊢
    rw [pro_loop_silent h env hq _ c st (Int.tdiv maxTimeMs 5).toNat _ 0
      { s with cmdConfirmationArray := resetConfirmations s.cmdConfirmationArray } hscan
      (le_refl 0) (by simp) (by omega)]

end ProteusIII

namespace ThyoneI
open WCON

theorem thy_delayCalls_append (a b : List Event) :
    delayCalls (a ++ b) = delayCalls a + delayCalls b := by
  induction a with
  | nil => simp [delayCalls]
  | cons e a ih => cases e <;> simp [delayCalls, ih] <;> omega

theorem thy_tickReads_append (a b : List Event) :
    tickReads (a ++ b) = tickReads a + tickReads b := by
  induction a with
  | nil => simp [tickReads]
  | cons e a ih => cases e <;> simp [tickReads, ih] <;> omega

theorem thy_loop_found (env : Env) (t0 : Nat) (max : Int) (c st : Nat) (fuel k : Nat)
    (s : State) (r : Bool)
    (hscan : scanConfirmations c st s.cmdConfirmation_array = some r) :
    Wait4CNF.loop env t0 max c st (fuel + 1) k s = some (r, s) := by
  simp only [Wait4CNF.loop, hscan]

/-- With nothing arriving and no slot holding the expected code, the loop polls until
the clock is past the time-out and returns `false`; the array is left as it was. -/
theorem thy_loop_silent (env : Env) (hq : env.silent) (max : Int) (c st : Nat) (d : Nat) :
    ∀ (fuel k : Nat) (s : State),
    scanConfirmations c st s.cmdConfirmation_array = none →
    (∀ j, k ≤ j → j < k + d → ¬ env.timedOut max j) → env.timedOut max (k + d) → d < fuel →
    ∃ s1, Wait4CNF.loop env (env.tick 0 % 4294967296) max c st fuel k s = some (false, s1)
      ∧ s1.cmdConfirmation_array = s.cmdConfirmation_array
      ∧ delayCalls s1.trace = delayCalls s.trace := by
  induction d with
  | zero =>
    intro fuel k s hscan _ hto hf
    obtain ⟨fuel, rfl⟩ : ∃ f, fuel = f + 1 := ⟨fuel - 1, by omega⟩
    have hto' : (env.tick (k + 1) % 4294967296 + 4294967296 - env.tick 0 % 4294967296)
        % 4294967296 > (max % 4294967296).toNat := hto
    simp only [Wait4CNF.loop, hscan, hto', if_true]
    refine ⟨_, rfl, rfl, ?_⟩
    simp [thy_delayCalls_append, delayCalls]
  | succ d ih =>
    intro fuel k s hscan hno hto hf
    obtain ⟨fuel, rfl⟩ : ∃ f, fuel = f + 1 := ⟨fuel - 1, by omega⟩
    have hno' : ¬ ((env.tick (k + 1) % 4294967296 + 4294967296 - env.tick 0 % 4294967296)
        % 4294967296 > (max % 4294967296).toNat) := hno k (le_refl k) (by omega)
    simp only [Wait4CNF.loop, hscan, hno', if_false, hq k, thy_feed_nil,
      CMD_WAIT_TIME_STEP_MS, Nat.lt_irrefl]
    obtain ⟨s1, h1, h2, h3⟩ := ih fuel (k + 1)
      { s with trace := s.trace ++ [Event.getTick (env.tick (k + 1) % 4294967296)] }
      hscan (fun j hj hj' => hno j (by omega) (by omega))
      (by rw [show k + 1 + d = k + (d + 1) by omega]; exact hto) (by omega)
    refine ⟨s1, h1, h2, ?_⟩
    rw [h3]
    simp [thy_delayCalls_append, delayCalls]

end ThyoneI

namespace ThyoneI
open WCON

theorem exists_least (p : Nat → Prop) (h : ∃ k, p k) : ∃ K, p K ∧ ∀ j, j < K → ¬ p j := by
  classical
  exact ⟨Nat.find h, Nat.find_spec h, fun j hj => Nat.find_min h hj⟩

theorem thy_wait_found (env : Env) (fuel : Nat) (s : State) (max : Int) (c st : Nat) (r : Bool)
    (hscan : scanConfirmations c st s.cmdConfirmation_array = some r) :
    Wait4CNF env (fuel + 1) s max c st false
      = some (r, { s with trace := s.trace ++ [Event.getTick (env.tick 0 % 4294967296)] }) := by
  simp only [Wait4CNF, Bool.false_eq_true, if_false]
  exact thy_loop_found env _ max c st fuel 0 _ r hscan

/-- With nothing arriving, no slot holding the expected code and a clock that gets past
the time-out, `Wait4CNF` returns `false` for every sufficient amount of fuel. -/
theorem thy_wait_silent (env : Env) (hq : env.silent) (s : State) (max : Int) (c st : Nat)
    (reset : Bool)
    (hscan : scanConfirmations c st
      (if reset then resetConfirmations s.cmdConfirmation_array else s.cmdConfirmation_array)
        = none)
    (hclock : ∃ k, env.timedOut max k) :
    ∃ fuel0, ∀ fuel, fuel0 ≤ fuel →
      ∃ s1, Wait4CNF env fuel s max c st reset = some (false, s1)
        ∧ s1.cmdConfirmation_array
            = (if reset then resetConfirmations s.cmdConfirmation_array
               else s.cmdConfirmation_array)
        ∧ delayCalls s1.trace = delayCalls s.trace := by
  obtain ⟨K, hK, hmin⟩ := exists_least _ hclock
  refine ⟨K + 1, fun fuel hf => ?_⟩
  simp only [Wait4CNF]
  cases reset with
  | false =>
    simp only [Bool.false_eq_true, if_false] at hscan ⊢
    obtain ⟨s1, h1, h2, h3⟩ := thy_loop_silent env hq max c st K fuel 0
      { s with trace := s.trace ++ [Event.getTick (env.tick 0 % 4294967296)] } hscan
      (fun j _ hj => hmin j (by omega)) (by simpa using hK) (by omega)
    refine ⟨s1, h1, h2, ?_⟩
    rw [h3]
    simp [thy_delayCalls_append, delayCalls]
  | true =>
    simp only [if_true] at hscan ⊢
    obtain ⟨s1, h1, h2, h3⟩ := thy_loop_silent env hq max c st K fuel 0
      { s with trace := s.trace ++ [Event.getTick (env.tick 0 % 4294967296)],
               cmdConfirmation_array := resetConfirmations s.cmdConfirmation_array } hscan
      (fun j _ hj => hmin j (by omega)) (by simpa using hK) (by omega)
    refine ⟨s1, h1, h2, ?_⟩
    rw [h3]
    simp [thy_delayCalls_append, delayCalls]

end ThyoneI

/-! ## Claims on `Wait4CNF` (C5 to C8) -/

/-- C5 (`Wait4CNF` matching, both drivers): called without reset and with no frame
arriving during the wait, `Wait4CNF` is decided by the lowest-index slot whose `cmd`
equals the expected code: it returns whether that slot's `status` equals the expected
status, and it returns `false` when no slot holds the expected code.  On Thyone-I, where
the time-out is read from the tick counter, the second case presupposes that the counter
gets past the time-out; the result is then reached with every sufficient fuel. -/
theorem C5_wait_matching :
    (∀ (h : ProteusIII.Header) (env : ProteusIII.Env) (s : ProteusIII.State) (maxTimeMs : Int)
        (c st : Nat),
      env.silent →
      (∀ (i : Nat) (slot : WCON.Confirmation),
        s.cmdConfirmationArray[i]? = some slot → slot.cmd = c →
        (∀ j, j < i → ∀ sj : WCON.Confirmation,
          s.cmdConfirmationArray[j]? = some sj → sj.cmd ≠ c) →
        ∃ s1, ProteusIII.Wait4CNF h env s maxTimeMs c st false
          = some (decide (slot.status = st), s1)) ∧
      ((∀ slot ∈ s.cmdConfirmationArray, slot.cmd ≠ c) →
        ∃ s1, ProteusIII.Wait4CNF h env s maxTimeMs c st false = some (false, s1))) ∧
    (∀ (env : ThyoneI.Env) (s : ThyoneI.State) (max_time_ms : Int) (c st : Nat),
      env.silent →
      (∀ (i : Nat) (slot : WCON.Confirmation),
        s.cmdConfirmation_array[i]? = some slot → slot.cmd = c →
        (∀ j, j < i → ∀ sj : WCON.Confirmation,
          s.cmdConfirmation_array[j]? = some sj → sj.cmd ≠ c) →
        ∀ fuel, ∃ s1, ThyoneI.Wait4CNF env (fuel + 1) s max_time_ms c st false
          = some (decide (slot.status = st), s1)) ∧
      ((∀ slot ∈ s.cmdConfirmation_array, slot.cmd ≠ c) →
        (∃ k, env.timedOut max_time_ms k) →
        ∃ fuel0, ∀ fuel, fuel0 ≤ fuel →
          ∃ s1, ThyoneI.Wait4CNF env fuel s max_time_ms c st false = some (false, s1))) := by
  constructor
  · intro h env s maxTimeMs c st hq
    constructor
    · intro i slot hi hc hmin
      have hscan : WCON.scanConfirmations c st s.cmdConfirmationArray
          = some (decide (slot.status = st)) :=
        (WCON.scan_eq_some_iff c st _ _).2 ⟨i, slot, hi, hc, hmin, rfl⟩
      exact ⟨s, ProteusIII.pro_wait_found h env s maxTimeMs c st _ hscan⟩
    · intro hnone
      have hscan := (WCON.scan_eq_none_iff c st s.cmdConfirmationArray).2 hnone
      exact ⟨_, ProteusIII.pro_wait_silent h env hq s maxTimeMs c st false
        (by simpa using hscan)⟩
  · intro env s max c st hq
    constructor
    · intro i slot hi hc hmin fuel
      have hscan : WCON.scanConfirmations c st s.cmdConfirmation_array
          = some (decide (slot.status = st)) :=
        (WCON.scan_eq_some_iff c st _ _).2 ⟨i, slot, hi, hc, hmin, rfl⟩
      exact ⟨_, ThyoneI.thy_wait_found env fuel s max c st _ hscan⟩
    · intro hnone hclock
      have hscan := (WCON.scan_eq_none_iff c st s.cmdConfirmation_array).2 hnone
      obtain ⟨fuel0, hf⟩ := ThyoneI.thy_wait_silent env hq s max c st false
        (by simpa using hscan) hclock
      exact ⟨fuel0, fun fuel hfl => (hf fuel hfl).imp (fun s1 hs1 => hs1.1)⟩

/-- Witness of C5: Proteus-III, the array `[(0x44, Failed), (0x44, Success)]`, expected
`(0x44, Success)`: slot 0 decides and the result is `false`. -/
theorem C5_wait_matching_witness :
    ∃ s1, ProteusIII.Wait4CNF ProteusIII.exampleHeader { arrive := fun _ => [] }
        { ProteusIII.idleState ProteusIII.exampleHeader ProteusIII.noCallbacks with
          cmdConfirmationArray := [{ cmd := 0x44, status := 1 }, { cmd := 0x44, status := 0 }] }
        500 0x44 0 false
      = some (decide ((1 : Nat) = 0), s1) :=
  (C5_wait_matching.1 ProteusIII.exampleHeader { arrive := fun _ => [] }
    { ProteusIII.idleState ProteusIII.exampleHeader ProteusIII.noCallbacks with
      cmdConfirmationArray := [{ cmd := 0x44, status := 1 }, { cmd := 0x44, status := 0 }] }
    500 0x44 0 (fun _ => rfl)).1 0 { cmd := 0x44, status := 1 } rfl rfl
    (fun j hj => absurd hj (Nat.not_lt_zero j))

/-- C6, counterexample: Proteus-III, slot 0 still holds the status `Success` of an earlier
confirmation; `Wait4CNF` called with reset for the code 255 and the status `Success`
returns `true`, because the reset leaves 255 in every `cmd` field and the first poll
compares the stale status of slot 0. -/
theorem C6_reset_sentinel_counterexample :
    (ProteusIII.Wait4CNF ProteusIII.exampleHeader { arrive := fun _ => [] }
        { ProteusIII.idleState ProteusIII.exampleHeader ProteusIII.noCallbacks with
          cmdConfirmationArray := [{ cmd := 0x44, status := 0 }, { cmd := 255, status := 4 }] }
        500 255 WCON.CMD_Status_Success true).map Prod.fst = some true := by
  rfl

/-- C6, amended (reset guarantee, both drivers): for every prior content of the
confirmation array, every expected code other than the empty-slot value 255 and every
expected status, `Wait4CNF` called with reset and with no frame arriving returns `false`
(on Thyone-I once the tick counter is past the time-out, with every sufficient fuel). -/
theorem C6_reset_no_stale_match :
    (∀ (h : ProteusIII.Header) (env : ProteusIII.Env) (s : ProteusIII.State) (maxTimeMs : Int)
        (c st : Nat),
      env.silent → c ≠ WCON.CNFINVALID →
      ∃ s1, ProteusIII.Wait4CNF h env s maxTimeMs c st true = some (false, s1)) ∧
    (∀ (env : ThyoneI.Env) (s : ThyoneI.State) (max_time_ms : Int) (c st : Nat),
      env.silent → c ≠ WCON.CNFINVALID → (∃ k, env.timedOut max_time_ms k) →
      ∃ fuel0, ∀ fuel, fuel0 ≤ fuel →
        ∃ s1, ThyoneI.Wait4CNF env fuel s max_time_ms c st true = some (false, s1)) := by
  constructor
  · intro h env s maxTimeMs c st hq hc
    have hscan : WCON.scanConfirmations c st (WCON.resetConfirmations s.cmdConfirmationArray)
        = none :=
      (WCON.scan_eq_none_iff c st _).2
        (fun slot hs => by rw [WCON.resetConfirmations_cmd _ slot hs]; exact Ne.symm hc)
    exact ⟨_, ProteusIII.pro_wait_silent h env hq s maxTimeMs c st true (by simpa using hscan)⟩
  · intro env s max c st hq hc hclock
    have hscan : WCON.scanConfirmations c st (WCON.resetConfirmations s.cmdConfirmation_array)
        = none :=
      (WCON.scan_eq_none_iff c st _).2
        (fun slot hs => by rw [WCON.resetConfirmations_cmd _ slot hs]; exact Ne.symm hc)
    obtain ⟨fuel0, hf⟩ := ThyoneI.thy_wait_silent env hq s max c st true
      (by simpa using hscan) hclock
    exact ⟨fuel0, fun fuel hfl => (hf fuel hfl).imp (fun s1 hs1 => hs1.1)⟩

/-- Witness of C6 (amended): Proteus-III, a stale `(0x44, Success)` in slot 0, expected
`(0x44, Success)`, reset requested, nothing arriving. -/
theorem C6_reset_no_stale_match_witness :
    ∃ s1, ProteusIII.Wait4CNF ProteusIII.exampleHeader { arrive := fun _ => [] }
        { ProteusIII.idleState ProteusIII.exampleHeader ProteusIII.noCallbacks with
          cmdConfirmationArray := [{ cmd := 0x44, status := 0 }, { cmd := 255, status := 4 }] }
        500 0x44 0 true
      = some (false, s1) :=
  C6_reset_no_stale_match.1 ProteusIII.exampleHeader { arrive := fun _ => [] }
    { ProteusIII.idleState ProteusIII.exampleHeader ProteusIII.noCallbacks with
      cmdConfirmationArray := [{ cmd := 0x44, status := 0 }, { cmd := 255, status := 4 }] }
    500 0x44 0 (fun _ => rfl) (by decide)

/-- C7 (wrong status fails at once, both drivers): if the lowest-index slot holding the
expected code has the status `Failed`, then `Wait4CNF(timeout, code, Success, false)`
returns `false` on its first poll, for every time-out and whatever arrives later: on
Proteus-III the state is unchanged, so `WE_Delay` was not called; on Thyone-I the only
action is the read of the tick counter that sets `t0`, with no delay and no further
read. -/
theorem C7_wrong_status_immediate :
    (∀ (h : ProteusIII.Header) (env : ProteusIII.Env) (s : ProteusIII.State) (maxTimeMs : Int)
        (c i : Nat) (slot : WCON.Confirmation),
      s.cmdConfirmationArray[i]? = some slot → slot.cmd = c →
      slot.status = WCON.CMD_Status_Failed →
      (∀ j, j < i → ∀ sj : WCON.Confirmation,
        s.cmdConfirmationArray[j]? = some sj → sj.cmd ≠ c) →
      ProteusIII.Wait4CNF h env s maxTimeMs c WCON.CMD_Status_Success false = some (false, s)) ∧
    (∀ (env : ThyoneI.Env) (fuel : Nat) (s : ThyoneI.State) (max_time_ms : Int)
        (c i : Nat) (slot : WCON.Confirmation),
      s.cmdConfirmation_array[i]? = some slot → slot.cmd = c →
      slot.status = WCON.CMD_Status_Failed →
      (∀ j, j < i → ∀ sj : WCON.Confirmation,
        s.cmdConfirmation_array[j]? = some sj → sj.cmd ≠ c) →
      ∃ s1, ThyoneI.Wait4CNF env (fuel + 1) s max_time_ms c WCON.CMD_Status_Success false
          = some (false, s1)
        ∧ ThyoneI.delayCalls s1.trace = ThyoneI.delayCalls s.trace
        ∧ ThyoneI.tickReads s1.trace = ThyoneI.tickReads s.trace + 1) := by
  constructor
  · intro h env s maxTimeMs c i slot hi hc hst hmin
    have hscan : WCON.scanConfirmations c WCON.CMD_Status_Success s.cmdConfirmationArray
        = some false := by
      rw [WCON.scan_eq_some_iff]
      exact ⟨i, slot, hi, hc, hmin, by rw [hst]; decide⟩
    exact ProteusIII.pro_wait_found h env s maxTimeMs c _ false hscan
  · intro env fuel s max c i slot hi hc hst hmin
    have hscan : WCON.scanConfirmations c WCON.CMD_Status_Success s.cmdConfirmation_array
        = some false := by
      rw [WCON.scan_eq_some_iff]
      exact ⟨i, slot, hi, hc, hmin, by rw [hst]; decide⟩
    refine ⟨_, ThyoneI.thy_wait_found env fuel s max c _ false hscan, ?_, ?_⟩
    · simp [ThyoneI.thy_delayCalls_append, ThyoneI.delayCalls]
    · simp [ThyoneI.thy_tickReads_append, ThyoneI.tickReads]

/-- Witness of C7: Thyone-I, slot 1 holds `(0x50, Failed)`, slot 0 another code. -/
theorem C7_wrong_status_immediate_witness :
    ∃ s1, ThyoneI.Wait4CNF { tick := fun _ => 0, arrive := fun _ => [] } (0 + 1)
          { ThyoneI.idleState false with
            cmdConfirmation_array :=
              [{ cmd := 0x44, status := 0 }, { cmd := 0x50, status := 1 },
               { cmd := 255, status := 0 }] }
          1500 0x50 WCON.CMD_Status_Success false
        = some (false, s1)
      ∧ ThyoneI.delayCalls s1.trace
          = ThyoneI.delayCalls ({ ThyoneI.idleState false with
            cmdConfirmation_array :=
              [{ cmd := 0x44, status := 0 }, { cmd := 0x50, status := 1 },
               { cmd := 255, status := 0 }] } : ThyoneI.State).trace
      ∧ ThyoneI.tickReads s1.trace
          = ThyoneI.tickReads ({ ThyoneI.idleState false with
            cmdConfirmation_array :=
              [{ cmd := 0x44, status := 0 }, { cmd := 0x50, status := 1 },
               { cmd := 255, status := 0 }] } : ThyoneI.State).trace + 1 :=
  C7_wrong_status_immediate.2 { tick := fun _ => 0, arrive := fun _ => [] } 0
    { ThyoneI.idleState false with
      cmdConfirmation_array :=
        [{ cmd := 0x44, status := 0 }, { cmd := 0x50, status := 1 },
         { cmd := 255, status := 0 }] }
    1500 0x50 1 { cmd := 0x50, status := 1 } rfl rfl rfl
    (fun j hj sj hsj => by
      have hj0 : j = 0 := by omega
      subst hj0
      have e : sj = { cmd := 0x44, status := 0 } := (Option.some.inj hsj).symm
      rw [e]
      decide)

/-- C8 (time-out window, Proteus-III): for every `maxTimeMs >= 0`, when nothing arrives
and no slot holds the expected code (after the reset, if one is requested), `Wait4CNF`
returns `false`, all its delays are `WE_Delay(5)` calls, and their sum lies between
`maxTimeMs - 5` and `maxTimeMs + 5`. -/
theorem C8_timeout_window (h : ProteusIII.Header) (env : ProteusIII.Env)
    (s : ProteusIII.State) (maxTimeMs : Int) (c st : Nat) (reset : Bool)
    (hq : env.silent) (hmax : 0 ≤ maxTimeMs)
    (hnone : ∀ slot ∈ (if reset then WCON.resetConfirmations s.cmdConfirmationArray
        else s.cmdConfirmationArray), slot.cmd ≠ c) :
    ∃ s1 d, ProteusIII.Wait4CNF h env s maxTimeMs c st reset = some (false, s1)
      ∧ ProteusIII.delays s1.trace = ProteusIII.delays s.trace ++ d
      ∧ (∀ ms ∈ d, ms = 5)
      ∧ maxTimeMs - 5 ≤ (d.sum : Int) ∧ (d.sum : Int) ≤ maxTimeMs + 5 := by
  have hscan := (WCON.scan_eq_none_iff c st _).2 hnone
  refine ⟨_, List.replicate (Int.tdiv maxTimeMs 5).toNat 5,
    ProteusIII.pro_wait_silent h env hq s maxTimeMs c st reset hscan, ?_, ?_, ?_, ?_⟩
  · simp only [ProteusIII.delays_append, ProteusIII.delays_replicate]
  · intro ms hms
    exact (List.mem_replicate.1 hms).2
  · have hq : 0 ≤ Int.tdiv maxTimeMs 5 := Int.tdiv_nonneg hmax (by decide)
    have hdiv : Int.tdiv maxTimeMs 5 = maxTimeMs / 5 := Int.tdiv_eq_ediv hmax (by decide)
    simp only [List.sum_replicate, smul_eq_mul, Nat.cast_mul, Int.toNat_of_nonneg hq]
    rw [hdiv]
    omega
  · have hq : 0 ≤ Int.tdiv maxTimeMs 5 := Int.tdiv_nonneg hmax (by decide)
    have hdiv : Int.tdiv maxTimeMs 5 = maxTimeMs / 5 := Int.tdiv_eq_ediv hmax (by decide)
    simp only [List.sum_replicate, smul_eq_mul, Nat.cast_mul, Int.toNat_of_nonneg hq]
    rw [hdiv]
    omega

/-- Witness of C8: a time-out of 23 ms on the cleared array gives four delays of 5 ms. -/
theorem C8_timeout_window_witness :
    ∃ s1 d, ProteusIII.Wait4CNF ProteusIII.exampleHeader { arrive := fun _ => [] }
          (ProteusIII.idleState ProteusIII.exampleHeader ProteusIII.noCallbacks)
          23 0x41 WCON.CMD_Status_NoStatus true = some (false, s1)
      ∧ ProteusIII.delays s1.trace
          = ProteusIII.delays
              (ProteusIII.idleState ProteusIII.exampleHeader ProteusIII.noCallbacks).trace ++ d
      ∧ (∀ ms ∈ d, ms = 5)
      ∧ (23 : Int) - 5 ≤ (d.sum : Int) ∧ (d.sum : Int) ≤ 23 + 5 :=
  C8_timeout_window ProteusIII.exampleHeader { arrive := fun _ => [] }
    (ProteusIII.idleState ProteusIII.exampleHeader ProteusIII.noCallbacks)
    23 0x41 WCON.CMD_Status_NoStatus true (fun _ => rfl) (by decide) (by decide)

/-! ## Dispatch of confirmations (C9, C10) -/

namespace WCON

theorem memcpy_get (dst src : List Nat) (n i : Nat) (hi : i < n) (hs : n ≤ src.length) :
    (src.take n ++ dst.drop n)[i]? = src[i]? := by
  rw [List.getElem?_append_left (by rw [List.length_take]; omega), List.getElem?_take, if_pos hi]

end WCON

namespace ThyoneI
open WCON

theorem thy_status_not_noStatus (c : Nat) (h : c ∈ statusCodes) : c ∉ noStatusCodes := by
  simp only [statusCodes, List.mem_cons, List.mem_singleton, List.not_mem_nil, or_false] at h
  rcases h with h | h | h | h | h | h | h | h | h | h | h | h | h | h <;> subst h <;> decide

theorem thy_status_ne_read (c : Nat) (h : c ∈ statusCodes) :
    c ≠ THYONEI_CMD_GPIO_REMOTE_READ_CNF := by
  simp only [statusCodes, List.mem_cons, List.mem_singleton, List.not_mem_nil, or_false] at h
  rcases h with h | h | h | h | h | h | h | h | h | h | h | h | h | h <;> subst h <;> decide

/-- The `switch` on the codes that produce a confirmation entry. -/
theorem thy_switch_confirm (cb : Bool) (pkt : List Nat) (c d : Nat)
    (h1 : pkt[CMD_POSITION_CMD]? = some c) (h4 : pkt[CMD_POSITION_DATA]? = some d)
    (hc : c ∈ noStatusCodes ∨ c ∈ statusCodes ∨ c = THYONEI_CMD_GPIO_REMOTE_READ_CNF) :
    HandleRxPacket.switch cb pkt
      = some ({ cmd := c
                status := if c ∈ noStatusCodes then CMD_Status_NoStatus
                  else if c = THYONEI_CMD_GPIO_REMOTE_READ_CNF then CMD_Status_Invalid
                  else d }, []) := by
  unfold HandleRxPacket.switch
  rw [h1]
  dsimp only
  by_cases hn : c ∈ noStatusCodes
  · rw [if_pos hn, if_pos hn]
  · rw [if_neg hn, if_neg hn]
    by_cases hs : c ∈ statusCodes
    · rw [if_pos hs, h4, if_neg (thy_status_ne_read c hs)]
    · rw [if_neg hs]
      have hr : c = THYONEI_CMD_GPIO_REMOTE_READ_CNF := by
        rcases hc with h | h | h
        · exact absurd h hn
        · exact absurd h hs
        · exact h
      rw [if_pos hr, if_pos hr]

/-- `HandleRxPacket` on a frame whose code produces a confirmation entry. -/
theorem thy_HandleRxPacket_confirm (s : State) (buf : List Nat) (c lsb msb d : Nat)
    (h1 : buf[CMD_POSITION_CMD]? = some c) (h2 : buf[CMD_POSITION_LENGTH_LSB]? = some lsb)
    (h3 : buf[CMD_POSITION_LENGTH_MSB]? = some msb) (h4 : buf[CMD_POSITION_DATA]? = some d)
    (hL : lsb + 256 * msb < 65536) (hb : lsb + 256 * msb + 5 ≤ buf.length)
    (hp : lsb + 256 * msb + 5 ≤ s.RxPacket.length)
    (hc : c ∈ noStatusCodes ∨ c ∈ statusCodes ∨ c = THYONEI_CMD_GPIO_REMOTE_READ_CNF) :
    HandleRxPacket s buf = some { s with
      RxPacket := buf.take (lsb + 256 * msb + 5) ++ s.RxPacket.drop (lsb + 256 * msb + 5)
      cmdConfirmation_array := storeConfirmation
        { cmd := c
          status := if c ∈ noStatusCodes then CMD_Status_NoStatus
            else if c = THYONEI_CMD_GPIO_REMOTE_READ_CNF then CMD_Status_Invalid
            else d } s.cmdConfirmation_array
      trace := s.trace ++ [Event.dispatch (buf.take (lsb + 256 * msb + 5))] } := by
  have hsw := thy_switch_confirm s.RxCallback
    (buf.take (lsb + 256 * msb + 5) ++ s.RxPacket.drop (lsb + 256 * msb + 5)) c d
    (by rw [memcpy_get _ _ _ _ (by simp only [CMD_POSITION_CMD]; omega) hb]; exact h1)
    (by rw [memcpy_get _ _ _ _ (by simp only [CMD_POSITION_DATA]; omega) hb]; exact h4) hc
  simp only [HandleRxPacket, h2, h3, cmd_length_eq lsb msb hL, LENGTH_CMD_OVERHEAD,
    memcpy_eq _ _ _ hb hp, hsw, List.append_nil]

end ThyoneI

namespace ProteusIII
open WCON

theorem pro_getstate_not_status : PROTEUSIII_CMD_GETSTATE_CNF ∉ statusCodes := by decide

theorem pro_status_ne_getstate (c : Nat) (h : c ∈ statusCodes) :
    c ≠ PROTEUSIII_CMD_GETSTATE_CNF := by
  intro hc
  subst hc
  exact pro_getstate_not_status h

/-- The `switch` on the codes that produce a confirmation entry. -/
theorem pro_switch_confirm (h : Header) (s : State) (pkt : List Nat) (c d : Nat)
    (h1 : pkt[CMD_POSITION_CMD]? = some c) (h4 : pkt[CMD_POSITION_DATA]? = some d)
    (hc : c = PROTEUSIII_CMD_GETDEVICES_CNF ∨ c ∈ statusCodes
      ∨ c = PROTEUSIII_CMD_GETSTATE_CNF) :
    HandleRxPacket.switch h s pkt
      = some { cmdConfirmation :=
                 { cmd := c
                   status := if c = PROTEUSIII_CMD_GETSTATE_CNF then CMD_Status_NoStatus
                     else d }
               bleState := s.bleState
               calls := [] } := by
  unfold HandleRxPacket.switch
  rw [h1]
  dsimp only
  by_cases hg : c = PROTEUSIII_CMD_GETDEVICES_CNF
  · rw [if_pos hg, h4, if_neg (by rw [hg]; decide)]
  · rw [if_neg hg]
    by_cases hs : c ∈ statusCodes
    · rw [if_pos hs, h4, if_neg (pro_status_ne_getstate c hs)]
    · rw [if_neg hs]
      have hr : c = PROTEUSIII_CMD_GETSTATE_CNF := by
        rcases hc with h | h | h
        · exact absurd h hg
        · exact absurd h hs
        · exact h
      rw [if_pos hr, if_pos hr]

/-- `HandleRxPacket` on a frame whose code produces a confirmation entry. -/
theorem pro_HandleRxPacket_confirm (h : Header) (s : State) (buf : List Nat)
    (c lsb msb d : Nat)
    (h1 : buf[CMD_POSITION_CMD]? = some c) (h2 : buf[CMD_POSITION_LENGTH_LSB]? = some lsb)
    (h3 : buf[CMD_POSITION_LENGTH_MSB]? = some msb) (h4 : buf[CMD_POSITION_DATA]? = some d)
    (hL : lsb + 256 * msb < 65536) (hb : lsb + 256 * msb + 5 ≤ buf.length)
    (hp : lsb + 256 * msb + 5 ≤ s.rxPacket.length)
    (hc : c = PROTEUSIII_CMD_GETDEVICES_CNF ∨ c ∈ statusCodes
      ∨ c = PROTEUSIII_CMD_GETSTATE_CNF) :
    HandleRxPacket h s buf = some { s with
      rxPacket := buf.take (lsb + 256 * msb + 5) ++ s.rxPacket.drop (lsb + 256 * msb + 5)
      cmdConfirmationArray := storeConfirmation
        { cmd := c
          status := if c = PROTEUSIII_CMD_GETSTATE_CNF then CMD_Status_NoStatus else d }
        s.cmdConfirmationArray
      trace := s.trace ++ [Event.dispatch (buf.take (lsb + 256 * msb + 5))] } := by
  have hsw := pro_switch_confirm h s
    (buf.take (lsb + 256 * msb + 5) ++ s.rxPacket.drop (lsb + 256 * msb + 5)) c d
    (by rw [memcpy_get _ _ _ _ (by simp only [CMD_POSITION_CMD]; omega) hb]; exact h1)
    (by rw [memcpy_get _ _ _ _ (by simp only [CMD_POSITION_DATA]; omega) hb]; exact h4) hc
  simp only [HandleRxPacket, h2, h3, cmd_length_eq lsb msb hL, LENGTH_CMD_OVERHEAD,
    memcpy_eq _ _ _ hb hp, hsw, List.append_nil]

end ProteusIII

/-- C9 (correlation success end to end, both drivers): from the idle receiver and a
confirmation array that the reset step of `Wait4CNF` has just cleared, a checksum-valid
frame whose code is one of the status-carrying confirmation codes and whose first
payload byte is `0x00` (`Success`), delivered byte by byte, is stored so that the next
poll for `(c, Success)` finds it: the scan yields `true`, and so does `Wait4CNF` called
without reset, whatever the time-out. -/
theorem C9_correlation_success :
    (∀ (s : ThyoneI.State) (arr0 : List WCON.Confirmation) (c lsb msb : Nat) (rest : List Nat),
      s.RxByteCounter = 0 →
      s.cmdConfirmation_array = WCON.resetConfirmations arr0 →
      arr0.length = ThyoneI.CMDCONFIRMATIONARRAY_LENGTH →
      c ∈ ThyoneI.statusCodes →
      (WCON.CMD_Status_Success :: rest).length = lsb + 256 * msb →
      (WCON.CMD_Status_Success :: rest).length + 5 ≤ ThyoneI.MAX_CMD_LENGTH →
      s.RxBuffer.length = ThyoneI.MAX_CMD_LENGTH →
      s.RxPacket.length = ThyoneI.MAX_CMD_LENGTH →
      ∃ s1, ThyoneI.feed s
            ([WCON.CMD_STX, c, lsb, msb] ++ (WCON.CMD_Status_Success :: rest)
              ++ [WCON.xorAll ([WCON.CMD_STX, c, lsb, msb] ++ (WCON.CMD_Status_Success :: rest))])
          = some s1
        ∧ WCON.scanConfirmations c WCON.CMD_Status_Success s1.cmdConfirmation_array = some true
        ∧ ∀ (env : ThyoneI.Env) (fuel : Nat) (max_time_ms : Int),
            ∃ s2, ThyoneI.Wait4CNF env (fuel + 1) s1 max_time_ms c WCON.CMD_Status_Success false
              = some (true, s2)) ∧
    (∀ (h : ProteusIII.Header) (s : ProteusIII.State) (arr0 : List WCON.Confirmation)
        (c lsb msb : Nat) (rest : List Nat),
      s.rxByteCounter = 0 →
      s.cmdConfirmationArray = WCON.resetConfirmations arr0 →
      arr0.length = ProteusIII.CMDCONFIRMATIONARRAY_LENGTH →
      (c = ProteusIII.PROTEUSIII_CMD_GETDEVICES_CNF ∨ c ∈ ProteusIII.statusCodes) →
      (WCON.CMD_Status_Success :: rest).length = lsb + 256 * msb →
      (WCON.CMD_Status_Success :: rest).length + 5 < 65536 →
      (WCON.CMD_Status_Success :: rest).length + 5 ≤ s.rxBuffer.length →
      (WCON.CMD_Status_Success :: rest).length + 5 ≤ s.rxPacket.length →
      ∃ s1, ProteusIII.feed h s
            ([WCON.CMD_STX, c, lsb, msb] ++ (WCON.CMD_Status_Success :: rest)
              ++ [WCON.xorAll ([WCON.CMD_STX, c, lsb, msb] ++ (WCON.CMD_Status_Success :: rest))])
          = some s1
        ∧ WCON.scanConfirmations c WCON.CMD_Status_Success s1.cmdConfirmationArray = some true
        ∧ ∀ (env : ProteusIII.Env) (maxTimeMs : Int),
            ProteusIII.Wait4CNF h env s1 maxTimeMs c WCON.CMD_Status_Success false
              = some (true, s1)) := by
  constructor
  · intro s arr0 c lsb msb rest hidle harr hlen hc hp hN hbuf hpkt
    have hN' : (WCON.CMD_Status_Success :: rest).length + 5 ≤ 235 := hN
    have hbuf' : s.RxBuffer.length = 235 := hbuf
    have hpkt' : s.RxPacket.length = 235 := hpkt
    obtain ⟨a, arr, rfl⟩ : ∃ a arr, arr0 = a :: arr := by
      match arr0, hlen with
      | a :: arr, _ => exact ⟨a, arr, rfl⟩
    have hsw := ThyoneI.thy_switch_confirm s.RxCallback
      ([WCON.CMD_STX, c, lsb, msb] ++ (WCON.CMD_Status_Success :: rest)
        ++ [WCON.xorAll ([WCON.CMD_STX, c, lsb, msb] ++ (WCON.CMD_Status_Success :: rest))]
        ++ s.RxPacket.drop ((WCON.CMD_Status_Success :: rest).length + 5))
      c WCON.CMD_Status_Success (by simp [WCON.CMD_POSITION_CMD])
      (by simp [WCON.CMD_POSITION_DATA]) (Or.inr (Or.inl hc))
    rw [if_neg (ThyoneI.thy_status_not_noStatus c hc),
      if_neg (ThyoneI.thy_status_ne_read c hc)] at hsw
    have hscan : WCON.scanConfirmations c WCON.CMD_Status_Success
        (WCON.storeConfirmation { cmd := c, status := WCON.CMD_Status_Success }
          (WCON.resetConfirmations (a :: arr))) = some true := by
      rw [WCON.store_after_reset]
      simp [WCON.scanConfirmations]
    rw [ThyoneI.thy_feed_valid s c lsb msb _ hidle hp hN (by omega) (by omega), hsw]
    refine ⟨_, rfl, ?_, ?_⟩
    · simp only [harr]
      exact hscan
    · intro env fuel max
      exact ⟨_, ThyoneI.thy_wait_found env fuel _ max c _ true (by simp only [harr]; exact hscan)⟩
  · intro h s arr0 c lsb msb rest hidle harr hlen hc hp hN hbuf hpkt
    obtain ⟨a, arr, rfl⟩ : ∃ a arr, arr0 = a :: arr := by
      match arr0, hlen with
      | a :: arr, _ => exact ⟨a, arr, rfl⟩
    have hne : c ≠ ProteusIII.PROTEUSIII_CMD_GETSTATE_CNF := by
      rcases hc with hc | hc
      · rw [hc]; decide
      · exact ProteusIII.pro_status_ne_getstate c hc
    have hsw := ProteusIII.pro_switch_confirm h s
      ([WCON.CMD_STX, c, lsb, msb] ++ (WCON.CMD_Status_Success :: rest)
        ++ [WCON.xorAll ([WCON.CMD_STX, c, lsb, msb] ++ (WCON.CMD_Status_Success :: rest))]
        ++ s.rxPacket.drop ((WCON.CMD_Status_Success :: rest).length + 5))
      c WCON.CMD_Status_Success (by simp [WCON.CMD_POSITION_CMD])
      (by simp [WCON.CMD_POSITION_DATA])
      (hc.elim Or.inl (fun x => Or.inr (Or.inl x)))
    rw [if_neg hne] at hsw
    have hscan : WCON.scanConfirmations c WCON.CMD_Status_Success
        (WCON.storeConfirmation { cmd := c, status := WCON.CMD_Status_Success }
          (WCON.resetConfirmations (a :: arr))) = some true := by
      rw [WCON.store_after_reset]
      simp [WCON.scanConfirmations]
    rw [ProteusIII.pro_feed_valid h s c lsb msb _ hidle hp hN hbuf hpkt, hsw]
    refine ⟨_, rfl, ?_, ?_⟩
    · simp only [harr]
      exact hscan
    · intro env maxTimeMs
      exact ProteusIII.pro_wait_found h env _ maxTimeMs c _ true (by simp only [harr]; exact hscan)

set_option maxRecDepth 100000 in
/-- Witness of C9: Thyone-I, a `SET_CNF` frame (code `0x51`) with the payload `[0x00]`. -/
theorem C9_correlation_success_witness :
    ∃ s1, ThyoneI.feed (ThyoneI.idleState false)
          ([WCON.CMD_STX, 0x51, 1, 0] ++ (WCON.CMD_Status_Success :: [])
            ++ [WCON.xorAll ([WCON.CMD_STX, 0x51, 1, 0] ++ (WCON.CMD_Status_Success :: []))])
        = some s1
      ∧ WCON.scanConfirmations 0x51 WCON.CMD_Status_Success s1.cmdConfirmation_array = some true
      ∧ ∀ (env : ThyoneI.Env) (fuel : Nat) (max_time_ms : Int),
          ∃ s2, ThyoneI.Wait4CNF env (fuel + 1) s1 max_time_ms 0x51 WCON.CMD_Status_Success false
            = some (true, s2) :=
  C9_correlation_success.1 (ThyoneI.idleState false)
    (List.replicate 3 { cmd := 0x44, status := 0 }) 0x51 1 0 [] rfl rfl rfl (by decide) rfl
    (by decide) (by decide) (by decide)

set_option maxRecDepth 100000 in
/-- C10, counterexample: Thyone-I, the `GPIO_REMOTE_READ_CNF` frame
`[0x02, 0x6C, 0x01, 0x00, 0x00, 0x6F]`.  Its code produces a confirmation entry, but the
status stored with it is `Invalid` (2): neither the first payload byte `0x00` nor
`NoStatus` (4). -/
theorem C10_remote_read_cnf_counterexample :
    (ThyoneI.HandleRxPacket (ThyoneI.idleState false)
        ([0x02, 0x6C, 0x01, 0x00, 0x00, 0x6F] ++ List.replicate 229 0)).map
      (fun s1 => s1.cmdConfirmation_array)
      = some [{ cmd := 0x6C, status := WCON.CMD_Status_Invalid },
              { cmd := 255, status := 0 }, { cmd := 255, status := 0 }]
    ∧ WCON.CMD_Status_Invalid ≠ 0x00
    ∧ WCON.CMD_Status_Invalid ≠ WCON.CMD_Status_NoStatus := by
  decide

/-- C10, amended (dispatcher insertion, both drivers): for a frame in `pRxBuffer` whose
code `c` produces a confirmation entry and a confirmation array whose lowest-index empty
slot (`cmd = 255`) is slot `i`, `HandleRxPacket` writes `(c, s)` into slot `i` and leaves
every other slot as it was.  Here `s` is the byte at `CMD_POSITION_DATA` (the first
payload byte) for the status-carrying codes, the constant `NoStatus` for the codes
without a status byte (Proteus-III: `GETSTATE_CNF`; Thyone-I: `RESET_CNF`,
`GETSTATE_CNF`, `START_IND`, `GPIO_REMOTE_GETCONFIG_RSP`, `GPIO_REMOTE_READ_RSP`), and on
Thyone-I the constant `Invalid` for `GPIO_REMOTE_READ_CNF`. -/
theorem C10_dispatcher_insertion :
    (∀ (s : ThyoneI.State) (pRxBuffer : List Nat) (c lsb msb d i : Nat)
        (slot : WCON.Confirmation),
      pRxBuffer[WCON.CMD_POSITION_CMD]? = some c →
      pRxBuffer[WCON.CMD_POSITION_LENGTH_LSB]? = some lsb →
      pRxBuffer[WCON.CMD_POSITION_LENGTH_MSB]? = some msb →
      pRxBuffer[WCON.CMD_POSITION_DATA]? = some d →
      lsb + 256 * msb + 5 ≤ ThyoneI.MAX_CMD_LENGTH →
      lsb + 256 * msb + 5 ≤ pRxBuffer.length →
      lsb + 256 * msb + 5 ≤ s.RxPacket.length →
      (c ∈ ThyoneI.noStatusCodes ∨ c ∈ ThyoneI.statusCodes
        ∨ c = ThyoneI.THYONEI_CMD_GPIO_REMOTE_READ_CNF) →
      s.cmdConfirmation_array[i]? = some slot → slot.cmd = WCON.CNFINVALID →
      (∀ j, j < i → ∀ sj : WCON.Confirmation,
        s.cmdConfirmation_array[j]? = some sj → sj.cmd ≠ WCON.CNFINVALID) →
      ∃ s1, ThyoneI.HandleRxPacket s pRxBuffer = some s1
        ∧ s1.cmdConfirmation_array = s.cmdConfirmation_array.set i
            { cmd := c
              status := if c ∈ ThyoneI.noStatusCodes then WCON.CMD_Status_NoStatus
                else if c = ThyoneI.THYONEI_CMD_GPIO_REMOTE_READ_CNF then
                  WCON.CMD_Status_Invalid
                else d }) ∧
    (∀ (h : ProteusIII.Header) (s : ProteusIII.State) (pRxBuffer : List Nat)
        (c lsb msb d i : Nat) (slot : WCON.Confirmation),
      pRxBuffer[WCON.CMD_POSITION_CMD]? = some c →
      pRxBuffer[WCON.CMD_POSITION_LENGTH_LSB]? = some lsb →
      pRxBuffer[WCON.CMD_POSITION_LENGTH_MSB]? = some msb →
      pRxBuffer[WCON.CMD_POSITION_DATA]? = some d →
      lsb + 256 * msb < 65536 →
      lsb + 256 * msb + 5 ≤ pRxBuffer.length →
      lsb + 256 * msb + 5 ≤ s.rxPacket.length →
      (c = ProteusIII.PROTEUSIII_CMD_GETDEVICES_CNF ∨ c ∈ ProteusIII.statusCodes
        ∨ c = ProteusIII.PROTEUSIII_CMD_GETSTATE_CNF) →
      s.cmdConfirmationArray[i]? = some slot → slot.cmd = WCON.CNFINVALID →
      (∀ j, j < i → ∀ sj : WCON.Confirmation,
        s.cmdConfirmationArray[j]? = some sj → sj.cmd ≠ WCON.CNFINVALID) →
      ∃ s1, ProteusIII.HandleRxPacket h s pRxBuffer = some s1
        ∧ s1.cmdConfirmationArray = s.cmdConfirmationArray.set i
            { cmd := c
              status := if c = ProteusIII.PROTEUSIII_CMD_GETSTATE_CNF then
                  WCON.CMD_Status_NoStatus
                else d }) := by
  constructor
  · intro s buf c lsb msb d i slot h1 h2 h3 h4 hN hb hp hc hi he hmin
    have hN' : lsb + 256 * msb + 5 ≤ 235 := hN
    refine ⟨_, ThyoneI.thy_HandleRxPacket_confirm s buf c lsb msb d h1 h2 h3 h4 (by omega) hb hp
      hc, ?_⟩
    exact WCON.storeConfirmation_eq_set _ _ i slot hi he hmin
  · intro h s buf c lsb msb d i slot h1 h2 h3 h4 hL hb hp hc hi he hmin
    refine ⟨_, ProteusIII.pro_HandleRxPacket_confirm h s buf c lsb msb d h1 h2 h3 h4 hL hb hp
      hc, ?_⟩
    exact WCON.storeConfirmation_eq_set _ _ i slot hi he hmin

set_option maxRecDepth 100000 in
/-- Witness of C10 (amended): Thyone-I, the `GPIO_REMOTE_READ_CNF` frame of the
counterexample with slot 0 occupied, so that the entry goes to slot 1. -/
theorem C10_dispatcher_insertion_witness :
    ∃ s1, ThyoneI.HandleRxPacket
          { ThyoneI.idleState false with
            cmdConfirmation_array :=
              [{ cmd := 0x44, status := 0 }, { cmd := 255, status := 0 },
               { cmd := 255, status := 0 }] }
          ([0x02, 0x6C, 0x01, 0x00, 0x00, 0x6F] ++ List.replicate 229 0) = some s1
      ∧ s1.cmdConfirmation_array
          = ([{ cmd := 0x44, status := 0 }, { cmd := 255, status := 0 },
              { cmd := 255, status := 0 }] : List WCON.Confirmation).set 1
            { cmd := 0x6C
              status := if 0x6C ∈ ThyoneI.noStatusCodes then WCON.CMD_Status_NoStatus
                else if 0x6C = ThyoneI.THYONEI_CMD_GPIO_REMOTE_READ_CNF then
                  WCON.CMD_Status_Invalid
                else 0x00 } :=
  C10_dispatcher_insertion.1
    { ThyoneI.idleState false with
      cmdConfirmation_array :=
        [{ cmd := 0x44, status := 0 }, { cmd := 255, status := 0 },
         { cmd := 255, status := 0 }] }
    ([0x02, 0x6C, 0x01, 0x00, 0x00, 0x6F] ++ List.replicate 229 0) 0x6C 1 0 0 1
    { cmd := 255, status := 0 } rfl rfl rfl rfl (by decide) (by decide) (by decide)
    (by decide) rfl rfl
    (fun j hj sj hsj => by
      have hj0 : j = 0 := by omega
      subst hj0
      have e : sj = { cmd := 0x44, status := 0 } := (Option.some.inj hsj).symm
      rw [e]
      decide)

/-! ## Frames and the insertion loop -/

namespace WCON

theorem frame_eq (c : Nat) (p : List Nat) :
    frame c p = [CMD_STX, c, p.length % 256, p.length / 256] ++ p
      ++ [xorAll ([CMD_STX, c, p.length % 256, p.length / 256] ++ p)] := rfl

theorem frame_length (c : Nat) (p : List Nat) : (frame c p).length = p.length + 5 := by
  simp [frame]

theorem frame_payload_length (p : List Nat) : p.length = p.length % 256 + 256 * (p.length / 256) :=
  (Nat.mod_add_div _ _).symm

/-- The insertion loop passes over occupied slots and writes the first empty one. -/
theorem storeConfirmation_append (c e : Confirmation) (occ es : List Confirmation)
    (hocc : ∀ x ∈ occ, x.cmd ≠ CNFINVALID) (he : e.cmd = CNFINVALID) :
    storeConfirmation c (occ ++ e :: es) = occ ++ c :: es := by
  induction occ with
  | nil => simp [storeConfirmation, he]
  | cons a occ ih =>
    rw [List.cons_append, storeConfirmation, if_neg (hocc a (by simp)),
      ih (fun x hx => hocc x (by simp [hx]))]
    rfl

/-- Confirmations stored one after the other fill the empty slots in arrival order; what
arrives after the last slot is taken is dropped. -/
theorem storeConfirmation_foldl (confs : List Confirmation) :
    ∀ (occ empties : List Confirmation),
    (∀ x ∈ occ, x.cmd ≠ CNFINVALID) → (∀ x ∈ empties, x.cmd = CNFINVALID) →
    (∀ x ∈ confs, x.cmd ≠ CNFINVALID) →
    confs.foldl (fun arr c => storeConfirmation c arr) (occ ++ empties)
      = occ ++ confs.take empties.length ++ empties.drop confs.length := by
  induction confs with
  | nil => intro occ empties _ _ _; simp
  | cons c confs ih =>
    intro occ empties hocc hemp hc
    rw [List.foldl_cons]
    cases empties with
    | nil =>
      rw [List.append_nil, storeConfirmation_full c occ hocc]
      have := ih occ [] hocc (by simp) (fun x hx => hc x (by simp [hx]))
      simpa using this
    | cons e es =>
      rw [storeConfirmation_append c e occ es hocc (hemp e (by simp))]
      have h1 : occ ++ c :: es = (occ ++ [c]) ++ es := by simp
      rw [h1, ih (occ ++ [c]) es
        (by
          intro x hx
          rcases List.mem_append.1 hx with h | h
          · exact hocc x h
          · simp at h; rw [h]; exact hc c (by simp))
        (fun x hx => hemp x (by simp [hx])) (fun x hx => hc x (by simp [hx]))]
      simp

/-- In an array whose codes are pairwise distinct the scan for the code of slot `i` ends
at slot `i`. -/
theorem scan_nodup (arr : List Confirmation) (hnd : (arr.map (fun e => e.cmd)).Nodup) :
    ∀ (i : Nat) (e : Confirmation) (st : Nat), arr[i]? = some e →
      scanConfirmations e.cmd st arr = some (decide (e.status = st)) := by
  induction arr with
  | nil => intro i e st h; simp at h
  | cons a arr ih =>
    intro i e st h
    rw [scanConfirmations]
    cases i with
    | zero =>
      simp only [List.getElem?_cons_zero, Option.some.injEq] at h
      subst h
      rw [if_pos rfl]
    | succ i =>
      simp only [List.getElem?_cons_succ] at h
      rw [List.map_cons, List.nodup_cons] at hnd
      have hne : e.cmd ≠ a.cmd := by
        intro heq
        apply hnd.1
        rw [← heq]
        exact List.mem_map.2 ⟨e, List.getElem?_mem h, rfl⟩
      rw [if_neg hne]
      exact ih hnd.2 i e st h

end WCON

namespace ThyoneI
open WCON

/-- A checksum-valid frame whose code produces a confirmation entry, delivered byte by
byte to the idle receiver: the entry goes through the insertion loop and the receiver is
idle again. -/
theorem thy_feed_confirm (s : State) (c : Nat) (p : List Nat)
    (hidle : s.RxByteCounter = 0) (hN : p.length + 5 ≤ MAX_CMD_LENGTH)
    (hbuf : s.RxBuffer.length = MAX_CMD_LENGTH) (hpkt : s.RxPacket.length = MAX_CMD_LENGTH)
    (hc : c ∈ noStatusCodes ∨ c ∈ statusCodes ∨ c = THYONEI_CMD_GPIO_REMOTE_READ_CNF) :
    ∃ s1 d, feed s (frame c p) = some s1
      ∧ (frame c p)[CMD_POSITION_DATA]? = some d
      ∧ s1.RxByteCounter = 0 ∧ s1.BytesToReceive = 0
      ∧ s1.RxBuffer.length = MAX_CMD_LENGTH ∧ s1.RxPacket.length = MAX_CMD_LENGTH
      ∧ s1.RxCallback = s.RxCallback
      ∧ s1.cmdConfirmation_array = storeConfirmation
          { cmd := c
            status := if c ∈ noStatusCodes then CMD_Status_NoStatus
              else if c = THYONEI_CMD_GPIO_REMOTE_READ_CNF then CMD_Status_Invalid
              else d } s.cmdConfirmation_array
      ∧ s1.trace = s.trace ++ [Event.dispatch (frame c p)] := by
  have hN' : p.length + 5 ≤ 235 := hN
  have hbuf' : s.RxBuffer.length = 235 := hbuf
  have hpkt' : s.RxPacket.length = 235 := hpkt
  have hd : ∃ d, (frame c p)[CMD_POSITION_DATA]? = some d := by
    have : CMD_POSITION_DATA < (frame c p).length := by
      rw [frame_length]; simp only [CMD_POSITION_DATA]; omega
    exact ⟨_, List.getElem?_eq_getElem this⟩
  obtain ⟨d, hd⟩ := hd
  have hsw := thy_switch_confirm s.RxCallback
    (frame c p ++ s.RxPacket.drop (p.length + 5)) c d
    (by simp [frame, CMD_POSITION_CMD])
    (by
      rw [List.getElem?_append_left (by rw [frame_length]; simp only [CMD_POSITION_DATA]; omega)]
      exact hd) hc
  rw [frame_eq] at hsw
  have hfeed := thy_feed_valid s c _ _ p hidle (frame_payload_length p) hN (by omega) (by omega)
  rw [hsw] at hfeed
  refine ⟨_, d, hfeed, hd, rfl, rfl, ?_, ?_, rfl, rfl, ?_⟩
  · simp only [List.length_append, List.length_cons, List.length_nil, List.length_drop]
    rw [thy_MAX_CMD_LENGTH_eq]
    omega
  · simp only [List.length_append, List.length_cons, List.length_nil, List.length_drop]
    rw [thy_MAX_CMD_LENGTH_eq]
    omega
  · simp [frame]

end ThyoneI

namespace WCON

/-- Entries whose codes are those of the frames, seen through `List.Forall₂`. -/
theorem forall₂_cmd {α : Type} (R : α → Confirmation → Prop) (code : α → Nat)
    (hR : ∀ f e, R f e → e.cmd = code f) (frames : List α) (confs : List Confirmation)
    (h : List.Forall₂ R frames confs) : confs.map (fun e => e.cmd) = frames.map code := by
  induction h with
  | nil => rfl
  | cons hfe _ ih => simp [hR _ _ hfe, ih]

theorem map_getElem?_eq {α β : Type} (f : α → Nat) (g : β → Nat) (l : List α) (m : List β)
    (h : m.map g = l.map f) (i : Nat) (a : α) (b : β) (ha : l[i]? = some a)
    (hb : m[i]? = some b) : g b = f a := by
  have h1 : (m.map g)[i]? = some (g b) := by simp [hb]
  have h2 : (l.map f)[i]? = some (f a) := by simp [ha]
  rw [h, h2] at h1
  exact (Option.some.inj h1).symm

end WCON

namespace ThyoneI
open WCON

theorem thy_correlatable_ne_invalid (c : Nat)
    (hc : c ∈ noStatusCodes ∨ c ∈ statusCodes ∨ c = THYONEI_CMD_GPIO_REMOTE_READ_CNF) :
    c ≠ CNFINVALID := by
  intro h
  subst h
  revert hc
  decide

/-- Checksum-valid confirmation frames delivered back to back from the idle receiver:
each one goes through the insertion loop, in arrival order. -/
theorem thy_feed_confirms (frames : List (Nat × List Nat)) : ∀ (s : State),
    s.RxByteCounter = 0 → s.RxBuffer.length = MAX_CMD_LENGTH →
    s.RxPacket.length = MAX_CMD_LENGTH →
    (∀ f ∈ frames, (f.1 ∈ noStatusCodes ∨ f.1 ∈ statusCodes
        ∨ f.1 = THYONEI_CMD_GPIO_REMOTE_READ_CNF) ∧ f.2.length + 5 ≤ MAX_CMD_LENGTH) →
    ∃ s1 confs, feed s (frames.map (fun f => frame f.1 f.2)).flatten = some s1
      ∧ s1.RxByteCounter = 0
      ∧ List.Forall₂ (fun (f : Nat × List Nat) (e : Confirmation) =>
          e.cmd = f.1
          ∧ (f.1 ∈ noStatusCodes → e.status = CMD_Status_NoStatus)
          ∧ (f.1 = THYONEI_CMD_GPIO_REMOTE_READ_CNF → e.status = CMD_Status_Invalid)
          ∧ (f.1 ∈ statusCodes → ∀ d rest, f.2 = d :: rest → e.status = d)) frames confs
      ∧ s1.cmdConfirmation_array
          = confs.foldl (fun arr c => storeConfirmation c arr) s.cmdConfirmation_array := by
  induction frames with
  | nil =>
    intro s hidle _ _ _
    exact ⟨s, [], rfl, hidle, List.Forall₂.nil, rfl⟩
  | cons f frames ih =>
    intro s hidle hbuf hpkt hall
    obtain ⟨hc, hN⟩ := hall f (by simp)
    obtain ⟨s1, d, hfeed, hd, hc1, _, hb1, hk1, _, harr, _⟩ :=
      thy_feed_confirm s f.1 f.2 hidle hN hbuf hpkt hc
    obtain ⟨s2, confs, hfeed2, hc2, hR, harr2⟩ :=
      ih s1 hc1 hb1 hk1 (fun g hg => hall g (by simp [hg]))
    refine ⟨s2, ({ cmd := f.1
                   status := if f.1 ∈ noStatusCodes then CMD_Status_NoStatus
                     else if f.1 = THYONEI_CMD_GPIO_REMOTE_READ_CNF then CMD_Status_Invalid
                     else d } : Confirmation) :: confs, ?_, hc2,
      List.Forall₂.cons ⟨rfl, ?_, ?_, ?_⟩ hR, ?_⟩
    · rw [List.map_cons, List.flatten_cons, thy_feed_append, hfeed, Option.some_bind, hfeed2]
    · intro hn
      rw [if_pos hn]
    · intro hr
      rw [if_neg (by rw [hr]; decide), if_pos hr]
    · intro hs d1 rest hp
      rw [if_neg (thy_status_not_noStatus _ hs), if_neg (thy_status_ne_read _ hs)]
      rw [hp] at hd
      simp [frame, CMD_POSITION_DATA] at hd
      exact hd.symm
    · rw [harr2, harr, List.foldl_cons]

end ThyoneI

namespace WCON

/-- The capacity bound on the level of the array: more confirmations than slots, with
pairwise distinct codes, stored into an empty array. -/
theorem capacity_core (arr confs : List Confirmation)
    (hemp : ∀ x ∈ arr, x.cmd = CNFINVALID) (hne : ∀ x ∈ confs, x.cmd ≠ CNFINVALID)
    (hnd : (confs.map (fun e => e.cmd)).Nodup) (hlen : arr.length ≤ confs.length) :
    confs.foldl (fun a c => storeConfirmation c a) arr = confs.take arr.length
    ∧ (∀ (i : Nat) (e : Confirmation) (st : Nat), (confs.take arr.length)[i]? = some e →
        scanConfirmations e.cmd st (confs.take arr.length) = some (decide (e.status = st)))
    ∧ (∀ e ∈ confs.drop arr.length, ∀ st,
        scanConfirmations e.cmd st (confs.take arr.length) = none) := by
  refine ⟨?_, ?_, ?_⟩
  · have h := storeConfirmation_foldl confs [] arr (by simp) hemp hne
    simp only [List.nil_append] at h
    rw [h, List.drop_eq_nil_of_le hlen, List.append_nil]
  · intro i e st hi
    refine scan_nodup _ ?_ i e st hi
    rw [← List.take_append_drop arr.length confs, List.map_append] at hnd
    exact (List.nodup_append.1 hnd).1
  · intro e he st
    rw [scan_eq_none_iff]
    intro slot hs heq
    rw [← List.take_append_drop arr.length confs, List.map_append] at hnd
    have hdis := (List.nodup_append.1 hnd).2.2
    exact hdis (List.mem_map.2 ⟨slot, hs, heq⟩) (List.mem_map.2 ⟨e, he, rfl⟩)

end WCON

namespace ProteusIII
open WCON

theorem pro_correlatable_ne_invalid (c : Nat)
    (hc : c = PROTEUSIII_CMD_GETDEVICES_CNF ∨ c ∈ statusCodes
      ∨ c = PROTEUSIII_CMD_GETSTATE_CNF) : c ≠ CNFINVALID := by
  intro h
  subst h
  revert hc
  decide

/-- A checksum-valid frame whose code produces a confirmation entry, delivered byte by
byte to the idle receiver: the entry goes through the insertion loop and the receiver is
idle again. -/
theorem pro_feed_confirm (h : Header) (s : State) (c : Nat) (p : List Nat)
    (hidle : s.rxByteCounter = 0) (hN : p.length + 5 < 65536)
    (hbuf : p.length + 5 ≤ s.rxBuffer.length) (hpkt : p.length + 5 ≤ s.rxPacket.length)
    (hc : c = PROTEUSIII_CMD_GETDEVICES_CNF ∨ c ∈ statusCodes
      ∨ c = PROTEUSIII_CMD_GETSTATE_CNF) :
    ∃ s1 d, feed h s (frame c p) = some s1
      ∧ (frame c p)[CMD_POSITION_DATA]? = some d
      ∧ s1.rxByteCounter = 0 ∧ s1.bytesToReceive = 0
      ∧ s1.rxBuffer.length = s.rxBuffer.length ∧ s1.rxPacket.length = s.rxPacket.length
      ∧ s1.callbacks = s.callbacks ∧ s1.bleState = s.bleState
      ∧ s1.cmdConfirmationArray = storeConfirmation
          { cmd := c
            status := if c = PROTEUSIII_CMD_GETSTATE_CNF then CMD_Status_NoStatus else d }
          s.cmdConfirmationArray
      ∧ s1.trace = s.trace ++ [Event.dispatch (frame c p)] := by
  have hd : ∃ d, (frame c p)[CMD_POSITION_DATA]? = some d := by
    have : CMD_POSITION_DATA < (frame c p).length := by
      rw [frame_length]; simp only [CMD_POSITION_DATA]; omega
    exact ⟨_, List.getElem?_eq_getElem this⟩
  obtain ⟨d, hd⟩ := hd
  have hsw := pro_switch_confirm h s
    (frame c p ++ s.rxPacket.drop (p.length + 5)) c d
    (by simp [frame, CMD_POSITION_CMD])
    (by
      rw [List.getElem?_append_left (by rw [frame_length]; simp only [CMD_POSITION_DATA]; omega)]
      exact hd) hc
  rw [frame_eq] at hsw
  have hfeed := pro_feed_valid h s c _ _ p hidle (frame_payload_length p) hN hbuf hpkt
  rw [hsw] at hfeed
  refine ⟨_, d, hfeed, hd, rfl, rfl, ?_, ?_, rfl, rfl, rfl, ?_⟩
  · simp only [List.length_append, List.length_cons, List.length_nil, List.length_drop]
    omega
  · simp only [List.length_append, List.length_cons, List.length_nil, List.length_drop]
    omega
  · simp [frame]

/-- Checksum-valid confirmation frames delivered back to back from the idle receiver:
each one goes through the insertion loop, in arrival order. -/
theorem pro_feed_confirms (h : Header) (frames : List (Nat × List Nat)) : ∀ (s : State),
    s.rxByteCounter = 0 →
    (∀ f ∈ frames, (f.1 = PROTEUSIII_CMD_GETDEVICES_CNF ∨ f.1 ∈ statusCodes
        ∨ f.1 = PROTEUSIII_CMD_GETSTATE_CNF) ∧ f.2.length + 5 < 65536
      ∧ f.2.length + 5 ≤ s.rxBuffer.length ∧ f.2.length + 5 ≤ s.rxPacket.length) →
    ∃ s1 confs, feed h s (frames.map (fun f => frame f.1 f.2)).flatten = some s1
      ∧ s1.rxByteCounter = 0
      ∧ List.Forall₂ (fun (f : Nat × List Nat) (e : Confirmation) =>
          e.cmd = f.1
          ∧ (f.1 = PROTEUSIII_CMD_GETSTATE_CNF → e.status = CMD_Status_NoStatus)
          ∧ (f.1 ≠ PROTEUSIII_CMD_GETSTATE_CNF → ∀ d rest, f.2 = d :: rest → e.status = d))
          frames confs
      ∧ s1.cmdConfirmationArray
          = confs.foldl (fun arr c => storeConfirmation c arr) s.cmdConfirmationArray := by
  induction frames with
  | nil =>
    intro s hidle _
    exact ⟨s, [], rfl, hidle, List.Forall₂.nil, rfl⟩
  | cons f frames ih =>
    intro s hidle hall
    obtain ⟨hc, hN, hbuf, hpkt⟩ := hall f (by simp)
    obtain ⟨s1, d, hfeed, hd, hc1, _, hb1, hk1, _, _, harr, _⟩ :=
      pro_feed_confirm h s f.1 f.2 hidle hN hbuf hpkt hc
    obtain ⟨s2, confs, hfeed2, hc2, hR, harr2⟩ :=
      ih s1 hc1 (fun g hg => by
        obtain ⟨a, b, c, d⟩ := hall g (by simp [hg])
        exact ⟨a, b, by rw [hb1]; exact c, by rw [hk1]; exact d⟩)
    refine ⟨s2, ({ cmd := f.1
                   status := if f.1 = PROTEUSIII_CMD_GETSTATE_CNF then CMD_Status_NoStatus
                     else d } : Confirmation) :: confs, ?_, hc2,
      List.Forall₂.cons ⟨rfl, ?_, ?_⟩ hR, ?_⟩
    · rw [List.map_cons, List.flatten_cons, pro_feed_append, hfeed, Option.some_bind, hfeed2]
    · intro hn
      rw [if_pos hn]
    · intro hs d1 rest hp
      rw [if_neg hs]
      rw [hp] at hd
      simp [frame, CMD_POSITION_DATA] at hd
      exact hd.symm
    · rw [harr2, harr, List.foldl_cons]

end ProteusIII

/-! ## Capacity of the confirmation array (C11) -/

/-- C11 (capacity bound, both drivers; capacity 3 on Thyone-I, 2 on Proteus-III): from
the idle receiver and an array of empty slots, more checksum-valid confirmation frames
than there are slots, with pairwise distinct codes, are delivered byte by byte.
Afterwards the slots hold the entries of the first frames in arrival order (the code of
the frame, with the status that belongs to its `case` group); `Wait4CNF` without reset
finds each of these codes at its first poll and returns the comparison of the stored
status with the expected one; for the code of every later frame `Wait4CNF` without reset
returns `false` (nothing more arriving; on Thyone-I the tick counter has to get past the
time-out). -/
theorem C11_capacity_bound :
    (∀ (s : ThyoneI.State) (frames : List (Nat × List Nat)),
      s.RxByteCounter = 0 →
      s.RxBuffer.length = ThyoneI.MAX_CMD_LENGTH →
      s.RxPacket.length = ThyoneI.MAX_CMD_LENGTH →
      s.cmdConfirmation_array.length = ThyoneI.CMDCONFIRMATIONARRAY_LENGTH →
      (∀ slot ∈ s.cmdConfirmation_array, slot.cmd = WCON.CNFINVALID) →
      (∀ f ∈ frames, (f.1 ∈ ThyoneI.noStatusCodes ∨ f.1 ∈ ThyoneI.statusCodes
          ∨ f.1 = ThyoneI.THYONEI_CMD_GPIO_REMOTE_READ_CNF)
        ∧ f.2.length + 5 ≤ ThyoneI.MAX_CMD_LENGTH) →
      (frames.map Prod.fst).Nodup →
      ThyoneI.CMDCONFIRMATIONARRAY_LENGTH < frames.length →
      ∃ s1, ThyoneI.feed s (frames.map (fun f => WCON.frame f.1 f.2)).flatten = some s1
        ∧ List.Forall₂ (fun (f : Nat × List Nat) (e : WCON.Confirmation) =>
            e.cmd = f.1
            ∧ (f.1 ∈ ThyoneI.noStatusCodes → e.status = WCON.CMD_Status_NoStatus)
            ∧ (f.1 = ThyoneI.THYONEI_CMD_GPIO_REMOTE_READ_CNF →
                e.status = WCON.CMD_Status_Invalid)
            ∧ (f.1 ∈ ThyoneI.statusCodes → ∀ d rest, f.2 = d :: rest → e.status = d))
            (frames.take ThyoneI.CMDCONFIRMATIONARRAY_LENGTH) s1.cmdConfirmation_array
        ∧ (∀ (i : Nat) (f : Nat × List Nat) (e : WCON.Confirmation),
            (frames.take ThyoneI.CMDCONFIRMATIONARRAY_LENGTH)[i]? = some f →
            s1.cmdConfirmation_array[i]? = some e →
            ∀ (env : ThyoneI.Env) (fuel : Nat) (max_time_ms : Int) (st : Nat),
              ∃ s2, ThyoneI.Wait4CNF env (fuel + 1) s1 max_time_ms f.1 st false
                = some (decide (e.status = st), s2))
        ∧ (∀ f ∈ frames.drop ThyoneI.CMDCONFIRMATIONARRAY_LENGTH,
            ∀ (env : ThyoneI.Env) (max_time_ms : Int) (st : Nat),
              env.silent → (∃ k, env.timedOut max_time_ms k) →
              ∃ fuel0, ∀ fuel, fuel0 ≤ fuel →
                ∃ s2, ThyoneI.Wait4CNF env fuel s1 max_time_ms f.1 st false
                  = some (false, s2))) ∧
    (∀ (h : ProteusIII.Header) (s : ProteusIII.State) (frames : List (Nat × List Nat)),
      s.rxByteCounter = 0 →
      s.cmdConfirmationArray.length = ProteusIII.CMDCONFIRMATIONARRAY_LENGTH →
      (∀ slot ∈ s.cmdConfirmationArray, slot.cmd = WCON.CNFINVALID) →
      (∀ f ∈ frames, (f.1 = ProteusIII.PROTEUSIII_CMD_GETDEVICES_CNF
          ∨ f.1 ∈ ProteusIII.statusCodes ∨ f.1 = ProteusIII.PROTEUSIII_CMD_GETSTATE_CNF)
        ∧ f.2.length + 5 < 65536
        ∧ f.2.length + 5 ≤ s.rxBuffer.length ∧ f.2.length + 5 ≤ s.rxPacket.length) →
      (frames.map Prod.fst).Nodup →
      ProteusIII.CMDCONFIRMATIONARRAY_LENGTH < frames.length →
      ∃ s1, ProteusIII.feed h s (frames.map (fun f => WCON.frame f.1 f.2)).flatten = some s1
        ∧ List.Forall₂ (fun (f : Nat × List Nat) (e : WCON.Confirmation) =>
            e.cmd = f.1
            ∧ (f.1 = ProteusIII.PROTEUSIII_CMD_GETSTATE_CNF →
                e.status = WCON.CMD_Status_NoStatus)
            ∧ (f.1 ≠ ProteusIII.PROTEUSIII_CMD_GETSTATE_CNF →
                ∀ d rest, f.2 = d :: rest → e.status = d))
            (frames.take ProteusIII.CMDCONFIRMATIONARRAY_LENGTH) s1.cmdConfirmationArray
        ∧ (∀ (i : Nat) (f : Nat × List Nat) (e : WCON.Confirmation),
            (frames.take ProteusIII.CMDCONFIRMATIONARRAY_LENGTH)[i]? = some f →
            s1.cmdConfirmationArray[i]? = some e →
            ∀ (env : ProteusIII.Env) (maxTimeMs : Int) (st : Nat),
              ProteusIII.Wait4CNF h env s1 maxTimeMs f.1 st false
                = some (decide (e.status = st), s1))
        ∧ (∀ f ∈ frames.drop ProteusIII.CMDCONFIRMATIONARRAY_LENGTH,
            ∀ (env : ProteusIII.Env) (maxTimeMs : Int) (st : Nat),
              env.silent →
              ∃ s2, ProteusIII.Wait4CNF h env s1 maxTimeMs f.1 st false
                = some (false, s2))) := by
  constructor
  · intro s frames hidle hbuf hpkt hlen hemp hall hnd hmore
    obtain ⟨s1, confs, hfeed, _, hR, harr⟩ :=
      ThyoneI.thy_feed_confirms frames s hidle hbuf hpkt hall
    have hcmd := WCON.forall₂_cmd _ Prod.fst (fun f e hfe => hfe.1) frames confs hR
    have hne : ∀ x ∈ confs, x.cmd ≠ WCON.CNFINVALID := by
      intro x hx
      have hx' : x.cmd ∈ frames.map Prod.fst := by
        rw [← hcmd]
        exact List.mem_map.2 ⟨x, hx, rfl⟩
      obtain ⟨f, hf, hfx⟩ := List.mem_map.1 hx'
      rw [← hfx]
      exact ThyoneI.thy_correlatable_ne_invalid _ (hall f hf).1
    have hclen : confs.length = frames.length := hR.length_eq.symm
    obtain ⟨hfin, hfound, hlost⟩ := WCON.capacity_core s.cmdConfirmation_array confs hemp hne
      (by rw [hcmd]; exact hnd) (by rw [hlen, hclen]; exact Nat.le_of_lt hmore)
    rw [hlen] at hfin hfound hlost
    rw [hfin] at harr
    refine ⟨s1, hfeed, ?_, ?_, ?_⟩
    · rw [harr]
      exact List.forall₂_take _ hR
    · intro i f e hf he env fuel max st
      rw [harr] at he
      have hef : e.cmd = f.1 :=
        WCON.map_getElem?_eq Prod.fst (fun e => e.cmd) _ _
          (by rw [List.map_take, List.map_take, hcmd]) i f e hf he
      have hscan := hfound i e st he
      rw [hef, ← harr] at hscan
      exact ⟨_, ThyoneI.thy_wait_found env fuel s1 max f.1 st _ hscan⟩
    · intro f hf env max st hq hclock
      obtain ⟨j, hj⟩ := List.mem_iff_getElem?.1 hf
      have hjlt : j < (confs.drop ThyoneI.CMDCONFIRMATIONARRAY_LENGTH).length := by
        rw [List.length_drop, hclen, ← List.length_drop]
        exact (List.getElem?_eq_some.1 hj).1
      have he : (confs.drop ThyoneI.CMDCONFIRMATIONARRAY_LENGTH)[j]?
          = some ((confs.drop ThyoneI.CMDCONFIRMATIONARRAY_LENGTH)[j]) :=
        List.getElem?_eq_getElem hjlt
      have hef : ((confs.drop ThyoneI.CMDCONFIRMATIONARRAY_LENGTH)[j]).cmd = f.1 :=
        WCON.map_getElem?_eq Prod.fst (fun e => e.cmd) _ _
          (by rw [List.map_drop, List.map_drop, hcmd]) j f _ hj he
      have hscan := hlost _ (List.getElem?_mem he) st
      rw [hef, ← harr] at hscan
      obtain ⟨fuel0, hfuel⟩ := ThyoneI.thy_wait_silent env hq s1 max f.1 st false
        (by simpa using hscan) hclock
      exact ⟨fuel0, fun fuel hge => by
        obtain ⟨s2, h2, _⟩ := hfuel fuel hge
        exact ⟨s2, h2⟩⟩
  · intro h s frames hidle hlen hemp hall hnd hmore
    obtain ⟨s1, confs, hfeed, _, hR, harr⟩ :=
      ProteusIII.pro_feed_confirms h frames s hidle hall
    have hcmd := WCON.forall₂_cmd _ Prod.fst (fun f e hfe => hfe.1) frames confs hR
    have hne : ∀ x ∈ confs, x.cmd ≠ WCON.CNFINVALID := by
      intro x hx
      have hx' : x.cmd ∈ frames.map Prod.fst := by
        rw [← hcmd]
        exact List.mem_map.2 ⟨x, hx, rfl⟩
      obtain ⟨f, hf, hfx⟩ := List.mem_map.1 hx'
      rw [← hfx]
      exact ProteusIII.pro_correlatable_ne_invalid _ (hall f hf).1
    have hclen : confs.length = frames.length := hR.length_eq.symm
    obtain ⟨hfin, hfound, hlost⟩ := WCON.capacity_core s.cmdConfirmationArray confs hemp hne
      (by rw [hcmd]; exact hnd) (by rw [hlen, hclen]; exact Nat.le_of_lt hmore)
    rw [hlen] at hfin hfound hlost
    rw [hfin] at harr
    refine ⟨s1, hfeed, ?_, ?_, ?_⟩
    · rw [harr]
      exact List.forall₂_take _ hR
    · intro i f e hf he env max st
      rw [harr] at he
      have hef : e.cmd = f.1 :=
        WCON.map_getElem?_eq Prod.fst (fun e => e.cmd) _ _
          (by rw [List.map_take, List.map_take, hcmd]) i f e hf he
      have hscan := hfound i e st he
      rw [hef, ← harr] at hscan
      exact ProteusIII.pro_wait_found h env s1 max f.1 st _ hscan
    · intro f hf env max st hq
      obtain ⟨j, hj⟩ := List.mem_iff_getElem?.1 hf
      have hjlt : j < (confs.drop ProteusIII.CMDCONFIRMATIONARRAY_LENGTH).length := by
        rw [List.length_drop, hclen, ← List.length_drop]
        exact (List.getElem?_eq_some.1 hj).1
      have he : (confs.drop ProteusIII.CMDCONFIRMATIONARRAY_LENGTH)[j]?
          = some ((confs.drop ProteusIII.CMDCONFIRMATIONARRAY_LENGTH)[j]) :=
        List.getElem?_eq_getElem hjlt
      have hef : ((confs.drop ProteusIII.CMDCONFIRMATIONARRAY_LENGTH)[j]).cmd = f.1 :=
        WCON.map_getElem?_eq Prod.fst (fun e => e.cmd) _ _
          (by rw [List.map_drop, List.map_drop, hcmd]) j f _ hj he
      have hscan := hlost _ (List.getElem?_mem he) st
      rw [hef, ← harr] at hscan
      exact ⟨_, ProteusIII.pro_wait_silent h env hq s1 max f.1 st false (by simpa using hscan)⟩

set_option maxRecDepth 100000 in
/-- Witness of C11: Proteus-III (two slots) and the three frames `GETSTATE_CNF` with
payload `[0x01]`, `SET_CNF` with payload `[0x00]` and `GET_CNF` with payload
`[0x00, 0x05]`, delivered to the idle receiver. -/
theorem C11_capacity_bound_witness :
    ∃ s1, ProteusIII.feed ProteusIII.exampleHeader
          (ProteusIII.idleState ProteusIII.exampleHeader ProteusIII.noCallbacks)
          (([(0x41, [0x01]), (0x51, [0x00]), (0x50, [0x00, 0x05])] :
            List (Nat × List Nat)).map (fun f => WCON.frame f.1 f.2)).flatten = some s1
      ∧ s1.cmdConfirmationArray = [{ cmd := 0x41, status := 4 }, { cmd := 0x51, status := 0 }]
      ∧ (∀ (env : ProteusIII.Env) (maxTimeMs : Int),
          ProteusIII.Wait4CNF ProteusIII.exampleHeader env s1 maxTimeMs 0x51 0 false
            = some (true, s1))
      ∧ (∀ (env : ProteusIII.Env) (maxTimeMs : Int), env.silent →
          ∃ s2, ProteusIII.Wait4CNF ProteusIII.exampleHeader env s1 maxTimeMs 0x50 0 false
            = some (false, s2)) := by
  obtain ⟨s1, hfeed, hR, hfound, hlost⟩ := C11_capacity_bound.2 ProteusIII.exampleHeader
    (ProteusIII.idleState ProteusIII.exampleHeader ProteusIII.noCallbacks)
    [(0x41, [0x01]), (0x51, [0x00]), (0x50, [0x00, 0x05])] rfl rfl (by decide) (by decide)
    (by decide) (by decide)
  have harr : s1.cmdConfirmationArray
      = [{ cmd := 0x41, status := 4 }, { cmd := 0x51, status := 0 }] := by
    match hs : s1.cmdConfirmationArray, hR with
    | [e0, e1], .cons h0 (.cons h1 .nil) =>
      obtain ⟨c0, st0⟩ := e0
      obtain ⟨c1, st1⟩ := e1
      have a0 : c0 = 0x41 := h0.1
      have b0 : st0 = 4 := h0.2.1 rfl
      have a1 : c1 = 0x51 := h1.1
      have b1 : st1 = 0 := h1.2.2 (by decide) 0 [] rfl
      subst a0 b0 a1 b1
      rfl
  refine ⟨s1, hfeed, harr, ?_, ?_⟩
  · intro env maxTimeMs
    have := hfound 1 (0x51, [0x00]) { cmd := 0x51, status := 0 } rfl (by rw [harr]; rfl)
      env maxTimeMs 0
    simpa using this
  · intro env maxTimeMs hq
    exact hlost (0x50, [0x00, 0x05]) (by decide) env maxTimeMs 0 hq

/-! ## Length test of the Thyone-I reassembler (C12) -/

namespace ThyoneI
open WCON

/-- The four header bytes fed to the idle receiver, whatever length they declare: the
test on the length-high byte compares the 16-bit sum with `MAX_CMD_LENGTH`. -/
theorem thy_feed_header_any (s : State) (c lsb msb : Nat) (h0 : s.RxByteCounter = 0)
    (hl : 4 ≤ s.RxBuffer.length) :
    feed s [CMD_STX, c, lsb, msb]
      = if (lsb + ((msb <<< 8) + 5)) % 65536 > MAX_CMD_LENGTH then
          some { s with RxBuffer := [CMD_STX, c, lsb, msb] ++ s.RxBuffer.drop 4,
                        BytesToReceive := 0, RxByteCounter := 0 }
        else
          some { s with RxBuffer := [CMD_STX, c, lsb, msb] ++ s.RxBuffer.drop 4,
                        RxByteCounter := 4,
                        BytesToReceive := (lsb + ((msb <<< 8) + 5)) % 65536 } := by
  obtain ⟨cmdArr, rxPacket, arr, cs, cnt, btr, buf, cb, tr⟩ := s
  simp only at h0 hl
  subst h0
  have h1 : 1 < buf.length := by omega
  have h2 : 2 < buf.length := by omega
  have h3 : 3 < buf.length := by omega
  have h0' : 0 < buf.length := by omega
  rw [thy_feed_cons, thy_step_idle_stx _ rfl (by simpa using h0')]
  simp only [Option.some_bind]
  rw [thy_feed_cons, thy_step_cmd _ c rfl (by simpa using h1)]
  simp only [Option.some_bind]
  rw [thy_feed_cons, thy_step_lsb _ lsb rfl (by simpa using h2)]
  simp only [Option.some_bind]
  rw [thy_feed_cons, thy_step_msb _ msb rfl (by simpa using h3)]
  by_cases hbig : (lsb + ((msb <<< 8) + 5)) % 65536 > MAX_CMD_LENGTH
  · simp only [if_pos hbig, Option.some_bind, thy_feed_nil, set_four _ _ _ _ _ hl]
  · simp only [if_neg hbig, Option.some_bind, thy_feed_nil, set_four _ _ _ _ _ hl]

/-- The length test of the Thyone-I reassembler in terms of the declared payload length
`L = lsb + 256 * msb`: the header is rejected exactly when `(L + 5) mod 65536` exceeds
`MAX_CMD_LENGTH`, which for `L <= 65530` is the test `L + 5 > MAX_CMD_LENGTH`. -/
theorem thy_header_check (s : State) (c lsb msb : Nat) (h0 : s.RxByteCounter = 0)
    (hl : 4 ≤ s.RxBuffer.length) :
    ∃ s1, feed s [CMD_STX, c, lsb, msb] = some s1
      ∧ s1.trace = s.trace ∧ s1.RxBuffer.length = s.RxBuffer.length
      ∧ ((lsb + 256 * msb + 5) % 65536 > MAX_CMD_LENGTH →
          s1.RxByteCounter = 0 ∧ s1.BytesToReceive = 0)
      ∧ ((lsb + 256 * msb + 5) % 65536 ≤ MAX_CMD_LENGTH →
          s1.RxByteCounter = 4 ∧ s1.BytesToReceive = (lsb + 256 * msb + 5) % 65536) := by
  have e : (lsb + ((msb <<< 8) + 5)) % 65536 = (lsb + 256 * msb + 5) % 65536 := by
    rw [Nat.shiftLeft_eq]
    congr 1
    omega
  have hlen : ([CMD_STX, c, lsb, msb] ++ s.RxBuffer.drop 4).length = s.RxBuffer.length := by
    simp only [List.length_append, List.length_cons, List.length_nil, List.length_drop]
    omega
  rw [thy_feed_header_any s c lsb msb h0 hl, e]
  by_cases hbig : (lsb + 256 * msb + 5) % 65536 > MAX_CMD_LENGTH
  · rw [if_pos hbig]
    exact ⟨_, rfl, rfl, hlen, fun _ => ⟨rfl, rfl⟩, fun hle => absurd hbig (Nat.not_lt.2 hle)⟩
  · rw [if_neg hbig]
    exact ⟨_, rfl, rfl, hlen, fun hgt => absurd hgt hbig, fun _ => ⟨rfl, rfl⟩⟩

theorem thy_idle_buffer (cb : Bool) : (idleState cb).RxBuffer.length = 235 := by
  simp only [idleState, List.length_replicate]
  rfl

/-- A receiver past the header whose expected length is not ahead of the counter never
completes the frame: the bytes that follow fill the receive buffer, and the byte after
the last buffer position is written outside the array. -/
theorem thy_feed_overrun (n : Nat) : ∀ (s : State) (bytes : List Nat),
    4 ≤ s.RxByteCounter → s.BytesToReceive ≤ s.RxByteCounter →
    s.RxByteCounter + n = s.RxBuffer.length → s.RxBuffer.length < 65536 →
    bytes.length = n + 1 → feed s bytes = none := by
  induction n with
  | zero =>
    intro s bytes _ _ hn _ hb
    match bytes, hb with
    | [b], _ =>
      have hlt : ¬ (s.RxByteCounter < s.RxBuffer.length) := by omega
      simp [feed, WE_UART_HandleRxByte, hlt]
  | succ n ih =>
    intro s bytes h4 hB hn hlen hb
    match bytes, hb with
    | b :: rest, hb =>
      rw [thy_feed_cons, thy_step_data s b h4 (by omega) (by omega) (by omega), Option.some_bind]
      exact ih _ rest (by simp only; omega) (by simp only; omega)
        (by simp only [List.length_set]; omega) (by simpa using hlen) (by simpa using hb)

end ThyoneI

/-- C12, the failing input on Thyone-I: the header `0x02, c, 0xFB, 0xFF` declares the
payload length `L = 65531`, so `L + 5 = 65536` exceeds `MAX_CMD_LENGTH = 235`, but the
16-bit sum in `BytesToReceive` wraps to 0 and passes the test: for every command byte the
receiver is left accumulating with `RxByteCounter = 4`, `BytesToReceive = 0` instead of
being idle.  No later byte completes such a frame; the 232nd byte after the header is
written behind the end of `RxBuffer`. -/
theorem C12_oversized_length_wraps :
    ThyoneI.MAX_CMD_LENGTH < 0xFB + 256 * 0xFF + 5
    ∧ (∀ c : Nat, ∃ s1, ThyoneI.feed (ThyoneI.idleState false) [0x02, c, 0xFB, 0xFF] = some s1
        ∧ s1.RxByteCounter = 4 ∧ s1.BytesToReceive = 0)
    ∧ (∀ c : Nat, ThyoneI.feed (ThyoneI.idleState false)
        ([0x02, c, 0xFB, 0xFF] ++ List.replicate 232 0) = none) := by
  refine ⟨by decide, ?_, ?_⟩
  · intro c
    obtain ⟨s1, hf, _, _, _, hacc⟩ := ThyoneI.thy_header_check (ThyoneI.idleState false) c
      0xFB 0xFF rfl (by rw [ThyoneI.thy_idle_buffer]; omega)
    exact ⟨s1, hf, hacc (by decide)⟩
  · intro c
    obtain ⟨s1, hf, _, hlen, _, hacc⟩ := ThyoneI.thy_header_check (ThyoneI.idleState false) c
      0xFB 0xFF rfl (by rw [ThyoneI.thy_idle_buffer]; omega)
    obtain ⟨h4, hB⟩ := hacc (by decide)
    rw [ThyoneI.thy_idle_buffer] at hlen
    have hB0 : s1.BytesToReceive = 0 := hB
    rw [ThyoneI.thy_feed_append, hf, Option.some_bind]
    exact ThyoneI.thy_feed_overrun 231 s1 _ (by omega) (by omega) (by omega) (by omega)
      (by rw [List.length_replicate])

/-! ## Length handling of the Proteus-III reassembler (C13) -/

namespace ProteusIII
open WCON

/-- The four header bytes fed to the idle receiver, whatever length they declare:
`ProteusIII_HandleRxByte` has no test on the length-high byte. -/
theorem pro_feed_header_any (h : Header) (s : State) (c lsb msb : Nat)
    (h0 : s.rxByteCounter = 0) (hl : 4 ≤ s.rxBuffer.length) :
    feed h s [CMD_STX, c, lsb, msb]
      = some { s with rxBuffer := [CMD_STX, c, lsb, msb] ++ s.rxBuffer.drop 4,
                      rxByteCounter := 4,
                      bytesToReceive := (lsb + 256 * msb + 5) % 65536 } := by
  have e : (lsb + ((msb <<< 8) + 5)) % 65536 = (lsb + 256 * msb + 5) % 65536 := by
    rw [Nat.shiftLeft_eq]
    congr 1
    omega
  obtain ⟨cmdArr, rxPacket, arr, om, bs, asked, cbs, cs, cnt, btr, buf, tr⟩ := s
  simp only at h0 hl
  subst h0
  have h1 : 1 < buf.length := by omega
  have h2 : 2 < buf.length := by omega
  have h3 : 3 < buf.length := by omega
  have h0' : 0 < buf.length := by omega
  rw [pro_feed_cons, pro_step_idle_stx _ _ rfl (by simpa using h0')]
  simp only [Option.some_bind]
  rw [pro_feed_cons, pro_step_cmd _ _ c rfl (by simpa using h1)]
  simp only [Option.some_bind]
  rw [pro_feed_cons, pro_step_lsb _ _ lsb rfl (by simpa using h2)]
  simp only [Option.some_bind]
  rw [pro_feed_cons, pro_step_msb _ _ msb rfl (by simpa using h3)]
  simp only [e, Option.some_bind, pro_feed_nil, set_four _ _ _ _ _ hl]

/-- A receiver past the header whose expected length lies behind the counter or beyond
the receive buffer never completes the frame: the bytes that follow fill the buffer, and
the byte after the last buffer position is written outside the array. -/
theorem pro_feed_overrun (h : Header) (n : Nat) : ∀ (s : State) (bytes : List Nat),
    4 ≤ s.rxByteCounter →
    (s.bytesToReceive ≤ s.rxByteCounter ∨ s.rxBuffer.length < s.bytesToReceive) →
    s.rxByteCounter + n = s.rxBuffer.length → s.rxBuffer.length < 65536 →
    bytes.length = n + 1 → feed h s bytes = none := by
  induction n with
  | zero =>
    intro s bytes _ _ hn _ hb
    match bytes, hb with
    | [b], _ =>
      have hlt : ¬ (s.rxByteCounter < s.rxBuffer.length) := by omega
      simp [feed, ProteusIII_HandleRxByte, hlt]
  | succ n ih =>
    intro s bytes h4 hB hn hlen hb
    match bytes, hb with
    | b :: rest, hb =>
      rw [pro_feed_cons, pro_step_data h s b h4 (by omega) (by omega) (by omega),
        Option.some_bind]
      exact ih _ rest (by simp only; omega)
        (by simp only [List.length_set]; omega)
        (by simp only [List.length_set]; omega) (by simpa using hlen) (by simpa using hb)

theorem pro_idle_buffer (h : Header) (cb : CallbackConfig) :
    (idleState h cb).rxBuffer.length = MAX_RX_PACKET_LENGTH h := by
  simp only [idleState, List.length_replicate]

end ProteusIII

/-- C13, the failing inputs on Proteus-III: `ProteusIII_HandleRxByte` has no length test.
For every header constant, callback configuration, command byte and pair of length bytes
the four header bytes leave the receiver accumulating with `rxByteCounter = 4` and
`bytesToReceive = (L + 5) mod 65536`, never idle.  With a receive buffer of 255 bytes
(payload maximum 243) the header `0x02, 0x41, 0x00, 0x01` declares `L = 256`, i.e.
`L + 5 = 261` bytes; no later byte completes this frame, and the 252nd byte after the
header is written behind the end of `rxBuffer`. -/
theorem C13_no_length_check :
    (∀ (h : ProteusIII.Header) (cb : ProteusIII.CallbackConfig) (c lsb msb : Nat),
      ∃ s1, ProteusIII.feed h (ProteusIII.idleState h cb) [0x02, c, lsb, msb] = some s1
        ∧ s1.rxByteCounter = 4 ∧ s1.bytesToReceive = (lsb + 256 * msb + 5) % 65536)
    ∧ ProteusIII.MAX_RX_PACKET_LENGTH ProteusIII.exampleHeader < 0x00 + 256 * 0x01 + 5
    ∧ ProteusIII.feed ProteusIII.exampleHeader
        (ProteusIII.idleState ProteusIII.exampleHeader ProteusIII.noCallbacks)
        ([0x02, 0x41, 0x00, 0x01] ++ List.replicate 252 0) = none := by
  have hmax : ∀ h : ProteusIII.Header, 4 ≤ ProteusIII.MAX_RX_PACKET_LENGTH h := by
    intro h
    simp only [ProteusIII.MAX_RX_PACKET_LENGTH]
    omega
  refine ⟨?_, by decide, ?_⟩
  · intro h cb c lsb msb
    exact ⟨_, ProteusIII.pro_feed_header_any h _ c lsb msb rfl
      (by rw [ProteusIII.pro_idle_buffer]; exact hmax h), rfl, rfl⟩
  · have hbuf : (ProteusIII.idleState ProteusIII.exampleHeader
        ProteusIII.noCallbacks).rxBuffer.length = 255 := by
      rw [ProteusIII.pro_idle_buffer]
      decide
    rw [ProteusIII.pro_feed_append, ProteusIII.pro_feed_header_any _ _ 0x41 0x00 0x01 rfl
      (by rw [hbuf]; omega), Option.some_bind]
    refine ProteusIII.pro_feed_overrun _ 251 _ _ (by simp only; omega) (Or.inr ?_) ?_ ?_
      (by rw [List.length_replicate])
    · simp only [List.length_append, List.length_cons, List.length_nil, List.length_drop, hbuf]
      decide
    · simp only [List.length_append, List.length_cons, List.length_nil, List.length_drop, hbuf]
    · simp only [List.length_append, List.length_cons, List.length_nil, List.length_drop, hbuf]
      omega

/-! ## Frames handed to the Thyone-I dispatcher (C14) -/

namespace ThyoneI
open WCON

/-- The calls of the `switch` are callback invocations, whenever it returns. -/
theorem thy_switch_calls (cb : Bool) (pkt : List Nat) (conf : Confirmation)
    (calls : List Event) (h : HandleRxPacket.switch cb pkt = some (conf, calls)) :
    dispatched calls = [] := by
  unfold HandleRxPacket.switch at h
  dsimp only at h
  repeat' (split at h)
  all_goals first
    | (simp only [Option.some.injEq, Prod.mk.injEq] at h; rw [← h.2]; rfl)
    | (exact absurd h (by simp))

/-- What a returning call of `HandleRxPacket` leaves behind. -/
theorem thy_HandleRxPacket_some (s s1 : State) (buf : List Nat)
    (h : HandleRxPacket s buf = some s1) :
    ∃ lsb msb calls, buf[2]? = some lsb ∧ buf[3]? = some msb
      ∧ (lsb + (msb <<< 8)) % 65536 + 5 ≤ buf.length
      ∧ s1.trace = s.trace ++ [Event.dispatch (buf.take ((lsb + (msb <<< 8)) % 65536 + 5))]
          ++ calls
      ∧ dispatched calls = []
      ∧ s1.RxBuffer = s.RxBuffer ∧ s1.RxCallback = s.RxCallback := by
  unfold HandleRxPacket at h
  split at h
  · rename_i lsb msb h2 h3
    dsimp only at h
    split at h
    · simp at h
    · rename_i pkt hm
      split at h
      · simp at h
      · rename_i conf calls hsw
        simp only [Option.some.injEq] at h
        subst h
        refine ⟨lsb, msb, calls, h2, h3, ?_, rfl, thy_switch_calls _ _ _ _ hsw, rfl, rfl⟩
        simp only [memcpy, LENGTH_CMD_OVERHEAD] at hm
        split_ifs at hm with hc
        exact hc.1
  · simp at h

end ThyoneI

namespace ThyoneI
open WCON

theorem thy_step_defined (s s1 : State) (b : Nat) (h : WE_UART_HandleRxByte s b = some s1) :
    s.RxByteCounter < s.RxBuffer.length := by
  by_contra hn
  simp [WE_UART_HandleRxByte, hn] at h

/-- One step of the reassembler keeps the relation between the length bytes in the
buffer and `BytesToReceive`, and a frame it hands to `HandleRxPacket` is as long as its
length bytes declare and not longer than `MAX_CMD_LENGTH`. -/
theorem thy_step_bound (s s1 : State) (b : Nat) (hb : b < 256)
    (hlen : s.RxBuffer.length < 65536)
    (h3 : s.RxByteCounter = 3 →
      s.BytesToReceive < 256 ∧ s.RxBuffer[2]? = some s.BytesToReceive)
    (h4 : 4 ≤ s.RxByteCounter → ∃ lsb msb, s.RxBuffer[2]? = some lsb
      ∧ s.RxBuffer[3]? = some msb ∧ lsb < 256 ∧ msb < 256
      ∧ s.BytesToReceive = (lsb + 256 * msb + 5) % 65536
      ∧ s.BytesToReceive ≤ MAX_CMD_LENGTH)
    (hstep : WE_UART_HandleRxByte s b = some s1) :
    s1.RxBuffer.length = s.RxBuffer.length
    ∧ (s1.RxByteCounter = 3 →
        s1.BytesToReceive < 256 ∧ s1.RxBuffer[2]? = some s1.BytesToReceive)
    ∧ (4 ≤ s1.RxByteCounter → ∃ lsb msb, s1.RxBuffer[2]? = some lsb
        ∧ s1.RxBuffer[3]? = some msb ∧ lsb < 256 ∧ msb < 256
        ∧ s1.BytesToReceive = (lsb + 256 * msb + 5) % 65536
        ∧ s1.BytesToReceive ≤ MAX_CMD_LENGTH)
    ∧ (∀ f ∈ dispatched s1.trace, f ∈ dispatched s.trace
        ∨ ∃ lsb msb, f[2]? = some lsb ∧ f[3]? = some msb
          ∧ f.length = lsb + 256 * msb + 5 ∧ lsb + 256 * msb + 5 ≤ MAX_CMD_LENGTH) := by
  have hl := thy_step_defined s s1 b hstep
  by_cases c0 : s.RxByteCounter = 0
  · by_cases hs : b = CMD_STX
    · subst hs
      rw [thy_step_idle_stx s c0 (by omega)] at hstep
      cases Option.some.inj hstep
      exact ⟨by simp, by simp, by simp, fun f hf => Or.inl hf⟩
    · rw [thy_step_idle_other s b c0 hs (by omega)] at hstep
      cases Option.some.inj hstep
      refine ⟨by simp, ?_, ?_, fun f hf => Or.inl hf⟩
      · intro h; simp only at h; omega
      · intro h; simp only at h; omega
  by_cases c1 : s.RxByteCounter = 1
  · rw [thy_step_cmd s b c1 (by omega)] at hstep
    cases Option.some.inj hstep
    exact ⟨by simp, by simp, by simp, fun f hf => Or.inl hf⟩
  by_cases c2 : s.RxByteCounter = 2
  · rw [thy_step_lsb s b c2 (by omega)] at hstep
    cases Option.some.inj hstep
    refine ⟨by simp, ?_, by simp, fun f hf => Or.inl hf⟩
    intro _
    refine ⟨hb, ?_⟩
    simp only
    rw [List.getElem?_set_self (by omega)]
  by_cases c3 : s.RxByteCounter = 3
  · obtain ⟨hB, h2⟩ := h3 c3
    rw [thy_step_msb s b c3 (by omega)] at hstep
    have e : (s.BytesToReceive + ((b <<< 8) + 5)) % 65536
        = (s.BytesToReceive + 256 * b + 5) % 65536 := by
      rw [Nat.shiftLeft_eq]
      congr 1
      omega
    split_ifs at hstep with hbig
    · cases Option.some.inj hstep
      exact ⟨by simp, by simp, by simp, fun f hf => Or.inl hf⟩
    · cases Option.some.inj hstep
      refine ⟨by simp, by simp, ?_, fun f hf => Or.inl hf⟩
      intro _
      refine ⟨s.BytesToReceive, b, ?_, ?_, hB, hb, e, ?_⟩
      · simp only
        rw [List.getElem?_set_ne (by omega)]
        exact h2
      · simp only
        rw [List.getElem?_set_self (by omega)]
      · exact Nat.not_lt.1 hbig
  have c4 : 4 ≤ s.RxByteCounter := by omega
  obtain ⟨lsb, msb, h2, h3', hlsb, hmsb, hB, hmax⟩ := h4 c4
  have hmax' : s.BytesToReceive ≤ 235 := hmax
  have g2 : (s.RxBuffer.set s.RxByteCounter b)[2]? = some lsb := by
    rw [List.getElem?_set_ne (by omega)]
    exact h2
  have g3 : (s.RxBuffer.set s.RxByteCounter b)[3]? = some msb := by
    rw [List.getElem?_set_ne (by omega)]
    exact h3'
  by_cases hne : s.RxByteCounter + 1 = s.BytesToReceive
  · rw [thy_step_last s b c4 hl (by omega) hne.symm] at hstep
    split at hstep
    · simp at hstep
    · rename_i checksum last hcrc
      split_ifs at hstep with hcs
      · split at hstep
        · simp at hstep
        · rename_i s2 hH
          cases Option.some.inj hstep
          obtain ⟨lsb1, msb1, calls, k2, k3, hfit, htr, hd, hbuf, _⟩ :=
            thy_HandleRxPacket_some _ _ _ hH
          rw [g2] at k2
          rw [g3] at k3
          cases Option.some.inj k2
          cases Option.some.inj k3
          have hL : lsb + 256 * msb + 5 = s.BytesToReceive := by omega
          have e : (lsb + (msb <<< 8)) % 65536 = lsb + 256 * msb := by
            rw [Nat.shiftLeft_eq]
            omega
          rw [e] at hfit htr
          refine ⟨?_, by simp, by simp, ?_⟩
          · simp only [hbuf, List.length_set]
          · intro f hf
            simp only [htr, thy_dispatched_append, dispatched, hd, List.append_nil,
              List.mem_append, List.mem_singleton] at hf
            rcases hf with hf | hf
            · exact Or.inl hf
            · right
              subst hf
              refine ⟨lsb, msb, ?_, ?_, ?_, ?_⟩
              · rw [List.getElem?_take, if_pos (by omega)]
                exact g2
              · rw [List.getElem?_take, if_pos (by omega)]
                exact g3
              · rw [List.length_take]
                omega
              · rw [thy_MAX_CMD_LENGTH_eq]
                omega
      · cases Option.some.inj hstep
        exact ⟨by simp, by simp, by simp, fun f hf => Or.inl hf⟩
  · rw [thy_step_data s b c4 hl (by omega) hne] at hstep
    cases Option.some.inj hstep
    refine ⟨by simp, ?_, ?_, fun f hf => Or.inl hf⟩
    · intro h; simp only at h; omega
    · intro _
      exact ⟨lsb, msb, g2, g3, hlsb, hmsb, hB, hmax⟩

/-- The bound of `thy_step_bound` along a whole byte stream. -/
theorem thy_feed_bound (stream : List Nat) : ∀ (s s1 : State),
    (∀ b ∈ stream, b < 256) → s.RxBuffer.length < 65536 →
    (s.RxByteCounter = 3 →
      s.BytesToReceive < 256 ∧ s.RxBuffer[2]? = some s.BytesToReceive) →
    (4 ≤ s.RxByteCounter → ∃ lsb msb, s.RxBuffer[2]? = some lsb
      ∧ s.RxBuffer[3]? = some msb ∧ lsb < 256 ∧ msb < 256
      ∧ s.BytesToReceive = (lsb + 256 * msb + 5) % 65536
      ∧ s.BytesToReceive ≤ MAX_CMD_LENGTH) →
    feed s stream = some s1 →
    ∀ f ∈ dispatched s1.trace, f ∈ dispatched s.trace
      ∨ ∃ lsb msb, f[2]? = some lsb ∧ f[3]? = some msb
        ∧ f.length = lsb + 256 * msb + 5 ∧ lsb + 256 * msb + 5 ≤ MAX_CMD_LENGTH := by
  induction stream with
  | nil =>
    intro s s1 _ _ _ _ hfeed f hf
    rw [thy_feed_nil] at hfeed
    cases Option.some.inj hfeed
    exact Or.inl hf
  | cons b stream ih =>
    intro s s1 hbytes hlen h3 h4 hfeed f hf
    rw [thy_feed_cons] at hfeed
    cases hstep : WE_UART_HandleRxByte s b with
    | none => rw [hstep] at hfeed; simp at hfeed
    | some s2 =>
      rw [hstep, Option.some_bind] at hfeed
      obtain ⟨hl2, k3, k4, hd⟩ := thy_step_bound s s2 b (hbytes b (by simp)) hlen h3 h4 hstep
      rcases ih s2 s1 (fun x hx => hbytes x (by simp [hx])) (by rw [hl2]; exact hlen) k3 k4
        hfeed f hf with h | h
      · exact hd f h
      · exact Or.inr h

end ThyoneI

namespace ThyoneI
open WCON

theorem thy_idle_packet (cb : Bool) : (idleState cb).RxPacket.length = 235 := by
  simp only [idleState, List.length_replicate]
  rfl

/-- A checksum-valid frame that fits `MAX_CMD_LENGTH`, delivered byte by byte to the idle
receiver, is handed to `HandleRxPacket`. -/
theorem thy_feed_frame_dispatched (s : State) (c : Nat) (p : List Nat)
    (hidle : s.RxByteCounter = 0) (hN : p.length + 5 ≤ MAX_CMD_LENGTH)
    (hbuf : s.RxBuffer.length = MAX_CMD_LENGTH) (hpkt : s.RxPacket.length = MAX_CMD_LENGTH) :
    ∃ s1, feed s (frame c p) = some s1
      ∧ dispatched s1.trace = dispatched s.trace ++ [frame c p] := by
  obtain ⟨s1, hf, _, _, _, _, _, hd⟩ := thy_feed_frame_log s c (p.length % 256) (p.length / 256)
    p (xorAll ([CMD_STX, c, p.length % 256, p.length / 256] ++ p)) hidle
    (frame_payload_length p) hN hbuf hpkt
  rw [if_pos rfl] at hd
  exact ⟨s1, hf, hd⟩

end ThyoneI

/-- C14, counterexample: a `DATA_IND` frame (code `0x84`) with a payload of 225 bytes,
one more than `MAX_PAYLOAD_LENGTH = 224`, delivered to the idle Thyone-I receiver, is
handed to `HandleRxPacket`. -/
theorem C14_payload_225_counterexample :
    ThyoneI.MAX_PAYLOAD_LENGTH < (List.replicate 225 0).length
    ∧ ∃ s1, ThyoneI.feed (ThyoneI.idleState false) (WCON.frame 0x84 (List.replicate 225 0))
          = some s1
        ∧ ThyoneI.dispatched s1.trace = [WCON.frame 0x84 (List.replicate 225 0)] := by
  refine ⟨by rw [List.length_replicate]; decide, ?_⟩
  obtain ⟨s1, hf, hd⟩ := ThyoneI.thy_feed_frame_dispatched (ThyoneI.idleState false) 0x84
    (List.replicate 225 0) rfl (by rw [List.length_replicate]; decide)
    (ThyoneI.thy_idle_buffer false) (ThyoneI.thy_idle_packet false)
  exact ⟨s1, hf, hd⟩

/-! ## Codes without a `case` (C15) -/

namespace WCON

/-- Storing the local `cmdConfirmation` that no `case` has filled (`cmd = CNFINVALID`)
leaves every `cmd` field as it was. -/
theorem store_invalid_cmd (c : Confirmation) (hc : c.cmd = CNFINVALID)
    (arr : List Confirmation) :
    (storeConfirmation c arr).map (fun e => e.cmd) = arr.map (fun e => e.cmd) := by
  induction arr with
  | nil => rfl
  | cons a arr ih =>
    rw [storeConfirmation]
    by_cases ha : a.cmd = CNFINVALID
    · rw [if_pos ha]
      simp [hc, ha]
    · rw [if_neg ha]
      simp [ih]

/-- The insertion loop never touches an occupied slot. -/
theorem store_occupied (c : Confirmation) (arr : List Confirmation) (i : Nat)
    (slot : Confirmation) (hi : arr[i]? = some slot) (hs : slot.cmd ≠ CNFINVALID) :
    (storeConfirmation c arr)[i]? = some slot := by
  induction arr generalizing i with
  | nil => simp at hi
  | cons a arr ih =>
    rw [storeConfirmation]
    cases i with
    | zero =>
      simp only [List.getElem?_cons_zero, Option.some.injEq] at hi
      subst hi
      rw [if_neg hs]
      exact List.getElem?_cons_zero
    | succ i =>
      simp only [List.getElem?_cons_succ] at hi
      by_cases ha : a.cmd = CNFINVALID
      · rw [if_pos ha]
        simpa using hi
      · rw [if_neg ha]
        simpa using ih i hi

theorem newlyOccupied_self (arr : List Confirmation) : newlyOccupied arr arr = 0 := by
  induction arr with
  | nil => rfl
  | cons a arr ih =>
    rw [newlyOccupied, ih]
    by_cases ha : a.cmd = CNFINVALID <;> simp [ha]

/-- The insertion loop occupies at most one slot. -/
theorem store_newlyOccupied_le (c : Confirmation) (arr : List Confirmation) :
    newlyOccupied arr (storeConfirmation c arr) ≤ 1 := by
  induction arr with
  | nil => simp [storeConfirmation, newlyOccupied]
  | cons a arr ih =>
    rw [storeConfirmation]
    by_cases ha : a.cmd = CNFINVALID
    · rw [if_pos ha, newlyOccupied, newlyOccupied_self]
      split <;> omega
    · rw [if_neg ha, newlyOccupied, if_neg (fun h => ha h.1)]
      omega

/-- Storing the unfilled `cmdConfirmation` occupies no slot. -/
theorem store_invalid_newlyOccupied (c : Confirmation) (hc : c.cmd = CNFINVALID)
    (arr : List Confirmation) : newlyOccupied arr (storeConfirmation c arr) = 0 := by
  induction arr with
  | nil => simp [storeConfirmation, newlyOccupied]
  | cons a arr ih =>
    rw [storeConfirmation]
    by_cases ha : a.cmd = CNFINVALID
    · rw [if_pos ha, newlyOccupied, newlyOccupied_self, if_neg (fun h => h.2 hc)]
    · rw [if_neg ha, newlyOccupied, if_neg (fun h => ha h.1), ih]

end WCON

namespace ThyoneI
open WCON

/-- The `default` branch of the `switch`. -/
theorem thy_switch_unknown (cb : Bool) (pkt : List Nat) (c : Nat)
    (h1 : pkt[CMD_POSITION_CMD]? = some c)
    (hn : c ∉ noStatusCodes) (hs : c ∉ statusCodes)
    (hr : c ≠ THYONEI_CMD_GPIO_REMOTE_READ_CNF) (hi : c ∉ indicationCodes) :
    HandleRxPacket.switch cb pkt
      = some ({ cmd := CNFINVALID, status := CMD_Status_Invalid }, []) := by
  have hd : ¬ (c = THYONEI_CMD_DATA_IND ∨ c = THYONEI_CMD_SNIFFER_IND) := by
    simpa [indicationCodes] using hi
  unfold HandleRxPacket.switch
  rw [h1]
  dsimp only
  rw [if_neg hn, if_neg hs, if_neg hr, if_neg hd]

/-- `HandleRxPacket` on a frame whose code has no `case`. -/
theorem thy_HandleRxPacket_unknown (s : State) (buf : List Nat) (c lsb msb : Nat)
    (h1 : buf[CMD_POSITION_CMD]? = some c) (h2 : buf[CMD_POSITION_LENGTH_LSB]? = some lsb)
    (h3 : buf[CMD_POSITION_LENGTH_MSB]? = some msb)
    (hL : lsb + 256 * msb < 65536) (hb : lsb + 256 * msb + 5 ≤ buf.length)
    (hp : lsb + 256 * msb + 5 ≤ s.RxPacket.length)
    (hn : c ∉ noStatusCodes) (hs : c ∉ statusCodes)
    (hr : c ≠ THYONEI_CMD_GPIO_REMOTE_READ_CNF) (hi : c ∉ indicationCodes) :
    HandleRxPacket s buf = some { s with
      RxPacket := buf.take (lsb + 256 * msb + 5) ++ s.RxPacket.drop (lsb + 256 * msb + 5)
      cmdConfirmation_array := storeConfirmation
        { cmd := CNFINVALID, status := CMD_Status_Invalid } s.cmdConfirmation_array
      trace := s.trace ++ [Event.dispatch (buf.take (lsb + 256 * msb + 5))] } := by
  have hsw := thy_switch_unknown s.RxCallback
    (buf.take (lsb + 256 * msb + 5) ++ s.RxPacket.drop (lsb + 256 * msb + 5)) c
    (by rw [memcpy_get _ _ _ _ (by simp only [CMD_POSITION_CMD]; omega) hb]; exact h1)
    hn hs hr hi
  simp only [HandleRxPacket, h2, h3, cmd_length_eq lsb msb hL, LENGTH_CMD_OVERHEAD,
    memcpy_eq _ _ _ hb hp, hsw, List.append_nil]

theorem thy_callbackCalls_append (a b : List Event) :
    callbackCalls (a ++ b) = callbackCalls a ++ callbackCalls b := by
  induction a with
  | nil => rfl
  | cons e a ih => cases e <;> simp [callbackCalls, ih]

end ThyoneI

namespace ProteusIII
open WCON

/-- The `default` branch of the `switch`. -/
theorem pro_switch_unknown (h : Header) (s : State) (pkt : List Nat) (c : Nat)
    (h1 : pkt[CMD_POSITION_CMD]? = some c)
    (hg : c ≠ PROTEUSIII_CMD_GETDEVICES_CNF) (hs : c ∉ statusCodes)
    (hgs : c ≠ PROTEUSIII_CMD_GETSTATE_CNF) (hi : c ∉ indicationCodes) :
    HandleRxPacket.switch h s pkt
      = some { cmdConfirmation := { cmd := CNFINVALID, status := CMD_Status_Invalid }
               bleState := s.bleState
               calls := [] } := by
  simp only [indicationCodes, List.mem_cons, List.mem_singleton, List.not_mem_nil, or_false,
    not_or] at hi
  obtain ⟨i1, i2, i3, i4, i5, i6, i7, i8, i9, i10, i11, i12, i13, i14, i15, i16⟩ := hi
  unfold HandleRxPacket.switch
  rw [h1]
  dsimp only
  rw [if_neg hg, if_neg hs, if_neg hgs, if_neg i1, if_neg i2, if_neg i3, if_neg i4,
    if_neg (not_or.2 ⟨i5, i6⟩), if_neg i7, if_neg i8, if_neg i9, if_neg i10, if_neg i11,
    if_neg i12, if_neg (not_or.2 ⟨i13, i14⟩), if_neg i15, if_neg i16]

/-- `HandleRxPacket` on a frame whose code has no `case`. -/
theorem pro_HandleRxPacket_unknown (h : Header) (s : State) (buf : List Nat)
    (c lsb msb : Nat)
    (h1 : buf[CMD_POSITION_CMD]? = some c) (h2 : buf[CMD_POSITION_LENGTH_LSB]? = some lsb)
    (h3 : buf[CMD_POSITION_LENGTH_MSB]? = some msb)
    (hL : lsb + 256 * msb < 65536) (hb : lsb + 256 * msb + 5 ≤ buf.length)
    (hp : lsb + 256 * msb + 5 ≤ s.rxPacket.length)
    (hg : c ≠ PROTEUSIII_CMD_GETDEVICES_CNF) (hs : c ∉ statusCodes)
    (hgs : c ≠ PROTEUSIII_CMD_GETSTATE_CNF) (hi : c ∉ indicationCodes) :
    HandleRxPacket h s buf = some { s with
      rxPacket := buf.take (lsb + 256 * msb + 5) ++ s.rxPacket.drop (lsb + 256 * msb + 5)
      cmdConfirmationArray := storeConfirmation
        { cmd := CNFINVALID, status := CMD_Status_Invalid } s.cmdConfirmationArray
      trace := s.trace ++ [Event.dispatch (buf.take (lsb + 256 * msb + 5))] } := by
  have hsw := pro_switch_unknown h s
    (buf.take (lsb + 256 * msb + 5) ++ s.rxPacket.drop (lsb + 256 * msb + 5)) c
    (by rw [memcpy_get _ _ _ _ (by simp only [CMD_POSITION_CMD]; omega) hb]; exact h1)
    hg hs hgs hi
  simp only [HandleRxPacket, h2, h3, cmd_length_eq lsb msb hL, LENGTH_CMD_OVERHEAD,
    memcpy_eq _ _ _ hb hp, hsw, List.append_nil]

theorem pro_callbackCalls_append (a b : List Event) :
    callbackCalls (a ++ b) = callbackCalls a ++ callbackCalls b := by
  induction a with
  | nil => rfl
  | cons e a ih => cases e <;> simp [callbackCalls, ih]

end ProteusIII

set_option maxRecDepth 100000 in
/-- C15, counterexample: Thyone-I, the frame `[0x02, 0x00, 0x00, 0x00, 0x02]`, whose code
`0x00` has no `case` in the dispatcher, handled while all three slots are empty with
status 0.  The status of slot 0 changes from 0 to `Invalid` (2). -/
theorem C15_status_overwritten_counterexample :
    (ThyoneI.idleState false).cmdConfirmation_array
      = [{ cmd := 255, status := 0 }, { cmd := 255, status := 0 }, { cmd := 255, status := 0 }]
    ∧ (ThyoneI.HandleRxPacket (ThyoneI.idleState false)
        ([0x02, 0x00, 0x00, 0x00, 0x02] ++ List.replicate 230 0)).map
      (fun s1 => s1.cmdConfirmation_array)
      = some [{ cmd := 255, status := WCON.CMD_Status_Invalid },
              { cmd := 255, status := 0 }, { cmd := 255, status := 0 }]
    ∧ 0x00 ∉ ThyoneI.noStatusCodes ∧ 0x00 ∉ ThyoneI.statusCodes
    ∧ 0x00 ≠ ThyoneI.THYONEI_CMD_GPIO_REMOTE_READ_CNF ∧ 0x00 ∉ ThyoneI.indicationCodes := by
  decide

/-- C15, amended (unknown command codes, both drivers): for a frame in `pRxBuffer` whose
code has no `case` in the dispatcher, `HandleRxPacket` invokes no callback, leaves the
`cmd` field of every slot and every occupied slot as they were, and occupies no slot.
The one change to the confirmation array is that the lowest-index empty slot, if there
is one, gets the status `Invalid`; without an empty slot the array is unchanged. -/
theorem C15_unknown_code_effect :
    (∀ (s : ThyoneI.State) (pRxBuffer : List Nat) (c lsb msb : Nat),
      pRxBuffer[WCON.CMD_POSITION_CMD]? = some c →
      pRxBuffer[WCON.CMD_POSITION_LENGTH_LSB]? = some lsb →
      pRxBuffer[WCON.CMD_POSITION_LENGTH_MSB]? = some msb →
      lsb + 256 * msb + 5 ≤ ThyoneI.MAX_CMD_LENGTH →
      lsb + 256 * msb + 5 ≤ pRxBuffer.length →
      lsb + 256 * msb + 5 ≤ s.RxPacket.length →
      c ∉ ThyoneI.noStatusCodes → c ∉ ThyoneI.statusCodes →
      c ≠ ThyoneI.THYONEI_CMD_GPIO_REMOTE_READ_CNF → c ∉ ThyoneI.indicationCodes →
      ∃ s1, ThyoneI.HandleRxPacket s pRxBuffer = some s1
        ∧ ThyoneI.callbackCalls s1.trace = ThyoneI.callbackCalls s.trace
        ∧ s1.cmdConfirmation_array.map (fun e => e.cmd)
            = s.cmdConfirmation_array.map (fun e => e.cmd)
        ∧ (∀ (i : Nat) (slot : WCON.Confirmation), s.cmdConfirmation_array[i]? = some slot →
            slot.cmd ≠ WCON.CNFINVALID → s1.cmdConfirmation_array[i]? = some slot)
        ∧ WCON.newlyOccupied s.cmdConfirmation_array s1.cmdConfirmation_array = 0
        ∧ (∀ (i : Nat) (slot : WCON.Confirmation), s.cmdConfirmation_array[i]? = some slot →
            slot.cmd = WCON.CNFINVALID →
            (∀ j, j < i → ∀ sj : WCON.Confirmation,
              s.cmdConfirmation_array[j]? = some sj → sj.cmd ≠ WCON.CNFINVALID) →
            s1.cmdConfirmation_array = s.cmdConfirmation_array.set i
              { cmd := WCON.CNFINVALID, status := WCON.CMD_Status_Invalid })
        ∧ ((∀ slot ∈ s.cmdConfirmation_array, slot.cmd ≠ WCON.CNFINVALID) →
            s1.cmdConfirmation_array = s.cmdConfirmation_array)) ∧
    (∀ (h : ProteusIII.Header) (s : ProteusIII.State) (pRxBuffer : List Nat)
        (c lsb msb : Nat),
      pRxBuffer[WCON.CMD_POSITION_CMD]? = some c →
      pRxBuffer[WCON.CMD_POSITION_LENGTH_LSB]? = some lsb →
      pRxBuffer[WCON.CMD_POSITION_LENGTH_MSB]? = some msb →
      lsb + 256 * msb < 65536 →
      lsb + 256 * msb + 5 ≤ pRxBuffer.length →
      lsb + 256 * msb + 5 ≤ s.rxPacket.length →
      c ≠ ProteusIII.PROTEUSIII_CMD_GETDEVICES_CNF → c ∉ ProteusIII.statusCodes →
      c ≠ ProteusIII.PROTEUSIII_CMD_GETSTATE_CNF → c ∉ ProteusIII.indicationCodes →
      ∃ s1, ProteusIII.HandleRxPacket h s pRxBuffer = some s1
        ∧ ProteusIII.callbackCalls s1.trace = ProteusIII.callbackCalls s.trace
        ∧ s1.cmdConfirmationArray.map (fun e => e.cmd)
            = s.cmdConfirmationArray.map (fun e => e.cmd)
        ∧ (∀ (i : Nat) (slot : WCON.Confirmation), s.cmdConfirmationArray[i]? = some slot →
            slot.cmd ≠ WCON.CNFINVALID → s1.cmdConfirmationArray[i]? = some slot)
        ∧ WCON.newlyOccupied s.cmdConfirmationArray s1.cmdConfirmationArray = 0
        ∧ (∀ (i : Nat) (slot : WCON.Confirmation), s.cmdConfirmationArray[i]? = some slot →
            slot.cmd = WCON.CNFINVALID →
            (∀ j, j < i → ∀ sj : WCON.Confirmation,
              s.cmdConfirmationArray[j]? = some sj → sj.cmd ≠ WCON.CNFINVALID) →
            s1.cmdConfirmationArray = s.cmdConfirmationArray.set i
              { cmd := WCON.CNFINVALID, status := WCON.CMD_Status_Invalid })
        ∧ ((∀ slot ∈ s.cmdConfirmationArray, slot.cmd ≠ WCON.CNFINVALID) →
            s1.cmdConfirmationArray = s.cmdConfirmationArray)) := by
  constructor
  · intro s buf c lsb msb h1 h2 h3 hN hb hp hn hs hr hi
    have hN' : lsb + 256 * msb + 5 ≤ 235 := hN
    refine ⟨_, ThyoneI.thy_HandleRxPacket_unknown s buf c lsb msb h1 h2 h3 (by omega) hb hp
      hn hs hr hi, ?_, ?_, ?_, ?_, ?_, ?_⟩
    · simp [ThyoneI.thy_callbackCalls_append, ThyoneI.callbackCalls]
    · exact WCON.store_invalid_cmd _ rfl _
    · intro i slot hsl hocc
      exact WCON.store_occupied _ _ i slot hsl hocc
    · exact WCON.store_invalid_newlyOccupied _ rfl _
    · intro i slot hsl he hmin
      exact WCON.storeConfirmation_eq_set _ _ i slot hsl he hmin
    · intro hfull
      exact WCON.storeConfirmation_full _ _ hfull
  · intro h s buf c lsb msb h1 h2 h3 hL hb hp hg hs hgs hi
    refine ⟨_, ProteusIII.pro_HandleRxPacket_unknown h s buf c lsb msb h1 h2 h3 hL hb hp
      hg hs hgs hi, ?_, ?_, ?_, ?_, ?_, ?_⟩
    · simp [ProteusIII.pro_callbackCalls_append, ProteusIII.callbackCalls]
    · exact WCON.store_invalid_cmd _ rfl _
    · intro i slot hsl hocc
      exact WCON.store_occupied _ _ i slot hsl hocc
    · exact WCON.store_invalid_newlyOccupied _ rfl _
    · intro i slot hsl he hmin
      exact WCON.storeConfirmation_eq_set _ _ i slot hsl he hmin
    · intro hfull
      exact WCON.storeConfirmation_full _ _ hfull

set_option maxRecDepth 100000 in
/-- Witness of C15 (amended): the frame and state of the counterexample. -/
theorem C15_unknown_code_effect_witness :
    ∃ s1, ThyoneI.HandleRxPacket (ThyoneI.idleState false)
          ([0x02, 0x00, 0x00, 0x00, 0x02] ++ List.replicate 230 0) = some s1
      ∧ ThyoneI.callbackCalls s1.trace = ThyoneI.callbackCalls (ThyoneI.idleState false).trace
      ∧ s1.cmdConfirmation_array.map (fun e => e.cmd)
          = (ThyoneI.idleState false).cmdConfirmation_array.map (fun e => e.cmd)
      ∧ WCON.newlyOccupied (ThyoneI.idleState false).cmdConfirmation_array
          s1.cmdConfirmation_array = 0 := by
  obtain ⟨s1, hH, hcb, hcmd, _, hocc, _, _⟩ := C15_unknown_code_effect.1
    (ThyoneI.idleState false) ([0x02, 0x00, 0x00, 0x00, 0x02] ++ List.replicate 230 0)
    0x00 0x00 0x00 rfl rfl rfl (by decide) (by decide) (by decide) (by decide) (by decide)
    (by decide) (by decide)
  exact ⟨s1, hH, hcb, hcmd, hocc⟩

/-! ## The two dispatch paths of Proteus-III (C16) -/

namespace ProteusIII
open WCON

theorem gpioWriteLoop_callbackCalls (pkt : List Nat) (n : Nat) :
    ∀ (fuel pos : Nat) (evs : List Event),
      gpioWriteLoop pkt n fuel pos = some evs → callbackCalls evs = evs := by
  intro fuel
  induction fuel with
  | zero => intro pos evs h; simp [gpioWriteLoop] at h
  | succ fuel ih =>
    intro pos evs h
    rw [gpioWriteLoop] at h
    split_ifs at h with hlt
    · split at h
      · dsimp only at h
        split at h
        · simp at h
        · rename_i rest hrec
          simp only [Option.some.injEq] at h
          subst h
          simp [callbackCalls, ih _ _ hrec]
      · simp at h
    · simp only [Option.some.injEq] at h
      subst h
      rfl

theorem gpioRemoteConfigLoop_callbackCalls (h : Header) (pkt : List Nat) (n : Nat) :
    ∀ (fuel pos : Nat) (evs : List Event),
      gpioRemoteConfigLoop h pkt n fuel pos = some evs → callbackCalls evs = evs := by
  intro fuel
  induction fuel with
  | zero => intro pos evs hh; simp [gpioRemoteConfigLoop] at hh
  | succ fuel ih =>
    intro pos evs hh
    rw [gpioRemoteConfigLoop] at hh
    split_ifs at hh with hlt
    · split at hh
      · split at hh
        · simp at hh
        · dsimp only at hh
          split at hh
          · simp at hh
          · rename_i rest hrec
            simp only [Option.some.injEq] at hh
            subst hh
            simp [callbackCalls, ih _ _ hrec]
      · simp at hh
    · simp only [Option.some.injEq] at hh
      subst hh
      rfl

/-- Shape of what the `switch` returns: its calls are callback invocations; it fills the
confirmation or invokes callbacks, never both; and outside the three GPIO indications,
whose branches loop over the blocks of the payload, it makes at most one call. -/
theorem pro_switch_shape (h : Header) (s : State) (pkt : List Nat) (cmd : Nat)
    (r : SwitchResult) (hcmd : pkt[CMD_POSITION_CMD]? = some cmd)
    (hs : HandleRxPacket.switch h s pkt = some r) :
    callbackCalls r.calls = r.calls
    ∧ (r.cmdConfirmation.cmd = CNFINVALID ∨ r.calls = [])
    ∧ (¬ (cmd = PROTEUSIII_CMD_GPIO_LOCAL_WRITE_IND ∨ cmd = PROTEUSIII_CMD_GPIO_REMOTE_WRITE_IND
          ∨ cmd = PROTEUSIII_CMD_GPIO_REMOTE_WRITECONFIG_IND) → r.calls.length ≤ 1) := by
  unfold HandleRxPacket.switch at hs
  rw [hcmd] at hs
  dsimp only at hs
  by_cases c0 : cmd = PROTEUSIII_CMD_GETDEVICES_CNF
  · rw [if_pos c0] at hs
    repeat' (split at hs)
    all_goals first
      | (simp only [Option.some.injEq] at hs; subst hs
         exact ⟨rfl, Or.inr rfl, fun _ => Nat.zero_le _⟩)
      | (simp only [Option.some.injEq] at hs; subst hs
         exact ⟨rfl, Or.inl rfl, fun _ => Nat.le_refl _⟩)
      | (exact absurd hs (by simp))
  rw [if_neg c0] at hs
  by_cases c1 : cmd ∈ statusCodes
  · rw [if_pos c1] at hs
    repeat' (split at hs)
    all_goals first
      | (simp only [Option.some.injEq] at hs; subst hs
         exact ⟨rfl, Or.inr rfl, fun _ => Nat.zero_le _⟩)
      | (simp only [Option.some.injEq] at hs; subst hs
         exact ⟨rfl, Or.inl rfl, fun _ => Nat.le_refl _⟩)
      | (exact absurd hs (by simp))
  rw [if_neg c1] at hs
  by_cases c2 : cmd = PROTEUSIII_CMD_GETSTATE_CNF
  · rw [if_pos c2] at hs
    repeat' (split at hs)
    all_goals first
      | (simp only [Option.some.injEq] at hs; subst hs
         exact ⟨rfl, Or.inr rfl, fun _ => Nat.zero_le _⟩)
      | (simp only [Option.some.injEq] at hs; subst hs
         exact ⟨rfl, Or.inl rfl, fun _ => Nat.le_refl _⟩)
      | (exact absurd hs (by simp))
  rw [if_neg c2] at hs
  by_cases c3 : cmd = PROTEUSIII_CMD_CHANNELOPEN_RSP
  · rw [if_pos c3] at hs
    repeat' (split at hs)
    all_goals first
      | (simp only [Option.some.injEq] at hs; subst hs
         exact ⟨rfl, Or.inr rfl, fun _ => Nat.zero_le _⟩)
      | (simp only [Option.some.injEq] at hs; subst hs
         exact ⟨rfl, Or.inl rfl, fun _ => Nat.le_refl _⟩)
      | (exact absurd hs (by simp))
  rw [if_neg c3] at hs
  by_cases c4 : cmd = PROTEUSIII_CMD_CONNECT_IND
  · rw [if_pos c4] at hs
    repeat' (split at hs)
    all_goals first
      | (simp only [Option.some.injEq] at hs; subst hs
         exact ⟨rfl, Or.inr rfl, fun _ => Nat.zero_le _⟩)
      | (simp only [Option.some.injEq] at hs; subst hs
         exact ⟨rfl, Or.inl rfl, fun _ => Nat.le_refl _⟩)
      | (exact absurd hs (by simp))
  rw [if_neg c4] at hs
  by_cases c5 : cmd = PROTEUSIII_CMD_DISCONNECT_IND
  · rw [if_pos c5] at hs
    repeat' (split at hs)
    all_goals first
      | (simp only [Option.some.injEq] at hs; subst hs
         exact ⟨rfl, Or.inr rfl, fun _ => Nat.zero_le _⟩)
      | (simp only [Option.some.injEq] at hs; subst hs
         exact ⟨rfl, Or.inl rfl, fun _ => Nat.le_refl _⟩)
      | (exact absurd hs (by simp))
  rw [if_neg c5] at hs
  by_cases c6 : cmd = PROTEUSIII_CMD_DATA_IND
  · rw [if_pos c6] at hs
    repeat' (split at hs)
    all_goals first
      | (simp only [Option.some.injEq] at hs; subst hs
         exact ⟨rfl, Or.inr rfl, fun _ => Nat.zero_le _⟩)
      | (simp only [Option.some.injEq] at hs; subst hs
         exact ⟨rfl, Or.inl rfl, fun _ => Nat.le_refl _⟩)
      | (exact absurd hs (by simp))
  rw [if_neg c6] at hs
  by_cases c7 : cmd = PROTEUSIII_CMD_BEACON_IND ∨ cmd = PROTEUSIII_CMD_BEACON_RSP
  · rw [if_pos c7] at hs
    repeat' (split at hs)
    all_goals first
      | (simp only [Option.some.injEq] at hs; subst hs
         exact ⟨rfl, Or.inr rfl, fun _ => Nat.zero_le _⟩)
      | (simp only [Option.some.injEq] at hs; subst hs
         exact ⟨rfl, Or.inl rfl, fun _ => Nat.le_refl _⟩)
      | (exact absurd hs (by simp))
  rw [if_neg c7] at hs
  by_cases c8 : cmd = PROTEUSIII_CMD_RSSI_IND
  · rw [if_pos c8] at hs
    repeat' (split at hs)
    all_goals first
      | (simp only [Option.some.injEq] at hs; subst hs
         exact ⟨rfl, Or.inr rfl, fun _ => Nat.zero_le _⟩)
      | (simp only [Option.some.injEq] at hs; subst hs
         exact ⟨rfl, Or.inl rfl, fun _ => Nat.le_refl _⟩)
      | (exact absurd hs (by simp))
  rw [if_neg c8] at hs
  by_cases c9 : cmd = PROTEUSIII_CMD_SECURITY_IND
  · rw [if_pos c9] at hs
    repeat' (split at hs)
    all_goals first
      | (simp only [Option.some.injEq] at hs; subst hs
         exact ⟨rfl, Or.inr rfl, fun _ => Nat.zero_le _⟩)
      | (simp only [Option.some.injEq] at hs; subst hs
         exact ⟨rfl, Or.inl rfl, fun _ => Nat.le_refl _⟩)
      | (exact absurd hs (by simp))
  rw [if_neg c9] at hs
  by_cases c10 : cmd = PROTEUSIII_CMD_PASSKEY_IND
  · rw [if_pos c10] at hs
    repeat' (split at hs)
    all_goals first
      | (simp only [Option.some.injEq] at hs; subst hs
         exact ⟨rfl, Or.inr rfl, fun _ => Nat.zero_le _⟩)
      | (simp only [Option.some.injEq] at hs; subst hs
         exact ⟨rfl, Or.inl rfl, fun _ => Nat.le_refl _⟩)
      | (exact absurd hs (by simp))
  rw [if_neg c10] at hs
  by_cases c11 : cmd = PROTEUSIII_CMD_DISPLAY_PASSKEY_IND
  · rw [if_pos c11] at hs
    repeat' (split at hs)
    all_goals first
      | (simp only [Option.some.injEq] at hs; subst hs
         exact ⟨rfl, Or.inr rfl, fun _ => Nat.zero_le _⟩)
      | (simp only [Option.some.injEq] at hs; subst hs
         exact ⟨rfl, Or.inl rfl, fun _ => Nat.le_refl _⟩)
      | (exact absurd hs (by simp))
  rw [if_neg c11] at hs
  by_cases c12 : cmd = PROTEUSIII_CMD_PHYUPDATE_IND
  · rw [if_pos c12] at hs
    repeat' (split at hs)
    all_goals first
      | (simp only [Option.some.injEq] at hs; subst hs
         exact ⟨rfl, Or.inr rfl, fun _ => Nat.zero_le _⟩)
      | (simp only [Option.some.injEq] at hs; subst hs
         exact ⟨rfl, Or.inl rfl, fun _ => Nat.le_refl _⟩)
      | (exact absurd hs (by simp))
  rw [if_neg c12] at hs
  by_cases c13 : cmd = PROTEUSIII_CMD_SLEEP_IND
  · rw [if_pos c13] at hs
    repeat' (split at hs)
    all_goals first
      | (simp only [Option.some.injEq] at hs; subst hs
         exact ⟨rfl, Or.inr rfl, fun _ => Nat.zero_le _⟩)
      | (simp only [Option.some.injEq] at hs; subst hs
         exact ⟨rfl, Or.inl rfl, fun _ => Nat.le_refl _⟩)
      | (exact absurd hs (by simp))
  rw [if_neg c13] at hs
  by_cases c14 : cmd = PROTEUSIII_CMD_GPIO_LOCAL_WRITE_IND
      ∨ cmd = PROTEUSIII_CMD_GPIO_REMOTE_WRITE_IND
  · rw [if_pos c14] at hs
    repeat' (split at hs)
    all_goals first
      | (simp only [Option.some.injEq] at hs; subst hs
         exact ⟨rfl, Or.inr rfl, fun _ => Nat.zero_le _⟩)
      | (simp only [Option.some.injEq] at hs; subst hs
         exact ⟨rfl, Or.inl rfl, fun _ => Nat.le_refl _⟩)
      | (simp only [Option.some.injEq] at hs; subst hs
         exact ⟨gpioWriteLoop_callbackCalls _ _ _ _ _ (by assumption), Or.inl rfl,
           fun hne => absurd (c14.elim Or.inl (fun x => Or.inr (Or.inl x))) hne⟩)
      | (exact absurd hs (by simp))
  rw [if_neg c14] at hs
  by_cases c15 : cmd = PROTEUSIII_CMD_GPIO_REMOTE_WRITECONFIG_IND
  · rw [if_pos c15] at hs
    repeat' (split at hs)
    all_goals first
      | (simp only [Option.some.injEq] at hs; subst hs
         exact ⟨rfl, Or.inr rfl, fun _ => Nat.zero_le _⟩)
      | (simp only [Option.some.injEq] at hs; subst hs
         exact ⟨rfl, Or.inl rfl, fun _ => Nat.le_refl _⟩)
      | (simp only [Option.some.injEq] at hs; subst hs
         exact ⟨gpioRemoteConfigLoop_callbackCalls _ _ _ _ _ _ (by assumption), Or.inl rfl,
           fun hne => absurd (Or.inr (Or.inr c15)) hne⟩)
      | (exact absurd hs (by simp))
  rw [if_neg c15] at hs
  by_cases c16 : cmd = PROTEUSIII_CMD_ERROR_IND
  · rw [if_pos c16] at hs
    repeat' (split at hs)
    all_goals first
      | (simp only [Option.some.injEq] at hs; subst hs
         exact ⟨rfl, Or.inr rfl, fun _ => Nat.zero_le _⟩)
      | (simp only [Option.some.injEq] at hs; subst hs
         exact ⟨rfl, Or.inl rfl, fun _ => Nat.le_refl _⟩)
      | (exact absurd hs (by simp))
  rw [if_neg c16] at hs
  simp only [Option.some.injEq] at hs
  subst hs
  exact ⟨rfl, Or.inr rfl, fun _ => Nat.zero_le _⟩

end ProteusIII

namespace ProteusIII
open WCON

/-- What a returning call of `HandleRxPacket` leaves behind. -/
theorem pro_HandleRxPacket_some (h : Header) (s s1 : State) (buf : List Nat)
    (hH : HandleRxPacket h s buf = some s1) :
    ∃ lsb msb r, buf[CMD_POSITION_LENGTH_LSB]? = some lsb
      ∧ buf[CMD_POSITION_LENGTH_MSB]? = some msb
      ∧ (lsb + (msb <<< 8)) % 65536 + 5 ≤ buf.length
      ∧ (lsb + (msb <<< 8)) % 65536 + 5 ≤ s.rxPacket.length
      ∧ HandleRxPacket.switch h s
          (buf.take ((lsb + (msb <<< 8)) % 65536 + 5)
            ++ s.rxPacket.drop ((lsb + (msb <<< 8)) % 65536 + 5)) = some r
      ∧ s1.trace = s.trace ++ [Event.dispatch (buf.take ((lsb + (msb <<< 8)) % 65536 + 5))]
          ++ r.calls
      ∧ s1.cmdConfirmationArray = storeConfirmation r.cmdConfirmation s.cmdConfirmationArray
      ∧ s1.bleState = r.bleState ∧ s1.callbacks = s.callbacks := by
  unfold HandleRxPacket at hH
  split at hH
  · rename_i lsb msb h2 h3
    dsimp only at hH
    split at hH
    · simp at hH
    · rename_i pkt hm
      split at hH
      · simp at hH
      · rename_i r hsw
        simp only [Option.some.injEq] at hH
        subst hH
        simp only [memcpy, LENGTH_CMD_OVERHEAD] at hm
        split_ifs at hm with hc
        simp only [Option.some.injEq] at hm
        subst hm
        exact ⟨lsb, msb, r, h2, h3, hc.1, hc.2, hsw, rfl, rfl, rfl, rfl⟩
  · simp at hH

end ProteusIII

set_option maxRecDepth 200000 in
/-- C16, counterexample: Proteus-III with `gpioWriteCb` registered and the
`GPIO_LOCAL_WRITE_IND` frame (code `0xA6`) whose payload holds the two blocks
`02 01 01` and `02 02 00`.  One call of `HandleRxPacket` invokes the callback twice. -/
theorem C16_two_callbacks_counterexample :
    (ProteusIII.HandleRxPacket ProteusIII.exampleHeader
        (ProteusIII.idleState ProteusIII.exampleHeader
          { ProteusIII.noCallbacks with gpioWriteCb := true })
        (WCON.frame 0xA6 [0x02, 0x01, 0x01, 0x02, 0x02, 0x00] ++ List.replicate 244 0)).map
      (fun s1 => ProteusIII.callbackCalls s1.trace)
      = some [ProteusIII.Event.gpioWriteCb false 0x01 0x01,
              ProteusIII.Event.gpioWriteCb false 0x02 0x00] := by
  decide

/-- C16, amended (the two dispatch paths, Proteus-III): whenever one call of
`HandleRxPacket` returns, it has occupied at most one slot, and it has occupied a slot
or invoked callbacks, never both.  For every code other than `GPIO_LOCAL_WRITE_IND`,
`GPIO_REMOTE_WRITE_IND` and `GPIO_REMOTE_WRITECONFIG_IND`, whose branches invoke the
callback once per block of the payload, the number of slots that become occupied plus
the number of callback invocations is at most 1. -/
theorem C16_dispatch_paths (h : ProteusIII.Header) (s s1 : ProteusIII.State)
    (pRxBuffer : List Nat)
    (hH : ProteusIII.HandleRxPacket h s pRxBuffer = some s1) :
    ∃ calls, ProteusIII.callbackCalls s1.trace = ProteusIII.callbackCalls s.trace ++ calls
      ∧ WCON.newlyOccupied s.cmdConfirmationArray s1.cmdConfirmationArray ≤ 1
      ∧ (WCON.newlyOccupied s.cmdConfirmationArray s1.cmdConfirmationArray = 0 ∨ calls = [])
      ∧ (∀ c, pRxBuffer[WCON.CMD_POSITION_CMD]? = some c →
          c ≠ ProteusIII.PROTEUSIII_CMD_GPIO_LOCAL_WRITE_IND →
          c ≠ ProteusIII.PROTEUSIII_CMD_GPIO_REMOTE_WRITE_IND →
          c ≠ ProteusIII.PROTEUSIII_CMD_GPIO_REMOTE_WRITECONFIG_IND →
          WCON.newlyOccupied s.cmdConfirmationArray s1.cmdConfirmationArray + calls.length
            ≤ 1) := by
  obtain ⟨lsb, msb, r, _, _, hb, _, hsw, htr, harr, _, _⟩ :=
    ProteusIII.pro_HandleRxPacket_some h s s1 pRxBuffer hH
  have h1lt : 1 < pRxBuffer.length := by omega
  have hcmd : (pRxBuffer.take ((lsb + (msb <<< 8)) % 65536 + 5)
      ++ s.rxPacket.drop ((lsb + (msb <<< 8)) % 65536 + 5))[WCON.CMD_POSITION_CMD]?
        = some (pRxBuffer[1]) := by
    rw [WCON.memcpy_get _ _ _ _ (by simp only [WCON.CMD_POSITION_CMD]; omega) hb]
    exact List.getElem?_eq_getElem h1lt
  obtain ⟨hcb, hex, hone⟩ := ProteusIII.pro_switch_shape h s _ _ r hcmd hsw
  have hle := WCON.store_newlyOccupied_le r.cmdConfirmation s.cmdConfirmationArray
  rw [← harr] at hle
  have hex' : WCON.newlyOccupied s.cmdConfirmationArray s1.cmdConfirmationArray = 0
      ∨ r.calls = [] := by
    rcases hex with hinv | hnil
    · left
      rw [harr]
      exact WCON.store_invalid_newlyOccupied _ hinv _
    · exact Or.inr hnil
  refine ⟨r.calls, ?_, hle, hex', ?_⟩
  · rw [htr, ProteusIII.pro_callbackCalls_append, ProteusIII.pro_callbackCalls_append, hcb]
    simp [ProteusIII.callbackCalls]
  · intro c hc n1 n2 n3
    have hc' : pRxBuffer[1] = c := by
      have := List.getElem?_eq_getElem h1lt
      rw [show pRxBuffer[1]? = pRxBuffer[WCON.CMD_POSITION_CMD]? from rfl, hc] at this
      exact (Option.some.inj this).symm
    have hlen := hone (by
      rw [hc']
      rintro (x | x | x)
      · exact n1 x
      · exact n2 x
      · exact n3 x)
    rcases hex' with h0 | hnil
    · omega
    · rw [hnil]
      simpa using hle

set_option maxRecDepth 200000 in
/-- Witness of C16 (amended): the `GETSTATE_CNF` frame `[0x02, 0x41, 0x01, 0x00, 0x01,
0x43]` handled from the idle state with no callback registered: slot 0 becomes occupied
and no callback is invoked. -/
theorem C16_dispatch_paths_witness :
    ∃ calls, ProteusIII.callbackCalls
        ({ ProteusIII.idleState ProteusIII.exampleHeader ProteusIII.noCallbacks with
            rxPacket := [0x02, 0x41, 0x01, 0x00, 0x01, 0x43] ++ List.replicate 249 0
            cmdConfirmationArray := [{ cmd := 0x41, status := 4 }, { cmd := 255, status := 0 }]
            trace := [ProteusIII.Event.dispatch [0x02, 0x41, 0x01, 0x00, 0x01, 0x43]] } :
          ProteusIII.State).trace
        = ProteusIII.callbackCalls
            (ProteusIII.idleState ProteusIII.exampleHeader ProteusIII.noCallbacks).trace ++ calls
      ∧ WCON.newlyOccupied
          (ProteusIII.idleState ProteusIII.exampleHeader ProteusIII.noCallbacks).cmdConfirmationArray
          [{ cmd := 0x41, status := 4 }, { cmd := 255, status := 0 }] ≤ 1
      ∧ (WCON.newlyOccupied
          (ProteusIII.idleState ProteusIII.exampleHeader ProteusIII.noCallbacks).cmdConfirmationArray
          [{ cmd := 0x41, status := 4 }, { cmd := 255, status := 0 }] = 0 ∨ calls = [])
      ∧ (∀ c, ([0x02, 0x41, 0x01, 0x00, 0x01, 0x43] ++ List.replicate 249 0)[
            WCON.CMD_POSITION_CMD]? = some c →
          c ≠ ProteusIII.PROTEUSIII_CMD_GPIO_LOCAL_WRITE_IND →
          c ≠ ProteusIII.PROTEUSIII_CMD_GPIO_REMOTE_WRITE_IND →
          c ≠ ProteusIII.PROTEUSIII_CMD_GPIO_REMOTE_WRITECONFIG_IND →
          WCON.newlyOccupied
            (ProteusIII.idleState ProteusIII.exampleHeader
              ProteusIII.noCallbacks).cmdConfirmationArray
            [{ cmd := 0x41, status := 4 }, { cmd := 255, status := 0 }] + calls.length ≤ 1) :=
  C16_dispatch_paths ProteusIII.exampleHeader
    (ProteusIII.idleState ProteusIII.exampleHeader ProteusIII.noCallbacks) _
    ([0x02, 0x41, 0x01, 0x00, 0x01, 0x43] ++ List.replicate 249 0) (by decide)

/-! ## Data indication (C17) -/

namespace WCON

/-- The two length bytes combined with `|`, as the dispatcher does it. -/
theorem length_or_eq (lsb msb : Nat) (h : lsb < 256) :
    (lsb <<< 0) ||| (msb <<< 8) = lsb + 256 * msb := by
  have e := Nat.mul_add_lt_is_or (i := 8) (b := lsb) (by simpa using h) msb
  rw [Nat.shiftLeft_zero, Nat.shiftLeft_eq, Nat.or_comm, Nat.mul_comm msb, ← e]
  omega

theorem frame_append (c : Nat) (p X : List Nat) :
    frame c p ++ X = CMD_STX :: c :: (p.length % 256) :: (p.length / 256)
      :: (p ++ xorAll ([CMD_STX, c, p.length % 256, p.length / 256] ++ p) :: X) := by
  simp [frame]

/-- The bytes of a buffer behind the first `k` payload bytes. -/
theorem slice_payload_drop (a b c d : Nat) (p rest : List Nat) (k : Nat) (hk : k ≤ p.length) :
    slice (a :: b :: c :: d :: (p ++ rest)) (CMD_POSITION_DATA + k) (p.length - k)
      = p.drop k := by
  have e : (a :: b :: c :: d :: (p ++ rest)).drop (CMD_POSITION_DATA + k)
      = p.drop k ++ rest := by
    rw [show CMD_POSITION_DATA + k = k + 1 + 1 + 1 + 1 by simp only [CMD_POSITION_DATA]; omega]
    simp only [List.drop_succ_cons]
    exact List.drop_append_of_le_length hk
  rw [slice, e, List.take_left' (by simp)]

/-- The first `k` payload bytes of a buffer. -/
theorem slice_payload_take (a b c d : Nat) (p rest : List Nat) (k : Nat) (hk : k ≤ p.length) :
    slice (a :: b :: c :: d :: (p ++ rest)) CMD_POSITION_DATA k = p.take k := by
  have e : (a :: b :: c :: d :: (p ++ rest)).drop CMD_POSITION_DATA = p ++ rest := rfl
  rw [slice, e, List.take_append_of_le_length hk]

theorem getElem?_payload (a b c d : Nat) (p rest : List Nat) (k : Nat) (hk : k < p.length) :
    (a :: b :: c :: d :: (p ++ rest))[CMD_POSITION_DATA + k]? = p[k]? := by
  rw [show CMD_POSITION_DATA + k = k + 1 + 1 + 1 + 1 by simp only [CMD_POSITION_DATA]; omega]
  simp only [List.getElem?_cons_succ]
  exact List.getElem?_append_left hk

end WCON

namespace ProteusIII
open WCON

/-- The `DATA_IND` branch of the `switch` with `rxCb` registered. -/
theorem pro_switch_data_ind (h : Header) (s : State) (pkt : List Nat) (lsb msb rssi : Nat)
    (hcb : s.callbacks.rxCb = true)
    (h1 : pkt[CMD_POSITION_CMD]? = some PROTEUSIII_CMD_DATA_IND)
    (h2 : pkt[CMD_POSITION_LENGTH_LSB]? = some lsb)
    (h3 : pkt[CMD_POSITION_LENGTH_MSB]? = some msb)
    (h10 : pkt[CMD_POSITION_DATA + 6]? = some rssi) :
    HandleRxPacket.switch h s pkt
      = some { cmdConfirmation := { cmd := CNFINVALID, status := CMD_Status_Invalid }
               bleState := s.bleState
               calls := [Event.rxCb
                 (slice pkt (CMD_POSITION_DATA + 7)
                   ((((lsb <<< 0) ||| (msb <<< 8)) + 65536 - 7) % 65536))
                 ((((lsb <<< 0) ||| (msb <<< 8)) + 65536 - 7) % 65536)
                 (slice pkt CMD_POSITION_DATA 6) rssi] } := by
  unfold HandleRxPacket.switch
  rw [h1]
  dsimp only
  rw [if_neg (by decide), if_neg (by decide), if_neg (by decide), if_neg (by decide),
    if_neg (by decide), if_neg (by decide), if_pos rfl, if_pos hcb, h2, h3, h10]

end ProteusIII

/-- C17 (data indication routing, Proteus-III): with `rxCb` registered, a `DATA_IND`
frame with a payload of `L >= 7` bytes in `pRxBuffer` (the frame followed by whatever
the receive buffer holds behind it) makes `HandleRxPacket` invoke `rxCb` once, with the
data `payload[7 .. L-1]`, the length `L - 7`, the address `payload[0 .. 5]` and the RSSI
`payload[6]`, and no other callback.  Nothing is inserted into the confirmation array:
every `cmd` field and every occupied slot is as before, and no slot becomes occupied. -/
theorem C17_data_indication_routing (h : ProteusIII.Header) (s : ProteusIII.State)
    (payload tail : List Nat) (rssi : Nat)
    (hcb : s.callbacks.rxCb = true)
    (h7 : 7 ≤ payload.length) (hL : payload.length < 65536)
    (hp : payload.length + 5 ≤ s.rxPacket.length)
    (hr : payload[6]? = some rssi) :
    ∃ s1, ProteusIII.HandleRxPacket h s
          (WCON.frame ProteusIII.PROTEUSIII_CMD_DATA_IND payload ++ tail) = some s1
      ∧ ProteusIII.callbackCalls s1.trace = ProteusIII.callbackCalls s.trace
          ++ [ProteusIII.Event.rxCb (payload.drop 7) (payload.length - 7) (payload.take 6) rssi]
      ∧ s1.cmdConfirmationArray.map (fun e => e.cmd)
          = s.cmdConfirmationArray.map (fun e => e.cmd)
      ∧ (∀ (i : Nat) (slot : WCON.Confirmation), s.cmdConfirmationArray[i]? = some slot →
          slot.cmd ≠ WCON.CNFINVALID → s1.cmdConfirmationArray[i]? = some slot)
      ∧ WCON.newlyOccupied s.cmdConfirmationArray s1.cmdConfirmationArray = 0 := by
  have hlsb : payload.length % 256 < 256 := Nat.mod_lt _ (by decide)
  have hlen : payload.length % 256 + 256 * (payload.length / 256) = payload.length :=
    Nat.mod_add_div _ _
  have hflen := WCON.frame_length ProteusIII.PROTEUSIII_CMD_DATA_IND payload
  have g2 : (WCON.frame ProteusIII.PROTEUSIII_CMD_DATA_IND payload
      ++ tail)[WCON.CMD_POSITION_LENGTH_LSB]? = some (payload.length % 256) := by
    simp [WCON.frame, WCON.CMD_POSITION_LENGTH_LSB]
  have g3 : (WCON.frame ProteusIII.PROTEUSIII_CMD_DATA_IND payload
      ++ tail)[WCON.CMD_POSITION_LENGTH_MSB]? = some (payload.length / 256) := by
    simp [WCON.frame, WCON.CMD_POSITION_LENGTH_MSB]
  have htake : (WCON.frame ProteusIII.PROTEUSIII_CMD_DATA_IND payload ++ tail).take
      (payload.length + 5) = WCON.frame ProteusIII.PROTEUSIII_CMD_DATA_IND payload :=
    List.take_left' hflen
  have hpl : (((payload.length % 256) <<< 0 ||| (payload.length / 256) <<< 8) + 65536 - 7)
      % 65536 = payload.length - 7 := by
    rw [WCON.length_or_eq _ _ hlsb, hlen]
    omega
  have hsw := ProteusIII.pro_switch_data_ind h s
    (WCON.frame ProteusIII.PROTEUSIII_CMD_DATA_IND payload
      ++ s.rxPacket.drop (payload.length + 5))
    (payload.length % 256) (payload.length / 256) rssi hcb
    (by simp [WCON.frame, WCON.CMD_POSITION_CMD])
    (by simp [WCON.frame, WCON.CMD_POSITION_LENGTH_LSB])
    (by simp [WCON.frame, WCON.CMD_POSITION_LENGTH_MSB])
    (by rw [WCON.frame_append, WCON.getElem?_payload _ _ _ _ _ _ 6 (by omega)]; exact hr)
  rw [hpl] at hsw
  have hdata : WCON.slice (WCON.frame ProteusIII.PROTEUSIII_CMD_DATA_IND payload
      ++ s.rxPacket.drop (payload.length + 5)) (WCON.CMD_POSITION_DATA + 7)
        (payload.length - 7) = payload.drop 7 := by
    rw [WCON.frame_append, WCON.slice_payload_drop _ _ _ _ _ _ 7 h7]
  have hmac : WCON.slice (WCON.frame ProteusIII.PROTEUSIII_CMD_DATA_IND payload
      ++ s.rxPacket.drop (payload.length + 5)) WCON.CMD_POSITION_DATA 6 = payload.take 6 := by
    rw [WCON.frame_append, WCON.slice_payload_take _ _ _ _ _ _ 6 (by omega)]
  rw [hdata, hmac] at hsw
  have hH : ProteusIII.HandleRxPacket h s
      (WCON.frame ProteusIII.PROTEUSIII_CMD_DATA_IND payload ++ tail)
      = some { s with
          rxPacket := WCON.frame ProteusIII.PROTEUSIII_CMD_DATA_IND payload
            ++ s.rxPacket.drop (payload.length + 5)
          cmdConfirmationArray := WCON.storeConfirmation
            { cmd := WCON.CNFINVALID, status := WCON.CMD_Status_Invalid } s.cmdConfirmationArray
          trace := s.trace
            ++ [ProteusIII.Event.dispatch (WCON.frame ProteusIII.PROTEUSIII_CMD_DATA_IND payload)]
            ++ [ProteusIII.Event.rxCb (payload.drop 7) (payload.length - 7) (payload.take 6)
                  rssi] } := by
    simp only [ProteusIII.HandleRxPacket, g2, g3,
      WCON.cmd_length_eq _ _ (by rw [hlen]; exact hL), hlen, WCON.LENGTH_CMD_OVERHEAD,
      WCON.memcpy_eq s.rxPacket (WCON.frame ProteusIII.PROTEUSIII_CMD_DATA_IND payload ++ tail)
        (payload.length + 5) (by rw [List.length_append, hflen]; omega) hp, htake, hsw]
  refine ⟨_, hH, ?_, ?_, ?_, ?_⟩
  · simp [ProteusIII.pro_callbackCalls_append, ProteusIII.callbackCalls]
  · exact WCON.store_invalid_cmd _ rfl _
  · intro i slot hsl hocc
    exact WCON.store_occupied _ _ i slot hsl hocc
  · exact WCON.store_invalid_newlyOccupied _ rfl _

set_option maxRecDepth 100000 in
/-- Witness of C17: a `DATA_IND` frame with the ten payload bytes `1, 2, ..., 10` (address
`1 .. 6`, RSSI `7`, data `8, 9, 10`), handled from the idle state with `rxCb` registered. -/
theorem C17_data_indication_routing_witness :
    ∃ s1, ProteusIII.HandleRxPacket ProteusIII.exampleHeader
          (ProteusIII.idleState ProteusIII.exampleHeader
            { ProteusIII.noCallbacks with rxCb := true })
          (WCON.frame ProteusIII.PROTEUSIII_CMD_DATA_IND [1, 2, 3, 4, 5, 6, 7, 8, 9, 10]
            ++ List.replicate 240 0) = some s1
      ∧ ProteusIII.callbackCalls s1.trace
          = ProteusIII.callbackCalls (ProteusIII.idleState ProteusIII.exampleHeader
              { ProteusIII.noCallbacks with rxCb := true }).trace
            ++ [ProteusIII.Event.rxCb ([1, 2, 3, 4, 5, 6, 7, 8, 9, 10].drop 7)
                  ([1, 2, 3, 4, 5, 6, 7, 8, 9, 10].length - 7)
                  ([1, 2, 3, 4, 5, 6, 7, 8, 9, 10].take 6) 7]
      ∧ s1.cmdConfirmationArray.map (fun e => e.cmd)
          = (ProteusIII.idleState ProteusIII.exampleHeader
              { ProteusIII.noCallbacks with rxCb := true }).cmdConfirmationArray.map
            (fun e => e.cmd)
      ∧ (∀ (i : Nat) (slot : WCON.Confirmation),
          (ProteusIII.idleState ProteusIII.exampleHeader
              { ProteusIII.noCallbacks with rxCb := true }).cmdConfirmationArray[i]?
            = some slot →
          slot.cmd ≠ WCON.CNFINVALID → s1.cmdConfirmationArray[i]? = some slot)
      ∧ WCON.newlyOccupied
          (ProteusIII.idleState ProteusIII.exampleHeader
            { ProteusIII.noCallbacks with rxCb := true }).cmdConfirmationArray
          s1.cmdConfirmationArray = 0 :=
  C17_data_indication_routing ProteusIII.exampleHeader
    (ProteusIII.idleState ProteusIII.exampleHeader { ProteusIII.noCallbacks with rxCb := true })
    [1, 2, 3, 4, 5, 6, 7, 8, 9, 10] (List.replicate 240 0) 7 rfl (by decide) (by decide)
    (by decide) rfl

/-! ## Reset request (C18, C19) -/

namespace WCON

/-- The request header of a command without payload, written into the command array and
completed by `FillChecksum`. -/
theorem FillChecksum_empty_request (arr : List Nat) (c : Nat) (hl : 5 ≤ arr.length) :
    FillChecksum ((((arr.set 0 CMD_STX).set 1 c).set 2 0).set 3 0) 5
      = some (true, [CMD_STX, c, 0, 0, CMD_STX ^^^ c] ++ arr.drop 5) := by
  match arr, hl with
  | a0 :: a1 :: a2 :: a3 :: a4 :: rest, _ =>
    have e : ((((a0 :: a1 :: a2 :: a3 :: a4 :: rest).set 0 CMD_STX).set 1 c).set 2 0).set 3 0
        = CMD_STX :: c :: 0 :: 0 :: a4 :: rest := rfl
    rw [e, FillChecksum_eq _ 5 0 0 (by decide) rfl rfl rfl (by decide) (by simp)]
    simp [xorAll]

end WCON

namespace ThyoneI
open WCON

theorem thy_transmitted_append (a b : List Event) :
    transmitted (a ++ b) = transmitted a ++ transmitted b := by
  induction a with
  | nil => rfl
  | cons e a ih => cases e <;> simp [transmitted, ih]

/-- The request part of `ThyoneI_Reset`: the frame `02 00 00 00 02` is built in
`CMD_Array` and handed to `WE_UART_Transmit`. -/
theorem thy_reset_request (s : State) (hl : 5 ≤ s.CMD_Array.length) :
    ThyoneI_Reset.request s
      = some (true, { s with
          CMD_Array := [0x02, 0x00, 0x00, 0x00, 0x02] ++ s.CMD_Array.drop 5
          trace := s.trace ++ [Event.transmit [0x02, 0x00, 0x00, 0x00, 0x02] 5] }) := by
  have h0 : CMD_POSITION_STX < s.CMD_Array.length := by simp only [CMD_POSITION_STX]; omega
  have h1 : CMD_POSITION_CMD < (s.CMD_Array.set CMD_POSITION_STX CMD_STX).length := by
    simp only [CMD_POSITION_CMD, List.length_set]; omega
  have h2 : CMD_POSITION_LENGTH_LSB
      < ((s.CMD_Array.set CMD_POSITION_STX CMD_STX).set CMD_POSITION_CMD
          THYONEI_CMD_RESET_REQ).length := by
    simp only [CMD_POSITION_LENGTH_LSB, List.length_set]; omega
  have h3 : CMD_POSITION_LENGTH_MSB
      < (((s.CMD_Array.set CMD_POSITION_STX CMD_STX).set CMD_POSITION_CMD
          THYONEI_CMD_RESET_REQ).set CMD_POSITION_LENGTH_LSB 0).length := by
    simp only [CMD_POSITION_LENGTH_MSB, List.length_set]; omega
  have hsize : CMD_ARRAY_SIZE ((((s.CMD_Array.set CMD_POSITION_STX CMD_STX).set CMD_POSITION_CMD
      THYONEI_CMD_RESET_REQ).set CMD_POSITION_LENGTH_LSB 0).set CMD_POSITION_LENGTH_MSB 0)
        = some 5 := by
    match hs : s.CMD_Array, hl with
    | a0 :: a1 :: a2 :: a3 :: a4 :: rest, _ =>
      simp [CMD_ARRAY_SIZE, CMD_POSITION_STX, CMD_POSITION_CMD, CMD_POSITION_LENGTH_LSB,
        CMD_POSITION_LENGTH_MSB, LENGTH_CMD_OVERHEAD]
  have hfill := FillChecksum_empty_request s.CMD_Array THYONEI_CMD_RESET_REQ hl
  have hsize2 : CMD_ARRAY_SIZE ([CMD_STX, THYONEI_CMD_RESET_REQ, 0, 0,
      CMD_STX ^^^ THYONEI_CMD_RESET_REQ] ++ s.CMD_Array.drop 5) = some 5 := by
    simp [CMD_ARRAY_SIZE, CMD_POSITION_LENGTH_LSB, CMD_POSITION_LENGTH_MSB, LENGTH_CMD_OVERHEAD]
  unfold ThyoneI_Reset.request
  simp only [write, if_pos h0, if_pos h1, if_pos h2, if_pos h3, hsize]
  rw [show (5 : Nat) % 65536 = 5 from rfl]
  rw [show (((s.CMD_Array.set CMD_POSITION_STX CMD_STX).set CMD_POSITION_CMD
      THYONEI_CMD_RESET_REQ).set CMD_POSITION_LENGTH_LSB 0).set CMD_POSITION_LENGTH_MSB 0
      = (((s.CMD_Array.set 0 CMD_STX).set 1 THYONEI_CMD_RESET_REQ).set 2 0).set 3 0 from rfl,
    hfill]
  simp only [hsize2]
  rfl

end ThyoneI

namespace ProteusIII
open WCON

theorem pro_transmitted_append (a b : List Event) :
    transmitted (a ++ b) = transmitted a ++ transmitted b := by
  induction a with
  | nil => rfl
  | cons e a ih => cases e <;> simp [transmitted, ih]

/-- The request part of `ProteusIII_Reset`: the frame `02 00 00 00 02` is built in
`cmdArray` and handed to `WE_UART_Transmit`. -/
theorem pro_reset_request (s : State) (hl : 5 ≤ s.cmdArray.length) :
    ProteusIII_Reset.request s
      = some (true, { s with
          cmdArray := [0x02, 0x00, 0x00, 0x00, 0x02] ++ s.cmdArray.drop 5
          trace := s.trace ++ [Event.transmit [0x02, 0x00, 0x00, 0x00, 0x02] 5] }) := by
  have h0 : CMD_POSITION_STX < s.cmdArray.length := by simp only [CMD_POSITION_STX]; omega
  have h1 : CMD_POSITION_CMD < (s.cmdArray.set CMD_POSITION_STX CMD_STX).length := by
    simp only [CMD_POSITION_CMD, List.length_set]; omega
  have h2 : CMD_POSITION_LENGTH_LSB
      < ((s.cmdArray.set CMD_POSITION_STX CMD_STX).set CMD_POSITION_CMD
          PROTEUSIII_CMD_RESET_REQ).length := by
    simp only [CMD_POSITION_LENGTH_LSB, List.length_set]; omega
  have h3 : CMD_POSITION_LENGTH_MSB
      < (((s.cmdArray.set CMD_POSITION_STX CMD_STX).set CMD_POSITION_CMD
          PROTEUSIII_CMD_RESET_REQ).set CMD_POSITION_LENGTH_LSB 0).length := by
    simp only [CMD_POSITION_LENGTH_MSB, List.length_set]; omega
  have hsize : CMD_ARRAY_SIZE ((((s.cmdArray.set CMD_POSITION_STX CMD_STX).set CMD_POSITION_CMD
      PROTEUSIII_CMD_RESET_REQ).set CMD_POSITION_LENGTH_LSB 0).set CMD_POSITION_LENGTH_MSB 0)
        = some 5 := by
    match hs : s.cmdArray, hl with
    | a0 :: a1 :: a2 :: a3 :: a4 :: rest, _ =>
      simp [CMD_ARRAY_SIZE, CMD_POSITION_STX, CMD_POSITION_CMD, CMD_POSITION_LENGTH_LSB,
        CMD_POSITION_LENGTH_MSB, LENGTH_CMD_OVERHEAD]
  have hfill := FillChecksum_empty_request s.cmdArray PROTEUSIII_CMD_RESET_REQ hl
  have hsize2 : CMD_ARRAY_SIZE ([CMD_STX, PROTEUSIII_CMD_RESET_REQ, 0, 0,
      CMD_STX ^^^ PROTEUSIII_CMD_RESET_REQ] ++ s.cmdArray.drop 5) = some 5 := by
    simp [CMD_ARRAY_SIZE, CMD_POSITION_LENGTH_LSB, CMD_POSITION_LENGTH_MSB, LENGTH_CMD_OVERHEAD]
  unfold ProteusIII_Reset.request
  simp only [write, if_pos h0, if_pos h1, if_pos h2, if_pos h3, hsize]
  rw [show (5 : Nat) % 65536 = 5 from rfl]
  rw [show (((s.cmdArray.set CMD_POSITION_STX CMD_STX).set CMD_POSITION_CMD
      PROTEUSIII_CMD_RESET_REQ).set CMD_POSITION_LENGTH_LSB 0).set CMD_POSITION_LENGTH_MSB 0
      = (((s.cmdArray.set 0 CMD_STX).set 1 PROTEUSIII_CMD_RESET_REQ).set 2 0).set 3 0 from rfl,
    hfill]
  simp only [hsize2]
  rfl

end ProteusIII

namespace ThyoneI
open WCON

theorem thy_idle_cmdArray (cb : Bool) : (idleState cb).CMD_Array.length = 235 := by
  simp only [idleState, List.length_replicate]
  rfl

end ThyoneI

namespace ProteusIII
open WCON

theorem pro_idle_cmdArray (h : Header) (cb : CallbackConfig) :
    (idleState h cb).cmdArray.length = MAX_CMD_LENGTH h := by
  simp only [idleState, List.length_replicate]

end ProteusIII

/-- C18, counterexample: the reset request that `ThyoneI_Reset` and `ProteusIII_Reset`
hand to `WE_UART_Transmit` from the idle state is `[0x02, 0x00, 0x00, 0x00, 0x02]`; its
last byte is the checksum `0x02`, not `0x00`. -/
theorem C18_reset_checksum_counterexample :
    (ThyoneI.ThyoneI_Reset.request (ThyoneI.idleState false)).map
        (fun r => ThyoneI.transmitted r.2.trace) = some [[0x02, 0x00, 0x00, 0x00, 0x02]]
    ∧ (ProteusIII.ProteusIII_Reset.request
          (ProteusIII.idleState ProteusIII.exampleHeader ProteusIII.noCallbacks)).map
        (fun r => ProteusIII.transmitted r.2.trace) = some [[0x02, 0x00, 0x00, 0x00, 0x02]]
    ∧ ([0x02, 0x00, 0x00, 0x00, 0x02] : List Nat) ≠ [0x02, 0x00, 0x00, 0x00, 0x00] := by
  refine ⟨?_, ?_, by decide⟩
  · rw [ThyoneI.thy_reset_request _ (by rw [ThyoneI.thy_idle_cmdArray]; decide)]
    rfl
  · rw [ProteusIII.pro_reset_request _ (by rw [ProteusIII.pro_idle_cmdArray]; decide)]
    rfl

/-- C18, amended (reset request wire image, both drivers): the frame that `ThyoneI_Reset`
and `ProteusIII_Reset` build and hand to `WE_UART_Transmit` is exactly the five bytes
`[0x02, 0x00, 0x00, 0x00, 0x02]`: start byte, code `RESET|REQ = 0x00`, length `0x0000`
and the checksum `0x02`, the XOR of the four bytes before it.  The function then waits
for its confirmation with the confirmation array reset. -/
theorem C18_reset_request_image :
    (∀ (s : ThyoneI.State) (env : ThyoneI.Env) (fuel : Nat),
      5 ≤ s.CMD_Array.length →
      ∃ s1, ThyoneI.ThyoneI_Reset.request s = some (true, s1)
        ∧ ThyoneI.transmitted s1.trace
            = ThyoneI.transmitted s.trace ++ [[0x02, 0x00, 0x00, 0x00, 0x02]]
        ∧ WCON.xorAll [0x02, 0x00, 0x00, 0x00] = 0x02
        ∧ ThyoneI.ThyoneI_Reset env fuel s
            = ThyoneI.Wait4CNF env fuel s1 ThyoneI.CMD_WAIT_TIME ThyoneI.THYONEI_CMD_START_IND
                WCON.CMD_Status_NoStatus true) ∧
    (∀ (h : ProteusIII.Header) (s : ProteusIII.State) (env : ProteusIII.Env),
      5 ≤ s.cmdArray.length →
      ∃ s1, ProteusIII.ProteusIII_Reset.request s = some (true, s1)
        ∧ ProteusIII.transmitted s1.trace
            = ProteusIII.transmitted s.trace ++ [[0x02, 0x00, 0x00, 0x00, 0x02]]
        ∧ WCON.xorAll [0x02, 0x00, 0x00, 0x00] = 0x02
        ∧ ProteusIII.ProteusIII_Reset h env s
            = ProteusIII.Wait4CNF h env s1 ProteusIII.CMD_WAIT_TIME
                ProteusIII.PROTEUSIII_CMD_GETSTATE_CNF WCON.CMD_Status_NoStatus true) := by
  constructor
  · intro s env fuel hl
    refine ⟨_, ThyoneI.thy_reset_request s hl, ?_, by decide, ?_⟩
    · simp [ThyoneI.thy_transmitted_append, ThyoneI.transmitted]
    · simp only [ThyoneI.ThyoneI_Reset, ThyoneI.thy_reset_request s hl]
  · intro h s env hl
    refine ⟨_, ProteusIII.pro_reset_request s hl, ?_, by decide, ?_⟩
    · simp [ProteusIII.pro_transmitted_append, ProteusIII.transmitted]
    · simp only [ProteusIII.ProteusIII_Reset, ProteusIII.pro_reset_request s hl]

/-- Witness of C18 (amended): `ThyoneI_Reset` called in the idle state. -/
theorem C18_reset_request_image_witness :
    ∃ s1, ThyoneI.ThyoneI_Reset.request (ThyoneI.idleState false) = some (true, s1)
      ∧ ThyoneI.transmitted s1.trace
          = ThyoneI.transmitted (ThyoneI.idleState false).trace
            ++ [[0x02, 0x00, 0x00, 0x00, 0x02]]
      ∧ WCON.xorAll [0x02, 0x00, 0x00, 0x00] = 0x02
      ∧ ThyoneI.ThyoneI_Reset { tick := fun k => k, arrive := fun _ => [] } 1
            (ThyoneI.idleState false)
          = ThyoneI.Wait4CNF { tick := fun k => k, arrive := fun _ => [] } 1 s1
              ThyoneI.CMD_WAIT_TIME ThyoneI.THYONEI_CMD_START_IND WCON.CMD_Status_NoStatus true :=
  C18_reset_request_image.1 (ThyoneI.idleState false)
    { tick := fun k => k, arrive := fun _ => [] } 1
    (by rw [ThyoneI.thy_idle_cmdArray]; decide)

namespace ProteusIII
open WCON

/-- Polling passes during which nothing arrives and no slot holds the expected code: each
one adds a delay of 5 ms and leaves everything else as it was. -/
theorem pro_loop_quiet (h : Header) (env : Env) (maxCount : Int) (c st : Nat) (n : Nat) :
    ∀ (fuel : Nat) (count : Int) (s : State),
    scanConfirmations c st s.cmdConfirmationArray = none →
    0 ≤ count → count + n ≤ maxCount →
    (∀ j, j < n → env.arrive (count.toNat + j) = []) →
    Wait4CNF.loop h env maxCount c st (fuel + n) count s
      = Wait4CNF.loop h env maxCount c st fuel (count + n)
          { s with trace := s.trace ++ List.replicate n (Event.delay 5) } := by
  induction n with
  | zero =>
    intro fuel count s _ _ _ _
    simp
  | succ n ih =>
    intro fuel count s hscan hc hle hq
    have hlt : ¬ (count ≥ maxCount) := by omega
    have h0 : env.arrive count.toNat = [] := by simpa using hq 0 (by omega)
    rw [show fuel + (n + 1) = (fuel + n) + 1 by omega]
    simp only [Wait4CNF.loop, hscan, hlt, if_false, h0, pro_feed_nil]
    rw [ih fuel (count + 1) { s with trace := s.trace ++ [Event.delay 5] } hscan (by omega)
      (by push_cast at hle ⊢; omega)
      (fun j hj => by
        have := hq (j + 1) (by omega)
        rw [show (count + 1).toNat + j = count.toNat + (j + 1) by omega]
        exact this)]
    have e1 : count + 1 + (n : Int) = count + ((n + 1 : Nat) : Int) := by
      push_cast
      omega
    simp only [List.append_assoc, List.replicate_succ, List.singleton_append, e1]

end ProteusIII

namespace ProteusIII
open WCON

/-- A wait that starts with a reset and is resolved by what arrives during the delay
number `k` (counted from 0): nothing arrives before, and the bytes arriving then leave a
slot with the expected code. -/
theorem pro_wait_arrival (h : Header) (env : Env) (s s2 : State) (maxTimeMs : Int)
    (c st : Nat) (k : Nat) (r : Bool)
    (hnone : scanConfirmations c st (resetConfirmations s.cmdConfirmationArray) = none)
    (hquiet : ∀ j, j < k → env.arrive j = [])
    (hk : (k : Int) < Int.tdiv maxTimeMs 5)
    (hfeed : feed h { s with
        cmdConfirmationArray := resetConfirmations s.cmdConfirmationArray
        trace := s.trace ++ List.replicate (k + 1) (Event.delay 5) } (env.arrive k) = some s2)
    (hscan : scanConfirmations c st s2.cmdConfirmationArray = some r) :
    Wait4CNF h env s maxTimeMs c st true = some (r, s2) := by
  have hm : (Int.tdiv maxTimeMs 5).toNat + 1 = ((Int.tdiv maxTimeMs 5).toNat - k - 1 + 1 + 1) + k := by
    omega
  simp only [Wait4CNF, if_true]
  rw [hm, pro_loop_quiet h env _ c st k _ 0 _ hnone (le_refl 0) (by omega)
    (fun j hj => by simpa using hquiet j hj)]
  have hlt : ¬ ((0 : Int) + k ≥ Int.tdiv maxTimeMs 5) := by omega
  have htn : ((0 : Int) + (k : Int)).toNat = k := by simp
  have hrep : s.trace ++ List.replicate k (Event.delay 5) ++ [Event.delay 5]
      = s.trace ++ List.replicate (k + 1) (Event.delay 5) := by
    rw [List.append_assoc, ← List.replicate_succ']
  rw [Wait4CNF.loop]
  simp only [hnone, hlt, if_false, htn, hrep, hfeed]
  exact pro_loop_found h env _ c st _ _ s2 r hscan

theorem pro_transmitted_delays (n : Nat) :
    transmitted (List.replicate n (Event.delay 5)) = [] := by
  induction n with
  | zero => rfl
  | succ n ih => simp [List.replicate_succ, transmitted, ih]

end ProteusIII

/-- C19 (reset resolved by the state confirmation, Proteus-III): `ProteusIII_Reset` is
called with an idle receiver.  Nothing arrives during the first `k` delays of its wait,
and during the next one, still inside the time-out of 500 ms (`k < 100`), a
checksum-valid `GETSTATE_CNF` frame (code `0x41`) with any payload that fits the receive
buffers is delivered byte by byte.  Then `ProteusIII_Reset` returns `true`, having
transmitted its request once and waited `k + 1` delays of 5 ms. -/
theorem C19_reset_resolved_by_getstate (h : ProteusIII.Header) (s : ProteusIII.State)
    (env : ProteusIII.Env) (k : Nat) (payload : List Nat)
    (hidle : s.rxByteCounter = 0) (hcmd : 5 ≤ s.cmdArray.length)
    (harr : s.cmdConfirmationArray.length = ProteusIII.CMDCONFIRMATIONARRAY_LENGTH)
    (hN : payload.length + 5 < 65536)
    (hbuf : payload.length + 5 ≤ s.rxBuffer.length)
    (hpkt : payload.length + 5 ≤ s.rxPacket.length)
    (hquiet : ∀ j, j < k → env.arrive j = [])
    (harrive : env.arrive k = WCON.frame ProteusIII.PROTEUSIII_CMD_GETSTATE_CNF payload)
    (hk : k < ProteusIII.CMD_WAIT_TIME / 5) :
    ∃ s1, ProteusIII.ProteusIII_Reset h env s = some (true, s1)
      ∧ ProteusIII.transmitted s1.trace
          = ProteusIII.transmitted s.trace ++ [[0x02, 0x00, 0x00, 0x00, 0x02]]
      ∧ ProteusIII.delays s1.trace = ProteusIII.delays s.trace ++ List.replicate (k + 1) 5
      ∧ s1.cmdConfirmationArray[0]?
          = some { cmd := ProteusIII.PROTEUSIII_CMD_GETSTATE_CNF
                   status := WCON.CMD_Status_NoStatus } := by
  obtain ⟨a, arr, ha⟩ : ∃ a arr, s.cmdConfirmationArray = a :: arr := by
    match hs : s.cmdConfirmationArray, harr with
    | a :: arr, _ => exact ⟨a, arr, rfl⟩
  have hk' : k < 100 := hk
  obtain ⟨s2, d, hfeed, _, _, _, _, _, _, _, harr2, htr2⟩ := ProteusIII.pro_feed_confirm h
    { s with
      cmdArray := [0x02, 0x00, 0x00, 0x00, 0x02] ++ s.cmdArray.drop 5
      cmdConfirmationArray := WCON.resetConfirmations s.cmdConfirmationArray
      trace := s.trace ++ [ProteusIII.Event.transmit [0x02, 0x00, 0x00, 0x00, 0x02] 5]
        ++ List.replicate (k + 1) (ProteusIII.Event.delay 5) }
    ProteusIII.PROTEUSIII_CMD_GETSTATE_CNF payload hidle hN hbuf hpkt (Or.inr (Or.inr rfl))
  simp only [if_true] at harr2
  rw [ha, WCON.store_after_reset] at harr2
  have hscan : WCON.scanConfirmations ProteusIII.PROTEUSIII_CMD_GETSTATE_CNF
      WCON.CMD_Status_NoStatus s2.cmdConfirmationArray = some true := by
    rw [harr2]
    simp [WCON.scanConfirmations]
  have hnone : WCON.scanConfirmations ProteusIII.PROTEUSIII_CMD_GETSTATE_CNF
      WCON.CMD_Status_NoStatus (WCON.resetConfirmations s.cmdConfirmationArray) = none := by
    rw [WCON.scan_eq_none_iff]
    intro slot hs
    rw [WCON.resetConfirmations_cmd _ slot hs]
    decide
  have h100 : Int.tdiv ((ProteusIII.CMD_WAIT_TIME : Nat) : Int) 5 = 100 := by decide
  refine ⟨s2, ?_, ?_, ?_, ?_⟩
  · simp only [ProteusIII.ProteusIII_Reset, ProteusIII.pro_reset_request s hcmd]
    exact ProteusIII.pro_wait_arrival h env _ s2 _ _ _ k true hnone hquiet
      (by rw [h100]; omega) (by rw [harrive]; exact hfeed) hscan
  · rw [htr2]
    simp [ProteusIII.pro_transmitted_append, ProteusIII.transmitted,
      ProteusIII.pro_transmitted_delays]
  · rw [htr2]
    simp [ProteusIII.delays_append, ProteusIII.delays, ProteusIII.delays_replicate,
      List.replicate_succ]
  · rw [harr2]
    simp

set_option maxRecDepth 100000 in
/-- Witness of C19: from the idle state, the frame `[0x02, 0x41, 0x01, 0x00, 0x01, 0x43]`
arrives during the third delay of the wait. -/
theorem C19_reset_resolved_by_getstate_witness :
    ∃ s1, ProteusIII.ProteusIII_Reset ProteusIII.exampleHeader
          { arrive := fun k => if k = 2 then
              WCON.frame ProteusIII.PROTEUSIII_CMD_GETSTATE_CNF [0x01] else [] }
          (ProteusIII.idleState ProteusIII.exampleHeader ProteusIII.noCallbacks)
        = some (true, s1)
      ∧ ProteusIII.transmitted s1.trace
          = ProteusIII.transmitted
              (ProteusIII.idleState ProteusIII.exampleHeader ProteusIII.noCallbacks).trace
            ++ [[0x02, 0x00, 0x00, 0x00, 0x02]]
      ∧ ProteusIII.delays s1.trace
          = ProteusIII.delays
              (ProteusIII.idleState ProteusIII.exampleHeader ProteusIII.noCallbacks).trace
            ++ List.replicate (2 + 1) 5
      ∧ s1.cmdConfirmationArray[0]?
          = some { cmd := ProteusIII.PROTEUSIII_CMD_GETSTATE_CNF
                   status := WCON.CMD_Status_NoStatus } :=
  C19_reset_resolved_by_getstate ProteusIII.exampleHeader
    (ProteusIII.idleState ProteusIII.exampleHeader ProteusIII.noCallbacks)
    { arrive := fun k => if k = 2 then
        WCON.frame ProteusIII.PROTEUSIII_CMD_GETSTATE_CNF [0x01] else [] }
    2 [0x01] rfl (by decide) rfl (by decide) (by decide) (by decide)
    (fun j hj => by
      have hne : j ≠ 2 := by omega
      simp [hne])
    (by simp) (by decide)

/-! ## Matched entries (C20) -/

namespace ProteusIII
open WCON

end ProteusIII

namespace ThyoneI
open WCON

/-- How the polling loop can end: with the comparison result of a slot that is still in
the array, or with `false` and no slot holding the expected code. -/
theorem thy_loop_result (env : Env) (t0 : Nat) (max : Int) (c st : Nat) :
    ∀ (fuel k : Nat) (s s1 : State) (r : Bool),
    Wait4CNF.loop env t0 max c st fuel k s = some (r, s1) →
    scanConfirmations c st s1.cmdConfirmation_array = some r
      ∨ (r = false ∧ scanConfirmations c st s1.cmdConfirmation_array = none) := by
  intro fuel
  induction fuel with
  | zero =>
    intro k s s1 r hl
    simp [Wait4CNF.loop] at hl
  | succ fuel ih =>
    intro k s s1 r hl
    rw [Wait4CNF.loop] at hl
    cases hscan : scanConfirmations c st s.cmdConfirmation_array with
    | some r0 =>
      rw [hscan] at hl
      simp only [Option.some.injEq, Prod.mk.injEq] at hl
      obtain ⟨rfl, rfl⟩ := hl
      exact Or.inl hscan
    | none =>
      rw [hscan] at hl
      dsimp only at hl
      split_ifs at hl with hge
      · simp only [Option.some.injEq, Prod.mk.injEq] at hl
        obtain ⟨rfl, rfl⟩ := hl
        exact Or.inr ⟨rfl, hscan⟩
      all_goals
        split at hl
        · simp at hl
        · exact ih _ _ _ _ hl

theorem thy_wait_result (env : Env) (fuel : Nat) (s s1 : State) (max : Int)
    (c st : Nat) (reset r : Bool)
    (hw : Wait4CNF env fuel s max c st reset = some (r, s1)) :
    scanConfirmations c st s1.cmdConfirmation_array = some r
      ∨ (r = false ∧ scanConfirmations c st s1.cmdConfirmation_array = none) := by
  simp only [Wait4CNF] at hw
  exact thy_loop_result env _ max c st _ _ _ s1 r hw

end ThyoneI

namespace WCON

/-- Replacing the byte `b` at index `i` by `b ^^^ m` changes the XOR of the list by `m`. -/
theorem xorAll_set (l : List Nat) (i b m : Nat) (hb : l[i]? = some b) :
    xorAll (l.set i (b ^^^ m)) = xorAll l ^^^ m := by
  induction l generalizing i with
  | nil => simp at hb
  | cons a l ih =>
    cases i with
    | zero =>
      simp only [List.getElem?_cons_zero, Option.some.injEq] at hb
      subst hb
      rw [List.set_cons_zero, xorAll_cons, xorAll_cons, Nat.xor_assoc, Nat.xor_assoc,
        Nat.xor_comm m]
    | succ i =>
      simp only [List.getElem?_cons_succ] at hb
      rw [List.set_cons_succ, xorAll_cons, xorAll_cons, ih i hb, Nat.xor_assoc]

/-- Flipping one bit changes a value. -/
theorem xor_pow_ne (x k : Nat) : x ^^^ 2 ^ k ≠ x := by
  intro h
  have h2 : x ^^^ 2 ^ k = x ^^^ 0 := by rw [Nat.xor_zero]; exact h
  have h3 : 2 ^ k = 0 := Nat.xor_right_injective h2
  exact absurd h3 (by positivity)

/-- The receive-side test on a completed frame in which the byte at index `i` has one bit
flipped: the computed XOR and the received checksum byte differ. -/
theorem flipped_frame_check (body tail : List Nat) (i k b : Nat) (hi : i < body.length + 1)
    (hb : (body ++ xorAll body :: tail)[i]? = some b) :
    ∃ cs last,
      xorFrom ((body ++ xorAll body :: tail).set i (b ^^^ 2 ^ k)) body.length 0 0 = some cs
        ∧ ((body ++ xorAll body :: tail).set i (b ^^^ 2 ^ k))[body.length]? = some last
        ∧ cs ≠ last := by
  by_cases hlt : i < body.length
  · have hb1 : body[i]? = some b := by
      rw [List.getElem?_append_left hlt] at hb; exact hb
    have hset : (body ++ xorAll body :: tail).set i (b ^^^ 2 ^ k)
        = body.set i (b ^^^ 2 ^ k) ++ xorAll body :: tail := List.set_append_left i _ hlt
    have hlen : (body.set i (b ^^^ 2 ^ k)).length = body.length := List.length_set _ _ _
    have hc := checkCRC_frame (body.set i (b ^^^ 2 ^ k)) (xorAll body) tail
    rw [hlen] at hc
    refine ⟨_, _, by rw [hset]; exact hc.1, by rw [hset]; exact hc.2, ?_⟩
    rw [xorAll_set body i b _ hb1]
    exact xor_pow_ne _ _
  · have hie : i = body.length := by omega
    subst hie
    rw [getElem?_append_cons_length] at hb
    simp only [Option.some.injEq] at hb
    subst hb
    rw [set_append_cons]
    have hc := checkCRC_frame body (xorAll body ^^^ 2 ^ k) tail
    exact ⟨_, _, hc.1, hc.2, fun h => xor_pow_ne _ _ h.symm⟩

end WCON

/-- C21 (checksum sensitivity, both drivers): let `FillChecksum` complete the array that
holds the header `[0x02, c, len & 0xFF, len >> 8]`, a payload `p` and a checksum slot.  In
the completed frame, flip bit `k` (`k < 8`) of the byte at any index `i` of the frame
(start byte, command, length bytes, payload or checksum).  The receive-side test of either
reassembler, applied to the same number of bytes `len + 5`, then computes an XOR over all
bytes but the last that differs from the last byte, so the frame is not dispatched. -/
theorem C21_checksum_sensitivity :
    ∀ (c : Nat) (p : List Nat) (x : Nat) (tail : List Nat), p.length ≤ 65531 →
      ∃ out,
        WCON.FillChecksum ([0x02, c, p.length &&& 0xFF, p.length >>> 8] ++ p ++ x :: tail)
            (p.length + 5) = some (true, out)
          ∧ ∀ (i k b : Nat), i < p.length + 5 → k < 8 → out[i]? = some b →
              (∃ cs last,
                ThyoneI.checkCRC (out.set i (b ^^^ 2 ^ k)) (p.length + 5) = some (cs, last)
                  ∧ cs ≠ last)
              ∧ (∃ cs last,
                ProteusIII.checkCRC (out.set i (b ^^^ 2 ^ k)) (p.length + 5) = some (cs, last)
                  ∧ cs ≠ last) := by
  intro c p x tail hp
  refine ⟨_, WCON.FillChecksum_frame c p x tail hp, ?_⟩
  intro i k b hi _ hb
  have hlen : ([0x02, c, p.length &&& 0xFF, p.length >>> 8] ++ p).length = p.length + 4 := by
    simp
  obtain ⟨cs, last, h1, h2, h3⟩ :=
    WCON.flipped_frame_check ([0x02, c, p.length &&& 0xFF, p.length >>> 8] ++ p) tail i k b
      (by rw [hlen]; omega) hb
  rw [hlen] at h1 h2
  constructor
  · refine ⟨cs, last, ?_, h3⟩
    unfold ThyoneI.checkCRC
    have e : p.length + 5 - 1 = p.length + 4 := rfl
    rw [e, h1]
    simp only [Nat.add_one_ne_zero, if_false, h2]
  · refine ⟨cs, last, ?_, h3⟩
    unfold ProteusIII.checkCRC
    have e : p.length + 5 - 1 = p.length + 4 := rfl
    rw [e, h1]
    simp only [Nat.add_one_ne_zero, if_false, h2]

/-- C21 at the frame of command 0x44 with payload `[0x00]`: bit 3 of the command byte is
flipped. -/
theorem C21_checksum_sensitivity_witness :
    (1 : Nat) ≤ 65531 ∧
    ∃ out,
      WCON.FillChecksum ([0x02, 0x44, [0x00].length &&& 0xFF, [0x00].length >>> 8] ++ [0x00]
          ++ 0 :: []) ([0x00].length + 5) = some (true, out)
        ∧ ∀ (i k b : Nat), i < [0x00].length + 5 → k < 8 → out[i]? = some b →
            (∃ cs last,
              ThyoneI.checkCRC (out.set i (b ^^^ 2 ^ k)) ([0x00].length + 5) = some (cs, last)
                ∧ cs ≠ last)
            ∧ (∃ cs last,
              ProteusIII.checkCRC (out.set i (b ^^^ 2 ^ k)) ([0x00].length + 5)
                  = some (cs, last)
                ∧ cs ≠ last) :=
  ⟨by decide, C21_checksum_sensitivity 0x44 [0x00] 0 [] (by decide)⟩

/-! ## Request functions: building and sending a frame -/

namespace WCON

/-- `FillChecksum` on a header with the length bytes `len % 256` and `len / 256`, a payload
and room for the checksum leaves the wire image `frame c p` at the front of the array. -/
theorem FillChecksum_frame_mod (c : Nat) (p : List Nat) (x : Nat) (tail : List Nat)
    (hp : p.length ≤ 65531) :
    FillChecksum (CMD_STX :: c :: (p.length % 256) :: (p.length / 256) :: (p ++ x :: tail))
        (p.length + 5) = some (true, frame c p ++ tail) := by
  have hand : p.length &&& 0xFF = p.length % 256 := Nat.and_pow_two_sub_one_eq_mod p.length 8
  have hshr : p.length >>> 8 = p.length / 256 := Nat.shiftRight_eq_div_pow p.length 8
  have h := FillChecksum_frame c p x tail hp
  rw [hand, hshr] at h
  simp only [List.cons_append, List.nil_append, List.append_assoc] at h
  rw [show CMD_STX = 2 from rfl, h, frame_append]
  rfl

/-- Four assignments to the first four bytes of an array. -/
theorem writes_four (arr : List Nat) (a b c d : Nat) (hl : 4 ≤ arr.length) :
    writes arr [(CMD_POSITION_STX, a), (CMD_POSITION_CMD, b), (CMD_POSITION_LENGTH_LSB, c),
        (CMD_POSITION_LENGTH_MSB, d)] = some (a :: b :: c :: d :: arr.drop 4) := by
  match arr, hl with
  | a0 :: a1 :: a2 :: a3 :: rest, _ =>
    simp [writes, write, CMD_POSITION_STX, CMD_POSITION_CMD, CMD_POSITION_LENGTH_LSB,
      CMD_POSITION_LENGTH_MSB]

/-- Five assignments to the first five bytes of an array. -/
theorem writes_five (arr : List Nat) (a b c d e : Nat) (hl : 5 ≤ arr.length) :
    writes arr [(CMD_POSITION_STX, a), (CMD_POSITION_CMD, b), (CMD_POSITION_LENGTH_LSB, c),
        (CMD_POSITION_LENGTH_MSB, d), (CMD_POSITION_DATA, e)]
      = some (a :: b :: c :: d :: e :: arr.drop 5) := by
  match arr, hl with
  | a0 :: a1 :: a2 :: a3 :: a4 :: rest, _ =>
    simp [writes, write, CMD_POSITION_STX, CMD_POSITION_CMD, CMD_POSITION_LENGTH_LSB,
      CMD_POSITION_LENGTH_MSB, CMD_POSITION_DATA]

/-- A copy of `n` bytes to the payload position of an array that starts with a header. -/
theorem memcpyAt_payload (a b c d : Nat) (rest src : List Nat) (n : Nat) (hs : n ≤ src.length)
    (hr : n + 1 ≤ rest.length) :
    memcpyAt (a :: b :: c :: d :: rest) CMD_POSITION_DATA src n
      = some (a :: b :: c :: d :: (src.take n ++ (rest.drop n).head! :: rest.drop (n + 1))) := by
  have hd : rest.drop n = (rest.drop n).head! :: rest.drop (n + 1) := by
    have hn : n < rest.length := by omega
    rw [List.drop_eq_getElem_cons hn]
    rfl
  unfold memcpyAt
  rw [if_pos ⟨hs, by simp only [CMD_POSITION_DATA, List.length_cons]; omega⟩]
  simp only [CMD_POSITION_DATA, Option.some.injEq]
  rw [show 4 + n = n + 1 + 1 + 1 + 1 by omega]
  simp only [List.take_succ_cons, List.take_zero, List.drop_succ_cons, List.cons_append,
    List.nil_append, List.append_assoc]
  rw [← hd]

end WCON

namespace ThyoneI
open WCON

theorem thy_CMD_ARRAY_SIZE_eq (a b lsb msb : Nat) (rest : List Nat) (h : lsb < 256) :
    CMD_ARRAY_SIZE (a :: b :: lsb :: msb :: rest) = some (lsb + 256 * msb + 5) := by
  simp only [CMD_ARRAY_SIZE, CMD_POSITION_LENGTH_LSB, CMD_POSITION_LENGTH_MSB,
    LENGTH_CMD_OVERHEAD, List.getElem?_cons_succ, List.getElem?_cons_zero]
  rw [length_or_eq lsb msb h]

/-- The closing block of a request function on an array that holds a header, a payload `p`
and room for the checksum: the wire image `frame c p` is handed to `WE_UART_Transmit`. -/
theorem thy_fillAndTransmit_frame (s : State) (c : Nat) (p : List Nat) (x : Nat)
    (tail : List Nat) (hp : p.length ≤ 65530) :
    fillAndTransmit s (CMD_STX :: c :: (p.length % 256) :: (p.length / 256) :: (p ++ x :: tail))
      = some (true, { s with
          CMD_Array := frame c p ++ tail
          trace := s.trace ++ [Event.transmit (frame c p) (p.length + 5)] }) := by
  have hL : p.length % 256 + 256 * (p.length / 256) = p.length := Nat.mod_add_div p.length 256
  unfold fillAndTransmit
  rw [thy_CMD_ARRAY_SIZE_eq _ _ _ _ _ (Nat.mod_lt _ (by decide)), hL]
  simp only
  rw [Nat.mod_eq_of_lt (show p.length + 5 < 65536 by omega), FillChecksum_frame_mod c p x tail (by omega)]
  simp only
  rw [frame_append, thy_CMD_ARRAY_SIZE_eq _ _ _ _ _ (Nat.mod_lt _ (by decide)), hL]
  simp only
  rw [← frame_append, WCON.slice, List.drop_zero,
    List.take_left' (frame_length c p)]

end ThyoneI

namespace ProteusIII
open WCON

theorem pro_CMD_ARRAY_SIZE_eq (a b lsb msb : Nat) (rest : List Nat) (h : lsb < 256) :
    CMD_ARRAY_SIZE (a :: b :: lsb :: msb :: rest) = some (lsb + 256 * msb + 5) := by
  simp only [CMD_ARRAY_SIZE, CMD_POSITION_LENGTH_LSB, CMD_POSITION_LENGTH_MSB,
    LENGTH_CMD_OVERHEAD, List.getElem?_cons_succ, List.getElem?_cons_zero]
  rw [length_or_eq lsb msb h]

/-- The closing block of a request function on an array that holds a header, a payload `p`
and room for the checksum: the wire image `frame c p` is handed to `WE_UART_Transmit`. -/
theorem pro_fillAndTransmit_frame (s : State) (c : Nat) (p : List Nat) (x : Nat)
    (tail : List Nat) (hp : p.length ≤ 65530) :
    fillAndTransmit s (CMD_STX :: c :: (p.length % 256) :: (p.length / 256) :: (p ++ x :: tail))
      = some (true, { s with
          cmdArray := frame c p ++ tail
          trace := s.trace ++ [Event.transmit (frame c p) (p.length + 5)] }) := by
  have hL : p.length % 256 + 256 * (p.length / 256) = p.length := Nat.mod_add_div p.length 256
  unfold fillAndTransmit
  rw [pro_CMD_ARRAY_SIZE_eq _ _ _ _ _ (Nat.mod_lt _ (by decide)), hL]
  simp only
  rw [Nat.mod_eq_of_lt (show p.length + 5 < 65536 by omega), FillChecksum_frame_mod c p x tail (by omega)]
  simp only
  rw [frame_append, pro_CMD_ARRAY_SIZE_eq _ _ _ _ _ (Nat.mod_lt _ (by decide)), hL]
  simp only
  rw [← frame_append, WCON.slice, List.drop_zero,
    List.take_left' (frame_length c p)]

end ProteusIII

/-! ## Transmit functions and the payload limit (C22) -/

namespace ThyoneI
open WCON

/-- A length above `MAX_PAYLOAD_LENGTH` ends the function before anything is touched. -/
theorem thy_transmitData_refused (cmd : Nat) (env : Env) (fuel : Nat) (s : State)
    (payloadP : List Nat) (length : Nat) (h : MAX_PAYLOAD_LENGTH < length) :
    transmitData cmd env fuel s payloadP length = some (false, s) := by
  have hn : ¬ length ≤ MAX_PAYLOAD_LENGTH := by omega
  simp only [transmitData, transmitData.request, if_neg hn]

/-- The request part of the transmit functions for an admitted length: the frame with the
first `length` bytes of the caller's memory is built and handed to `WE_UART_Transmit`. -/
theorem thy_transmitData_request (cmd : Nat) (s : State) (payloadP : List Nat) (length : Nat)
    (hlen : length ≤ MAX_PAYLOAD_LENGTH) (hp : length ≤ payloadP.length)
    (hl : length + 5 ≤ s.CMD_Array.length) :
    transmitData.request cmd s payloadP length
      = some (true, { s with
          CMD_Array := frame cmd (payloadP.take length) ++ s.CMD_Array.drop (length + 5)
          trace := s.trace ++ [Event.transmit (frame cmd (payloadP.take length)) (length + 5)] }) := by
  have h224 : length ≤ 224 := hlen
  have hpl : (payloadP.take length).length = length := List.length_take_of_le hp
  have e0 : (length >>> 0) % 256 = (payloadP.take length).length % 256 := by
    rw [Nat.shiftRight_zero, hpl]
  have e8 : (length >>> 8) % 256 = (payloadP.take length).length / 256 := by
    rw [Nat.shiftRight_eq_div_pow, hpl]; omega
  unfold transmitData.request
  rw [if_pos hlen, writes_four _ _ _ _ _ (by omega)]
  simp only
  rw [memcpyAt_payload _ _ _ _ _ _ _ hp (by rw [List.length_drop]; omega)]
  simp only
  rw [e0, e8, thy_fillAndTransmit_frame s cmd (payloadP.take length) _ _ (by omega), hpl,
    List.drop_drop]
  rw [show 4 + (length + 1) = length + 5 by omega]

end ThyoneI

/-- C22 (payload too large is refused, ThyoneI): for a `length` above 224
`ThyoneI_TransmitBroadcast`, `ThyoneI_TransmitMulticast` and `ThyoneI_TransmitUnicast`
return `false` and leave the whole driver state as it was: nothing is handed to
`WE_UART_Transmit`, `Wait4CNF` is not entered (it would log a tick read and reset the
confirmation array), and command buffer and confirmation array are unchanged.  For a
`length` of at most 224 (with that many bytes readable behind `payloadP`) each function
hands exactly one frame to `WE_UART_Transmit`, the frame is
`[0x02, code, length, 0x00] ++ payload ++ [checksum]`, so its length field declares
`length`, and the function then waits for `TXCOMPLETE_RSP` with status success. -/
theorem C22_oversized_payload_refused :
    ∀ fc ∈ [(ThyoneI.ThyoneI_TransmitBroadcast, ThyoneI.THYONEI_CMD_BROADCAST_DATA_REQ),
            (ThyoneI.ThyoneI_TransmitMulticast, ThyoneI.THYONEI_CMD_MULTICAST_DATA_REQ),
            (ThyoneI.ThyoneI_TransmitUnicast, ThyoneI.THYONEI_CMD_UNICAST_DATA_REQ)],
      (∀ (env : ThyoneI.Env) (fuel : Nat) (s : ThyoneI.State) (payloadP : List Nat)
          (length : Nat), 224 < length →
        fc.1 env fuel s payloadP length = some (false, s)) ∧
      (∀ (s : ThyoneI.State) (payloadP : List Nat) (length : Nat),
        length ≤ 224 → length ≤ payloadP.length → length + 5 ≤ s.CMD_Array.length →
        ∃ s1 f,
          ThyoneI.transmitData.request fc.2 s payloadP length = some (true, s1)
            ∧ ThyoneI.transmitted s1.trace = ThyoneI.transmitted s.trace ++ [f]
            ∧ f = [0x02, fc.2, length, 0x00] ++ payloadP.take length
                  ++ [WCON.xorAll ([0x02, fc.2, length, 0x00] ++ payloadP.take length)]
            ∧ s1.cmdConfirmation_array = s.cmdConfirmation_array
            ∧ ∀ (env : ThyoneI.Env) (fuel : Nat),
                fc.1 env fuel s payloadP length
                  = ThyoneI.Wait4CNF env fuel s1 ThyoneI.CMD_WAIT_TIME
                      ThyoneI.THYONEI_CMD_TXCOMPLETE_RSP WCON.CMD_Status_Success true) := by
  have key : ∀ (cmd : Nat),
      (∀ (env : ThyoneI.Env) (fuel : Nat) (s : ThyoneI.State) (payloadP : List Nat)
          (length : Nat), 224 < length →
        ThyoneI.transmitData cmd env fuel s payloadP length = some (false, s)) ∧
      (∀ (s : ThyoneI.State) (payloadP : List Nat) (length : Nat),
        length ≤ 224 → length ≤ payloadP.length → length + 5 ≤ s.CMD_Array.length →
        ∃ s1 f,
          ThyoneI.transmitData.request cmd s payloadP length = some (true, s1)
            ∧ ThyoneI.transmitted s1.trace = ThyoneI.transmitted s.trace ++ [f]
            ∧ f = [0x02, cmd, length, 0x00] ++ payloadP.take length
                  ++ [WCON.xorAll ([0x02, cmd, length, 0x00] ++ payloadP.take length)]
            ∧ s1.cmdConfirmation_array = s.cmdConfirmation_array
            ∧ ∀ (env : ThyoneI.Env) (fuel : Nat),
                ThyoneI.transmitData cmd env fuel s payloadP length
                  = ThyoneI.Wait4CNF env fuel s1 ThyoneI.CMD_WAIT_TIME
                      ThyoneI.THYONEI_CMD_TXCOMPLETE_RSP WCON.CMD_Status_Success true) := by
    intro cmd
    constructor
    · intro env fuel s payloadP length h
      exact ThyoneI.thy_transmitData_refused cmd env fuel s payloadP length h
    · intro s payloadP length hlen hp hl
      have hreq := ThyoneI.thy_transmitData_request cmd s payloadP length hlen hp hl
      have hpl : (payloadP.take length).length = length := List.length_take_of_le hp
      refine ⟨_, WCON.frame cmd (payloadP.take length), hreq, ?_, ?_, rfl, ?_⟩
      · simp [ThyoneI.thy_transmitted_append, ThyoneI.transmitted]
      · rw [WCON.frame_eq, hpl, Nat.mod_eq_of_lt (by omega),
          (Nat.div_eq_zero_iff (by decide)).2 (by omega)]
      · intro env fuel
        simp only [ThyoneI.transmitData, hreq]
  intro fc hfc
  simp only [List.mem_cons, List.mem_singleton, List.not_mem_nil, or_false] at hfc
  rcases hfc with rfl | rfl | rfl
  · exact key _
  · exact key _
  · exact key _

/-- Witness of C22: `ThyoneI_TransmitBroadcast`; the refusal at `length = 225`, the frame
at `length = 2`. -/
theorem C22_oversized_payload_refused_witness :
    (∀ (env : ThyoneI.Env) (fuel : Nat) (s : ThyoneI.State) (payloadP : List Nat)
        (length : Nat), 224 < length →
      ThyoneI.ThyoneI_TransmitBroadcast env fuel s payloadP length = some (false, s)) ∧
    (∀ (s : ThyoneI.State) (payloadP : List Nat) (length : Nat),
      length ≤ 224 → length ≤ payloadP.length → length + 5 ≤ s.CMD_Array.length →
      ∃ s1 f,
        ThyoneI.transmitData.request ThyoneI.THYONEI_CMD_BROADCAST_DATA_REQ s payloadP length
            = some (true, s1)
          ∧ ThyoneI.transmitted s1.trace = ThyoneI.transmitted s.trace ++ [f]
          ∧ f = [0x02, ThyoneI.THYONEI_CMD_BROADCAST_DATA_REQ, length, 0x00]
                ++ payloadP.take length
                ++ [WCON.xorAll ([0x02, ThyoneI.THYONEI_CMD_BROADCAST_DATA_REQ, length, 0x00]
                      ++ payloadP.take length)]
          ∧ s1.cmdConfirmation_array = s.cmdConfirmation_array
          ∧ ∀ (env : ThyoneI.Env) (fuel : Nat),
              ThyoneI.ThyoneI_TransmitBroadcast env fuel s payloadP length
                = ThyoneI.Wait4CNF env fuel s1 ThyoneI.CMD_WAIT_TIME
                    ThyoneI.THYONEI_CMD_TXCOMPLETE_RSP WCON.CMD_Status_Success true) :=
  C22_oversized_payload_refused
    (ThyoneI.ThyoneI_TransmitBroadcast, ThyoneI.THYONEI_CMD_BROADCAST_DATA_REQ)
    (List.mem_cons_self _ _)

/-! ## Termination of the dispatcher (C23) -/

namespace ProteusIII
open WCON

/-- The block loop of the GPIO write indications at a block whose length byte is `0xFF`:
`blockLength` is 0 and the loop has no result, whatever the fuel and whatever follows the
length byte. -/
theorem gpioWriteLoop_first_block (a b c d : Nat) (rest : List Nat) (n : Nat) (hn : 0 < n) :
    ∀ fuel, gpioWriteLoop (a :: b :: c :: d :: 0xFF :: rest) n fuel 0 = none := by
  intro fuel
  induction fuel with
  | zero => rfl
  | succ fuel ih =>
    rw [gpioWriteLoop, if_pos hn]
    have e : (0 + (0xFF + 1) % 256) % 256 = 0 := by decide
    match rest with
    | [] => rfl
    | [_] => rfl
    | g :: v :: rest =>
      simp only [CMD_POSITION_DATA, CMD_POSITION_CMD, List.getElem?_cons_succ,
        List.getElem?_cons_zero, e, ih]

/-- The block loop of the remote configuration indication at a block whose length byte is
`0xFF`: no result, whatever the fuel. -/
theorem gpioRemoteConfigLoop_first_block (h : Header) (a b c d : Nat) (rest : List Nat)
    (n : Nat) (hn : 0 < n) :
    ∀ fuel, gpioRemoteConfigLoop h (a :: b :: c :: d :: 0xFF :: rest) n fuel 0 = none := by
  intro fuel
  induction fuel with
  | zero => rfl
  | succ fuel ih =>
    rw [gpioRemoteConfigLoop, if_pos hn]
    have e : (0 + (0xFF + 1) % 256) % 256 = 0 := by decide
    match rest with
    | [] => rfl
    | [_] => rfl
    | g :: v :: rest =>
      simp only [CMD_POSITION_DATA, List.getElem?_cons_succ, List.getElem?_cons_zero, e, ih]
      cases gpioConfigValue h (a :: b :: c :: d :: 0xFF :: g :: v :: rest) v (4 + 3 + 0) <;> rfl

end ProteusIII

set_option maxRecDepth 200000 in
/-- C23, the failing inputs: a GPIO indication whose first block has the length byte `0xFF`.
`blockLength = 0xFF + 1` is computed in `uint8_t` and is 0, so `pos` never advances.  The
block loops of the three handlers have no result for any amount of fuel, whatever the rest
of the packet holds (first two parts).  The checksum-valid frames
`[0x02, 0xA6, 0x01, 0x00, 0xFF, 0x5A]` (`GPIO_LOCAL_WRITE_IND`),
`[0x02, 0xA9, 0x01, 0x00, 0xFF, 0x55]` (`GPIO_REMOTE_WRITE_IND`) and
`[0x02, 0xA8, 0x01, 0x00, 0xFF, 0x54]` (`GPIO_REMOTE_WRITECONFIG_IND`) are accepted by the
reassembler and handed to `HandleRxPacket`, which does not return, so the byte-wise feed
has no final state (parts three to five).  Without the callback the loop is not entered
and the same frame is handled (last part). -/
theorem C23_block_loop_never_returns :
    (∀ (a b c d : Nat) (rest : List Nat) (n fuel : Nat),
      ProteusIII.gpioWriteLoop (a :: b :: c :: d :: 0xFF :: rest) (n + 1) fuel 0 = none) ∧
    (∀ (h : ProteusIII.Header) (a b c d : Nat) (rest : List Nat) (n fuel : Nat),
      ProteusIII.gpioRemoteConfigLoop h (a :: b :: c :: d :: 0xFF :: rest) (n + 1) fuel 0
        = none) ∧
    ProteusIII.feed ProteusIII.exampleHeader
        (ProteusIII.idleState ProteusIII.exampleHeader
          { ProteusIII.noCallbacks with gpioWriteCb := true })
        [0x02, 0xA6, 0x01, 0x00, 0xFF, 0x5A] = none ∧
    ProteusIII.feed ProteusIII.exampleHeader
        (ProteusIII.idleState ProteusIII.exampleHeader
          { ProteusIII.noCallbacks with gpioWriteCb := true })
        [0x02, 0xA9, 0x01, 0x00, 0xFF, 0x55] = none ∧
    ProteusIII.feed ProteusIII.exampleHeader
        (ProteusIII.idleState ProteusIII.exampleHeader
          { ProteusIII.noCallbacks with gpioRemoteConfigCb := true })
        [0x02, 0xA8, 0x01, 0x00, 0xFF, 0x54] = none ∧
    (ProteusIII.feed ProteusIII.exampleHeader
        (ProteusIII.idleState ProteusIII.exampleHeader ProteusIII.noCallbacks)
        [0x02, 0xA6, 0x01, 0x00, 0xFF, 0x5A]).isSome = true := by
  refine ⟨?_, ?_, by decide, by decide, by decide, by decide⟩
  · intro a b c d rest n fuel
    exact ProteusIII.gpioWriteLoop_first_block a b c d rest (n + 1) (Nat.succ_pos n) fuel
  · intro h a b c d rest n fuel
    exact ProteusIII.gpioRemoteConfigLoop_first_block h a b c d rest (n + 1) (Nat.succ_pos n) fuel

/-! ## A confirmation that arrives during the wait -/

namespace WCON

/-- After the reset loop no slot holds a code other than `CNFINVALID`. -/
theorem scan_reset_none (c st : Nat) (arr : List Confirmation) (hc : c ≠ CNFINVALID) :
    scanConfirmations c st (resetConfirmations arr) = none := by
  rw [scan_eq_none_iff]
  intro slot hs
  rw [resetConfirmations_cmd arr slot hs]
  exact Ne.symm hc

/-- After the reset loop and one insertion the scan for the inserted code compares the
inserted status. -/
theorem scan_store_reset (c st : Nat) (conf : Confirmation) (arr : List Confirmation)
    (hl : 0 < arr.length) (hc : conf.cmd = c) :
    scanConfirmations c st (storeConfirmation conf (resetConfirmations arr))
      = some (decide (conf.status = st)) := by
  match arr, hl with
  | a :: arr, _ =>
    rw [store_after_reset, scanConfirmations, if_pos hc.symm]

/-- After the reset loop and the insertion of an entry with another code the scan finds
nothing. -/
theorem scan_store_reset_none (c st : Nat) (conf : Confirmation) (arr : List Confirmation)
    (hc : c ≠ CNFINVALID) (hne : conf.cmd ≠ c) :
    scanConfirmations c st (storeConfirmation conf (resetConfirmations arr)) = none := by
  match arr with
  | [] => rfl
  | a :: arr =>
    rw [store_after_reset, scanConfirmations, if_neg (Ne.symm hne)]
    exact scan_reset_none c st arr hc

end WCON

namespace ThyoneI
open WCON

/-- A checksum-valid frame whose code produces a confirmation entry, delivered byte by
byte to the idle receiver: the state after the last byte. -/
theorem thy_feed_confirm_state (s : State) (c : Nat) (p : List Nat)
    (hidle : s.RxByteCounter = 0) (hN : p.length + 5 ≤ MAX_CMD_LENGTH)
    (hbuf : s.RxBuffer.length = MAX_CMD_LENGTH) (hpkt : s.RxPacket.length = MAX_CMD_LENGTH)
    (hc : c ∈ noStatusCodes ∨ c ∈ statusCodes ∨ c = THYONEI_CMD_GPIO_REMOTE_READ_CNF) :
    ∃ d, (frame c p)[CMD_POSITION_DATA]? = some d ∧
      feed s (frame c p) = some { s with
        RxBuffer := frame c p ++ s.RxBuffer.drop (p.length + 5)
        checksum := xorAll ([CMD_STX, c, p.length % 256, p.length / 256] ++ p)
        RxPacket := frame c p ++ s.RxPacket.drop (p.length + 5)
        cmdConfirmation_array := storeConfirmation
          { cmd := c
            status := if c ∈ noStatusCodes then CMD_Status_NoStatus
              else if c = THYONEI_CMD_GPIO_REMOTE_READ_CNF then CMD_Status_Invalid
              else d } s.cmdConfirmation_array
        trace := s.trace ++ [Event.dispatch (frame c p)]
        RxByteCounter := 0
        BytesToReceive := 0 } := by
  have hN' : p.length + 5 ≤ 235 := hN
  have hbuf' : s.RxBuffer.length = 235 := hbuf
  have hpkt' : s.RxPacket.length = 235 := hpkt
  have hd : ∃ d, (frame c p)[CMD_POSITION_DATA]? = some d := by
    have : CMD_POSITION_DATA < (frame c p).length := by
      rw [frame_length]; simp only [CMD_POSITION_DATA]; omega
    exact ⟨_, List.getElem?_eq_getElem this⟩
  obtain ⟨d, hd⟩ := hd
  have hsw := thy_switch_confirm s.RxCallback
    (frame c p ++ s.RxPacket.drop (p.length + 5)) c d
    (by simp [frame, CMD_POSITION_CMD])
    (by
      rw [List.getElem?_append_left (by rw [frame_length]; simp only [CMD_POSITION_DATA]; omega)]
      exact hd) hc
  rw [frame_eq] at hsw
  have hfeed := thy_feed_valid s c _ _ p hidle (frame_payload_length p) hN (by omega) (by omega)
  rw [hsw] at hfeed
  refine ⟨d, hd, ?_⟩
  rw [frame_eq, hfeed]
  simp only [List.append_nil]

/-- Polling passes during which nothing arrives, the clock is inside the time-out and no
slot holds the expected code: each one logs its tick read and leaves everything else as
it was. -/
theorem thy_loop_quiet (env : Env) (max : Int) (c st : Nat) (n : Nat) :
    ∀ (fuel k : Nat) (s : State),
    scanConfirmations c st s.cmdConfirmation_array = none →
    (∀ j, j < n → ¬ env.timedOut max (k + j)) →
    (∀ j, j < n → env.arrive (k + j) = []) →
    Wait4CNF.loop env (env.tick 0 % 4294967296) max c st (fuel + n) k s
      = Wait4CNF.loop env (env.tick 0 % 4294967296) max c st fuel (k + n)
          { s with
            trace := s.trace ++ List.map
              (fun j => Event.getTick (env.tick (k + j + 1) % 4294967296)) (List.range n) } := by
  induction n with
  | zero =>
    intro fuel k s _ _ _
    simp
  | succ n ih =>
    intro fuel k s hscan hno hq
    have hno' : ¬ ((env.tick (k + 1) % 4294967296 + 4294967296 - env.tick 0 % 4294967296)
        % 4294967296 > (max % 4294967296).toNat) := hno 0 (by omega)
    have h0 : env.arrive k = [] := hq 0 (by omega)
    rw [show fuel + (n + 1) = (fuel + n) + 1 by omega]
    simp only [Wait4CNF.loop, hscan, hno', if_false, h0, thy_feed_nil, CMD_WAIT_TIME_STEP_MS,
      Nat.lt_irrefl]
    rw [ih fuel (k + 1)
      { s with trace := s.trace ++ [Event.getTick (env.tick (k + 1) % 4294967296)] } hscan
      (fun j hj => by
        rw [show k + 1 + j = k + (j + 1) by omega]
        exact hno (j + 1) (by omega))
      (fun j hj => by
        rw [show k + 1 + j = k + (j + 1) by omega]
        exact hq (j + 1) (by omega))]
    have e : (List.range (n + 1)).map (fun j => Event.getTick (env.tick (k + j + 1) % 4294967296))
        = Event.getTick (env.tick (k + 1) % 4294967296)
          :: (List.range n).map (fun j => Event.getTick (env.tick (k + 1 + j + 1) % 4294967296)) := by
      rw [List.range_succ_eq_map, List.map_cons, List.map_map]
      congr 1
      apply List.map_congr_left
      intro j _
      simp only [Function.comp, Nat.succ_eq_add_one]
      rw [show k + (j + 1) + 1 = k + 1 + j + 1 by omega]
    rw [e, show k + 1 + n = k + (n + 1) by omega]
    simp only [List.append_assoc, List.singleton_append]

/-- A wait that starts with a reset and is resolved by what arrives during pass `k`
(counted from 0): nothing arrives before, the clock is inside the time-out up to that
pass, and the bytes arriving then leave a slot with the expected code. -/
theorem thy_wait_arrival (env : Env) (s s2 : State) (max : Int) (c st : Nat) (k : Nat)
    (r : Bool)
    (hnone : scanConfirmations c st (resetConfirmations s.cmdConfirmation_array) = none)
    (hquiet : ∀ j, j < k → env.arrive j = [])
    (hclock : ∀ j, j ≤ k → ¬ env.timedOut max j)
    (hfeed : feed { s with
        cmdConfirmation_array := resetConfirmations s.cmdConfirmation_array
        trace := s.trace ++ List.map
          (fun j => Event.getTick (env.tick j % 4294967296)) (List.range (k + 2)) }
        (env.arrive k) = some s2)
    (hscan : scanConfirmations c st s2.cmdConfirmation_array = some r) :
    ∀ fuel, k + 2 ≤ fuel → Wait4CNF env fuel s max c st true = some (r, s2) := by
  intro fuel hf
  obtain ⟨f, rfl⟩ : ∃ f, fuel = (f + 1 + 1) + k := ⟨fuel - k - 2, by omega⟩
  simp only [Wait4CNF, if_true]
  rw [thy_loop_quiet env max c st k (f + 1 + 1) 0 _ hnone
    (fun j hj => by rw [Nat.zero_add]; exact hclock j (by omega))
    (fun j hj => by rw [Nat.zero_add]; exact hquiet j hj)]
  have hno : ¬ ((env.tick (0 + k + 1) % 4294967296 + 4294967296 - env.tick 0 % 4294967296)
      % 4294967296 > (max % 4294967296).toNat) := by
    rw [Nat.zero_add]; exact hclock k (le_refl k)
  have htr : s.trace ++ [Event.getTick (env.tick 0 % 4294967296)]
        ++ (List.range k).map (fun j => Event.getTick (env.tick (0 + j + 1) % 4294967296))
        ++ [Event.getTick (env.tick (0 + k + 1) % 4294967296)]
      = s.trace ++ (List.range (k + 2)).map
          (fun j => Event.getTick (env.tick j % 4294967296)) := by
    have e1 : (List.range (k + 2)).map (fun j => Event.getTick (env.tick j % 4294967296))
        = (List.range (k + 1)).map (fun j => Event.getTick (env.tick j % 4294967296))
          ++ [Event.getTick (env.tick (0 + k + 1) % 4294967296)] := by
      rw [List.range_succ, List.map_append, Nat.zero_add]
      rfl
    have e2 : (List.range (k + 1)).map (fun j => Event.getTick (env.tick j % 4294967296))
        = Event.getTick (env.tick 0 % 4294967296)
          :: (List.range k).map (fun j => Event.getTick (env.tick (0 + j + 1) % 4294967296)) := by
      rw [List.range_succ_eq_map, List.map_cons, List.map_map]
      congr 1
      apply List.map_congr_left
      intro j _
      simp only [Function.comp, Nat.succ_eq_add_one, Nat.zero_add]
    rw [e1, e2]
    simp only [List.append_assoc, List.singleton_append, List.cons_append, List.nil_append]
  simp only [Nat.zero_add] at hno htr ⊢
  rw [Wait4CNF.loop]
  simp only [hnone, hno, if_false, CMD_WAIT_TIME_STEP_MS, Nat.lt_irrefl]
  rw [htr, hfeed]
  exact thy_loop_found env _ max c st f (k + 1) s2 r hscan

end ThyoneI

namespace ProteusIII
open WCON

/-- A checksum-valid frame whose code produces a confirmation entry, delivered byte by
byte to the idle receiver: the state after the last byte. -/
theorem pro_feed_confirm_state (h : Header) (s : State) (c : Nat) (p : List Nat)
    (hidle : s.rxByteCounter = 0) (hN : p.length + 5 < 65536)
    (hbuf : p.length + 5 ≤ s.rxBuffer.length) (hpkt : p.length + 5 ≤ s.rxPacket.length)
    (hc : c = PROTEUSIII_CMD_GETDEVICES_CNF ∨ c ∈ statusCodes
      ∨ c = PROTEUSIII_CMD_GETSTATE_CNF) :
    ∃ d, (frame c p)[CMD_POSITION_DATA]? = some d ∧
      feed h s (frame c p) = some { s with
        rxBuffer := frame c p ++ s.rxBuffer.drop (p.length + 5)
        checksum := xorAll ([CMD_STX, c, p.length % 256, p.length / 256] ++ p)
        rxPacket := frame c p ++ s.rxPacket.drop (p.length + 5)
        cmdConfirmationArray := storeConfirmation
          { cmd := c
            status := if c = PROTEUSIII_CMD_GETSTATE_CNF then CMD_Status_NoStatus else d }
          s.cmdConfirmationArray
        trace := s.trace ++ [Event.dispatch (frame c p)]
        rxByteCounter := 0
        bytesToReceive := 0 } := by
  have hd : ∃ d, (frame c p)[CMD_POSITION_DATA]? = some d := by
    have : CMD_POSITION_DATA < (frame c p).length := by
      rw [frame_length]; simp only [CMD_POSITION_DATA]; omega
    exact ⟨_, List.getElem?_eq_getElem this⟩
  obtain ⟨d, hd⟩ := hd
  have hsw := pro_switch_confirm h s
    (frame c p ++ s.rxPacket.drop (p.length + 5)) c d
    (by simp [frame, CMD_POSITION_CMD])
    (by
      rw [List.getElem?_append_left (by rw [frame_length]; simp only [CMD_POSITION_DATA]; omega)]
      exact hd) hc
  rw [frame_eq] at hsw
  have hfeed := pro_feed_valid h s c _ _ p hidle (frame_payload_length p) hN hbuf hpkt
  rw [hsw] at hfeed
  refine ⟨d, hd, ?_⟩
  rw [frame_eq, hfeed]
  simp only [List.append_nil]

end ProteusIII

namespace WCON

theorem drop_cons_of_lt (arr : List Nat) (n : Nat) (hl : n < arr.length) :
    arr.drop n = (arr.drop n).head! :: arr.drop (n + 1) := by
  rw [List.drop_eq_getElem_cons hl]
  rfl

end WCON

namespace ThyoneI
open WCON

/-- A request without payload: header, checksum and the call of `WE_UART_Transmit`. -/
theorem thy_request_empty (s : State) (c : Nat) (hl : 5 ≤ s.CMD_Array.length) :
    (match writes s.CMD_Array
        [(CMD_POSITION_STX, CMD_STX), (CMD_POSITION_CMD, c),
         (CMD_POSITION_LENGTH_LSB, 0), (CMD_POSITION_LENGTH_MSB, 0)] with
      | none => none
      | some a => fillAndTransmit s a)
      = some (true, { s with
          CMD_Array := frame c [] ++ s.CMD_Array.drop 5
          trace := s.trace ++ [Event.transmit (frame c []) 5] }) := by
  rw [writes_four _ _ _ _ _ (by omega)]
  simp only
  rw [drop_cons_of_lt s.CMD_Array 4 (by omega)]
  exact thy_fillAndTransmit_frame s c [] _ _ (by decide)

/-- A request with one payload byte: header, payload, checksum and the call of
`WE_UART_Transmit`. -/
theorem thy_request_one (s : State) (c d : Nat) (hl : 6 ≤ s.CMD_Array.length) :
    (match writes s.CMD_Array
        [(CMD_POSITION_STX, CMD_STX), (CMD_POSITION_CMD, c),
         (CMD_POSITION_LENGTH_LSB, 1), (CMD_POSITION_LENGTH_MSB, 0),
         (CMD_POSITION_DATA, d)] with
      | none => none
      | some a => fillAndTransmit s a)
      = some (true, { s with
          CMD_Array := frame c [d] ++ s.CMD_Array.drop 6
          trace := s.trace ++ [Event.transmit (frame c [d]) 6] }) := by
  rw [writes_five _ _ _ _ _ _ (by omega)]
  simp only
  rw [drop_cons_of_lt s.CMD_Array 5 (by omega)]
  have h := thy_fillAndTransmit_frame s c [d] (s.CMD_Array.drop 5).head! (s.CMD_Array.drop 6) (by simp)
  have e1 : ([d] : List Nat).length % 256 = 1 := by simp
  have e2 : ([d] : List Nat).length / 256 = 0 := by simp
  have e3 : ([d] : List Nat).length + 5 = 6 := rfl
  have e4 : [d] ++ (s.CMD_Array.drop 5).head! :: s.CMD_Array.drop 6
      = d :: (s.CMD_Array.drop 5).head! :: s.CMD_Array.drop 6 := rfl
  rw [e1, e2, e3, e4] at h
  exact h

end ThyoneI

namespace ProteusIII
open WCON

/-- A request with one payload byte: header, payload, checksum and the call of
`WE_UART_Transmit`. -/
theorem pro_request_one (s : State) (c d : Nat) (hl : 6 ≤ s.cmdArray.length) :
    (match writes s.cmdArray
        [(CMD_POSITION_STX, CMD_STX), (CMD_POSITION_CMD, c),
         (CMD_POSITION_LENGTH_LSB, 1), (CMD_POSITION_LENGTH_MSB, 0),
         (CMD_POSITION_DATA, d)] with
      | none => none
      | some a => fillAndTransmit s a)
      = some (true, { s with
          cmdArray := frame c [d] ++ s.cmdArray.drop 6
          trace := s.trace ++ [Event.transmit (frame c [d]) 6] }) := by
  rw [writes_five _ _ _ _ _ _ (by omega)]
  simp only
  rw [drop_cons_of_lt s.cmdArray 5 (by omega)]
  have h := pro_fillAndTransmit_frame s c [d] (s.cmdArray.drop 5).head! (s.cmdArray.drop 6) (by simp)
  have e1 : ([d] : List Nat).length % 256 = 1 := by simp
  have e2 : ([d] : List Nat).length / 256 = 0 := by simp
  have e3 : ([d] : List Nat).length + 5 = 6 := rfl
  have e4 : [d] ++ (s.cmdArray.drop 5).head! :: s.cmdArray.drop 6
      = d :: (s.cmdArray.drop 5).head! :: s.cmdArray.drop 6 := rfl
  rw [e1, e2, e3, e4] at h
  exact h

end ProteusIII

/-! ## `ThyoneI_GetState` (C24) -/

namespace ThyoneI
open WCON

/-- The request part of `ThyoneI_GetState`: the frame `02 01 00 00 03` is built in
`CMD_Array` and handed to `WE_UART_Transmit`. -/
theorem thy_getstate_request (s : State) (hl : 5 ≤ s.CMD_Array.length) :
    ThyoneI_GetState.request s
      = some (true, { s with
          CMD_Array := frame THYONEI_CMD_GETSTATE_REQ [] ++ s.CMD_Array.drop 5
          trace := s.trace ++ [Event.transmit (frame THYONEI_CMD_GETSTATE_REQ []) 5] }) :=
  thy_request_empty s THYONEI_CMD_GETSTATE_REQ hl

theorem thy_dispatched_ticks (f : Nat → Nat) (n : Nat) :
    dispatched (List.map (fun j => Event.getTick (f j)) (List.range n)) = [] := by
  induction List.range n with
  | nil => rfl
  | cons a l ih => simpa [dispatched] using ih

theorem thy_transmitted_ticks (f : Nat → Nat) (n : Nat) :
    transmitted (List.map (fun j => Event.getTick (f j)) (List.range n)) = [] := by
  induction List.range n with
  | nil => rfl
  | cons a l ih => simpa [transmitted] using ih

end ThyoneI

open WCON ThyoneI in
/-- C24, the defect: `ThyoneI_GetState` is called with an idle receiver and transmits its
request `02 01 00 00 03`.  Nothing arrives during the first `k` passes of its wait, the
clock stays inside the time-out up to pass `k`, and during that pass a checksum-valid
`GETSTATE_CNF` frame (code `0x41`) with any payload that fits the buffers is delivered
byte by byte.  `HandleRxPacket` stores the code with `CMD_Status_NoStatus` (the case group
of ThyoneI.c 214-223), `Wait4CNF` is asked for `CMD_Status_Success`, finds the slot, sees
another status and returns `false`: `ThyoneI_GetState` returns `false` and does not write
`*state`, although the confirmation it waited for has been received and dispatched. -/
theorem C24_getstate_returns_false (s : ThyoneI.State) (env : ThyoneI.Env) (p : List Nat)
    (k : Nat)
    (hidle : s.RxByteCounter = 0) (hcmd : 5 ≤ s.CMD_Array.length)
    (hbuf : s.RxBuffer.length = ThyoneI.MAX_CMD_LENGTH)
    (hpkt : s.RxPacket.length = ThyoneI.MAX_CMD_LENGTH)
    (hconf : 0 < s.cmdConfirmation_array.length)
    (hN : p.length + 5 ≤ ThyoneI.MAX_CMD_LENGTH)
    (hquiet : ∀ j, j < k → env.arrive j = [])
    (hclock : ∀ j, j ≤ k → ¬ env.timedOut ThyoneI.CMD_WAIT_TIME j)
    (harrive : env.arrive k = WCON.frame ThyoneI.THYONEI_CMD_GETSTATE_CNF p) :
    ∀ fuel, k + 2 ≤ fuel →
      ∃ s2, ThyoneI.ThyoneI_GetState env fuel s = some (false, none, s2)
        ∧ ThyoneI.transmitted s2.trace
            = ThyoneI.transmitted s.trace ++ [[0x02, 0x01, 0x00, 0x00, 0x03]]
        ∧ ThyoneI.dispatched s2.trace
            = ThyoneI.dispatched s.trace ++ [WCON.frame ThyoneI.THYONEI_CMD_GETSTATE_CNF p]
        ∧ s2.cmdConfirmation_array
            = WCON.storeConfirmation
                { cmd := ThyoneI.THYONEI_CMD_GETSTATE_CNF, status := WCON.CMD_Status_NoStatus }
                (WCON.resetConfirmations s.cmdConfirmation_array) := by
  intro fuel hf
  have hreq := thy_getstate_request s hcmd
  obtain ⟨d, _, hfeed⟩ := thy_feed_confirm_state
    { s with
      CMD_Array := frame THYONEI_CMD_GETSTATE_REQ [] ++ s.CMD_Array.drop 5
      cmdConfirmation_array := resetConfirmations s.cmdConfirmation_array
      trace := s.trace ++ [Event.transmit (frame THYONEI_CMD_GETSTATE_REQ []) 5]
        ++ List.map (fun j => Event.getTick (env.tick j % 4294967296)) (List.range (k + 2)) }
    THYONEI_CMD_GETSTATE_CNF p hidle hN hbuf hpkt (Or.inl (by decide))
  rw [if_pos (by decide)] at hfeed
  have hw := thy_wait_arrival env
    { s with
      CMD_Array := frame THYONEI_CMD_GETSTATE_REQ [] ++ s.CMD_Array.drop 5
      trace := s.trace ++ [Event.transmit (frame THYONEI_CMD_GETSTATE_REQ []) 5] }
    _ CMD_WAIT_TIME THYONEI_CMD_GETSTATE_CNF CMD_Status_Success k false
    (scan_reset_none _ _ _ (by decide)) hquiet hclock (by rw [harrive]; exact hfeed)
    (by
      have := scan_store_reset THYONEI_CMD_GETSTATE_CNF CMD_Status_Success
        { cmd := THYONEI_CMD_GETSTATE_CNF, status := CMD_Status_NoStatus }
        s.cmdConfirmation_array hconf rfl
      exact this) fuel hf
  simp only [ThyoneI_GetState, hreq, hw]
  refine ⟨_, rfl, ?_, ?_, rfl⟩
  · simp only [thy_transmitted_append, thy_transmitted_ticks, transmitted, List.append_nil]
    rfl
  · simp only [thy_dispatched_append, thy_dispatched_ticks, dispatched, List.append_nil]

/-- C24 at the failing input: the idle driver, a clock that stands still and the frame
`02 41 02 00 00 01 40` (status byte `0x00`, state `0x01`) arriving during the first pass.
`ThyoneI_GetState` returns `false` and `*state` is not written. -/
theorem C24_getstate_returns_false_witness :
    ∃ s2, ThyoneI.ThyoneI_GetState
        { tick := fun _ => 0,
          arrive := fun j => if j = 0 then [0x02, 0x41, 0x02, 0x00, 0x00, 0x01, 0x40] else [] }
        2 (ThyoneI.idleState false) = some (false, none, s2)
      ∧ ThyoneI.transmitted s2.trace
          = ThyoneI.transmitted (ThyoneI.idleState false).trace
            ++ [[0x02, 0x01, 0x00, 0x00, 0x03]]
      ∧ ThyoneI.dispatched s2.trace
          = ThyoneI.dispatched (ThyoneI.idleState false).trace
            ++ [WCON.frame ThyoneI.THYONEI_CMD_GETSTATE_CNF [0x00, 0x01]]
      ∧ s2.cmdConfirmation_array
          = WCON.storeConfirmation
              { cmd := ThyoneI.THYONEI_CMD_GETSTATE_CNF, status := WCON.CMD_Status_NoStatus }
              (WCON.resetConfirmations (ThyoneI.idleState false).cmdConfirmation_array) :=
  C24_getstate_returns_false (ThyoneI.idleState false)
    { tick := fun _ => 0,
      arrive := fun j => if j = 0 then [0x02, 0x41, 0x02, 0x00, 0x00, 0x01, 0x40] else [] }
    [0x00, 0x01] 0 rfl (by rw [ThyoneI.thy_idle_cmdArray]; decide)
    (ThyoneI.thy_idle_buffer false) (ThyoneI.thy_idle_packet false) (by decide) (by decide)
    (fun j hj => absurd hj (Nat.not_lt_zero j))
    (fun j hj => by
      have : j = 0 := Nat.le_zero.1 hj
      subst this
      unfold ThyoneI.Env.timedOut
      decide)
    (by decide) 2 (le_refl 2)

/-! ## `ProteusIII_NumericCompareConfirm` (C25) -/

namespace ProteusIII
open WCON

/-- The `DISPLAY_PASSKEY_IND` branch of the `switch`: no confirmation entry is filled. -/
theorem pro_switch_display_passkey (h : Header) (s : State) (pkt : List Nat) (d : Nat)
    (h1 : pkt[CMD_POSITION_CMD]? = some PROTEUSIII_CMD_DISPLAY_PASSKEY_IND)
    (h4 : pkt[CMD_POSITION_DATA]? = some d) :
    HandleRxPacket.switch h s pkt
      = some { cmdConfirmation := { cmd := CNFINVALID, status := CMD_Status_Invalid }
               bleState := s.bleState
               calls := if s.callbacks.displayPasskeyCb then
                   [Event.displayPasskeyCb d (slice pkt (CMD_POSITION_DATA + 1) 6)
                     (slice pkt (CMD_POSITION_DATA + 7) 6)]
                 else [] } := by
  unfold HandleRxPacket.switch
  rw [h1]
  dsimp only
  rw [if_neg (by decide), if_neg (by decide), if_neg (by decide), if_neg (by decide),
    if_neg (by decide), if_neg (by decide), if_neg (by decide), if_neg (by decide),
    if_neg (by decide), if_neg (by decide), if_neg (by decide), if_pos rfl, h4]
  cases s.callbacks.displayPasskeyCb <;> rfl

/-- A checksum-valid frame of code `0x64`, delivered byte by byte to the idle receiver:
the state after the last byte.  The entry that goes through the insertion loop is the
initial one, with the code `CNFINVALID`. -/
theorem pro_feed_display_passkey (h : Header) (s : State) (d : Nat) (rest : List Nat)
    (hidle : s.rxByteCounter = 0) (hN : (d :: rest).length + 5 < 65536)
    (hbuf : (d :: rest).length + 5 ≤ s.rxBuffer.length)
    (hpkt : (d :: rest).length + 5 ≤ s.rxPacket.length) :
    feed h s (frame PROTEUSIII_CMD_DISPLAY_PASSKEY_IND (d :: rest)) = some { s with
      rxBuffer := frame PROTEUSIII_CMD_DISPLAY_PASSKEY_IND (d :: rest)
        ++ s.rxBuffer.drop ((d :: rest).length + 5)
      checksum := xorAll ([CMD_STX, PROTEUSIII_CMD_DISPLAY_PASSKEY_IND,
        (d :: rest).length % 256, (d :: rest).length / 256] ++ (d :: rest))
      rxPacket := frame PROTEUSIII_CMD_DISPLAY_PASSKEY_IND (d :: rest)
        ++ s.rxPacket.drop ((d :: rest).length + 5)
      cmdConfirmationArray := storeConfirmation
        { cmd := CNFINVALID, status := CMD_Status_Invalid } s.cmdConfirmationArray
      trace := s.trace ++ [Event.dispatch (frame PROTEUSIII_CMD_DISPLAY_PASSKEY_IND (d :: rest))]
        ++ (if s.callbacks.displayPasskeyCb then
            [Event.displayPasskeyCb d
              (slice (frame PROTEUSIII_CMD_DISPLAY_PASSKEY_IND (d :: rest)
                ++ s.rxPacket.drop ((d :: rest).length + 5)) (CMD_POSITION_DATA + 1) 6)
              (slice (frame PROTEUSIII_CMD_DISPLAY_PASSKEY_IND (d :: rest)
                ++ s.rxPacket.drop ((d :: rest).length + 5)) (CMD_POSITION_DATA + 7) 6)]
          else [])
      rxByteCounter := 0
      bytesToReceive := 0 } := by
  have hsw := pro_switch_display_passkey h s
    (frame PROTEUSIII_CMD_DISPLAY_PASSKEY_IND (d :: rest)
      ++ s.rxPacket.drop ((d :: rest).length + 5)) d
    (by simp [frame, CMD_POSITION_CMD]) (by simp [frame, CMD_POSITION_DATA])
  have hfeed := pro_feed_valid h s PROTEUSIII_CMD_DISPLAY_PASSKEY_IND _ _ (d :: rest) hidle
    (frame_payload_length _) hN hbuf hpkt
  rw [← frame_eq, hsw] at hfeed
  exact hfeed

/-- A wait that starts with a reset during which one block of bytes arrives (during the
delay number `k`) that leaves no slot with the expected code: the loop runs to the
time-out and returns `false`. -/
theorem pro_wait_unmatched (h : Header) (env : Env) (s s2 : State) (maxTimeMs : Int)
    (c st : Nat) (k : Nat)
    (hnone : scanConfirmations c st (resetConfirmations s.cmdConfirmationArray) = none)
    (hquiet : ∀ j, j ≠ k → env.arrive j = [])
    (hk : (k : Int) < Int.tdiv maxTimeMs 5)
    (hfeed : feed h { s with
        cmdConfirmationArray := resetConfirmations s.cmdConfirmationArray
        trace := s.trace ++ List.replicate (k + 1) (Event.delay 5) } (env.arrive k) = some s2)
    (hscan : scanConfirmations c st s2.cmdConfirmationArray = none) :
    Wait4CNF h env s maxTimeMs c st true
      = some (false, { s2 with
          trace := s2.trace
            ++ List.replicate ((Int.tdiv maxTimeMs 5).toNat - k - 1) (Event.delay 5) }) := by
  have hm : (Int.tdiv maxTimeMs 5).toNat + 1
      = ((1 + ((Int.tdiv maxTimeMs 5).toNat - k - 1)) + 1) + k := by
    omega
  simp only [Wait4CNF, if_true]
  rw [hm, pro_loop_quiet h env _ c st k _ 0 _ hnone (le_refl 0) (by omega)
    (fun j hj => by
      have : j ≠ k := by omega
      simpa using hquiet j this)]
  have hlt : ¬ ((0 : Int) + k ≥ Int.tdiv maxTimeMs 5) := by omega
  have htn : ((0 : Int) + (k : Int)).toNat = k := by simp
  have hrep : s.trace ++ List.replicate k (Event.delay 5) ++ [Event.delay 5]
      = s.trace ++ List.replicate (k + 1) (Event.delay 5) := by
    rw [List.append_assoc, ← List.replicate_succ']
  rw [Wait4CNF.loop]
  simp only [hnone, hlt, if_false, htn, hrep, hfeed]
  rw [pro_loop_quiet h env _ c st ((Int.tdiv maxTimeMs 5).toNat - k - 1) 1 _ s2 hscan
    (by omega) (by omega)
    (fun j hj => by
      have e : ((0 : Int) + (k : Int) + 1).toNat = k + 1 := by omega
      rw [e]
      exact hquiet _ (by omega))]
  have hge : (0 : Int) + (k : Int) + 1 + (((Int.tdiv maxTimeMs 5).toNat - k - 1 : Nat) : Int)
      ≥ Int.tdiv maxTimeMs 5 := by omega
  simp only [Wait4CNF.loop, hscan, hge, if_true]

theorem pro_dispatched_delays (n : Nat) :
    dispatched (List.replicate n (Event.delay 5)) = [] := by
  induction n with
  | zero => rfl
  | succ n ih => simp [List.replicate_succ, dispatched, ih]

/-- The request part of `ProteusIII_NumericCompareConfirm`. -/
theorem pro_numeric_request (s : State) (keyIsOk : Bool) (hl : 6 ≤ s.cmdArray.length) :
    ProteusIII_NumericCompareConfirm.request s keyIsOk
      = some (true, { s with
          cmdArray := frame PROTEUSIII_CMD_NUMERIC_COMP_REQ [if keyIsOk then 0x00 else 0x01]
            ++ s.cmdArray.drop 6
          trace := s.trace ++ [Event.transmit
            (frame PROTEUSIII_CMD_NUMERIC_COMP_REQ [if keyIsOk then 0x00 else 0x01]) 6] }) :=
  pro_request_one s PROTEUSIII_CMD_NUMERIC_COMP_REQ (if keyIsOk then 0x00 else 0x01) hl

end ProteusIII

open WCON ProteusIII in
/-- C25, the defect: `ProteusIII_NumericCompareConfirm(keyIsOk)` is called with an idle
receiver and transmits `[0x02, 0x24, 0x01, 0x00, s, checksum]` with `s = 0x00` for
`keyIsOk` and `0x01` otherwise.  During the delay number `k` of its wait (`k < 100`, inside
the 500 ms) a checksum-valid frame of code `0x64` with first payload byte `0x00` is
delivered byte by byte, and nothing else arrives.  `PROTEUSIII_CMD_NUMERIC_COMP_CNF` and
`PROTEUSIII_CMD_DISPLAY_PASSKEY_IND` are the same value `0x64`, and the only `case` for it
in `HandleRxPacket` is the one of the indication, which fills no confirmation entry.  So
the frame is dispatched, no slot ever holds `0x64`, the wait runs through all 100 delays
and the function returns `false`. -/
theorem C25_numeric_compare_times_out (h : ProteusIII.Header) (s : ProteusIII.State)
    (env : ProteusIII.Env) (keyIsOk : Bool) (rest : List Nat) (k : Nat)
    (hidle : s.rxByteCounter = 0) (hcmd : 6 ≤ s.cmdArray.length)
    (hN : (WCON.CMD_Status_Success :: rest).length + 5 < 65536)
    (hbuf : (WCON.CMD_Status_Success :: rest).length + 5 ≤ s.rxBuffer.length)
    (hpkt : (WCON.CMD_Status_Success :: rest).length + 5 ≤ s.rxPacket.length)
    (hk : k < 100)
    (hquiet : ∀ j, j ≠ k → env.arrive j = [])
    (harrive : env.arrive k
      = WCON.frame ProteusIII.PROTEUSIII_CMD_NUMERIC_COMP_CNF (WCON.CMD_Status_Success :: rest)) :
    ∃ s2, ProteusIII.ProteusIII_NumericCompareConfirm h env s keyIsOk = some (false, s2)
      ∧ ProteusIII.transmitted s2.trace = ProteusIII.transmitted s.trace
          ++ [[0x02, 0x24, 0x01, 0x00, if keyIsOk then 0x00 else 0x01,
               if keyIsOk then 0x27 else 0x26]]
      ∧ ProteusIII.dispatched s2.trace = ProteusIII.dispatched s.trace
          ++ [WCON.frame ProteusIII.PROTEUSIII_CMD_NUMERIC_COMP_CNF
                (WCON.CMD_Status_Success :: rest)]
      ∧ ProteusIII.delays s2.trace = ProteusIII.delays s.trace ++ List.replicate 100 5
      ∧ WCON.scanConfirmations ProteusIII.PROTEUSIII_CMD_NUMERIC_COMP_CNF
          WCON.CMD_Status_Success s2.cmdConfirmationArray = none := by
  have hreq := pro_numeric_request s keyIsOk hcmd
  have hfeed := pro_feed_display_passkey h
    { s with
      cmdArray := frame PROTEUSIII_CMD_NUMERIC_COMP_REQ [if keyIsOk then 0x00 else 0x01]
        ++ s.cmdArray.drop 6
      cmdConfirmationArray := resetConfirmations s.cmdConfirmationArray
      trace := s.trace ++ [Event.transmit
          (frame PROTEUSIII_CMD_NUMERIC_COMP_REQ [if keyIsOk then 0x00 else 0x01]) 6]
        ++ List.replicate (k + 1) (Event.delay 5) }
    CMD_Status_Success rest hidle hN hbuf hpkt
  have hw := pro_wait_unmatched h env
    { s with
      cmdArray := frame PROTEUSIII_CMD_NUMERIC_COMP_REQ [if keyIsOk then 0x00 else 0x01]
        ++ s.cmdArray.drop 6
      trace := s.trace ++ [Event.transmit
          (frame PROTEUSIII_CMD_NUMERIC_COMP_REQ [if keyIsOk then 0x00 else 0x01]) 6] }
    _ CMD_WAIT_TIME PROTEUSIII_CMD_NUMERIC_COMP_CNF CMD_Status_Success k
    (scan_reset_none _ _ _ (by decide)) hquiet
    (by
      have h100 : Int.tdiv ((CMD_WAIT_TIME : Nat) : Int) 5 = 100 := by decide
      rw [h100]; omega)
    (by rw [harrive]; exact hfeed)
    (scan_store_reset_none PROTEUSIII_CMD_NUMERIC_COMP_CNF CMD_Status_Success
      { cmd := CNFINVALID, status := CMD_Status_Invalid } s.cmdConfirmationArray
      (by decide) (by decide))
  have h100 : (Int.tdiv ((CMD_WAIT_TIME : Nat) : Int) 5).toNat = 100 := by decide
  simp only [ProteusIII_NumericCompareConfirm, hreq, hw, h100]
  refine ⟨_, rfl, ?_, ?_, ?_, ?_⟩
  · cases keyIsOk <;> cases s.callbacks.displayPasskeyCb <;>
      simp [pro_transmitted_append, pro_transmitted_delays, transmitted, frame, xorAll,
        CMD_STX]
  · cases s.callbacks.displayPasskeyCb <;>
      simp [pro_dispatched_append, pro_dispatched_delays, dispatched]
  · have e2 : List.replicate (k + (100 - k - 1)) (5 : Nat) = List.replicate 99 5 := by
      congr 1
      omega
    cases s.callbacks.displayPasskeyCb <;>
      simp [delays_append, delays_replicate, delays, e2, List.replicate_succ]
  · exact scan_store_reset_none PROTEUSIII_CMD_NUMERIC_COMP_CNF CMD_Status_Success
      { cmd := CNFINVALID, status := CMD_Status_Invalid } s.cmdConfirmationArray
      (by decide) (by decide)

/-- C25 at the failing input: the idle driver, `keyIsOk = true`, and the frame
`02 64 01 00 00 67` arriving during the first delay.  `ProteusIII_NumericCompareConfirm`
returns `false` after 100 delays of 5 ms. -/
theorem C25_numeric_compare_times_out_witness :
    ∃ s2, ProteusIII.ProteusIII_NumericCompareConfirm ProteusIII.exampleHeader
        { arrive := fun j => if j = 0 then [0x02, 0x64, 0x01, 0x00, 0x00, 0x67] else [] }
        (ProteusIII.idleState ProteusIII.exampleHeader ProteusIII.noCallbacks) true
          = some (false, s2)
      ∧ ProteusIII.transmitted s2.trace
          = ProteusIII.transmitted
              (ProteusIII.idleState ProteusIII.exampleHeader ProteusIII.noCallbacks).trace
            ++ [[0x02, 0x24, 0x01, 0x00, if true then 0x00 else 0x01,
                 if true then 0x27 else 0x26]]
      ∧ ProteusIII.dispatched s2.trace
          = ProteusIII.dispatched
              (ProteusIII.idleState ProteusIII.exampleHeader ProteusIII.noCallbacks).trace
            ++ [WCON.frame ProteusIII.PROTEUSIII_CMD_NUMERIC_COMP_CNF
                  (WCON.CMD_Status_Success :: [])]
      ∧ ProteusIII.delays s2.trace
          = ProteusIII.delays
              (ProteusIII.idleState ProteusIII.exampleHeader ProteusIII.noCallbacks).trace
            ++ List.replicate 100 5
      ∧ WCON.scanConfirmations ProteusIII.PROTEUSIII_CMD_NUMERIC_COMP_CNF
          WCON.CMD_Status_Success s2.cmdConfirmationArray = none :=
  C25_numeric_compare_times_out ProteusIII.exampleHeader
    (ProteusIII.idleState ProteusIII.exampleHeader ProteusIII.noCallbacks)
    { arrive := fun j => if j = 0 then [0x02, 0x64, 0x01, 0x00, 0x00, 0x67] else [] }
    true [] 0 rfl (by rw [ProteusIII.pro_idle_cmdArray]; decide) (by decide)
    (by rw [ProteusIII.pro_idle_buffer]; decide)
    (by simp only [ProteusIII.idleState, List.length_replicate]; decide) (by decide)
    (fun j hj => if_neg hj) (by decide)

/-! ## `ThyoneI_TransmitMulticastExtended` (C26) -/

namespace ThyoneI
open WCON

/-- The request part of `ThyoneI_TransmitMulticastExtended`: the group ID is assigned to
the command position, the byte at the first payload position keeps what `CMD_Array` held
before the call, and the frame built from that is handed to `WE_UART_Transmit`. -/
theorem thy_multicastEx_request (s : State) (groupID stale : Nat) (payloadP : List Nat)
    (length : Nat) (hlen : length ≤ MAX_PAYLOAD_LENGTH_MULTICAST_EX)
    (hp : length ≤ payloadP.length) (hl : length + 6 ≤ s.CMD_Array.length)
    (hst : s.CMD_Array[CMD_POSITION_DATA]? = some stale) :
    ThyoneI_TransmitMulticastExtended.request s groupID payloadP length
      = some (true, { s with
          CMD_Array := frame groupID (stale :: payloadP.take length)
            ++ s.CMD_Array.drop (length + 6)
          trace := s.trace
            ++ [Event.transmit (frame groupID (stale :: payloadP.take length)) (length + 6)] }) := by
  have h223 : length ≤ 223 := hlen
  have hpl : (stale :: payloadP.take length).length = length + 1 := by
    rw [List.length_cons, List.length_take_of_le hp]
  have e0 : (((length + 1) % 65536) >>> 0) % 256 = (stale :: payloadP.take length).length % 256 := by
    rw [Nat.shiftRight_zero, hpl]; omega
  have e8 : (((length + 1) % 65536) >>> 8) % 256 = (stale :: payloadP.take length).length / 256 := by
    rw [Nat.shiftRight_eq_div_pow, hpl]; omega
  match hs : s.CMD_Array, hl, hst with
  | a0 :: a1 :: a2 :: a3 :: a4 :: rest, hl, hst =>
    simp only [CMD_POSITION_DATA, List.getElem?_cons_succ, List.getElem?_cons_zero,
      Option.some.injEq] at hst
    subst hst
    have hr : length + 1 ≤ rest.length := by
      simp only [List.length_cons] at hl; omega
    have hw : writes (a0 :: a1 :: a2 :: a3 :: a4 :: rest)
        [(CMD_POSITION_STX, CMD_STX), (CMD_POSITION_CMD, THYONEI_CMD_MULTICAST_DATA_EX_REQ),
         (CMD_POSITION_LENGTH_LSB, (((length + 1) % 65536) >>> 0) % 256),
         (CMD_POSITION_LENGTH_MSB, (((length + 1) % 65536) >>> 8) % 256),
         (CMD_POSITION_CMD, groupID)]
        = some (CMD_STX :: groupID :: ((((length + 1) % 65536) >>> 0) % 256)
            :: ((((length + 1) % 65536) >>> 8) % 256) :: a4 :: rest) := by
      simp [writes, write, CMD_POSITION_STX, CMD_POSITION_CMD, CMD_POSITION_LENGTH_LSB,
        CMD_POSITION_LENGTH_MSB]
    have hm : memcpyAt (CMD_STX :: groupID :: ((((length + 1) % 65536) >>> 0) % 256)
            :: ((((length + 1) % 65536) >>> 8) % 256) :: a4 :: rest) (CMD_POSITION_DATA + 1)
          payloadP length
        = some (CMD_STX :: groupID :: ((((length + 1) % 65536) >>> 0) % 256)
            :: ((((length + 1) % 65536) >>> 8) % 256)
            :: ((a4 :: payloadP.take length) ++ (rest.drop length).head!
                :: rest.drop (length + 1))) := by
      unfold memcpyAt
      rw [if_pos ⟨hp, by simp only [CMD_POSITION_DATA, List.length_cons]; omega⟩]
      simp only [CMD_POSITION_DATA, Option.some.injEq]
      rw [show 4 + 1 + length = length + 1 + 1 + 1 + 1 + 1 by omega]
      simp only [List.take_succ_cons, List.take_zero, List.drop_succ_cons, List.cons_append,
        List.nil_append, List.append_assoc]
      rw [← drop_cons_of_lt rest length (by omega)]
    unfold ThyoneI_TransmitMulticastExtended.request
    rw [if_pos hlen]
    simp only [hs, hw, hm]
    rw [e0, e8, thy_fillAndTransmit_frame s groupID (a4 :: payloadP.take length) _ _ (by omega),
      hpl]
    simp only [List.drop_succ_cons]

end ThyoneI

/-- C26, the defect: in `ThyoneI_TransmitMulticastExtended` the group ID is assigned to
`CMD_Array[CMD_POSITION_CMD]`, where the request code has just been stored, and not to the
first payload position.  For a payload of at most 223 bytes the frame handed to
`WE_UART_Transmit` is therefore
`[0x02, groupID, (len+1) & 0xFF, (len+1) >> 8, x] ++ p ++ [checksum]`, where `x` is the
byte that `CMD_Array[4]` held before the call: the command byte is the group ID, not
`0x08`, and the first payload byte is left-over buffer content, not the group ID. -/
theorem C26_group_id_overwrites_command (s : ThyoneI.State) (groupID stale : Nat)
    (payloadP : List Nat) (length : Nat)
    (hlen : length ≤ 223) (hp : length ≤ payloadP.length)
    (hl : length + 6 ≤ s.CMD_Array.length)
    (hst : s.CMD_Array[4]? = some stale) :
    ∃ s1, ThyoneI.ThyoneI_TransmitMulticastExtended.request s groupID payloadP length
        = some (true, s1)
      ∧ ThyoneI.transmitted s1.trace = ThyoneI.transmitted s.trace
          ++ [[0x02, groupID, (length + 1) % 256, (length + 1) / 256, stale]
                ++ payloadP.take length
                ++ [WCON.xorAll ([0x02, groupID, (length + 1) % 256, (length + 1) / 256, stale]
                      ++ payloadP.take length)]]
      ∧ ∀ (env : ThyoneI.Env) (fuel : Nat),
          ThyoneI.ThyoneI_TransmitMulticastExtended env fuel s groupID payloadP length
            = ThyoneI.Wait4CNF env fuel s1 ThyoneI.CMD_WAIT_TIME
                ThyoneI.THYONEI_CMD_TXCOMPLETE_RSP WCON.CMD_Status_Success true := by
  have hreq := ThyoneI.thy_multicastEx_request s groupID stale payloadP length hlen hp hl hst
  have hpl : (stale :: payloadP.take length).length = length + 1 := by
    rw [List.length_cons, List.length_take_of_le hp]
  refine ⟨_, hreq, ?_, ?_⟩
  · simp only [ThyoneI.thy_transmitted_append, ThyoneI.transmitted, WCON.frame_eq, hpl]
    rfl
  · intro env fuel
    simp only [ThyoneI.ThyoneI_TransmitMulticastExtended, hreq]

/-- C26 at the failing input: the idle driver (command array all zero), `groupID = 0x01`
and the payload `[0xAA]`.  The frame sent is `02 01 02 00 00 AA AB`; the frame with the
request code `0x08` and the group ID as first payload byte would be `02 08 02 00 01 AA A3`. -/
theorem C26_group_id_overwrites_command_witness :
    (∃ s1, ThyoneI.ThyoneI_TransmitMulticastExtended.request (ThyoneI.idleState false) 0x01
          [0xAA] 1 = some (true, s1)
      ∧ ThyoneI.transmitted s1.trace = ThyoneI.transmitted (ThyoneI.idleState false).trace
          ++ [[0x02, 0x01, (1 + 1) % 256, (1 + 1) / 256, 0x00]
                ++ [0xAA].take 1
                ++ [WCON.xorAll ([0x02, 0x01, (1 + 1) % 256, (1 + 1) / 256, 0x00]
                      ++ [0xAA].take 1)]]
      ∧ ∀ (env : ThyoneI.Env) (fuel : Nat),
          ThyoneI.ThyoneI_TransmitMulticastExtended env fuel (ThyoneI.idleState false) 0x01
              [0xAA] 1
            = ThyoneI.Wait4CNF env fuel s1 ThyoneI.CMD_WAIT_TIME
                ThyoneI.THYONEI_CMD_TXCOMPLETE_RSP WCON.CMD_Status_Success true)
    ∧ ([0x02, 0x01, (1 + 1) % 256, (1 + 1) / 256, 0x00] ++ [0xAA].take 1
          ++ [WCON.xorAll ([0x02, 0x01, (1 + 1) % 256, (1 + 1) / 256, 0x00] ++ [0xAA].take 1)]
        : List Nat) = [0x02, 0x01, 0x02, 0x00, 0x00, 0xAA, 0xAB]
    ∧ ([0x02, 0x01, 0x02, 0x00, 0x00, 0xAA, 0xAB] : List Nat)
        ≠ [0x02, 0x08, 0x02, 0x00, 0x01, 0xAA, 0xA3] :=
  ⟨C26_group_id_overwrites_command (ThyoneI.idleState false) 0x01 0x00 [0xAA] 1 (by decide)
      (by decide) (by rw [ThyoneI.thy_idle_cmdArray]; decide)
      (by
        simp only [ThyoneI.idleState, List.getElem?_replicate, ThyoneI.thy_MAX_CMD_LENGTH_eq]
        rfl),
    by decide, by decide⟩

/-! ## `ThyoneI_GPIORemoteWrite` (C27) -/

namespace ThyoneI
open WCON

/-- With a pointer step of two or more elements the second pass of the loop reads behind
an array of two control blocks. -/
theorem gpioControlLoop_leaves_array (c0 c1 : GPIOControlBlock) (sz length : Nat)
    (a : List Nat) :
    gpioControlLoop [c0, c1] (sz + 2) 2 length 0 a = none := by
  have h2 : ([c0, c1] : List GPIOControlBlock)[0 + (sz + 2)]? = none := by
    rw [Nat.zero_add]
    exact List.getElem?_eq_none (by simp)
  simp only [gpioControlLoop, List.getElem?_cons_zero, h2]
  cases writes a [(CMD_POSITION_DATA + length, 2), (CMD_POSITION_DATA + length + 1, c0.GPIO_ID % 256),
      (CMD_POSITION_DATA + length + 2, c0.output % 256)] <;> rfl

end ThyoneI

set_option maxRecDepth 200000 in
/-- C27, the defect: the loop of `ThyoneI_GPIORemoteWrite` advances the pointer by
`controlP += sizeof(ThyoneI_GPIOControlBlock_t)`, that is by `sizeof` elements instead of
one (`ThyoneI_GPIOLocalWrite` has `controlP++`).  The type has the two members `GPIO_ID`
and `value`, so its size is at least 2.  First part: for an array of two control blocks
and `number_of_controls = 2` the second pass reads behind the array, whatever the size,
the address and the driver state; the call has no defined result.  Second part: with a
size of 2 and the memory behind the array holding a third block, the call with the blocks
`(1,1), (2,0)` sends `02 2B 0A 00 44 33 22 11 02 01 01 02 03 01 65`, whose second block is
`[2, 3, 1]`, taken from the third element, not `[2, 2, 0]`.  Third part:
`ThyoneI_GPIOLocalWrite` sends the blocks of both entries, `02 27 06 00 02 01 01 02 02 00 21`.
Fourth part: with a single control block the request is as described. -/
theorem C27_remote_write_pointer_step :
    (∀ (sz : Nat) (s : ThyoneI.State) (destAddress : Nat) (c0 c1 : ThyoneI.GPIOControlBlock),
      ThyoneI.ThyoneI_GPIORemoteWrite.request (sz + 2) s destAddress [c0, c1] 2 = none) ∧
    (ThyoneI.ThyoneI_GPIORemoteWrite.request 2 (ThyoneI.idleState false) 0x11223344
        [{ GPIO_ID := 1, output := 1 }, { GPIO_ID := 2, output := 0 },
         { GPIO_ID := 3, output := 1 }] 2).map (fun r => ThyoneI.transmitted r.2.trace)
      = some [[0x02, 0x2B, 0x0A, 0x00, 0x44, 0x33, 0x22, 0x11, 0x02, 0x01, 0x01,
               0x02, 0x03, 0x01, 0x65]] ∧
    (ThyoneI.ThyoneI_GPIOLocalWrite.request (ThyoneI.idleState false)
        [{ GPIO_ID := 1, output := 1 }, { GPIO_ID := 2, output := 0 }] 2).map
        (fun r => ThyoneI.transmitted r.2.trace)
      = some [[0x02, 0x27, 0x06, 0x00, 0x02, 0x01, 0x01, 0x02, 0x02, 0x00, 0x21]] ∧
    (ThyoneI.ThyoneI_GPIORemoteWrite.request 2 (ThyoneI.idleState false) 0x11223344
        [{ GPIO_ID := 1, output := 1 }] 1).map (fun r => ThyoneI.transmitted r.2.trace)
      = some [[0x02, 0x2B, 0x07, 0x00, 0x44, 0x33, 0x22, 0x11, 0x02, 0x01, 0x01, 0x68]] := by
  refine ⟨?_, by decide, by decide, by decide⟩
  intro sz s destAddress c0 c1
  simp only [ThyoneI.ThyoneI_GPIORemoteWrite.request, ThyoneI.gpioControlLoop_leaves_array]

/-! ## `ThyoneI_Get` and `ProteusIII_Get` (C28) -/

namespace WCON

/-- The length field of a received frame, read back as `ThyoneI_Get` and `ProteusIII_Get`
do it. -/
theorem frame_length_field (c : Nat) (p X : List Nat) (hp : p.length < 65536) :
    ∃ lsb msb, (frame c p ++ X)[CMD_POSITION_LENGTH_LSB]? = some lsb
      ∧ (frame c p ++ X)[CMD_POSITION_LENGTH_MSB]? = some msb
      ∧ ((lsb <<< 0) + (msb <<< 8)) % 65536 = p.length := by
  refine ⟨p.length % 256, p.length / 256,
    by rw [frame_append]; simp [CMD_POSITION_LENGTH_LSB],
    by rw [frame_append]; simp [CMD_POSITION_LENGTH_MSB], ?_⟩
  rw [Nat.shiftLeft_zero, Nat.shiftLeft_eq]
  omega

theorem frame_one (c d : Nat) :
    frame c [d] = [0x02, c, 0x01, 0x00, d, xorAll [0x02, c, 0x01, 0x00, d]] := by
  simp [frame, CMD_STX]

theorem frame_status (c d : Nat) (rest : List Nat) :
    (frame c (d :: rest))[CMD_POSITION_DATA]? = some d := by
  simp [frame, CMD_POSITION_DATA]

/-- The bytes behind the status byte of a received frame. -/
theorem frame_response (c d : Nat) (rest X : List Nat) :
    slice (frame c (d :: rest) ++ X) (CMD_POSITION_DATA + 1) ((d :: rest).length - 1) = rest := by
  rw [frame_append, slice_payload_drop _ _ _ _ _ _ 1 (by simp)]
  rfl

end WCON

namespace ThyoneI
open WCON

/-- The request part of `ThyoneI_Get`. -/
theorem thy_get_request (s : State) (userSetting : Nat) (hl : 6 ≤ s.CMD_Array.length) :
    ThyoneI_Get.request s userSetting
      = some (true, { s with
          CMD_Array := frame THYONEI_CMD_GET_REQ [userSetting % 256] ++ s.CMD_Array.drop 6
          trace := s.trace
            ++ [Event.transmit (frame THYONEI_CMD_GET_REQ [userSetting % 256]) 6] }) :=
  thy_request_one s THYONEI_CMD_GET_REQ (userSetting % 256) hl

/-- `ThyoneI_Get` with a `GET_CNF` frame arriving inside the time-out. -/
theorem thy_get_cnf (s : State) (env : Env) (userSetting d : Nat) (rest : List Nat) (k : Nat)
    (hidle : s.RxByteCounter = 0) (hcmd : 6 ≤ s.CMD_Array.length)
    (hbuf : s.RxBuffer.length = MAX_CMD_LENGTH) (hpkt : s.RxPacket.length = MAX_CMD_LENGTH)
    (hconf : 0 < s.cmdConfirmation_array.length)
    (hN : (d :: rest).length + 5 ≤ MAX_CMD_LENGTH)
    (hquiet : ∀ j, j < k → env.arrive j = [])
    (hclock : ∀ j, j ≤ k → ¬ env.timedOut CMD_WAIT_TIME j)
    (harrive : env.arrive k = frame THYONEI_CMD_GET_CNF (d :: rest)) :
    ∀ fuel, k + 2 ≤ fuel →
      ∃ s2, ThyoneI_Get env fuel s userSetting
          = some (decide (d = CMD_Status_Success),
              if d = CMD_Status_Success then some (rest, rest.length) else none, s2)
        ∧ transmitted s2.trace = transmitted s.trace
            ++ [[0x02, 0x10, 0x01, 0x00, userSetting % 256,
                 xorAll [0x02, 0x10, 0x01, 0x00, userSetting % 256]]]
        ∧ dispatched s2.trace = dispatched s.trace ++ [frame THYONEI_CMD_GET_CNF (d :: rest)] := by
  intro fuel hf
  have hN' : (d :: rest).length + 5 ≤ 235 := hN
  have hreq := thy_get_request s userSetting hcmd
  obtain ⟨d', hd', hfeed⟩ := thy_feed_confirm_state
    { s with
      CMD_Array := frame THYONEI_CMD_GET_REQ [userSetting % 256] ++ s.CMD_Array.drop 6
      cmdConfirmation_array := resetConfirmations s.cmdConfirmation_array
      trace := s.trace ++ [Event.transmit (frame THYONEI_CMD_GET_REQ [userSetting % 256]) 6]
        ++ List.map (fun j => Event.getTick (env.tick j % 4294967296)) (List.range (k + 2)) }
    THYONEI_CMD_GET_CNF (d :: rest) hidle hN hbuf hpkt (Or.inr (Or.inl (by decide)))
  have hdd : d' = d := by
    rw [frame_status] at hd'
    exact (Option.some.inj hd').symm
  subst hdd
  rw [if_neg (by decide), if_neg (by decide)] at hfeed
  have hw := thy_wait_arrival env
    { s with
      CMD_Array := frame THYONEI_CMD_GET_REQ [userSetting % 256] ++ s.CMD_Array.drop 6
      trace := s.trace ++ [Event.transmit (frame THYONEI_CMD_GET_REQ [userSetting % 256]) 6] }
    _ CMD_WAIT_TIME THYONEI_CMD_GET_CNF CMD_Status_Success k (decide (d' = CMD_Status_Success))
    (scan_reset_none _ _ _ (by decide)) hquiet hclock (by rw [harrive]; exact hfeed)
    (scan_store_reset THYONEI_CMD_GET_CNF CMD_Status_Success
        { cmd := THYONEI_CMD_GET_CNF, status := d' } s.cmdConfirmation_array hconf rfl)
    fuel hf
  obtain ⟨lsb, msb, h2, h3, hlen⟩ := frame_length_field THYONEI_CMD_GET_CNF (d' :: rest)
    (s.RxPacket.drop ((d' :: rest).length + 5)) (by omega)
  have hresp := frame_response THYONEI_CMD_GET_CNF d' rest
    (s.RxPacket.drop ((d' :: rest).length + 5))
  have htr : transmitted (s.trace
        ++ [Event.transmit (frame THYONEI_CMD_GET_REQ [userSetting % 256]) 6]
        ++ List.map (fun j => Event.getTick (env.tick j % 4294967296)) (List.range (k + 2))
        ++ [Event.dispatch (frame THYONEI_CMD_GET_CNF (d' :: rest))])
      = transmitted s.trace ++ [[0x02, 0x10, 0x01, 0x00, userSetting % 256,
          xorAll [0x02, 0x10, 0x01, 0x00, userSetting % 256]]] := by
    simp only [thy_transmitted_append, thy_transmitted_ticks, transmitted, List.append_nil,
      frame_one]
    rfl
  have hdi : dispatched (s.trace
        ++ [Event.transmit (frame THYONEI_CMD_GET_REQ [userSetting % 256]) 6]
        ++ List.map (fun j => Event.getTick (env.tick j % 4294967296)) (List.range (k + 2))
        ++ [Event.dispatch (frame THYONEI_CMD_GET_CNF (d' :: rest))])
      = dispatched s.trace ++ [frame THYONEI_CMD_GET_CNF (d' :: rest)] := by
    simp only [thy_dispatched_append, thy_dispatched_ticks, dispatched, List.append_nil]
  by_cases hd : d' = CMD_Status_Success
  · rw [decide_eq_true hd] at hw
    rw [if_pos hd, decide_eq_true hd]
    simp only [ThyoneI_Get, hreq, hw, h2, h3, hlen]
    have hne : ¬ ((d' :: rest).length = 0) := by simp
    have hrb : readBlock (frame THYONEI_CMD_GET_CNF (d' :: rest)
          ++ s.RxPacket.drop ((d' :: rest).length + 5)) (CMD_POSITION_DATA + 1)
          ((d' :: rest).length - 1) = some rest := by
      unfold readBlock
      rw [if_pos (by
        simp only [List.length_append, frame_length, List.length_drop, CMD_POSITION_DATA]
        omega), hresp]
    rw [if_neg hne, hrb]
    simp only
    have hmod : ((d' :: rest).length - 1) % 65536 = rest.length := by
      simp only [List.length_cons, Nat.add_sub_cancel]
      simp only [List.length_cons] at hN'
      omega
    rw [hmod]
    exact ⟨_, rfl, htr, hdi⟩
  · rw [decide_eq_false hd] at hw
    rw [if_neg hd, decide_eq_false hd]
    simp only [ThyoneI_Get, hreq, hw]
    exact ⟨_, rfl, htr, hdi⟩

end ThyoneI

namespace ProteusIII
open WCON

/-- The request part of `ProteusIII_Get`. -/
theorem pro_get_request (s : State) (userSetting : Nat) (hl : 6 ≤ s.cmdArray.length) :
    ProteusIII_Get.request s userSetting
      = some (true, { s with
          cmdArray := frame PROTEUSIII_CMD_GET_REQ [userSetting % 256] ++ s.cmdArray.drop 6
          trace := s.trace
            ++ [Event.transmit (frame PROTEUSIII_CMD_GET_REQ [userSetting % 256]) 6] }) :=
  pro_request_one s PROTEUSIII_CMD_GET_REQ (userSetting % 256) hl

/-- `ProteusIII_Get` with a `GET_CNF` frame arriving inside the time-out. -/
theorem pro_get_cnf (h : Header) (s : State) (env : Env) (userSetting d : Nat)
    (rest : List Nat) (k : Nat)
    (hidle : s.rxByteCounter = 0) (hcmd : 6 ≤ s.cmdArray.length)
    (hN : (d :: rest).length + 5 < 65536)
    (hbuf : (d :: rest).length + 5 ≤ s.rxBuffer.length)
    (hpkt : (d :: rest).length + 5 ≤ s.rxPacket.length)
    (hconf : 0 < s.cmdConfirmationArray.length)
    (hk : k < 100)
    (hquiet : ∀ j, j < k → env.arrive j = [])
    (harrive : env.arrive k = frame PROTEUSIII_CMD_GET_CNF (d :: rest)) :
    ∃ s2, ProteusIII_Get h env s userSetting
        = some (decide (d = CMD_Status_Success),
            if d = CMD_Status_Success then some (rest, rest.length) else none, s2)
      ∧ transmitted s2.trace = transmitted s.trace
          ++ [[0x02, 0x10, 0x01, 0x00, userSetting % 256,
               xorAll [0x02, 0x10, 0x01, 0x00, userSetting % 256]]]
      ∧ dispatched s2.trace = dispatched s.trace ++ [frame PROTEUSIII_CMD_GET_CNF (d :: rest)] := by
  have hreq := pro_get_request s userSetting hcmd
  obtain ⟨d', hd', hfeed⟩ := pro_feed_confirm_state h
    { s with
      cmdArray := frame PROTEUSIII_CMD_GET_REQ [userSetting % 256] ++ s.cmdArray.drop 6
      cmdConfirmationArray := resetConfirmations s.cmdConfirmationArray
      trace := s.trace ++ [Event.transmit (frame PROTEUSIII_CMD_GET_REQ [userSetting % 256]) 6]
        ++ List.replicate (k + 1) (Event.delay 5) }
    PROTEUSIII_CMD_GET_CNF (d :: rest) hidle hN hbuf hpkt (Or.inr (Or.inl (by decide)))
  have hdd : d' = d := by
    rw [frame_status] at hd'
    exact (Option.some.inj hd').symm
  subst hdd
  rw [if_neg (by decide)] at hfeed
  have hw := pro_wait_arrival h env
    { s with
      cmdArray := frame PROTEUSIII_CMD_GET_REQ [userSetting % 256] ++ s.cmdArray.drop 6
      trace := s.trace ++ [Event.transmit (frame PROTEUSIII_CMD_GET_REQ [userSetting % 256]) 6] }
    _ CMD_WAIT_TIME PROTEUSIII_CMD_GET_CNF CMD_Status_Success k
    (decide (d' = CMD_Status_Success))
    (scan_reset_none _ _ _ (by decide)) hquiet
    (by
      have h100 : Int.tdiv ((CMD_WAIT_TIME : Nat) : Int) 5 = 100 := by decide
      rw [h100]; omega)
    (by rw [harrive]; exact hfeed)
    (scan_store_reset PROTEUSIII_CMD_GET_CNF CMD_Status_Success
        { cmd := PROTEUSIII_CMD_GET_CNF, status := d' } s.cmdConfirmationArray hconf rfl)
  obtain ⟨lsb, msb, h2, h3, hlen⟩ := frame_length_field PROTEUSIII_CMD_GET_CNF (d' :: rest)
    (s.rxPacket.drop ((d' :: rest).length + 5)) (by omega)
  have hresp := frame_response PROTEUSIII_CMD_GET_CNF d' rest
    (s.rxPacket.drop ((d' :: rest).length + 5))
  have htr : transmitted (s.trace
        ++ [Event.transmit (frame PROTEUSIII_CMD_GET_REQ [userSetting % 256]) 6]
        ++ List.replicate (k + 1) (Event.delay 5)
        ++ [Event.dispatch (frame PROTEUSIII_CMD_GET_CNF (d' :: rest))])
      = transmitted s.trace ++ [[0x02, 0x10, 0x01, 0x00, userSetting % 256,
          xorAll [0x02, 0x10, 0x01, 0x00, userSetting % 256]]] := by
    simp only [pro_transmitted_append, pro_transmitted_delays, transmitted, List.append_nil,
      frame_one]
    rfl
  have hdi : dispatched (s.trace
        ++ [Event.transmit (frame PROTEUSIII_CMD_GET_REQ [userSetting % 256]) 6]
        ++ List.replicate (k + 1) (Event.delay 5)
        ++ [Event.dispatch (frame PROTEUSIII_CMD_GET_CNF (d' :: rest))])
      = dispatched s.trace ++ [frame PROTEUSIII_CMD_GET_CNF (d' :: rest)] := by
    simp only [pro_dispatched_append, pro_dispatched_delays, dispatched, List.append_nil]
  by_cases hd : d' = CMD_Status_Success
  · rw [decide_eq_true hd] at hw
    rw [if_pos hd, decide_eq_true hd]
    simp only [ProteusIII_Get, hreq, hw, h2, h3, hlen]
    have hne : ¬ ((d' :: rest).length = 0) := by simp
    have hrb : readBlock (frame PROTEUSIII_CMD_GET_CNF (d' :: rest)
          ++ s.rxPacket.drop ((d' :: rest).length + 5)) (CMD_POSITION_DATA + 1)
          ((d' :: rest).length - 1) = some rest := by
      unfold readBlock
      rw [if_pos (by
        simp only [List.length_append, frame_length, List.length_drop, CMD_POSITION_DATA]
        omega), hresp]
    rw [if_neg hne, hrb]
    simp only
    have hmod : ((d' :: rest).length - 1) % 65536 = rest.length := by
      simp only [List.length_cons, Nat.add_sub_cancel]
      simp only [List.length_cons] at hN
      omega
    rw [hmod]
    exact ⟨_, rfl, htr, hdi⟩
  · rw [decide_eq_false hd] at hw
    rw [if_neg hd, decide_eq_false hd]
    simp only [ProteusIII_Get, hreq, hw]
    exact ⟨_, rfl, htr, hdi⟩

end ProteusIII

/-- C28 (`Get` returns the bytes after the status byte, both drivers): `ThyoneI_Get` /
`ProteusIII_Get` is called with an idle receiver and transmits
`[0x02, 0x10, 0x01, 0x00, userSetting, checksum]`.  Nothing arrives during the first `k`
passes of its wait, and during pass `k`, still inside the time-out, a checksum-valid
`GET_CNF` frame with the payload `d :: rest` (declared length `L = 1 + len(rest)`) that
fits the receive buffers is delivered byte by byte.  If the first payload byte `d` is
`0x00`, the function returns `true`, having copied `rest`, the `L - 1` bytes behind the
status byte, to the response buffer and stored `L - 1` in the response length; otherwise
it returns `false` and has written neither output. -/
theorem C28_get_response :
    (∀ (s : ThyoneI.State) (env : ThyoneI.Env) (userSetting d : Nat) (rest : List Nat)
        (k : Nat),
      s.RxByteCounter = 0 → 6 ≤ s.CMD_Array.length →
      s.RxBuffer.length = ThyoneI.MAX_CMD_LENGTH → s.RxPacket.length = ThyoneI.MAX_CMD_LENGTH →
      0 < s.cmdConfirmation_array.length →
      (d :: rest).length + 5 ≤ ThyoneI.MAX_CMD_LENGTH →
      (∀ j, j < k → env.arrive j = []) →
      (∀ j, j ≤ k → ¬ env.timedOut ThyoneI.CMD_WAIT_TIME j) →
      env.arrive k = WCON.frame ThyoneI.THYONEI_CMD_GET_CNF (d :: rest) →
      ∀ fuel, k + 2 ≤ fuel →
        ∃ s2, ThyoneI.ThyoneI_Get env fuel s userSetting
            = some (decide (d = 0x00), if d = 0x00 then some (rest, rest.length) else none, s2)
          ∧ ThyoneI.transmitted s2.trace = ThyoneI.transmitted s.trace
              ++ [[0x02, 0x10, 0x01, 0x00, userSetting % 256,
                   WCON.xorAll [0x02, 0x10, 0x01, 0x00, userSetting % 256]]]
          ∧ ThyoneI.dispatched s2.trace = ThyoneI.dispatched s.trace
              ++ [WCON.frame ThyoneI.THYONEI_CMD_GET_CNF (d :: rest)]) ∧
    (∀ (h : ProteusIII.Header) (s : ProteusIII.State) (env : ProteusIII.Env)
        (userSetting d : Nat) (rest : List Nat) (k : Nat),
      s.rxByteCounter = 0 → 6 ≤ s.cmdArray.length →
      (d :: rest).length + 5 < 65536 →
      (d :: rest).length + 5 ≤ s.rxBuffer.length →
      (d :: rest).length + 5 ≤ s.rxPacket.length →
      0 < s.cmdConfirmationArray.length →
      k < 100 →
      (∀ j, j < k → env.arrive j = []) →
      env.arrive k = WCON.frame ProteusIII.PROTEUSIII_CMD_GET_CNF (d :: rest) →
      ∃ s2, ProteusIII.ProteusIII_Get h env s userSetting
          = some (decide (d = 0x00), if d = 0x00 then some (rest, rest.length) else none, s2)
        ∧ ProteusIII.transmitted s2.trace = ProteusIII.transmitted s.trace
            ++ [[0x02, 0x10, 0x01, 0x00, userSetting % 256,
                 WCON.xorAll [0x02, 0x10, 0x01, 0x00, userSetting % 256]]]
        ∧ ProteusIII.dispatched s2.trace = ProteusIII.dispatched s.trace
            ++ [WCON.frame ProteusIII.PROTEUSIII_CMD_GET_CNF (d :: rest)]) := by
  constructor
  · intro s env userSetting d rest k hidle hcmd hbuf hpkt hconf hN hquiet hclock harrive
    exact ThyoneI.thy_get_cnf s env userSetting d rest k hidle hcmd hbuf hpkt hconf hN hquiet
      hclock harrive
  · intro h s env userSetting d rest k hidle hcmd hN hbuf hpkt hconf hk hquiet harrive
    exact ProteusIII.pro_get_cnf h s env userSetting d rest k hidle hcmd hN hbuf hpkt hconf hk
      hquiet harrive

/-- Witness of C28: `ProteusIII_Get` for the user setting 3 in the idle state, with the
confirmation `02 50 03 00 00 AA BB 40` arriving during the first delay: the function
returns `true` with the response `[0xAA, 0xBB]` of length 2. -/
theorem C28_get_response_witness :
    ∃ s2, ProteusIII.ProteusIII_Get ProteusIII.exampleHeader
        { arrive := fun j => if j = 0 then [0x02, 0x50, 0x03, 0x00, 0x00, 0xAA, 0xBB, 0x40]
            else [] }
        (ProteusIII.idleState ProteusIII.exampleHeader ProteusIII.noCallbacks) 3
          = some (decide ((0x00 : Nat) = 0x00),
              if (0x00 : Nat) = 0x00 then some ([0xAA, 0xBB], [0xAA, 0xBB].length) else none,
              s2)
      ∧ ProteusIII.transmitted s2.trace
          = ProteusIII.transmitted
              (ProteusIII.idleState ProteusIII.exampleHeader ProteusIII.noCallbacks).trace
            ++ [[0x02, 0x10, 0x01, 0x00, 3 % 256, WCON.xorAll [0x02, 0x10, 0x01, 0x00, 3 % 256]]]
      ∧ ProteusIII.dispatched s2.trace
          = ProteusIII.dispatched
              (ProteusIII.idleState ProteusIII.exampleHeader ProteusIII.noCallbacks).trace
            ++ [WCON.frame ProteusIII.PROTEUSIII_CMD_GET_CNF (0x00 :: [0xAA, 0xBB])] :=
  C28_get_response.2 ProteusIII.exampleHeader
    (ProteusIII.idleState ProteusIII.exampleHeader ProteusIII.noCallbacks)
    { arrive := fun j => if j = 0 then [0x02, 0x50, 0x03, 0x00, 0x00, 0xAA, 0xBB, 0x40]
        else [] }
    3 0x00 [0xAA, 0xBB] 0 rfl (by rw [ProteusIII.pro_idle_cmdArray]; decide) (by decide)
    (by rw [ProteusIII.pro_idle_buffer]; decide)
    (by simp only [ProteusIII.idleState, List.length_replicate]; decide) (by decide)
    (by decide) (fun j hj => absurd hj (Nat.not_lt_zero j)) (by decide)

/-! ## Dispatch order (C29) -/

namespace ThyoneI
open WCON

/-- Bytes other than the start byte leave the idle receiver idle: they only overwrite
`RxBuffer[0]`. -/
theorem thy_feed_noise (noise : List Nat) : ∀ (s : State),
    s.RxByteCounter = 0 → 0 < s.RxBuffer.length → (∀ b ∈ noise, b ≠ CMD_STX) →
    ∃ s1, feed s noise = some s1 ∧ s1.RxByteCounter = 0
      ∧ s1.RxBuffer.length = s.RxBuffer.length ∧ s1.RxPacket = s.RxPacket
      ∧ s1.BytesToReceive = s.BytesToReceive
      ∧ s1.cmdConfirmation_array = s.cmdConfirmation_array ∧ s1.trace = s.trace := by
  induction noise with
  | nil => intro s h0 _ _; exact ⟨s, rfl, h0, rfl, rfl, rfl, rfl, rfl⟩
  | cons b noise ih =>
    intro s h0 hl hn
    rw [thy_feed_cons, thy_step_idle_other s b h0 (hn b (by simp)) hl, Option.some_bind]
    obtain ⟨s1, hf, hc, hb, hp, hB, ha, ht⟩ := ih { s with RxBuffer := s.RxBuffer.set 0 b } h0
      (by simpa using hl) (fun x hx => hn x (by simp [hx]))
    exact ⟨s1, hf, hc, by simpa using hb, hp, hB, ha, ht⟩

/-- Checksum-valid frames of admitted length, each preceded by bytes other than the start
byte, fed to the idle receiver: every frame is handed to `HandleRxPacket`, in arrival
order, and the receiver is idle at the end. -/
theorem thy_feed_ordered (items : List (List Nat × Nat × List Nat)) : ∀ (s : State),
    s.RxByteCounter = 0 → s.RxBuffer.length = MAX_CMD_LENGTH →
    s.RxPacket.length = MAX_CMD_LENGTH →
    (∀ it ∈ items, (∀ b ∈ it.1, b ≠ CMD_STX) ∧ it.2.2.length + 5 ≤ MAX_CMD_LENGTH) →
    ∃ s1, feed s (items.map (fun it => it.1 ++ frame it.2.1 it.2.2)).flatten = some s1
      ∧ s1.RxByteCounter = 0 ∧ s1.RxBuffer.length = MAX_CMD_LENGTH
      ∧ s1.RxPacket.length = MAX_CMD_LENGTH
      ∧ dispatched s1.trace
          = dispatched s.trace ++ items.map (fun it => frame it.2.1 it.2.2) := by
  induction items with
  | nil => intro s h0 hb hp _; exact ⟨s, rfl, h0, hb, hp, by simp⟩
  | cons it items ih =>
    intro s h0 hb hp hall
    obtain ⟨hn, hN⟩ := hall it (by simp)
    obtain ⟨s1, hf1, hc1, hb1, hp1, _, _, ht1⟩ := thy_feed_noise it.1 s h0
      (by rw [hb, thy_MAX_CMD_LENGTH_eq]; decide) hn
    obtain ⟨s2, hf2, hc2, _, hb2, hp2, _, hd2⟩ := thy_feed_frame_log s1 it.2.1
      (it.2.2.length % 256) (it.2.2.length / 256) it.2.2
      (xorAll ([CMD_STX, it.2.1, it.2.2.length % 256, it.2.2.length / 256] ++ it.2.2)) hc1
      (frame_payload_length _) hN (by rw [hb1, hb]) (by rw [hp1, hp])
    rw [if_pos rfl, ← frame_eq, ht1] at hd2
    rw [← frame_eq] at hf2
    obtain ⟨s3, hf3, hc3, hb3, hp3, hd3⟩ := ih s2 hc2 hb2 hp2
      (fun x hx => hall x (by simp [hx]))
    refine ⟨s3, ?_, hc3, hb3, hp3, ?_⟩
    · rw [List.map_cons, List.flatten_cons, thy_feed_append, thy_feed_append, hf1,
        Option.some_bind, hf2, Option.some_bind, hf3]
    · rw [hd3, hd2, List.map_cons, List.append_assoc, List.singleton_append]

end ThyoneI

namespace ProteusIII
open WCON

/-- Bytes other than the start byte leave the idle receiver idle. -/
theorem pro_feed_noise (h : Header) (noise : List Nat) : ∀ (s : State),
    s.rxByteCounter = 0 → 0 < s.rxBuffer.length → (∀ b ∈ noise, b ≠ CMD_STX) →
    ∃ s1, feed h s noise = some s1 ∧ s1.rxByteCounter = 0
      ∧ s1.rxBuffer.length = s.rxBuffer.length ∧ s1.rxPacket = s.rxPacket
      ∧ s1.bytesToReceive = s.bytesToReceive
      ∧ s1.cmdConfirmationArray = s.cmdConfirmationArray ∧ s1.trace = s.trace := by
  induction noise with
  | nil => intro s h0 _ _; exact ⟨s, rfl, h0, rfl, rfl, rfl, rfl, rfl⟩
  | cons b noise ih =>
    intro s h0 hl hn
    rw [pro_feed_cons, pro_step_idle_other h s b h0 (hn b (by simp)) hl, Option.some_bind]
    obtain ⟨s1, hf, hc, hb, hp, hB, ha, ht⟩ := ih { s with rxBuffer := s.rxBuffer.set 0 b } h0
      (by simpa using hl) (fun x hx => hn x (by simp [hx]))
    exact ⟨s1, hf, hc, by simpa using hb, hp, hB, ha, ht⟩

/-- A checksum-valid frame fed to the idle receiver, when the feed has a final state: the
frame has been handed to `HandleRxPacket` and the receiver is idle again. -/
theorem pro_feed_frame_returns (h : Header) (s s1 : State) (c : Nat) (p : List Nat)
    (hidle : s.rxByteCounter = 0) (hN : p.length + 5 < 65536)
    (hbuf : p.length + 5 ≤ s.rxBuffer.length) (hpkt : p.length + 5 ≤ s.rxPacket.length)
    (hf : feed h s (frame c p) = some s1) :
    s1.rxByteCounter = 0 ∧ s1.rxBuffer.length = s.rxBuffer.length
      ∧ s1.rxPacket.length = s.rxPacket.length
      ∧ dispatched s1.trace = dispatched s.trace ++ [frame c p] := by
  have hfeed := pro_feed_valid h s c _ _ p hidle (frame_payload_length p) hN hbuf hpkt
  rw [← frame_eq, hf] at hfeed
  cases hsw : HandleRxPacket.switch h s (frame c p ++ s.rxPacket.drop (p.length + 5)) with
  | none => rw [hsw] at hfeed; simp at hfeed
  | some r =>
    rw [hsw] at hfeed
    simp only [Option.some.injEq] at hfeed
    subst hfeed
    refine ⟨rfl, ?_, ?_, ?_⟩
    · simp only [List.length_append, frame_length, List.length_drop]; omega
    · simp only [List.length_append, frame_length, List.length_drop]; omega
    · simp only [pro_dispatched_append, dispatched, pro_switch_dispatched h s _ r hsw,
        List.append_nil]

/-- Checksum-valid frames that fit the buffers, each preceded by bytes other than the
start byte, fed to the idle receiver: when the feed has a final state, every frame has
been handed to `HandleRxPacket`, in arrival order, and the receiver is idle at the end. -/
theorem pro_feed_ordered (h : Header) (items : List (List Nat × Nat × List Nat)) :
    ∀ (s s1 : State), s.rxByteCounter = 0 → 0 < s.rxBuffer.length →
    (∀ it ∈ items, (∀ b ∈ it.1, b ≠ CMD_STX) ∧ it.2.2.length + 5 < 65536
      ∧ it.2.2.length + 5 ≤ s.rxBuffer.length ∧ it.2.2.length + 5 ≤ s.rxPacket.length) →
    feed h s (items.map (fun it => it.1 ++ frame it.2.1 it.2.2)).flatten = some s1 →
    s1.rxByteCounter = 0 ∧ s1.rxBuffer.length = s.rxBuffer.length
      ∧ dispatched s1.trace
          = dispatched s.trace ++ items.map (fun it => frame it.2.1 it.2.2) := by
  induction items with
  | nil =>
    intro s s1 h0 _ _ hf
    simp only [List.map_nil, List.flatten_nil, pro_feed_nil, Option.some.injEq] at hf
    subst hf
    exact ⟨h0, rfl, by simp⟩
  | cons it items ih =>
    intro s s1 h0 hl hall hf
    obtain ⟨hn, hN, hbuf, hpkt⟩ := hall it (by simp)
    obtain ⟨t1, hf1, hc1, hb1, hp1, _, _, ht1⟩ := pro_feed_noise h it.1 s h0 hl hn
    rw [List.map_cons, List.flatten_cons, pro_feed_append, pro_feed_append, hf1,
      Option.some_bind] at hf
    cases hf2 : feed h t1 (frame it.2.1 it.2.2) with
    | none => rw [hf2] at hf; simp at hf
    | some t2 =>
      rw [hf2, Option.some_bind] at hf
      obtain ⟨hc2, hb2, hp2, hd2⟩ := pro_feed_frame_returns h t1 t2 it.2.1 it.2.2 hc1 hN
        (by rw [hb1]; exact hbuf) (by rw [hp1]; exact hpkt) hf2
      obtain ⟨hc3, hb3, hd3⟩ := ih t2 s1 hc2 (by rw [hb2, hb1]; exact hl)
        (fun x hx => by
          obtain ⟨a, b, c, d⟩ := hall x (by simp [hx])
          exact ⟨a, b, by rw [hb2, hb1]; exact c, by rw [hp2, hp1]; exact d⟩) hf
      refine ⟨hc3, by rw [hb3, hb2, hb1], ?_⟩
      rw [hd3, hd2, ht1, List.map_cons, List.append_assoc, List.singleton_append]

end ProteusIII

set_option maxRecDepth 200000 in
/-- C29 (frames are dispatched in arrival order, both reassemblers).  A stream is built
from a list of checksum-valid frames of admitted length, each preceded by a run of bytes
other than `0x02`, and a last such run behind them; it is fed to the idle receiver.

Thyone-I (first part): the feed has a final state, `HandleRxPacket` has been called once
per frame, in arrival order, and the receiver is idle at the end.

Proteus-III (second part): the same holds whenever the feed has a final state, that is,
whenever every call of `HandleRxPacket` has returned.

The defect (third part): on Proteus-III a call need not return.  With `gpioWriteCb`
registered, the stream `00`, `02 A6 01 00 FF 5A`, `02 41 00 00 43` (a `GPIO_LOCAL_WRITE_IND`
whose block has the length byte `0xFF`, then a `GETSTATE_CNF`) has no final state: the
block loop of the first frame never leaves, the second frame is never dispatched and the
receiver does not get back to the idle state. -/
theorem C29_dispatch_order :
    (∀ (items : List (List Nat × Nat × List Nat)) (tail : List Nat) (s : ThyoneI.State),
      s.RxByteCounter = 0 → s.RxBuffer.length = ThyoneI.MAX_CMD_LENGTH →
      s.RxPacket.length = ThyoneI.MAX_CMD_LENGTH →
      (∀ it ∈ items, (∀ b ∈ it.1, b ≠ 0x02) ∧ it.2.2.length + 5 ≤ ThyoneI.MAX_CMD_LENGTH) →
      (∀ b ∈ tail, b ≠ 0x02) →
      ∃ s1, ThyoneI.feed s
            ((items.map (fun it => it.1 ++ WCON.frame it.2.1 it.2.2)).flatten ++ tail) = some s1
        ∧ s1.RxByteCounter = 0
        ∧ ThyoneI.dispatched s1.trace
            = ThyoneI.dispatched s.trace ++ items.map (fun it => WCON.frame it.2.1 it.2.2)) ∧
    (∀ (h : ProteusIII.Header) (items : List (List Nat × Nat × List Nat)) (tail : List Nat)
        (s s1 : ProteusIII.State),
      s.rxByteCounter = 0 → 0 < s.rxBuffer.length →
      (∀ it ∈ items, (∀ b ∈ it.1, b ≠ 0x02) ∧ it.2.2.length + 5 < 65536
        ∧ it.2.2.length + 5 ≤ s.rxBuffer.length ∧ it.2.2.length + 5 ≤ s.rxPacket.length) →
      (∀ b ∈ tail, b ≠ 0x02) →
      ProteusIII.feed h s
          ((items.map (fun it => it.1 ++ WCON.frame it.2.1 it.2.2)).flatten ++ tail) = some s1 →
      s1.rxByteCounter = 0
        ∧ ProteusIII.dispatched s1.trace
            = ProteusIII.dispatched s.trace
              ++ items.map (fun it => WCON.frame it.2.1 it.2.2)) ∧
    ProteusIII.feed ProteusIII.exampleHeader
        (ProteusIII.idleState ProteusIII.exampleHeader
          { ProteusIII.noCallbacks with gpioWriteCb := true })
        (([([0x00], 0xA6, [0xFF]), ([], 0x41, [])].map
            (fun it => it.1 ++ WCON.frame it.2.1 it.2.2)).flatten ++ []) = none := by
  refine ⟨?_, ?_, by decide⟩
  · intro items tail s h0 hb hp hall htail
    obtain ⟨s1, hf1, hc1, hb1, _, hd1⟩ := ThyoneI.thy_feed_ordered items s h0 hb hp hall
    obtain ⟨s2, hf2, hc2, _, _, _, _, ht2⟩ := ThyoneI.thy_feed_noise tail s1 hc1
      (by rw [hb1, ThyoneI.thy_MAX_CMD_LENGTH_eq]; decide) htail
    refine ⟨s2, ?_, hc2, ?_⟩
    · rw [ThyoneI.thy_feed_append, hf1, Option.some_bind, hf2]
    · rw [ht2, hd1]
  · intro h items tail s s1 h0 hl hall htail hf
    rw [ProteusIII.pro_feed_append] at hf
    cases hf1 : ProteusIII.feed h s
        (items.map (fun it => it.1 ++ WCON.frame it.2.1 it.2.2)).flatten with
    | none => rw [hf1] at hf; simp at hf
    | some t =>
      rw [hf1, Option.some_bind] at hf
      obtain ⟨hc1, hb1, hd1⟩ := ProteusIII.pro_feed_ordered h items s t h0 hl hall hf1
      obtain ⟨s2, hf2, hc2, _, _, _, _, ht2⟩ := ProteusIII.pro_feed_noise h tail t hc1
        (by rw [hb1]; exact hl) htail
      rw [hf2, Option.some.injEq] at hf
      subst hf
      exact ⟨hc2, by rw [ht2, hd1]⟩

/-- C29 on Thyone-I at a concrete stream: `00 FF`, the frame `02 41 01 00 01 43`, the
frame `02 44 01 00 00 47`, `55`. -/
theorem C29_dispatch_order_witness :
    ∃ s1, ThyoneI.feed (ThyoneI.idleState false)
          (([([0x00, 0xFF], 0x41, [0x01]), ([], 0x44, [0x00])].map
              (fun it => it.1 ++ WCON.frame it.2.1 it.2.2)).flatten ++ [0x55]) = some s1
      ∧ s1.RxByteCounter = 0
      ∧ ThyoneI.dispatched s1.trace
          = ThyoneI.dispatched (ThyoneI.idleState false).trace
            ++ [([0x00, 0xFF], 0x41, [0x01]), ([], 0x44, [0x00])].map
                (fun it => WCON.frame it.2.1 it.2.2) :=
  C29_dispatch_order.1 [([0x00, 0xFF], 0x41, [0x01]), ([], 0x44, [0x00])] [0x55]
    (ThyoneI.idleState false) rfl (ThyoneI.thy_idle_buffer false) (ThyoneI.thy_idle_packet false)
    (by decide) (by decide)

/-! ## The expected length while the header is incomplete (C30) -/

namespace ThyoneI
open WCON

/-- One step of the reassembler: `BytesToReceive` is 0 as long as fewer than three bytes
of a frame are in, and with three bytes in it is the low length byte. -/
theorem thy_step_header (s s1 : State) (b : Nat) (hlen : s.RxBuffer.length < 65536)
    (hlt : s.RxByteCounter < 3 → s.BytesToReceive = 0)
    (hstep : WE_UART_HandleRxByte s b = some s1) :
    s1.RxBuffer.length = s.RxBuffer.length
      ∧ (s1.RxByteCounter < 3 → s1.BytesToReceive = 0)
      ∧ (s1.RxByteCounter = 3 → s1.RxBuffer[2]? = some s1.BytesToReceive) := by
  have hl := thy_step_defined s s1 b hstep
  by_cases c0 : s.RxByteCounter = 0
  · by_cases hs : b = CMD_STX
    · subst hs
      rw [thy_step_idle_stx s c0 (by omega)] at hstep
      cases Option.some.inj hstep
      exact ⟨by simp, fun _ => rfl, by simp⟩
    · rw [thy_step_idle_other s b c0 hs (by omega)] at hstep
      cases Option.some.inj hstep
      refine ⟨by simp, fun _ => hlt (by omega), ?_⟩
      intro h; simp only at h; omega
  by_cases c1 : s.RxByteCounter = 1
  · rw [thy_step_cmd s b c1 (by omega)] at hstep
    cases Option.some.inj hstep
    exact ⟨by simp, fun _ => hlt (by omega), by simp⟩
  by_cases c2 : s.RxByteCounter = 2
  · rw [thy_step_lsb s b c2 (by omega)] at hstep
    cases Option.some.inj hstep
    refine ⟨by simp, by simp, fun _ => ?_⟩
    simp only
    rw [List.getElem?_set_self (by omega)]
  by_cases c3 : s.RxByteCounter = 3
  · rw [thy_step_msb s b c3 (by omega)] at hstep
    split_ifs at hstep
    · cases Option.some.inj hstep
      exact ⟨by simp, fun _ => rfl, by simp⟩
    · cases Option.some.inj hstep
      exact ⟨by simp, by simp, by simp⟩
  have c4 : 4 ≤ s.RxByteCounter := by omega
  by_cases hne : s.RxByteCounter + 1 = s.BytesToReceive
  · rw [thy_step_last s b c4 hl (by omega) hne.symm] at hstep
    split at hstep
    · simp at hstep
    · split_ifs at hstep
      · split at hstep
        · simp at hstep
        · rename_i s2 hH
          cases Option.some.inj hstep
          obtain ⟨_, _, _, _, _, _, _, _, hbuf, _⟩ := thy_HandleRxPacket_some _ _ _ hH
          exact ⟨by simp only [hbuf, List.length_set], fun _ => rfl, by simp⟩
      · cases Option.some.inj hstep
        exact ⟨by simp, fun _ => rfl, by simp⟩
  · rw [thy_step_data s b c4 hl (by omega) hne] at hstep
    cases Option.some.inj hstep
    refine ⟨by simp, ?_, ?_⟩
    · intro h; simp only at h; omega
    · intro h; simp only at h; omega

/-- The relation of `thy_step_header` along a whole byte stream. -/
theorem thy_feed_header_length (stream : List Nat) : ∀ (s s1 : State),
    s.RxBuffer.length < 65536 →
    (s.RxByteCounter < 3 → s.BytesToReceive = 0) →
    (s.RxByteCounter = 3 → s.RxBuffer[2]? = some s.BytesToReceive) →
    feed s stream = some s1 →
    (s1.RxByteCounter < 3 → s1.BytesToReceive = 0)
      ∧ (s1.RxByteCounter = 3 → s1.RxBuffer[2]? = some s1.BytesToReceive) := by
  induction stream with
  | nil =>
    intro s s1 _ h1 h2 hfeed
    rw [thy_feed_nil] at hfeed
    cases Option.some.inj hfeed
    exact ⟨h1, h2⟩
  | cons b stream ih =>
    intro s s1 hlen h1 _ hfeed
    rw [thy_feed_cons] at hfeed
    cases hstep : WE_UART_HandleRxByte s b with
    | none => rw [hstep] at hfeed; simp at hfeed
    | some s2 =>
      rw [hstep, Option.some_bind] at hfeed
      obtain ⟨hl2, k1, k2⟩ := thy_step_header s s2 b hlen h1 hstep
      exact ih s2 s1 (by rw [hl2]; exact hlen) k1 k2 hfeed

end ThyoneI

namespace ProteusIII
open WCON

/-- A returning call of `HandleRxPacket` does not touch `rxBuffer`. -/
theorem pro_HandleRxPacket_buffer (h : Header) (s s1 : State) (buf : List Nat)
    (hH : HandleRxPacket h s buf = some s1) : s1.rxBuffer = s.rxBuffer := by
  unfold HandleRxPacket at hH
  split at hH
  · dsimp only at hH
    split at hH
    · simp at hH
    · split at hH
      · simp at hH
      · simp only [Option.some.injEq] at hH
        subst hH
        rfl
  · simp at hH

theorem pro_step_defined (h : Header) (s s1 : State) (b : Nat)
    (hstep : ProteusIII_HandleRxByte h s b = some s1) :
    s.rxByteCounter < s.rxBuffer.length := by
  by_contra hn
  simp [ProteusIII_HandleRxByte, hn] at hstep

/-- One step of the reassembler: `bytesToReceive` is 0 as long as fewer than three bytes
of a frame are in, and with three bytes in it is the low length byte. -/
theorem pro_step_header (h : Header) (s s1 : State) (b : Nat)
    (hlen : s.rxBuffer.length < 65536)
    (hlt : s.rxByteCounter < 3 → s.bytesToReceive = 0)
    (hstep : ProteusIII_HandleRxByte h s b = some s1) :
    s1.rxBuffer.length = s.rxBuffer.length
      ∧ (s1.rxByteCounter < 3 → s1.bytesToReceive = 0)
      ∧ (s1.rxByteCounter = 3 → s1.rxBuffer[2]? = some s1.bytesToReceive) := by
  have hl := pro_step_defined h s s1 b hstep
  by_cases c0 : s.rxByteCounter = 0
  · by_cases hs : b = CMD_STX
    · subst hs
      rw [pro_step_idle_stx h s c0 (by omega)] at hstep
      cases Option.some.inj hstep
      exact ⟨by simp, fun _ => rfl, by simp⟩
    · rw [pro_step_idle_other h s b c0 hs (by omega)] at hstep
      cases Option.some.inj hstep
      refine ⟨by simp, fun _ => hlt (by omega), ?_⟩
      intro h; simp only at h; omega
  by_cases c1 : s.rxByteCounter = 1
  · rw [pro_step_cmd h s b c1 (by omega)] at hstep
    cases Option.some.inj hstep
    exact ⟨by simp, fun _ => hlt (by omega), by simp⟩
  by_cases c2 : s.rxByteCounter = 2
  · rw [pro_step_lsb h s b c2 (by omega)] at hstep
    cases Option.some.inj hstep
    refine ⟨by simp, by simp, fun _ => ?_⟩
    simp only
    rw [List.getElem?_set_self (by omega)]
  by_cases c3 : s.rxByteCounter = 3
  · rw [pro_step_msb h s b c3 (by omega)] at hstep
    cases Option.some.inj hstep
    exact ⟨by simp, by simp, by simp⟩
  have c4 : 4 ≤ s.rxByteCounter := by omega
  by_cases hne : s.rxByteCounter + 1 = s.bytesToReceive
  · rw [pro_step_last h s b c4 hl (by omega) hne.symm] at hstep
    split at hstep
    · simp at hstep
    · split_ifs at hstep
      · split at hstep
        · simp at hstep
        · rename_i s2 hH
          cases Option.some.inj hstep
          have hbuf := pro_HandleRxPacket_buffer h _ _ _ hH
          exact ⟨by simp only [hbuf, List.length_set], fun _ => rfl, by simp⟩
      · cases Option.some.inj hstep
        exact ⟨by simp, fun _ => rfl, by simp⟩
  · rw [pro_step_data h s b c4 hl (by omega) hne] at hstep
    cases Option.some.inj hstep
    refine ⟨by simp, ?_, ?_⟩
    · intro h; simp only at h; omega
    · intro h; simp only at h; omega

/-- The relation of `pro_step_header` along a whole byte stream. -/
theorem pro_feed_header_length (h : Header) (stream : List Nat) : ∀ (s s1 : State),
    s.rxBuffer.length < 65536 →
    (s.rxByteCounter < 3 → s.bytesToReceive = 0) →
    (s.rxByteCounter = 3 → s.rxBuffer[2]? = some s.bytesToReceive) →
    feed h s stream = some s1 →
    (s1.rxByteCounter < 3 → s1.bytesToReceive = 0)
      ∧ (s1.rxByteCounter = 3 → s1.rxBuffer[2]? = some s1.bytesToReceive) := by
  induction stream with
  | nil =>
    intro s s1 _ h1 h2 hfeed
    rw [pro_feed_nil] at hfeed
    cases Option.some.inj hfeed
    exact ⟨h1, h2⟩
  | cons b stream ih =>
    intro s s1 hlen h1 _ hfeed
    rw [pro_feed_cons] at hfeed
    cases hstep : ProteusIII_HandleRxByte h s b with
    | none => rw [hstep] at hfeed; simp at hfeed
    | some s2 =>
      rw [hstep, Option.some_bind] at hfeed
      obtain ⟨hl2, k1, k2⟩ := pro_step_header h s s2 b hlen h1 hstep
      exact ih s2 s1 (by rw [hl2]; exact hlen) k1 k2 hfeed

end ProteusIII

set_option maxRecDepth 100000 in
/-- C30, counterexample: the bytes `02 41 05` fed to the idle receiver of either driver.
Three bytes are in, the header is incomplete, and the expected length is 5, the low
length byte, not 0. -/
theorem C30_length_after_lsb_counterexample :
    (ThyoneI.feed (ThyoneI.idleState false) [0x02, 0x41, 0x05]).map
        (fun s => (s.RxByteCounter, s.BytesToReceive)) = some (3, 5)
    ∧ (ProteusIII.feed ProteusIII.exampleHeader
          (ProteusIII.idleState ProteusIII.exampleHeader ProteusIII.noCallbacks)
          [0x02, 0x41, 0x05]).map
        (fun s => (s.rxByteCounter, s.bytesToReceive)) = some (3, 5)
    ∧ (3 : Nat) < 4 ∧ (5 : Nat) ≠ 0 := by
  refine ⟨by decide, by decide, by decide, by decide⟩

/-- C30, amended (reassembly-state invariant, both reassemblers): in every state reached
from the idle state by feeding a byte sequence, the expected length is 0 whenever fewer
than three bytes of a frame are in; with exactly three bytes in (start byte, command, low
length byte) it is the low length byte just stored in the receive buffer, since the
length is accumulated as its two bytes arrive. -/
theorem C30_length_zero_before_length_bytes :
    (∀ (cb : Bool) (stream : List Nat) (s1 : ThyoneI.State),
      ThyoneI.feed (ThyoneI.idleState cb) stream = some s1 →
      (s1.RxByteCounter < 3 → s1.BytesToReceive = 0)
        ∧ (s1.RxByteCounter = 3 → s1.RxBuffer[2]? = some s1.BytesToReceive)) ∧
    (∀ (h : ProteusIII.Header) (cb : ProteusIII.CallbackConfig) (stream : List Nat)
        (s1 : ProteusIII.State),
      ProteusIII.MAX_RX_PACKET_LENGTH h < 65536 →
      ProteusIII.feed h (ProteusIII.idleState h cb) stream = some s1 →
      (s1.rxByteCounter < 3 → s1.bytesToReceive = 0)
        ∧ (s1.rxByteCounter = 3 → s1.rxBuffer[2]? = some s1.bytesToReceive)) := by
  constructor
  · intro cb stream s1 hfeed
    exact ThyoneI.thy_feed_header_length stream (ThyoneI.idleState cb) s1
      (by rw [ThyoneI.thy_idle_buffer]; decide) (fun _ => rfl)
      (fun h3 => absurd (show (0 : Nat) = 3 from h3) (by decide)) hfeed
  · intro h cb stream s1 hmax hfeed
    exact ProteusIII.pro_feed_header_length h stream (ProteusIII.idleState h cb) s1
      (by rw [ProteusIII.pro_idle_buffer]; exact hmax) (fun _ => rfl)
      (fun h3 => absurd (show (0 : Nat) = 3 from h3) (by decide)) hfeed

set_option maxRecDepth 100000 in
/-- Witness of C30 (amended): Thyone-I after the bytes `02 41`; two bytes are in and the
expected length is 0. -/
theorem C30_length_zero_before_length_bytes_witness :
    ∃ s1, ThyoneI.feed (ThyoneI.idleState false) [0x02, 0x41] = some s1
      ∧ s1.RxByteCounter = 2
      ∧ ((s1.RxByteCounter < 3 → s1.BytesToReceive = 0)
        ∧ (s1.RxByteCounter = 3 → s1.RxBuffer[2]? = some s1.BytesToReceive)) :=
  ⟨((ThyoneI.idleState false).RxBuffer.set 0 0x02 |>.set 1 0x41 |> fun buf =>
      { ThyoneI.idleState false with RxBuffer := buf, RxByteCounter := 2 }),
    by decide, rfl,
    C30_length_zero_before_length_bytes.1 false [0x02, 0x41] _ (by decide)⟩

/-! ## A start byte inside a frame (C31) -/

namespace ThyoneI
open WCON

end ThyoneI

namespace ProteusIII
open WCON

end ProteusIII

namespace ThyoneI
open WCON

/-- A receiver past the header whose expected length is not ahead of the counter stores
the bytes that follow one after the other and counts them. -/
theorem thy_feed_run (n : Nat) : ∀ (s : State) (bytes : List Nat),
    4 ≤ s.RxByteCounter → s.BytesToReceive ≤ s.RxByteCounter →
    s.RxByteCounter + n ≤ s.RxBuffer.length → s.RxBuffer.length < 65536 →
    bytes.length = n →
    ∃ s1, feed s bytes = some s1 ∧ s1.RxByteCounter = s.RxByteCounter + n
      ∧ s1.BytesToReceive = s.BytesToReceive
      ∧ s1.RxBuffer.length = s.RxBuffer.length ∧ s1.trace = s.trace := by
  induction n with
  | zero =>
    intro s bytes _ _ _ _ hb
    match bytes, hb with
    | [], _ => exact ⟨s, rfl, rfl, rfl, rfl, rfl⟩
  | succ n ih =>
    intro s bytes h4 hB hn hlen hb
    match bytes, hb with
    | b :: rest, hb =>
      rw [thy_feed_cons, thy_step_data s b h4 (by omega) (by omega) (by omega), Option.some_bind]
      obtain ⟨s1, hf, hc, hbtr, hl, ht⟩ := ih
        { s with RxBuffer := s.RxBuffer.set s.RxByteCounter b,
                 RxByteCounter := s.RxByteCounter + 1 } rest
        (by simp only; omega) (by simp only; omega)
        (by simp only [List.length_set]; omega) (by simpa using hlen) (by simpa using hb)
      refine ⟨s1, hf, ?_, hbtr, by simpa using hl, ht⟩
      rw [hc]
      simp only
      omega

/-- One step of the reassembler keeps the counter below the expected length and the
expected length within the buffer, unless the 16-bit sum of the length test wraps. -/
theorem thy_step_index (s s1 : State) (b : Nat)
    (hlen : s.RxBuffer.length = MAX_CMD_LENGTH)
    (hinv : 4 ≤ s.RxByteCounter →
      s.RxByteCounter < s.BytesToReceive ∧ s.BytesToReceive ≤ MAX_CMD_LENGTH)
    (hnowrap : s.RxByteCounter = 3 → s.BytesToReceive + ((b <<< 8) + 5) < 65536)
    (hstep : WE_UART_HandleRxByte s b = some s1) :
    s1.RxBuffer.length = MAX_CMD_LENGTH
      ∧ (4 ≤ s1.RxByteCounter →
          s1.RxByteCounter < s1.BytesToReceive ∧ s1.BytesToReceive ≤ MAX_CMD_LENGTH)
      ∧ s1.RxByteCounter < MAX_CMD_LENGTH := by
  have hl := thy_step_defined s s1 b hstep
  have hlen' : s.RxBuffer.length = 235 := hlen
  rw [thy_MAX_CMD_LENGTH_eq] at hinv ⊢
  by_cases c0 : s.RxByteCounter = 0
  · by_cases hs : b = CMD_STX
    · subst hs
      rw [thy_step_idle_stx s c0 (by omega)] at hstep
      cases Option.some.inj hstep
      exact ⟨by simpa using hlen', by simp, by simp⟩
    · rw [thy_step_idle_other s b c0 hs (by omega)] at hstep
      cases Option.some.inj hstep
      refine ⟨by simpa using hlen', ?_, ?_⟩
      · intro h; simp only at h; omega
      · simp only; omega
  by_cases c1 : s.RxByteCounter = 1
  · rw [thy_step_cmd s b c1 (by omega)] at hstep
    cases Option.some.inj hstep
    exact ⟨by simpa using hlen', by simp, by simp⟩
  by_cases c2 : s.RxByteCounter = 2
  · rw [thy_step_lsb s b c2 (by omega)] at hstep
    cases Option.some.inj hstep
    exact ⟨by simpa using hlen', by simp, by simp⟩
  by_cases c3 : s.RxByteCounter = 3
  · have hw := hnowrap c3
    rw [thy_step_msb s b c3 (by omega)] at hstep
    rw [Nat.mod_eq_of_lt hw, thy_MAX_CMD_LENGTH_eq] at hstep
    split_ifs at hstep with hbig
    · cases Option.some.inj hstep
      exact ⟨by simpa using hlen', by simp, by simp⟩
    · cases Option.some.inj hstep
      refine ⟨by simpa using hlen', ?_, by simp⟩
      intro _
      simp only
      omega
  have c4 : 4 ≤ s.RxByteCounter := by omega
  obtain ⟨hlt, hmax⟩ := hinv c4
  by_cases hne : s.RxByteCounter + 1 = s.BytesToReceive
  · rw [thy_step_last s b c4 hl (by omega) hne.symm] at hstep
    split at hstep
    · simp at hstep
    · split_ifs at hstep
      · split at hstep
        · simp at hstep
        · rename_i s2 hH
          cases Option.some.inj hstep
          obtain ⟨_, _, _, _, _, _, _, _, hbuf, _⟩ := thy_HandleRxPacket_some _ _ _ hH
          exact ⟨by simp only [hbuf, List.length_set]; exact hlen', by simp, by simp⟩
      · cases Option.some.inj hstep
        exact ⟨by simpa using hlen', by simp, by simp⟩
  · rw [thy_step_data s b c4 hl (by omega) hne] at hstep
    cases Option.some.inj hstep
    refine ⟨by simpa using hlen', ?_, ?_⟩
    · intro _
      simp only
      omega
    · simp only
      omega

/-- The bound of `thy_step_index` along a byte stream in which the length test never
wraps: at every position where the length-high byte arrives, the 16-bit sum stays below
`2^16`. -/
theorem thy_feed_index (stream : List Nat) : ∀ (s s1 : State),
    s.RxBuffer.length = MAX_CMD_LENGTH →
    (4 ≤ s.RxByteCounter →
      s.RxByteCounter < s.BytesToReceive ∧ s.BytesToReceive ≤ MAX_CMD_LENGTH) →
    s.RxByteCounter < MAX_CMD_LENGTH →
    (∀ i, i < stream.length → ∀ t ∈ feed s (stream.take i), t.RxByteCounter = 3 →
      t.BytesToReceive + ((stream.getD i 0 <<< 8) + 5) < 65536) →
    feed s stream = some s1 →
    s1.RxByteCounter < MAX_CMD_LENGTH ∧ s1.RxBuffer.length = MAX_CMD_LENGTH
      ∧ (4 ≤ s1.RxByteCounter →
          s1.RxByteCounter < s1.BytesToReceive ∧ s1.BytesToReceive ≤ MAX_CMD_LENGTH) := by
  induction stream with
  | nil =>
    intro s s1 hlen hinv hc _ hfeed
    rw [thy_feed_nil] at hfeed
    cases Option.some.inj hfeed
    exact ⟨hc, hlen, hinv⟩
  | cons b stream ih =>
    intro s s1 hlen hinv _ hnw hfeed
    rw [thy_feed_cons] at hfeed
    cases hstep : WE_UART_HandleRxByte s b with
    | none => rw [hstep] at hfeed; simp at hfeed
    | some s2 =>
      rw [hstep, Option.some_bind] at hfeed
      obtain ⟨hl2, hi2, hc2⟩ := thy_step_index s s2 b hlen hinv
        (fun h3 => hnw 0 (Nat.succ_pos _) s rfl h3) hstep
      refine ih s2 s1 hl2 hi2 hc2 ?_ hfeed
      intro i hi t ht h3
      have h := hnw (i + 1) (Nat.succ_lt_succ hi) t
        (by
          rw [List.take_succ_cons]
          show feed s (b :: List.take i stream) = some t
          rw [thy_feed_cons, hstep, Option.some_bind]
          exact ht) h3
      simpa using h

end ThyoneI

open WCON ThyoneI in
/-- C32, the receive index of the Thyone-I reassembler.  The bound does not hold for
every byte sequence: after the header `0x02, c, 0xFB, 0xFF`, whose 16-bit length sum wraps
to 0, 231 further bytes lead from the idle state to a state with
`RxByteCounter = MAX_CMD_LENGTH = 235`, and in that state every received byte is written
behind the end of the 235-byte `RxBuffer` (the model has no next state).  For every
stream in which the sum of the length test never reaches `2^16`, the claim holds: each
state reached from the idle state has `RxByteCounter < MAX_CMD_LENGTH`, a buffer of
`MAX_CMD_LENGTH` bytes, and past the header `RxByteCounter < BytesToReceive` with
`BytesToReceive` at most `MAX_CMD_LENGTH`, which bounds the checksum loop as well. -/
theorem C32_receive_index_bound :
    (∀ c : Nat, ∃ s1,
        feed (idleState false) ([0x02, c, 0xFB, 0xFF] ++ List.replicate 231 0) = some s1
        ∧ s1.RxByteCounter = MAX_CMD_LENGTH ∧ s1.RxBuffer.length = MAX_CMD_LENGTH
        ∧ ∀ b : Nat, WE_UART_HandleRxByte s1 b = none)
    ∧ (∀ (cb : Bool) (stream : List Nat) (s1 : State),
        (∀ i, i < stream.length → ∀ t ∈ feed (idleState cb) (stream.take i),
          t.RxByteCounter = 3 →
          t.BytesToReceive + ((stream.getD i 0 <<< 8) + 5) < 65536) →
        feed (idleState cb) stream = some s1 →
        s1.RxByteCounter < MAX_CMD_LENGTH ∧ s1.RxBuffer.length = MAX_CMD_LENGTH
          ∧ (4 ≤ s1.RxByteCounter →
              s1.RxByteCounter < s1.BytesToReceive
                ∧ s1.BytesToReceive ≤ MAX_CMD_LENGTH)) := by
  refine ⟨?_, ?_⟩
  · intro c
    obtain ⟨s1, hf, _, hlen, _, hacc⟩ := thy_header_check (idleState false) c
      0xFB 0xFF rfl (by rw [thy_idle_buffer]; omega)
    obtain ⟨h4, hB⟩ := hacc (by decide)
    rw [thy_idle_buffer] at hlen
    have hB0 : s1.BytesToReceive = 0 := hB
    obtain ⟨s2, hf2, hc2, hb2, hl2, _⟩ := thy_feed_run 231 s1 (List.replicate 231 0)
      (by omega) (by omega) (by omega) (by omega) (by rw [List.length_replicate])
    refine ⟨s2, ?_, ?_, ?_, ?_⟩
    · rw [thy_feed_append]
      show (feed (idleState false) [CMD_STX, c, 0xFB, 0xFF]).bind _ = _
      rw [hf, Option.some_bind]
      exact hf2
    · rw [hc2, h4]; rfl
    · rw [hl2, hlen]; rfl
    · intro b
      have h := thy_feed_overrun 0 s2 [b] (by omega) (by omega) (by omega) (by omega) rfl
      rw [thy_feed_cons] at h
      cases hs : WE_UART_HandleRxByte s2 b with
      | none => rfl
      | some s3 => rw [hs, Option.some_bind, thy_feed_nil] at h; cases h
  · intro cb stream s1 hnw hfeed
    exact thy_feed_index stream (idleState cb) s1
      (by rw [thy_idle_buffer]; rfl) (fun h => absurd (show 4 ≤ 0 from h) (by decide))
      (show 0 < 235 by decide) hnw hfeed

set_option maxRecDepth 200000 in
open WCON ThyoneI in
/-- Witness of C32: the frame `02 44 01 00 00 47` followed by the start of a second frame
never wraps the length sum; the state after it has `RxByteCounter = 2`. -/
theorem C32_receive_index_bound_witness :
    (∀ i, i < [0x02, 0x44, 0x01, 0x00, 0x00, 0x47, 0x02, 0x41].length →
        ∀ t ∈ feed (idleState false) ([0x02, 0x44, 0x01, 0x00, 0x00, 0x47, 0x02, 0x41].take i),
          t.RxByteCounter = 3 →
          t.BytesToReceive
            + (([0x02, 0x44, 0x01, 0x00, 0x00, 0x47, 0x02, 0x41].getD i 0 <<< 8) + 5) < 65536)
    ∧ (feed (idleState false) [0x02, 0x44, 0x01, 0x00, 0x00, 0x47, 0x02, 0x41]).map
        (fun s => s.RxByteCounter) = some 2
    ∧ ∀ s1, feed (idleState false) [0x02, 0x44, 0x01, 0x00, 0x00, 0x47, 0x02, 0x41] = some s1 →
        s1.RxByteCounter < MAX_CMD_LENGTH ∧ s1.RxBuffer.length = MAX_CMD_LENGTH
          ∧ (4 ≤ s1.RxByteCounter →
              s1.RxByteCounter < s1.BytesToReceive
                ∧ s1.BytesToReceive ≤ MAX_CMD_LENGTH) :=
  ⟨by decide, by decide,
    fun s1 hf => C32_receive_index_bound.2 false _ s1 (by decide) hf⟩

/-! ## What a received frame can leave in the confirmation array (C33) -/

namespace WCON

/-- The insertion loop keeps a property of the command codes in the array when the
inserted code has it. -/
theorem storeConfirmation_forall (P : Nat → Prop) (c : Confirmation) :
    ∀ (arr : List Confirmation), P c.cmd → (∀ slot ∈ arr, P slot.cmd) →
      ∀ slot ∈ storeConfirmation c arr, P slot.cmd := by
  intro arr
  induction arr with
  | nil => intro _ _ slot hs; simp [storeConfirmation] at hs
  | cons a arr ih =>
    intro hc ha slot hs
    rw [storeConfirmation] at hs
    split_ifs at hs
    · rcases List.mem_cons.1 hs with e | e
      · rw [e]; exact hc
      · exact ha slot (List.mem_cons_of_mem _ e)
    · rcases List.mem_cons.1 hs with e | e
      · rw [e]; exact ha a (List.mem_cons_self _ _)
      · exact ih hc (fun t ht => ha t (List.mem_cons_of_mem _ ht)) slot e

end WCON

namespace ProteusIII
open WCON

/-- The confirmation the `switch` leaves in its local variable is the empty one or
carries the command byte of the frame, which is then one of the codes of the three
confirmation branches; and the driver state is touched by three branches only. -/
theorem pro_switch_slot (h : Header) (s : State) (pkt : List Nat) (cmd : Nat)
    (r : SwitchResult) (hcmd : pkt[CMD_POSITION_CMD]? = some cmd)
    (hs : HandleRxPacket.switch h s pkt = some r) :
    (r.cmdConfirmation.cmd = CNFINVALID
        ∨ (r.cmdConfirmation.cmd = cmd ∧ cmd ∈ correlatableCodes))
    ∧ ((cmd ≠ PROTEUSIII_CMD_CHANNELOPEN_RSP ∧ cmd ≠ PROTEUSIII_CMD_CONNECT_IND
          ∧ cmd ≠ PROTEUSIII_CMD_DISCONNECT_IND) → r.bleState = s.bleState) := by
  unfold HandleRxPacket.switch at hs
  rw [hcmd] at hs
  dsimp only at hs
  by_cases c0 : cmd = PROTEUSIII_CMD_GETDEVICES_CNF
  · rw [if_pos c0] at hs
    repeat' (split at hs)
    all_goals first
      | (simp only [Option.some.injEq] at hs; subst hs
         exact ⟨Or.inr ⟨rfl, List.mem_cons.2 (Or.inl c0)⟩, fun _ => rfl⟩)
      | (exact absurd hs (by simp))
  rw [if_neg c0] at hs
  by_cases c1 : cmd ∈ statusCodes
  · rw [if_pos c1] at hs
    repeat' (split at hs)
    all_goals first
      | (simp only [Option.some.injEq] at hs; subst hs
         exact ⟨Or.inr ⟨rfl, List.mem_cons_of_mem _ (List.mem_cons_of_mem _ c1)⟩,
           fun _ => rfl⟩)
      | (exact absurd hs (by simp))
  rw [if_neg c1] at hs
  by_cases c2 : cmd = PROTEUSIII_CMD_GETSTATE_CNF
  · rw [if_pos c2] at hs
    repeat' (split at hs)
    all_goals first
      | (simp only [Option.some.injEq] at hs; subst hs
         exact ⟨Or.inr ⟨rfl, List.mem_cons_of_mem _ (List.mem_cons.2 (Or.inl c2))⟩,
           fun _ => rfl⟩)
      | (exact absurd hs (by simp))
  rw [if_neg c2] at hs
  by_cases c3 : cmd = PROTEUSIII_CMD_CHANNELOPEN_RSP
  · rw [if_pos c3] at hs
    repeat' (split at hs)
    all_goals first
      | (simp only [Option.some.injEq] at hs; subst hs
         exact ⟨Or.inl rfl, fun hne => absurd c3 hne.1⟩)
      | (exact absurd hs (by simp))
  rw [if_neg c3] at hs
  by_cases c4 : cmd = PROTEUSIII_CMD_CONNECT_IND
  · rw [if_pos c4] at hs
    repeat' (split at hs)
    all_goals first
      | (simp only [Option.some.injEq] at hs; subst hs
         exact ⟨Or.inl rfl, fun hne => absurd c4 hne.2.1⟩)
      | (exact absurd hs (by simp))
  rw [if_neg c4] at hs
  by_cases c5 : cmd = PROTEUSIII_CMD_DISCONNECT_IND
  · rw [if_pos c5] at hs
    repeat' (split at hs)
    all_goals first
      | (simp only [Option.some.injEq] at hs; subst hs
         exact ⟨Or.inl rfl, fun hne => absurd c5 hne.2.2⟩)
      | (exact absurd hs (by simp))
  rw [if_neg c5] at hs
  by_cases c6 : cmd = PROTEUSIII_CMD_DATA_IND
  · rw [if_pos c6] at hs
    repeat' (split at hs)
    all_goals first
      | (simp only [Option.some.injEq] at hs; subst hs
         exact ⟨Or.inl rfl, fun _ => rfl⟩)
      | (exact absurd hs (by simp))
  rw [if_neg c6] at hs
  by_cases c7 : cmd = PROTEUSIII_CMD_BEACON_IND ∨ cmd = PROTEUSIII_CMD_BEACON_RSP
  · rw [if_pos c7] at hs
    repeat' (split at hs)
    all_goals first
      | (simp only [Option.some.injEq] at hs; subst hs
         exact ⟨Or.inl rfl, fun _ => rfl⟩)
      | (exact absurd hs (by simp))
  rw [if_neg c7] at hs
  by_cases c8 : cmd = PROTEUSIII_CMD_RSSI_IND
  · rw [if_pos c8] at hs
    repeat' (split at hs)
    all_goals first
      | (simp only [Option.some.injEq] at hs; subst hs
         exact ⟨Or.inl rfl, fun _ => rfl⟩)
      | (exact absurd hs (by simp))
  rw [if_neg c8] at hs
  by_cases c9 : cmd = PROTEUSIII_CMD_SECURITY_IND
  · rw [if_pos c9] at hs
    repeat' (split at hs)
    all_goals first
      | (simp only [Option.some.injEq] at hs; subst hs
         exact ⟨Or.inl rfl, fun _ => rfl⟩)
      | (exact absurd hs (by simp))
  rw [if_neg c9] at hs
  by_cases c10 : cmd = PROTEUSIII_CMD_PASSKEY_IND
  · rw [if_pos c10] at hs
    repeat' (split at hs)
    all_goals first
      | (simp only [Option.some.injEq] at hs; subst hs
         exact ⟨Or.inl rfl, fun _ => rfl⟩)
      | (exact absurd hs (by simp))
  rw [if_neg c10] at hs
  by_cases c11 : cmd = PROTEUSIII_CMD_DISPLAY_PASSKEY_IND
  · rw [if_pos c11] at hs
    repeat' (split at hs)
    all_goals first
      | (simp only [Option.some.injEq] at hs; subst hs
         exact ⟨Or.inl rfl, fun _ => rfl⟩)
      | (exact absurd hs (by simp))
  rw [if_neg c11] at hs
  by_cases c12 : cmd = PROTEUSIII_CMD_PHYUPDATE_IND
  · rw [if_pos c12] at hs
    repeat' (split at hs)
    all_goals first
      | (simp only [Option.some.injEq] at hs; subst hs
         exact ⟨Or.inl rfl, fun _ => rfl⟩)
      | (exact absurd hs (by simp))
  rw [if_neg c12] at hs
  by_cases c13 : cmd = PROTEUSIII_CMD_SLEEP_IND
  · rw [if_pos c13] at hs
    repeat' (split at hs)
    all_goals first
      | (simp only [Option.some.injEq] at hs; subst hs
         exact ⟨Or.inl rfl, fun _ => rfl⟩)
      | (exact absurd hs (by simp))
  rw [if_neg c13] at hs
  by_cases c14 : cmd = PROTEUSIII_CMD_GPIO_LOCAL_WRITE_IND
      ∨ cmd = PROTEUSIII_CMD_GPIO_REMOTE_WRITE_IND
  · rw [if_pos c14] at hs
    repeat' (split at hs)
    all_goals first
      | (simp only [Option.some.injEq] at hs; subst hs
         exact ⟨Or.inl rfl, fun _ => rfl⟩)
      | (exact absurd hs (by simp))
  rw [if_neg c14] at hs
  by_cases c15 : cmd = PROTEUSIII_CMD_GPIO_REMOTE_WRITECONFIG_IND
  · rw [if_pos c15] at hs
    repeat' (split at hs)
    all_goals first
      | (simp only [Option.some.injEq] at hs; subst hs
         exact ⟨Or.inl rfl, fun _ => rfl⟩)
      | (exact absurd hs (by simp))
  rw [if_neg c15] at hs
  by_cases c16 : cmd = PROTEUSIII_CMD_ERROR_IND
  · rw [if_pos c16] at hs
    repeat' (split at hs)
    all_goals first
      | (simp only [Option.some.injEq] at hs; subst hs
         exact ⟨Or.inl rfl, fun _ => rfl⟩)
      | (exact absurd hs (by simp))
  rw [if_neg c16] at hs
  simp only [Option.some.injEq] at hs
  subst hs
  exact ⟨Or.inl rfl, fun _ => rfl⟩

/-- A switch that returns has read the command byte of the frame. -/
theorem pro_switch_reads_cmd (h : Header) (s : State) (pkt : List Nat) (r : SwitchResult)
    (hs : HandleRxPacket.switch h s pkt = some r) : ∃ cmd, pkt[CMD_POSITION_CMD]? = some cmd := by
  cases hc : pkt[CMD_POSITION_CMD]? with
  | some cmd => exact ⟨cmd, rfl⟩
  | none =>
    unfold HandleRxPacket.switch at hs
    rw [hc] at hs
    simp at hs

/-- One received byte changes the confirmation array, the driver state and the callback
table only through a call of `HandleRxPacket`. -/
theorem pro_step_effect (h : Header) (s s1 : State) (b : Nat)
    (hstep : ProteusIII_HandleRxByte h s b = some s1) :
    (s1.cmdConfirmationArray = s.cmdConfirmationArray ∧ s1.bleState = s.bleState
        ∧ s1.callbacks = s.callbacks)
    ∨ ∃ t buf s2, t.cmdConfirmationArray = s.cmdConfirmationArray
        ∧ t.bleState = s.bleState ∧ t.callbacks = s.callbacks
        ∧ HandleRxPacket h t buf = some s2
        ∧ s1.cmdConfirmationArray = s2.cmdConfirmationArray ∧ s1.bleState = s2.bleState
        ∧ s1.callbacks = s2.callbacks := by
  unfold ProteusIII_HandleRxByte at hstep
  dsimp only at hstep
  repeat' (split at hstep)
  all_goals first
    | (cases Option.some.inj hstep; exact Or.inl ⟨rfl, rfl, rfl⟩)
    | (cases Option.some.inj hstep
       refine Or.inr ⟨_, _, _, ?_, ?_, ?_, by assumption, ?_, ?_, ?_⟩ <;> rfl)
    | (exact absurd hstep (by simp))

/-- The array property of C33, kept by a returning call of `HandleRxPacket`. -/
theorem pro_HandleRxPacket_slots (h : Header) (s s1 : State) (buf : List Nat)
    (hH : HandleRxPacket h s buf = some s1)
    (hinv : ∀ slot ∈ s.cmdConfirmationArray,
      slot.cmd = CNFINVALID ∨ slot.cmd ∈ correlatableCodes) :
    ∀ slot ∈ s1.cmdConfirmationArray,
      slot.cmd = CNFINVALID ∨ slot.cmd ∈ correlatableCodes := by
  obtain ⟨lsb, msb, r, _, _, _, _, hsw, _, harr, _, _⟩ := pro_HandleRxPacket_some h s s1 buf hH
  obtain ⟨cmd, hcmd⟩ := pro_switch_reads_cmd h s _ r hsw
  rw [harr]
  refine storeConfirmation_forall (fun c => c = CNFINVALID ∨ c ∈ correlatableCodes)
    r.cmdConfirmation s.cmdConfirmationArray ?_ hinv
  rcases (pro_switch_slot h s _ cmd r hcmd hsw).1 with e | ⟨e, hm⟩
  · exact Or.inl e
  · exact Or.inr (e ▸ hm)

theorem pro_step_slots (h : Header) (s s1 : State) (b : Nat)
    (hstep : ProteusIII_HandleRxByte h s b = some s1)
    (hinv : ∀ slot ∈ s.cmdConfirmationArray,
      slot.cmd = CNFINVALID ∨ slot.cmd ∈ correlatableCodes) :
    ∀ slot ∈ s1.cmdConfirmationArray,
      slot.cmd = CNFINVALID ∨ slot.cmd ∈ correlatableCodes := by
  rcases pro_step_effect h s s1 b hstep with ⟨e, _, _⟩ | ⟨t, buf, s2, et, _, _, hH, e1, _, _⟩
  · rw [e]; exact hinv
  · rw [e1]
    exact pro_HandleRxPacket_slots h t s2 buf hH (by rw [et]; exact hinv)

theorem pro_feed_slots (h : Header) (stream : List Nat) : ∀ (s s1 : State),
    feed h s stream = some s1 →
    (∀ slot ∈ s.cmdConfirmationArray,
      slot.cmd = CNFINVALID ∨ slot.cmd ∈ correlatableCodes) →
    ∀ slot ∈ s1.cmdConfirmationArray,
      slot.cmd = CNFINVALID ∨ slot.cmd ∈ correlatableCodes := by
  induction stream with
  | nil =>
    intro s s1 hf hinv
    rw [pro_feed_nil] at hf
    cases Option.some.inj hf
    exact hinv
  | cons b stream ih =>
    intro s s1 hf hinv
    rw [pro_feed_cons] at hf
    cases hstep : ProteusIII_HandleRxByte h s b with
    | none => rw [hstep] at hf; simp at hf
    | some s2 =>
      rw [hstep, Option.some_bind] at hf
      exact ih s2 s1 hf (pro_step_slots h s s2 b hstep hinv)

theorem pro_loop_slots (h : Header) (env : Env) (maxCount : Int) (c st : Nat) (fuel : Nat) :
    ∀ (count : Int) (s s1 : State) (r : Bool),
    Wait4CNF.loop h env maxCount c st fuel count s = some (r, s1) →
    (∀ slot ∈ s.cmdConfirmationArray,
      slot.cmd = CNFINVALID ∨ slot.cmd ∈ correlatableCodes) →
    ∀ slot ∈ s1.cmdConfirmationArray,
      slot.cmd = CNFINVALID ∨ slot.cmd ∈ correlatableCodes := by
  induction fuel with
  | zero => intro count s s1 r hl; simp [Wait4CNF.loop] at hl
  | succ fuel ih =>
    intro count s s1 r hl hinv
    rw [Wait4CNF.loop] at hl
    split at hl
    · cases Option.some.inj hl
      exact hinv
    · split_ifs at hl
      · cases Option.some.inj hl
        exact hinv
      · dsimp only at hl
        split at hl
        · simp at hl
        · rename_i s2 hf
          exact ih _ s2 s1 r hl (pro_feed_slots h _ _ s2 hf hinv)

theorem pro_wait_slots (h : Header) (env : Env) (s s1 : State) (maxTimeMs : Int)
    (c st : Nat) (reset r : Bool)
    (hw : Wait4CNF h env s maxTimeMs c st reset = some (r, s1))
    (hinv : ∀ slot ∈ s.cmdConfirmationArray,
      slot.cmd = CNFINVALID ∨ slot.cmd ∈ correlatableCodes) :
    ∀ slot ∈ s1.cmdConfirmationArray,
      slot.cmd = CNFINVALID ∨ slot.cmd ∈ correlatableCodes := by
  unfold Wait4CNF at hw
  dsimp only at hw
  refine pro_loop_slots h env _ c st _ 0 _ s1 r hw ?_
  cases reset
  · exact hinv
  · intro slot hs
    exact Or.inl (resetConfirmations_cmd _ slot hs)

theorem pro_perform_slots (h : Header) (s s1 : State) (a : Action)
    (hp : perform h s a = some s1)
    (hinv : ∀ slot ∈ s.cmdConfirmationArray,
      slot.cmd = CNFINVALID ∨ slot.cmd ∈ correlatableCodes) :
    ∀ slot ∈ s1.cmdConfirmationArray,
      slot.cmd = CNFINVALID ∨ slot.cmd ∈ correlatableCodes := by
  cases a with
  | receive b => exact pro_step_slots h s s1 b hp hinv
  | wait env maxTimeMs c st reset =>
    simp only [perform] at hp
    split at hp
    · simp at hp
    · rename_i r s2 hw
      cases Option.some.inj hp
      exact pro_wait_slots h env s _ maxTimeMs c st reset r hw hinv
  | pinWakeup env =>
    simp only [perform] at hp
    split at hp
    · simp at hp
    · rename_i r s2 hw
      cases Option.some.inj hp
      unfold ProteusIII_PinWakeup at hw
      dsimp only at hw
      refine pro_wait_slots h env _ _ _ _ _ false r hw ?_
      intro slot hs
      simp only [List.mem_map] at hs
      obtain ⟨_, _, rfl⟩ := hs
      exact Or.inl rfl

theorem pro_performAll_slots (h : Header) (actions : List Action) : ∀ (s s1 : State),
    performAll h s actions = some s1 →
    (∀ slot ∈ s.cmdConfirmationArray,
      slot.cmd = CNFINVALID ∨ slot.cmd ∈ correlatableCodes) →
    ∀ slot ∈ s1.cmdConfirmationArray,
      slot.cmd = CNFINVALID ∨ slot.cmd ∈ correlatableCodes := by
  induction actions with
  | nil =>
    intro s s1 hp hinv
    simp only [performAll, Option.some.injEq] at hp
    subst hp
    exact hinv
  | cons a actions ih =>
    intro s s1 hp hinv
    rw [performAll] at hp
    split at hp
    · simp at hp
    · rename_i s2 ha
      exact ih s2 s1 hp (pro_perform_slots h s s2 a ha hinv)

end ProteusIII

open WCON ProteusIII in
/-- C33 (Proteus-III): starting from the state `ClearReceiveBuffers` leaves, after any
sequence of received bytes, calls of `Wait4CNF` (with or without reset, any surroundings)
and calls of `ProteusIII_PinWakeup` that return, every slot of `cmdConfirmationArray`
holds `CNFINVALID = 255` or one of the codes of the confirmation branches of the
dispatcher (`GETDEVICES_CNF`, `GETSTATE_CNF` and the group with a status byte).  No slot
holds `0x64` (`PROTEUSIII_CMD_NUMERIC_COMP_CNF`), and no slot holds a request code, the
request codes being the values below `PROTEUSIII_CMD_TYPE_CNF = 64`. -/
theorem C33_slots_hold_correlatable_codes (h : Header) (s0 s1 : State)
    (actions : List Action)
    (hp : performAll h (ClearReceiveBuffers s0) actions = some s1) :
    ∀ slot ∈ s1.cmdConfirmationArray,
      (slot.cmd = CNFINVALID ∨ slot.cmd ∈ correlatableCodes)
      ∧ slot.cmd ≠ PROTEUSIII_CMD_NUMERIC_COMP_CNF
      ∧ ∀ x, x < PROTEUSIII_CMD_TYPE_CNF → slot.cmd ≠ x ||| PROTEUSIII_CMD_TYPE_REQ := by
  intro slot hs
  have hi := pro_performAll_slots h actions (ClearReceiveBuffers s0) s1 hp
    (fun t ht => Or.inl (resetConfirmations_cmd _ t ht)) slot hs
  have hge : ∀ c ∈ correlatableCodes, 64 ≤ c ∧ c ≠ 100 := by decide
  have hc : 64 ≤ slot.cmd ∧ slot.cmd ≠ 100 := by
    rcases hi with e | e
    · rw [e]; decide
    · exact hge _ e
  refine ⟨hi, hc.2, ?_⟩
  intro x hx e
  have e0 : x ||| PROTEUSIII_CMD_TYPE_REQ = x := Nat.or_zero x
  rw [e0] at e
  have hx64 : x < 64 := hx
  omega

set_option maxRecDepth 400000 in
open WCON ProteusIII in
/-- Witness of C33: the bytes of a `GETSTATE_CNF` frame, a wait for it without reset and
the bytes of a `DISPLAY_PASSKEY_IND` frame (code `0x64`), which is dispatched without
filling a slot. -/
theorem C33_slots_hold_correlatable_codes_witness :
    (performAll exampleHeader (ClearReceiveBuffers (idleState exampleHeader noCallbacks))
        ((frame PROTEUSIII_CMD_GETSTATE_CNF [1, 1]).map Action.receive)).map
      (fun s => s.cmdConfirmationArray.map (fun slot => slot.cmd))
      = some [PROTEUSIII_CMD_GETSTATE_CNF, CNFINVALID]
    ∧ (performAll exampleHeader (ClearReceiveBuffers (idleState exampleHeader noCallbacks))
        ((frame PROTEUSIII_CMD_GETSTATE_CNF [1, 1]).map Action.receive
          ++ [Action.wait (Env.mk (fun _ => [])) 10 PROTEUSIII_CMD_GETSTATE_CNF
                CMD_Status_NoStatus false]
          ++ (frame PROTEUSIII_CMD_DISPLAY_PASSKEY_IND [0, 1, 2, 3, 4, 5, 6]).map
                Action.receive)).map
      (fun s => (s.cmdConfirmationArray.map (fun slot => slot.cmd),
        (dispatched s.trace).length))
      = some ([PROTEUSIII_CMD_GETSTATE_CNF, CNFINVALID], 2)
    ∧ ∀ s1, performAll exampleHeader
        (ClearReceiveBuffers (idleState exampleHeader noCallbacks))
        ((frame PROTEUSIII_CMD_GETSTATE_CNF [1, 1]).map Action.receive
          ++ [Action.wait (Env.mk (fun _ => [])) 10 PROTEUSIII_CMD_GETSTATE_CNF
                CMD_Status_NoStatus false]
          ++ (frame PROTEUSIII_CMD_DISPLAY_PASSKEY_IND [0, 1, 2, 3, 4, 5, 6]).map
                Action.receive) = some s1 →
        ∀ slot ∈ s1.cmdConfirmationArray,
          (slot.cmd = CNFINVALID ∨ slot.cmd ∈ correlatableCodes)
          ∧ slot.cmd ≠ PROTEUSIII_CMD_NUMERIC_COMP_CNF
          ∧ ∀ x, x < PROTEUSIII_CMD_TYPE_CNF → slot.cmd ≠ x ||| PROTEUSIII_CMD_TYPE_REQ :=
  ⟨by decide, by decide,
    fun s1 hp => C33_slots_hold_correlatable_codes exampleHeader
      (idleState exampleHeader noCallbacks) s1 _ hp⟩

/-! ## Waiting without reset leaves the confirmation array alone (C34) -/

namespace WCON

/-- What a wait returns is decided by the array it leaves. -/
theorem scan_result_unique (c st : Nat) (a : List Confirmation) (r1 r2 : Bool)
    (h1 : scanConfirmations c st a = some r1 ∨ (r1 = false ∧ scanConfirmations c st a = none))
    (h2 : scanConfirmations c st a = some r2 ∨ (r2 = false ∧ scanConfirmations c st a = none)) :
    r1 = r2 := by
  rcases h1 with e1 | ⟨e1, n1⟩
  · rcases h2 with e2 | ⟨_, n2⟩
    · rw [e1] at e2; exact Option.some.inj e2
    · rw [e1] at n2; cases n2
  · rcases h2 with e2 | ⟨e2, _⟩
    · rw [n1] at e2; cases e2
    · rw [e1, e2]

end WCON

namespace ThyoneI
open WCON

/-- A property of the confirmation array that the receive handler keeps for every byte
of a stream is kept by feeding the stream. -/
theorem thy_feed_keeps (P : List Confirmation → Prop) (stream : List Nat) :
    ∀ (s s1 : State),
    (∀ t b t1, b ∈ stream → WE_UART_HandleRxByte t b = some t1 →
      P t.cmdConfirmation_array → P t1.cmdConfirmation_array) →
    feed s stream = some s1 → P s.cmdConfirmation_array → P s1.cmdConfirmation_array := by
  induction stream with
  | nil =>
    intro s s1 _ hf hP
    rw [thy_feed_nil] at hf
    cases Option.some.inj hf
    exact hP
  | cons b stream ih =>
    intro s s1 hstep hf hP
    rw [thy_feed_cons] at hf
    cases hs : WE_UART_HandleRxByte s b with
    | none => rw [hs] at hf; simp at hf
    | some s2 =>
      rw [hs, Option.some_bind] at hf
      exact ih s2 s1 (fun t b1 t1 hb => hstep t b1 t1 (List.mem_cons_of_mem _ hb)) hf
        (hstep s b s2 (List.mem_cons_self _ _) hs hP)

/-- The polling loop changes the confirmation array only through the bytes that arrive
while it runs. -/
theorem thy_loop_keeps (P : List Confirmation → Prop) (env : Env) (t0 : Nat) (max : Int)
    (c st : Nat)
    (hstep : ∀ t b t1, (∃ k, b ∈ env.arrive k) → WE_UART_HandleRxByte t b = some t1 →
      P t.cmdConfirmation_array → P t1.cmdConfirmation_array) :
    ∀ (fuel k : Nat) (s s1 : State) (r : Bool),
    Wait4CNF.loop env t0 max c st fuel k s = some (r, s1) →
    P s.cmdConfirmation_array → P s1.cmdConfirmation_array := by
  intro fuel
  induction fuel with
  | zero =>
    intro k s s1 r hl
    simp [Wait4CNF.loop] at hl
  | succ fuel ih =>
    intro k s s1 r hl hP
    rw [Wait4CNF.loop] at hl
    cases hscan : scanConfirmations c st s.cmdConfirmation_array with
    | some r0 =>
      rw [hscan] at hl
      simp only [Option.some.injEq, Prod.mk.injEq] at hl
      obtain ⟨rfl, rfl⟩ := hl
      exact hP
    | none =>
      rw [hscan] at hl
      dsimp only at hl
      split_ifs at hl with hge
      · simp only [Option.some.injEq, Prod.mk.injEq] at hl
        obtain ⟨rfl, rfl⟩ := hl
        exact hP
      all_goals
        split at hl
        · simp at hl
        · rename_i s2 hf
          exact ih _ s2 s1 r hl
            (thy_feed_keeps P _ _ s2 (fun t b t1 hb => hstep t b t1 ⟨k, hb⟩) hf hP)

theorem thy_wait_keeps (P : List Confirmation → Prop) (env : Env) (fuel : Nat)
    (s s1 : State) (max : Int) (c st : Nat) (r : Bool)
    (hstep : ∀ t b t1, (∃ k, b ∈ env.arrive k) → WE_UART_HandleRxByte t b = some t1 →
      P t.cmdConfirmation_array → P t1.cmdConfirmation_array)
    (hw : Wait4CNF env fuel s max c st false = some (r, s1))
    (hP : P s.cmdConfirmation_array) : P s1.cmdConfirmation_array := by
  simp only [Wait4CNF, Bool.false_eq_true, if_false] at hw
  exact thy_loop_keeps P env _ max c st hstep fuel 0 _ s1 r hw hP

/-- With nothing arriving, a wait without reset that returns leaves the array as it was. -/
theorem thy_wait_readonly (env : Env) (hq : env.silent) (fuel : Nat) (s s1 : State)
    (max : Int) (c st : Nat) (r : Bool)
    (hw : Wait4CNF env fuel s max c st false = some (r, s1)) :
    s1.cmdConfirmation_array = s.cmdConfirmation_array :=
  thy_wait_keeps (fun a => a = s.cmdConfirmation_array) env fuel s s1 max c st r
    (fun t b t1 hb _ _ => by
      obtain ⟨k, hk⟩ := hb
      rw [hq k] at hk
      exact absurd hk (List.not_mem_nil b))
    hw rfl

/-- Two waits without reset in a row, nothing arriving and the clock getting past the
time-out: both return, with the same value, and the array stays as it was. -/
theorem thy_wait_twice (env1 env2 : Env) (hq1 : env1.silent) (hq2 : env2.silent)
    (s : State) (max1 max2 : Int) (c st : Nat)
    (hc1 : ∃ k, env1.timedOut max1 k) (hc2 : ∃ k, env2.timedOut max2 k) :
    ∃ fuel1, ∀ f1, fuel1 ≤ f1 → ∃ r s1, Wait4CNF env1 f1 s max1 c st false = some (r, s1)
      ∧ s1.cmdConfirmation_array = s.cmdConfirmation_array
      ∧ ∃ fuel2, ∀ f2, fuel2 ≤ f2 → ∃ s2, Wait4CNF env2 f2 s1 max2 c st false = some (r, s2)
          ∧ s2.cmdConfirmation_array = s.cmdConfirmation_array := by
  cases hscan : scanConfirmations c st s.cmdConfirmation_array with
  | some r0 =>
    refine ⟨1, fun f1 hf1 => ?_⟩
    obtain ⟨g1, rfl⟩ : ∃ g, f1 = g + 1 := ⟨f1 - 1, by omega⟩
    refine ⟨r0, _, thy_wait_found env1 g1 s max1 c st r0 hscan, rfl, 1, fun f2 hf2 => ?_⟩
    obtain ⟨g2, rfl⟩ : ∃ g, f2 = g + 1 := ⟨f2 - 1, by omega⟩
    exact ⟨_, thy_wait_found env2 g2 _ max2 c st r0 hscan, rfl⟩
  | none =>
    obtain ⟨fuel1, hfuel1⟩ := thy_wait_silent env1 hq1 s max1 c st false
      (by simpa using hscan) hc1
    refine ⟨fuel1, fun f1 hf1 => ?_⟩
    obtain ⟨s1, hw1, ha1, _⟩ := hfuel1 f1 hf1
    have ha1' : s1.cmdConfirmation_array = s.cmdConfirmation_array := by simpa using ha1
    obtain ⟨fuel2, hfuel2⟩ := thy_wait_silent env2 hq2 s1 max2 c st false
      (by simpa [ha1'] using hscan) hc2
    refine ⟨false, s1, hw1, ha1', fuel2, fun f2 hf2 => ?_⟩
    obtain ⟨s2, hw2, ha2, _⟩ := hfuel2 f2 hf2
    refine ⟨s2, hw2, ?_⟩
    have ha2' : s2.cmdConfirmation_array = s1.cmdConfirmation_array := by simpa using ha2
    rw [ha2', ha1']

end ThyoneI

namespace ProteusIII
open WCON

theorem pro_feed_keeps (P : List Confirmation → Prop) (h : Header) (stream : List Nat) :
    ∀ (s s1 : State),
    (∀ t b t1, b ∈ stream → ProteusIII_HandleRxByte h t b = some t1 →
      P t.cmdConfirmationArray → P t1.cmdConfirmationArray) →
    feed h s stream = some s1 → P s.cmdConfirmationArray → P s1.cmdConfirmationArray := by
  induction stream with
  | nil =>
    intro s s1 _ hf hP
    rw [pro_feed_nil] at hf
    cases Option.some.inj hf
    exact hP
  | cons b stream ih =>
    intro s s1 hstep hf hP
    rw [pro_feed_cons] at hf
    cases hs : ProteusIII_HandleRxByte h s b with
    | none => rw [hs] at hf; simp at hf
    | some s2 =>
      rw [hs, Option.some_bind] at hf
      exact ih s2 s1 (fun t b1 t1 hb => hstep t b1 t1 (List.mem_cons_of_mem _ hb)) hf
        (hstep s b s2 (List.mem_cons_self _ _) hs hP)

theorem pro_loop_keeps (P : List Confirmation → Prop) (h : Header) (env : Env)
    (maxCount : Int) (c st : Nat)
    (hstep : ∀ t b t1, (∃ k, b ∈ env.arrive k) → ProteusIII_HandleRxByte h t b = some t1 →
      P t.cmdConfirmationArray → P t1.cmdConfirmationArray) :
    ∀ (fuel : Nat) (count : Int) (s s1 : State) (r : Bool),
    Wait4CNF.loop h env maxCount c st fuel count s = some (r, s1) →
    P s.cmdConfirmationArray → P s1.cmdConfirmationArray := by
  intro fuel
  induction fuel with
  | zero => intro count s s1 r hl; simp [Wait4CNF.loop] at hl
  | succ fuel ih =>
    intro count s s1 r hl hP
    rw [Wait4CNF.loop] at hl
    split at hl
    · cases Option.some.inj hl
      exact hP
    · split_ifs at hl
      · cases Option.some.inj hl
        exact hP
      · dsimp only at hl
        split at hl
        · simp at hl
        · rename_i s2 hf
          exact ih _ s2 s1 r hl
            (pro_feed_keeps P h _ _ s2 (fun t b t1 hb => hstep t b t1 ⟨_, hb⟩) hf hP)

theorem pro_wait_keeps (P : List Confirmation → Prop) (h : Header) (env : Env)
    (s s1 : State) (maxTimeMs : Int) (c st : Nat) (r : Bool)
    (hstep : ∀ t b t1, (∃ k, b ∈ env.arrive k) → ProteusIII_HandleRxByte h t b = some t1 →
      P t.cmdConfirmationArray → P t1.cmdConfirmationArray)
    (hw : Wait4CNF h env s maxTimeMs c st false = some (r, s1))
    (hP : P s.cmdConfirmationArray) : P s1.cmdConfirmationArray := by
  simp only [Wait4CNF, Bool.false_eq_true, if_false] at hw
  exact pro_loop_keeps P h env _ c st hstep _ 0 s s1 r hw hP

/-- With nothing arriving, a wait without reset returns and changes nothing but the log. -/
theorem pro_wait_returns (h : Header) (env : Env) (hq : env.silent) (s : State)
    (maxTimeMs : Int) (c st : Nat) :
    ∃ r s1, Wait4CNF h env s maxTimeMs c st false = some (r, s1)
      ∧ s1.cmdConfirmationArray = s.cmdConfirmationArray
      ∧ (scanConfirmations c st s.cmdConfirmationArray = some r
          ∨ (r = false ∧ scanConfirmations c st s.cmdConfirmationArray = none)) := by
  cases hscan : scanConfirmations c st s.cmdConfirmationArray with
  | some r0 => exact ⟨r0, s, pro_wait_found h env s maxTimeMs c st r0 hscan, rfl, Or.inl rfl⟩
  | none =>
    exact ⟨false, _, pro_wait_silent h env hq s maxTimeMs c st false (by simpa using hscan),
      rfl, Or.inr ⟨rfl, rfl⟩⟩

end ProteusIII

open WCON in
/-- C34 (both drivers): `Wait4CNF` called without reset makes no change of its own to the
confirmation array.  Every property of the array that the receive handler keeps for the
bytes arriving during the wait holds after the wait if it held before; with nothing
arriving the array after the wait is the array before, whatever is returned.  Two such
waits in a row for the same code and status, with nothing arriving, return the same value
(on Thyone-I when the clock gets past the time-out, for every sufficient number of loop
passes; on Proteus-III always), also when their time-outs differ. -/
theorem C34_wait_without_reset_reads_only :
    ((∀ (P : List Confirmation → Prop) (env : ThyoneI.Env) (fuel : Nat)
          (s s1 : ThyoneI.State) (max_time_ms : Int) (c st : Nat) (r : Bool),
        (∀ t b t1, (∃ k, b ∈ env.arrive k) → ThyoneI.WE_UART_HandleRxByte t b = some t1 →
          P t.cmdConfirmation_array → P t1.cmdConfirmation_array) →
        ThyoneI.Wait4CNF env fuel s max_time_ms c st false = some (r, s1) →
        P s.cmdConfirmation_array → P s1.cmdConfirmation_array)
      ∧ (∀ (env : ThyoneI.Env) (fuel : Nat) (s s1 : ThyoneI.State) (max_time_ms : Int)
          (c st : Nat) (r : Bool),
        env.silent →
        ThyoneI.Wait4CNF env fuel s max_time_ms c st false = some (r, s1) →
        s1.cmdConfirmation_array = s.cmdConfirmation_array
          ∧ ∀ (env2 : ThyoneI.Env) (fuel2 : Nat) (max2 : Int) (r2 : Bool)
              (s2 : ThyoneI.State),
            env2.silent →
            ThyoneI.Wait4CNF env2 fuel2 s1 max2 c st false = some (r2, s2) →
            r2 = r ∧ s2.cmdConfirmation_array = s.cmdConfirmation_array)
      ∧ (∀ (env1 env2 : ThyoneI.Env) (s : ThyoneI.State) (max1 max2 : Int) (c st : Nat),
        env1.silent → env2.silent →
        (∃ k, env1.timedOut max1 k) → (∃ k, env2.timedOut max2 k) →
        ∃ fuel1, ∀ f1, fuel1 ≤ f1 →
          ∃ r s1, ThyoneI.Wait4CNF env1 f1 s max1 c st false = some (r, s1)
            ∧ s1.cmdConfirmation_array = s.cmdConfirmation_array
            ∧ ∃ fuel2, ∀ f2, fuel2 ≤ f2 →
                ∃ s2, ThyoneI.Wait4CNF env2 f2 s1 max2 c st false = some (r, s2)
                  ∧ s2.cmdConfirmation_array = s.cmdConfirmation_array))
    ∧ ((∀ (P : List Confirmation → Prop) (h : ProteusIII.Header) (env : ProteusIII.Env)
          (s s1 : ProteusIII.State) (maxTimeMs : Int) (c st : Nat) (r : Bool),
        (∀ t b t1, (∃ k, b ∈ env.arrive k) →
          ProteusIII.ProteusIII_HandleRxByte h t b = some t1 →
          P t.cmdConfirmationArray → P t1.cmdConfirmationArray) →
        ProteusIII.Wait4CNF h env s maxTimeMs c st false = some (r, s1) →
        P s.cmdConfirmationArray → P s1.cmdConfirmationArray)
      ∧ (∀ (h : ProteusIII.Header) (env1 env2 : ProteusIII.Env) (s : ProteusIII.State)
          (max1 max2 : Int) (c st : Nat),
        env1.silent → env2.silent →
        ∃ r s1 s2, ProteusIII.Wait4CNF h env1 s max1 c st false = some (r, s1)
          ∧ s1.cmdConfirmationArray = s.cmdConfirmationArray
          ∧ ProteusIII.Wait4CNF h env2 s1 max2 c st false = some (r, s2)
          ∧ s2.cmdConfirmationArray = s.cmdConfirmationArray)) := by
  refine ⟨⟨?_, ?_, ?_⟩, ?_, ?_⟩
  · intro P env fuel s s1 max c st r hstep hw hP
    exact ThyoneI.thy_wait_keeps P env fuel s s1 max c st r hstep hw hP
  · intro env fuel s s1 max c st r hq hw
    have ha := ThyoneI.thy_wait_readonly env hq fuel s s1 max c st r hw
    refine ⟨ha, fun env2 fuel2 max2 r2 s2 hq2 hw2 => ?_⟩
    have ha2 := ThyoneI.thy_wait_readonly env2 hq2 fuel2 s1 s2 max2 c st r2 hw2
    have h1 := ThyoneI.thy_wait_result env fuel s s1 max c st false r hw
    have h2 := ThyoneI.thy_wait_result env2 fuel2 s1 s2 max2 c st false r2 hw2
    rw [ha2] at h2
    exact ⟨scan_result_unique c st _ r2 r h2 h1, by rw [ha2, ha]⟩
  · intro env1 env2 s max1 max2 c st hq1 hq2 hc1 hc2
    exact ThyoneI.thy_wait_twice env1 env2 hq1 hq2 s max1 max2 c st hc1 hc2
  · intro P h env s s1 max c st r hstep hw hP
    exact ProteusIII.pro_wait_keeps P h env s s1 max c st r hstep hw hP
  · intro h env1 env2 s max1 max2 c st hq1 hq2
    obtain ⟨r, s1, hw1, ha1, hr1⟩ := ProteusIII.pro_wait_returns h env1 hq1 s max1 c st
    obtain ⟨r2, s2, hw2, ha2, hr2⟩ := ProteusIII.pro_wait_returns h env2 hq2 s1 max2 c st
    rw [ha1] at hr2
    have e : r2 = r := scan_result_unique c st _ r2 r hr2 hr1
    subst e
    exact ⟨r2, s1, s2, hw1, ha1, hw2, by rw [ha2, ha1]⟩

/-- Witness of C34: Proteus-III, idle driver, nothing arriving, two waits for
`GETSTATE_CNF` with time-outs of 20 ms and 10 ms. -/
theorem C34_wait_without_reset_reads_only_witness :
    ProteusIII.Env.silent { arrive := fun _ => [] }
    ∧ ∃ r s1 s2,
        ProteusIII.Wait4CNF ProteusIII.exampleHeader { arrive := fun _ => [] }
          (ProteusIII.idleState ProteusIII.exampleHeader ProteusIII.noCallbacks)
          20 0x41 4 false = some (r, s1)
        ∧ s1.cmdConfirmationArray
            = (ProteusIII.idleState ProteusIII.exampleHeader
                ProteusIII.noCallbacks).cmdConfirmationArray
        ∧ ProteusIII.Wait4CNF ProteusIII.exampleHeader { arrive := fun _ => [] } s1
            10 0x41 4 false = some (r, s2)
        ∧ s2.cmdConfirmationArray
            = (ProteusIII.idleState ProteusIII.exampleHeader
                ProteusIII.noCallbacks).cmdConfirmationArray :=
  ⟨fun _ => rfl,
    C34_wait_without_reset_reads_only.2.2 ProteusIII.exampleHeader
      { arrive := fun _ => [] } { arrive := fun _ => [] }
      (ProteusIII.idleState ProteusIII.exampleHeader ProteusIII.noCallbacks)
      20 10 0x41 4 (fun _ => rfl) (fun _ => rfl)⟩

/-! ## The number of delays and scans of a wait that times out (C35) -/

namespace ProteusIII
open WCON

/-- The passes of the polling loop with nothing arriving and no slot holding the expected
code: one per value of the counter from `count` to `maxCount`. -/
theorem pro_scans_silent (h : Header) (env : Env) (hq : env.silent) (maxCount : Int)
    (c st : Nat) (n : Nat) : ∀ (fuel : Nat) (count : Int) (s : State),
    scanConfirmations c st s.cmdConfirmationArray = none →
    0 ≤ count → n = (maxCount - count).toNat → n < fuel →
    Wait4CNF.scans h env maxCount c st fuel count s = some (n + 1) := by
  induction n with
  | zero =>
    intro fuel count s hscan _ hn hf
    obtain ⟨fuel, rfl⟩ : ∃ f, fuel = f + 1 := ⟨fuel - 1, by omega⟩
    have hge : count ≥ maxCount := by omega
    simp only [Wait4CNF.scans, hscan, hge, if_true]
  | succ n ih =>
    intro fuel count s hscan hc hn hf
    obtain ⟨fuel, rfl⟩ : ∃ f, fuel = f + 1 := ⟨fuel - 1, by omega⟩
    have hlt : ¬ (count ≥ maxCount) := by omega
    simp only [Wait4CNF.scans, hscan, hlt, if_false, hq count.toNat, pro_feed_nil]
    rw [ih fuel (count + 1) { s with trace := s.trace ++ [Event.delay 5] } hscan (by omega)
      (by omega) (by omega)]

end ProteusIII

open WCON ProteusIII in
/-- C35 (Proteus-III): `Wait4CNF` returns for every `maxTimeMs`, zero and negative values
included.  With nothing arriving and no slot holding the expected code (after the reset
step, when one is asked for) it returns `false`; the calls of `WE_Delay` it has made are
`n` calls with the argument 5 and the array has been scanned `n + 1` times, where
`n = max(0, maxTimeMs / 5)` with the division of C (rounding towards zero). -/
theorem C35_wait_terminates (h : Header) (env : Env) (s : State) (maxTimeMs : Int)
    (c st : Nat) (reset : Bool) (hq : env.silent)
    (hscan : scanConfirmations c st
      (if reset then resetConfirmations s.cmdConfirmationArray else s.cmdConfirmationArray)
        = none) :
    ((Int.tdiv maxTimeMs 5).toNat : Int) = max 0 (Int.tdiv maxTimeMs 5)
    ∧ ∃ s1, Wait4CNF h env s maxTimeMs c st reset = some (false, s1)
      ∧ delays s1.trace
          = delays s.trace ++ List.replicate (Int.tdiv maxTimeMs 5).toNat 5
      ∧ Wait4CNF.scans h env (Int.tdiv maxTimeMs 5) c st ((Int.tdiv maxTimeMs 5).toNat + 1) 0
          (if reset then
            { s with cmdConfirmationArray := resetConfirmations s.cmdConfirmationArray }
           else s)
          = some ((Int.tdiv maxTimeMs 5).toNat + 1) := by
  refine ⟨by omega, _, pro_wait_silent h env hq s maxTimeMs c st reset hscan, ?_, ?_⟩
  · simp only [delays_append, delays_replicate]
  · refine pro_scans_silent h env hq _ c st (Int.tdiv maxTimeMs 5).toNat _ 0 _ ?_ (le_refl 0)
      (by simp) (by omega)
    cases reset
    · simpa using hscan
    · simpa using hscan

open WCON ProteusIII in
/-- Witness of C35: the idle driver with nothing arriving and the time-outs 12 ms, 0 ms
and -7 ms: two delays and three scans, no delay and one scan, no delay and one scan. -/
theorem C35_wait_terminates_witness :
    (∃ s1, Wait4CNF exampleHeader { arrive := fun _ => [] }
        (idleState exampleHeader noCallbacks) 12 PROTEUSIII_CMD_GETSTATE_CNF
        CMD_Status_NoStatus false = some (false, s1)
      ∧ delays s1.trace = [5, 5])
    ∧ Wait4CNF.scans exampleHeader { arrive := fun _ => [] } (Int.tdiv 12 5)
        PROTEUSIII_CMD_GETSTATE_CNF CMD_Status_NoStatus 3 0
        (idleState exampleHeader noCallbacks) = some 3
    ∧ (∃ s1, Wait4CNF exampleHeader { arrive := fun _ => [] }
        (idleState exampleHeader noCallbacks) 0 PROTEUSIII_CMD_GETSTATE_CNF
        CMD_Status_NoStatus false = some (false, s1)
      ∧ delays s1.trace = [])
    ∧ (∃ s1, Wait4CNF exampleHeader { arrive := fun _ => [] }
        (idleState exampleHeader noCallbacks) (-7) PROTEUSIII_CMD_GETSTATE_CNF
        CMD_Status_NoStatus false = some (false, s1)
      ∧ delays s1.trace = [])
    ∧ Wait4CNF.scans exampleHeader { arrive := fun _ => [] } (Int.tdiv (-7) 5)
        PROTEUSIII_CMD_GETSTATE_CNF CMD_Status_NoStatus 1 0
        (idleState exampleHeader noCallbacks) = some 1 := by
  have h12 := C35_wait_terminates exampleHeader { arrive := fun _ => [] }
    (idleState exampleHeader noCallbacks) 12 PROTEUSIII_CMD_GETSTATE_CNF
    CMD_Status_NoStatus false (fun _ => rfl) (by decide)
  have h0 := C35_wait_terminates exampleHeader { arrive := fun _ => [] }
    (idleState exampleHeader noCallbacks) 0 PROTEUSIII_CMD_GETSTATE_CNF
    CMD_Status_NoStatus false (fun _ => rfl) (by decide)
  have hm := C35_wait_terminates exampleHeader { arrive := fun _ => [] }
    (idleState exampleHeader noCallbacks) (-7) PROTEUSIII_CMD_GETSTATE_CNF
    CMD_Status_NoStatus false (fun _ => rfl) (by decide)
  obtain ⟨_, s12, w12, d12, n12⟩ := h12
  obtain ⟨_, s0, w0, d0, _⟩ := h0
  obtain ⟨_, sm, wm, dm, nm⟩ := hm
  exact ⟨⟨s12, w12, d12⟩, n12, ⟨s0, w0, d0⟩, ⟨sm, wm, dm⟩, nm⟩

/-! ## The UART configuration index (C36) -/

/-- C36 (both drivers): for an even base index `b < 64`, each parity and each flow-control
flag, the byte that `SetBaudrateIndex` computes is `b`, plus 1 with flow control, plus 64
with even parity, and the arithmetic of `GetBaudrateIndex` turns that byte back into
`b`, the parity and the flag. -/
theorem C36_uart_index_round_trip :
    (∀ (b : Nat) (parity : ThyoneI.UartParity) (flowcontrolEnable : Bool),
      b < 64 → b % 2 = 0 →
      ThyoneI.ThyoneI_SetBaudrateIndex.index b parity flowcontrolEnable
          = b + (if flowcontrolEnable then 1 else 0)
              + (if parity = ThyoneI.UartParity.ThyoneI_UartParity_Even then 64 else 0)
        ∧ ThyoneI.ThyoneI_GetBaudrateIndex.decode
            (ThyoneI.ThyoneI_SetBaudrateIndex.index b parity flowcontrolEnable)
          = (b, parity, flowcontrolEnable))
    ∧ (∀ (b : Nat) (parity : ProteusIII.UartParity) (flowControlEnable : Bool),
      b < 64 → b % 2 = 0 →
      ProteusIII.ProteusIII_SetBaudrateIndex.index b parity flowControlEnable
          = b + (if flowControlEnable then 1 else 0)
              + (if parity = ProteusIII.UartParity.ProteusIII_UartParity_Even then 64 else 0)
        ∧ ProteusIII.ProteusIII_GetBaudrateIndex.decode
            (ProteusIII.ProteusIII_SetBaudrateIndex.index b parity flowControlEnable)
          = (b, parity, flowControlEnable)) := by
  constructor
  · intro b parity flow hb he
    interval_cases b <;> first
      | (exact absurd he (by decide))
      | (cases parity <;> cases flow <;> exact ⟨rfl, rfl⟩)
  · intro b parity flow hb he
    interval_cases b <;> first
      | (exact absurd he (by decide))
      | (cases parity <;> cases flow <;> exact ⟨rfl, rfl⟩)

/-- Witness of C36: base index 22 with even parity and flow control gives the byte 87 on
Thyone-I, which decodes to the three inputs. -/
theorem C36_uart_index_round_trip_witness :
    22 < 64 ∧ 22 % 2 = 0
    ∧ ThyoneI.ThyoneI_SetBaudrateIndex.index 22
        ThyoneI.UartParity.ThyoneI_UartParity_Even true = 87
    ∧ ThyoneI.ThyoneI_GetBaudrateIndex.decode 87
        = (22, ThyoneI.UartParity.ThyoneI_UartParity_Even, true) :=
  ⟨by decide, by decide,
    (C36_uart_index_round_trip.1 22 ThyoneI.UartParity.ThyoneI_UartParity_Even true
      (by decide) (by decide)).1,
    (C36_uart_index_round_trip.1 22 ThyoneI.UartParity.ThyoneI_UartParity_Even true
      (by decide) (by decide)).2⟩

/-! ## The length reported for a data indication (C38) -/

namespace ThyoneI
open WCON

/-- The `DATA_IND` branch of the `switch`. -/
theorem thy_switch_data_ind (RxCallback : Bool) (pkt : List Nat)
    (lsb msb a0 a1 a2 a3 rssi : Nat)
    (h1 : pkt[CMD_POSITION_CMD]? = some THYONEI_CMD_DATA_IND)
    (h2 : pkt[CMD_POSITION_LENGTH_LSB]? = some lsb)
    (h3 : pkt[CMD_POSITION_LENGTH_MSB]? = some msb)
    (h4 : pkt[CMD_POSITION_DATA]? = some a0) (h5 : pkt[CMD_POSITION_DATA + 1]? = some a1)
    (h6 : pkt[CMD_POSITION_DATA + 2]? = some a2) (h7 : pkt[CMD_POSITION_DATA + 3]? = some a3)
    (h8 : pkt[CMD_POSITION_DATA + 4]? = some rssi) :
    HandleRxPacket.switch RxCallback pkt
      = some ({ cmd := CNFINVALID, status := CMD_Status_Invalid },
          if RxCallback then
            [Event.rxCallback
              (slice pkt (CMD_POSITION_DATA + 5)
                ((((lsb <<< 0) ||| (msb <<< 8)) % 65536 + 65536 - 5) % 65536))
              ((((lsb <<< 0) ||| (msb <<< 8)) % 65536 + 65536 - 5) % 65536)
              (a0 + a1 * 256 + a2 * 65536 + a3 * 16777216) (toInt8 rssi)]
          else []) := by
  unfold HandleRxPacket.switch
  rw [h1]
  dsimp only
  rw [if_neg (by decide), if_neg (by decide), if_neg (by decide), if_pos (Or.inl rfl),
    h2, h3, h4, h5, h6, h7, h8]
  simp only [if_true]

/-- A checksum-valid `DATA_IND` frame delivered to the idle receiver with `RxCallback`
registered: the frame is dispatched and the callback is invoked once, with the length
`(L - 5) mod 2^16` for the declared payload length `L`. -/
theorem thy_feed_data_ind (s : State) (p : List Nat)
    (hcb : s.RxCallback = true) (hidle : s.RxByteCounter = 0)
    (hN : p.length + 5 ≤ MAX_CMD_LENGTH)
    (hbuf : s.RxBuffer.length = MAX_CMD_LENGTH) (hpkt : s.RxPacket.length = MAX_CMD_LENGTH) :
    ∃ s1 addr rssi, feed s (frame THYONEI_CMD_DATA_IND p) = some s1
      ∧ s1.trace = s.trace ++ [Event.dispatch (frame THYONEI_CMD_DATA_IND p),
          Event.rxCallback
            (slice (frame THYONEI_CMD_DATA_IND p ++ s.RxPacket.drop (p.length + 5))
              (CMD_POSITION_DATA + 5) ((p.length + 65536 - 5) % 65536))
            ((p.length + 65536 - 5) % 65536) addr rssi] := by
  have hN' : p.length + 5 ≤ 235 := hN
  have hbuf' : s.RxBuffer.length = 235 := hbuf
  have hpkt' : s.RxPacket.length = 235 := hpkt
  have hplen : (frame THYONEI_CMD_DATA_IND p ++ s.RxPacket.drop (p.length + 5)).length
      = 235 := by
    rw [List.length_append, frame_length, List.length_drop]
    omega
  have hget : ∀ i, i < 235 → ∃ v,
      (frame THYONEI_CMD_DATA_IND p ++ s.RxPacket.drop (p.length + 5))[i]? = some v :=
    fun i hi => ⟨_, List.getElem?_eq_getElem (by rw [hplen]; exact hi)⟩
  obtain ⟨a0, h4⟩ := hget CMD_POSITION_DATA (by decide)
  obtain ⟨a1, h5⟩ := hget (CMD_POSITION_DATA + 1) (by decide)
  obtain ⟨a2, h6⟩ := hget (CMD_POSITION_DATA + 2) (by decide)
  obtain ⟨a3, h7⟩ := hget (CMD_POSITION_DATA + 3) (by decide)
  obtain ⟨rssi, h8⟩ := hget (CMD_POSITION_DATA + 4) (by decide)
  have hlsb : p.length % 256 < 256 := Nat.mod_lt _ (by decide)
  have hlen : p.length % 256 + 256 * (p.length / 256) = p.length := Nat.mod_add_div _ _
  have hpl : ((((p.length % 256) <<< 0) ||| ((p.length / 256) <<< 8)) % 65536 + 65536 - 5)
      % 65536 = (p.length + 65536 - 5) % 65536 := by
    rw [length_or_eq _ _ hlsb, hlen, Nat.mod_eq_of_lt (show p.length < 65536 by omega)]
  have hsw := thy_switch_data_ind s.RxCallback
    (frame THYONEI_CMD_DATA_IND p ++ s.RxPacket.drop (p.length + 5))
    (p.length % 256) (p.length / 256) a0 a1 a2 a3 rssi
    (by simp [frame, CMD_POSITION_CMD])
    (by simp [frame, CMD_POSITION_LENGTH_LSB])
    (by simp [frame, CMD_POSITION_LENGTH_MSB]) h4 h5 h6 h7 h8
  rw [hpl, hcb, if_pos rfl] at hsw
  have hfeed := thy_feed_valid s THYONEI_CMD_DATA_IND _ _ p hidle (frame_payload_length p) hN
    (by omega) (by omega)
  rw [← frame_eq] at hfeed
  rw [hcb] at hfeed
  rw [hsw] at hfeed
  refine ⟨_, a0 + a1 * 256 + a2 * 65536 + a3 * 16777216, toInt8 rssi, hfeed, ?_⟩
  simp

end ThyoneI

open WCON ThyoneI in
/-- C38 (Thyone-I): a checksum-valid `DATA_IND` frame with the declared payload length `L`
(`L + 5 <= MAX_CMD_LENGTH`), delivered to the idle receiver with `RxCallback` registered,
is dispatched and `RxCallback` is invoked once with the length `(L - 5) mod 2^16`.  That
length is the number of payload bytes behind the four address bytes and the RSSI byte
exactly when `L >= 5` (the data handed over are then those bytes); for `L < 5` it is
`L + 65531`, more than the 235 bytes of the receive buffer. -/
theorem C38_data_indication_length (s : State) (p : List Nat)
    (hcb : s.RxCallback = true) (hidle : s.RxByteCounter = 0)
    (hN : p.length + 5 ≤ MAX_CMD_LENGTH)
    (hbuf : s.RxBuffer.length = MAX_CMD_LENGTH) (hpkt : s.RxPacket.length = MAX_CMD_LENGTH) :
    ∃ s1 data addr rssi, feed s (frame THYONEI_CMD_DATA_IND p) = some s1
      ∧ dispatched s1.trace = dispatched s.trace ++ [frame THYONEI_CMD_DATA_IND p]
      ∧ callbackCalls s1.trace = callbackCalls s.trace
          ++ [Event.rxCallback data ((p.length + 65536 - 5) % 65536) addr rssi]
      ∧ (5 ≤ p.length → data = p.drop 5)
      ∧ ((p.length + 65536 - 5) % 65536 = (p.drop 5).length ↔ 5 ≤ p.length)
      ∧ (p.length < 5 → (p.length + 65536 - 5) % 65536 = p.length + 65531
          ∧ s.RxBuffer.length < p.length + 65531) := by
  have hN' : p.length + 5 ≤ 235 := hN
  have hbuf' : s.RxBuffer.length = 235 := hbuf
  obtain ⟨s1, addr, rssi, hfeed, htr⟩ := thy_feed_data_ind s p hcb hidle hN hbuf hpkt
  refine ⟨s1, slice (frame THYONEI_CMD_DATA_IND p ++ s.RxPacket.drop (p.length + 5))
    (CMD_POSITION_DATA + 5) ((p.length + 65536 - 5) % 65536), addr, rssi, hfeed,
    ?_, ?_, ?_, ?_, ?_⟩
  · rw [htr]
    simp [thy_dispatched_append, dispatched]
  · rw [htr]
    simp only [thy_callbackCalls_append, callbackCalls, List.nil_append]
  · intro h5
    rw [show (p.length + 65536 - 5) % 65536 = p.length - 5 by omega, frame_append,
      slice_payload_drop _ _ _ _ _ _ 5 h5]
  · rw [List.length_drop]
    omega
  · intro hlt
    omega

open WCON ThyoneI in
/-- Witness of C38: the `DATA_IND` frame with the two payload bytes `0xAA, 0xBB` is
reported with the length 65533. -/
theorem C38_data_indication_length_witness :
    ∃ s1 data addr rssi,
      feed (idleState true) (frame THYONEI_CMD_DATA_IND [0xAA, 0xBB]) = some s1
      ∧ dispatched s1.trace
          = dispatched (idleState true).trace ++ [frame THYONEI_CMD_DATA_IND [0xAA, 0xBB]]
      ∧ callbackCalls s1.trace = callbackCalls (idleState true).trace
          ++ [Event.rxCallback data 65533 addr rssi]
      ∧ (5 ≤ [0xAA, 0xBB].length → data = [0xAA, 0xBB].drop 5)
      ∧ (65533 = ([0xAA, 0xBB].drop 5).length ↔ 5 ≤ [0xAA, 0xBB].length)
      ∧ ([0xAA, 0xBB].length < 5 → 65533 = [0xAA, 0xBB].length + 65531
          ∧ (idleState true).RxBuffer.length < [0xAA, 0xBB].length + 65531) :=
  C38_data_indication_length (idleState true) [0xAA, 0xBB] rfl rfl (by decide)
    (thy_idle_buffer true) (thy_idle_packet true)

/-! ## The driver state (C39) -/

namespace ProteusIII
open WCON

/-- The `CHANNELOPEN_RSP` branch of the `switch` sets the driver state. -/
theorem pro_switch_channelopen (h : Header) (s : State) (pkt : List Nat) (r : SwitchResult)
    (hcmd : pkt[CMD_POSITION_CMD]? = some PROTEUSIII_CMD_CHANNELOPEN_RSP)
    (hs : HandleRxPacket.switch h s pkt = some r) :
    r.bleState = DriverState.BLE_ChannelOpen := by
  unfold HandleRxPacket.switch at hs
  rw [hcmd] at hs
  dsimp only at hs
  rw [if_neg (by decide), if_neg (by decide), if_neg (by decide), if_pos rfl] at hs
  repeat' (split at hs)
  all_goals first
    | (simp only [Option.some.injEq] at hs; subst hs; rfl)
    | (exact absurd hs (by simp))

/-- The `CONNECT_IND` branch of the `switch`: the status byte decides. -/
theorem pro_switch_connect (h : Header) (s : State) (pkt : List Nat) (r : SwitchResult)
    (hcmd : pkt[CMD_POSITION_CMD]? = some PROTEUSIII_CMD_CONNECT_IND)
    (hs : HandleRxPacket.switch h s pkt = some r) :
    ∃ st, pkt[CMD_POSITION_DATA]? = some st
      ∧ r.bleState = if st = CMD_Status_Success then DriverState.BLE_Connected
          else s.bleState := by
  unfold HandleRxPacket.switch at hs
  rw [hcmd] at hs
  dsimp only at hs
  rw [if_neg (by decide), if_neg (by decide), if_neg (by decide), if_neg (by decide),
    if_pos rfl] at hs
  cases h4 : pkt[CMD_POSITION_DATA]? with
  | none => rw [h4] at hs; simp at hs
  | some st =>
    rw [h4] at hs
    dsimp only at hs
    refine ⟨st, rfl, ?_⟩
    repeat' (split at hs)
    all_goals first
      | (simp only [Option.some.injEq] at hs; subst hs; simp_all)
      | (exact absurd hs (by simp))

/-- The `DISCONNECT_IND` branch of the `switch` sets the driver state. -/
theorem pro_switch_disconnect (h : Header) (s : State) (pkt : List Nat) (r : SwitchResult)
    (hcmd : pkt[CMD_POSITION_CMD]? = some PROTEUSIII_CMD_DISCONNECT_IND)
    (hs : HandleRxPacket.switch h s pkt = some r) :
    r.bleState = DriverState.BLE_Invalid := by
  unfold HandleRxPacket.switch at hs
  rw [hcmd] at hs
  dsimp only at hs
  rw [if_neg (by decide), if_neg (by decide), if_neg (by decide), if_neg (by decide),
    if_neg (by decide), if_pos rfl] at hs
  repeat' (split at hs)
  all_goals first
    | (simp only [Option.some.injEq] at hs; subst hs; rfl)
    | (exact absurd hs (by simp))

/-- On a packet of at least twelve bytes the three branches that touch the driver state
return, with or without a callback. -/
theorem pro_switch_state_returns (h : Header) (s : State) (pkt : List Nat) (c : Nat)
    (hcmd : pkt[CMD_POSITION_CMD]? = some c) (hlen : 12 ≤ pkt.length)
    (hc : c = PROTEUSIII_CMD_CHANNELOPEN_RSP ∨ c = PROTEUSIII_CMD_CONNECT_IND
      ∨ c = PROTEUSIII_CMD_DISCONNECT_IND) :
    ∃ r, HandleRxPacket.switch h s pkt = some r := by
  have hget : ∀ i, i < 12 → ∃ v, pkt[i]? = some v :=
    fun i hi => ⟨_, List.getElem?_eq_getElem (by omega)⟩
  obtain ⟨lsb, h2⟩ := hget CMD_POSITION_LENGTH_LSB (by decide)
  obtain ⟨msb, h3⟩ := hget CMD_POSITION_LENGTH_MSB (by decide)
  obtain ⟨st, h4⟩ := hget CMD_POSITION_DATA (by decide)
  obtain ⟨mp, h11⟩ := hget (CMD_POSITION_DATA + 7) (by decide)
  unfold HandleRxPacket.switch
  rw [hcmd]
  dsimp only
  rcases hc with rfl | rfl | rfl
  · rw [if_neg (by decide), if_neg (by decide), if_neg (by decide), if_pos rfl, h11]
    by_cases hcb : s.callbacks.channelOpenCb = true
    · rw [if_pos hcb]; exact ⟨_, rfl⟩
    · rw [if_neg hcb]; exact ⟨_, rfl⟩
  · rw [if_neg (by decide), if_neg (by decide), if_neg (by decide), if_neg (by decide),
      if_pos rfl, h4]
    dsimp only
    by_cases hcb : s.callbacks.connectCb = true
    · rw [if_pos hcb, h2, h3]
      dsimp only
      have hb : ∃ m, btMacOrZero pkt (((lsb <<< 0) ||| (msb <<< 8)) % 256) 7
          (CMD_POSITION_DATA + 1) = some m := by
        unfold btMacOrZero readBlock
        split_ifs with _ hle
        · exact ⟨_, rfl⟩
        · exact absurd (show CMD_POSITION_DATA + 1 + 6 ≤ pkt.length by
            simp only [CMD_POSITION_DATA]; omega) hle
        · exact ⟨_, rfl⟩
      obtain ⟨m, hm⟩ := hb
      rw [hm]
      exact ⟨_, rfl⟩
    · rw [if_neg hcb]; exact ⟨_, rfl⟩
  · rw [if_neg (by decide), if_neg (by decide), if_neg (by decide), if_neg (by decide),
      if_neg (by decide), if_pos rfl, h4]
    by_cases hcb : s.callbacks.disconnectCb = true
    · rw [if_pos hcb]; exact ⟨_, rfl⟩
    · rw [if_neg hcb]; exact ⟨_, rfl⟩

/-- The driver state after a returning call of `HandleRxPacket`, by command code. -/
theorem pro_HandleRxPacket_state (h : Header) (s s1 : State) (buf : List Nat) (cmd : Nat)
    (hH : HandleRxPacket h s buf = some s1) (hcmd : buf[CMD_POSITION_CMD]? = some cmd) :
    (cmd = PROTEUSIII_CMD_CHANNELOPEN_RSP → s1.bleState = DriverState.BLE_ChannelOpen)
    ∧ (cmd = PROTEUSIII_CMD_CONNECT_IND →
        ∃ st, buf[CMD_POSITION_DATA]? = some st
          ∧ s1.bleState = if st = CMD_Status_Success then DriverState.BLE_Connected
              else s.bleState)
    ∧ (cmd = PROTEUSIII_CMD_DISCONNECT_IND → s1.bleState = DriverState.BLE_Invalid)
    ∧ ((cmd ≠ PROTEUSIII_CMD_CHANNELOPEN_RSP ∧ cmd ≠ PROTEUSIII_CMD_CONNECT_IND
          ∧ cmd ≠ PROTEUSIII_CMD_DISCONNECT_IND) → s1.bleState = s.bleState) := by
  obtain ⟨lsb, msb, r, _, _, hb, _, hsw, _, _, hst, _⟩ := pro_HandleRxPacket_some h s s1 buf hH
  have hc : (buf.take ((lsb + (msb <<< 8)) % 65536 + 5)
      ++ s.rxPacket.drop ((lsb + (msb <<< 8)) % 65536 + 5))[CMD_POSITION_CMD]? = some cmd := by
    rw [memcpy_get _ _ _ _ (by simp only [CMD_POSITION_CMD]; omega) hb]
    exact hcmd
  have hd : (buf.take ((lsb + (msb <<< 8)) % 65536 + 5)
      ++ s.rxPacket.drop ((lsb + (msb <<< 8)) % 65536 + 5))[CMD_POSITION_DATA]?
      = buf[CMD_POSITION_DATA]? :=
    memcpy_get _ _ _ _ (by simp only [CMD_POSITION_DATA]; omega) hb
  rw [hst]
  refine ⟨?_, ?_, ?_, ?_⟩
  · intro e
    subst e
    exact pro_switch_channelopen h s _ r hc hsw
  · intro e
    subst e
    obtain ⟨st, h4, hr⟩ := pro_switch_connect h s _ r hc hsw
    exact ⟨st, by rw [← hd]; exact h4, hr⟩
  · intro e
    subst e
    exact pro_switch_disconnect h s _ r hc hsw
  · intro hne
    exact (pro_switch_slot h s _ cmd r hc hsw).2 hne

/-- A frame of one of the three codes that touch the driver state, in a buffer, is
handled to the end. -/
theorem pro_HandleRxPacket_state_returns (h : Header) (s : State) (c : Nat)
    (p tail : List Nat)
    (hc : c = PROTEUSIII_CMD_CHANNELOPEN_RSP ∨ c = PROTEUSIII_CMD_CONNECT_IND
      ∨ c = PROTEUSIII_CMD_DISCONNECT_IND)
    (hL : p.length < 65536) (hp : p.length + 5 ≤ s.rxPacket.length)
    (h12 : 12 ≤ s.rxPacket.length) :
    ∃ s1, HandleRxPacket h s (frame c p ++ tail) = some s1 := by
  have hlen : p.length % 256 + 256 * (p.length / 256) = p.length := Nat.mod_add_div _ _
  have hflen := frame_length c p
  have g2 : (frame c p ++ tail)[CMD_POSITION_LENGTH_LSB]? = some (p.length % 256) := by
    simp [frame, CMD_POSITION_LENGTH_LSB]
  have g3 : (frame c p ++ tail)[CMD_POSITION_LENGTH_MSB]? = some (p.length / 256) := by
    simp [frame, CMD_POSITION_LENGTH_MSB]
  have htake : (frame c p ++ tail).take (p.length + 5) = frame c p := List.take_left' hflen
  obtain ⟨r, hr⟩ := pro_switch_state_returns h s (frame c p ++ s.rxPacket.drop (p.length + 5))
    c (by simp [frame, CMD_POSITION_CMD])
    (by rw [List.length_append, hflen, List.length_drop]; omega) hc
  simp only [HandleRxPacket, g2, g3, cmd_length_eq _ _ (by rw [hlen]; exact hL), hlen,
    LENGTH_CMD_OVERHEAD,
    memcpy_eq s.rxPacket (frame c p ++ tail) (p.length + 5)
      (by rw [List.length_append, hflen]; omega) hp, htake, hr]
  exact ⟨_, rfl⟩

end ProteusIII

open WCON ProteusIII in
/-- C39 (Proteus-III).  A call of `HandleRxPacket` that returns leaves the driver state
`ChannelOpen` for a `CHANNELOPEN_RSP` frame, `Connected` for a `CONNECT_IND` frame whose
status byte is `0x00` and the previous state for a `CONNECT_IND` with another status,
`Invalid` for a `DISCONNECT_IND` frame, and the previous state for every other command
code; the callback table of the state is arbitrary.  For the three codes the call does
return on every frame that fits `rxPacket`.  `ProteusIII_Transmit` returns `false` and
leaves the state, the transmit log included, as it was unless the driver state is
`ChannelOpen` and `length <= PROTEUSIII_MAX_PAYLOAD_LENGTH`. -/
theorem C39_driver_state_machine :
    (∀ (h : Header) (s s1 : State) (buf : List Nat) (cmd : Nat),
      HandleRxPacket h s buf = some s1 → buf[CMD_POSITION_CMD]? = some cmd →
      (cmd = PROTEUSIII_CMD_CHANNELOPEN_RSP → s1.bleState = DriverState.BLE_ChannelOpen)
      ∧ (cmd = PROTEUSIII_CMD_CONNECT_IND →
          ∃ st, buf[CMD_POSITION_DATA]? = some st
            ∧ s1.bleState = if st = CMD_Status_Success then DriverState.BLE_Connected
                else s.bleState)
      ∧ (cmd = PROTEUSIII_CMD_DISCONNECT_IND → s1.bleState = DriverState.BLE_Invalid)
      ∧ ((cmd ≠ PROTEUSIII_CMD_CHANNELOPEN_RSP ∧ cmd ≠ PROTEUSIII_CMD_CONNECT_IND
            ∧ cmd ≠ PROTEUSIII_CMD_DISCONNECT_IND) → s1.bleState = s.bleState))
    ∧ (∀ (h : Header) (s : State) (c : Nat) (p tail : List Nat),
      (c = PROTEUSIII_CMD_CHANNELOPEN_RSP ∨ c = PROTEUSIII_CMD_CONNECT_IND
        ∨ c = PROTEUSIII_CMD_DISCONNECT_IND) →
      p.length < 65536 → p.length + 5 ≤ s.rxPacket.length → 12 ≤ s.rxPacket.length →
      ∃ s1, HandleRxPacket h s (frame c p ++ tail) = some s1)
    ∧ (∀ (h : Header) (env : Env) (s : State) (payloadP : List Nat) (length : Nat),
      ¬ (length ≤ h.PROTEUSIII_MAX_PAYLOAD_LENGTH
          ∧ ProteusIII_GetDriverState s = DriverState.BLE_ChannelOpen) →
      ProteusIII_Transmit h env s payloadP length = some (false, s)) := by
  refine ⟨?_, ?_, ?_⟩
  · intro h s s1 buf cmd hH hcmd
    exact pro_HandleRxPacket_state h s s1 buf cmd hH hcmd
  · intro h s c p tail hc hL hp h12
    exact pro_HandleRxPacket_state_returns h s c p tail hc hL hp h12
  · intro h env s payloadP length hno
    have hno' : ¬ (length ≤ h.PROTEUSIII_MAX_PAYLOAD_LENGTH
        ∧ DriverState.BLE_ChannelOpen = ProteusIII_GetDriverState s) :=
      fun hc => hno ⟨hc.1, hc.2.symm⟩
    simp only [ProteusIII_Transmit, ProteusIII_Transmit.request, if_neg hno']

set_option maxRecDepth 400000 in
open WCON ProteusIII in
/-- Witness of C39: the idle driver (state `Invalid`) refuses to transmit three bytes; a
`CHANNELOPEN_RSP` frame is handled to the end and leaves the state `ChannelOpen`, after
which the same call sends the `DATA_REQ` frame. -/
theorem C39_driver_state_machine_witness :
    ProteusIII_Transmit exampleHeader { arrive := fun _ => [] }
        (idleState exampleHeader noCallbacks) [1, 2, 3] 3
      = some (false, idleState exampleHeader noCallbacks)
    ∧ (∃ s1, HandleRxPacket exampleHeader (idleState exampleHeader noCallbacks)
        (frame PROTEUSIII_CMD_CHANNELOPEN_RSP [0, 1, 2, 3, 4, 5, 6, 243] ++ []) = some s1)
    ∧ (∀ s1, HandleRxPacket exampleHeader (idleState exampleHeader noCallbacks)
        (frame PROTEUSIII_CMD_CHANNELOPEN_RSP [0, 1, 2, 3, 4, 5, 6, 243] ++ []) = some s1 →
        s1.bleState = DriverState.BLE_ChannelOpen)
    ∧ ((HandleRxPacket exampleHeader (idleState exampleHeader noCallbacks)
          (frame PROTEUSIII_CMD_CHANNELOPEN_RSP [0, 1, 2, 3, 4, 5, 6, 243] ++ [])).bind
        (fun s1 => (ProteusIII_Transmit.request exampleHeader s1 [1, 2, 3] 3).map
          (fun out => (out.1, transmitted out.2.trace))))
      = some (true, [frame PROTEUSIII_CMD_DATA_REQ [1, 2, 3]]) :=
  ⟨C39_driver_state_machine.2.2 exampleHeader { arrive := fun _ => [] }
      (idleState exampleHeader noCallbacks) [1, 2, 3] 3 (by decide),
    C39_driver_state_machine.2.1 exampleHeader (idleState exampleHeader noCallbacks)
      PROTEUSIII_CMD_CHANNELOPEN_RSP [0, 1, 2, 3, 4, 5, 6, 243] [] (Or.inl rfl) (by decide)
      (by decide) (by decide),
    fun s1 hH => (C39_driver_state_machine.1 exampleHeader
      (idleState exampleHeader noCallbacks) s1 _ PROTEUSIII_CMD_CHANNELOPEN_RSP hH
      (by decide)).1 rfl,
    by decide⟩

/-! ## The GPIO configuration blocks written and read back (C37) -/

namespace WCON

/-- Assignments behind the first element of an array. -/
theorem writes_cons_succ (x : Nat) (l : List (Nat × Nat)) : ∀ (a : List Nat),
    writes (x :: a) (l.map (fun e => (e.1 + 1, e.2))) = (writes a l).map (fun r => x :: r) := by
  induction l with
  | nil => intro a; rfl
  | cons e l ih =>
    intro a
    obtain ⟨i, v⟩ := e
    simp only [List.map_cons, writes, write, List.length_cons, Nat.add_lt_add_iff_right,
      List.set_cons_succ]
    by_cases hi : i < a.length
    · rw [if_pos hi, if_pos hi]
      exact ih _
    · rw [if_neg hi, if_neg hi]
      rfl

/-- Four assignments to consecutive bytes replace that part of the array. -/
theorem writes_at_four (off b0 b1 b2 b3 : Nat) : ∀ (a : List Nat), off + 4 ≤ a.length →
    writes a [(off, b0), (off + 1, b1), (off + 2, b2), (off + 3, b3)]
      = some (a.take off ++ [b0, b1, b2, b3] ++ a.drop (off + 4)) := by
  induction off with
  | zero =>
    intro a hl
    match a, hl with
    | x0 :: x1 :: x2 :: x3 :: rest, _ => simp [writes, write]
  | succ off ih =>
    intro a hl
    match a, hl with
    | x :: a, hl =>
      have e : [(off + 1, b0), (off + 1 + 1, b1), (off + 1 + 2, b2), (off + 1 + 3, b3)]
          = [(off, b0), (off + 1, b1), (off + 2, b2), (off + 3, b3)].map
              (fun e => (e.1 + 1, e.2)) := rfl
      rw [e, writes_cons_succ, ih a (by simpa using hl)]
      rfl

/-- Three assignments to consecutive bytes replace that part of the array. -/
theorem writes_at_three (off b0 b1 b2 : Nat) : ∀ (a : List Nat), off + 3 ≤ a.length →
    writes a [(off, b0), (off + 1, b1), (off + 2, b2)]
      = some (a.take off ++ [b0, b1, b2] ++ a.drop (off + 3)) := by
  induction off with
  | zero =>
    intro a hl
    match a, hl with
    | x0 :: x1 :: x2 :: rest, _ => simp [writes, write]
  | succ off ih =>
    intro a hl
    match a, hl with
    | x :: a, hl =>
      have e : [(off + 1, b0), (off + 1 + 1, b1), (off + 1 + 2, b2)]
          = [(off, b0), (off + 1, b1), (off + 2, b2)].map (fun e => (e.1 + 1, e.2)) := rfl
      rw [e, writes_cons_succ, ih a (by simpa using hl)]
      rfl

/-- The assignments of a PWM block: three bytes, a copy of two bytes and one more byte. -/
theorem writes_pwm_block (a : List Nat) (off b0 b1 b2 p0 p1 r : Nat)
    (hl : off + 6 ≤ a.length) :
    ∃ a1 a2, writes a [(off, b0), (off + 1, b1), (off + 2, b2)] = some a1
      ∧ memcpyAt a1 (off + 3) [p0, p1] 2 = some a2
      ∧ write a2 (off + 5) r
          = some (a.take off ++ [b0, b1, b2, p0, p1, r] ++ a.drop (off + 6)) := by
  obtain ⟨pre, rest, rfl, rfl⟩ : ∃ pre rest, a = pre ++ rest ∧ off = pre.length :=
    ⟨a.take off, a.drop off, (List.take_append_drop _ _).symm, by
      rw [List.length_take]; omega⟩
  have hr : 6 ≤ rest.length := by
    rw [List.length_append] at hl; omega
  match rest, hr with
  | x0 :: x1 :: x2 :: x3 :: x4 :: x5 :: post, _ =>
    refine ⟨pre ++ b0 :: b1 :: b2 :: x3 :: x4 :: x5 :: post,
      pre ++ b0 :: b1 :: b2 :: p0 :: p1 :: x5 :: post, ?_, ?_, ?_⟩
    · rw [writes_at_three _ _ _ _ _ (by simp)]
      simp
    · have e : pre.length + 3 + 2 = pre.length + 5 := rfl
      simp only [memcpyAt, e, List.take_append, List.drop_append, List.length_append,
        List.length_cons]
      rw [if_pos ⟨by simp, by omega⟩]
      simp
    · simp [write, List.take_append, List.drop_append]

end WCON

namespace ProteusIII
open WCON

/-- The four function codes are different values. -/
theorem gpio_codes_ne (h : Header)
    (hnd : [h.ProteusIII_GPIO_IO_Disconnected, h.ProteusIII_GPIO_IO_Input,
      h.ProteusIII_GPIO_IO_Output, h.ProteusIII_GPIO_IO_PWM].Nodup) :
    h.ProteusIII_GPIO_IO_Input ≠ h.ProteusIII_GPIO_IO_Disconnected
    ∧ h.ProteusIII_GPIO_IO_Output ≠ h.ProteusIII_GPIO_IO_Disconnected
    ∧ h.ProteusIII_GPIO_IO_Output ≠ h.ProteusIII_GPIO_IO_Input
    ∧ h.ProteusIII_GPIO_IO_PWM ≠ h.ProteusIII_GPIO_IO_Disconnected
    ∧ h.ProteusIII_GPIO_IO_PWM ≠ h.ProteusIII_GPIO_IO_Input
    ∧ h.ProteusIII_GPIO_IO_PWM ≠ h.ProteusIII_GPIO_IO_Output := by
  simp only [List.nodup_cons, List.mem_cons, List.mem_singleton, List.not_mem_nil, not_or,
    or_false, not_false_eq_true, List.nodup_nil, and_true] at hnd
  obtain ⟨⟨h1, h2, h3⟩, ⟨h4, h5⟩, h6⟩ := hnd
  exact ⟨Ne.symm h1, Ne.symm h2, Ne.symm h4, Ne.symm h3, Ne.symm h5, Ne.symm h6⟩

/-- One pass of the loop of `ProteusIII_GPIOLocalWriteConfig` puts the bytes of the block
behind what has been written so far and advances `length` by their number. -/
theorem gpioWriteConfigBlock_bytes (h : Header) (c : GPIOConfigBlock) (length : Nat)
    (a : List Nat)
    (hnd : [h.ProteusIII_GPIO_IO_Disconnected, h.ProteusIII_GPIO_IO_Input,
      h.ProteusIII_GPIO_IO_Output, h.ProteusIII_GPIO_IO_PWM].Nodup)
    (hv : c.function = h.ProteusIII_GPIO_IO_Disconnected
      ∨ (c.function = h.ProteusIII_GPIO_IO_Input ∧ ∃ v, c.value = GPIOValue.input v)
      ∨ (c.function = h.ProteusIII_GPIO_IO_Output ∧ ∃ v, c.value = GPIOValue.output v)
      ∨ (c.function = h.ProteusIII_GPIO_IO_PWM
          ∧ ∃ period ratio, c.value = GPIOValue.pwm period ratio))
    (hfit : CMD_POSITION_DATA + length + (gpioConfigBlockBytes h c).length ≤ a.length) :
    gpioWriteConfigBlock h c length a
      = some ((length + (gpioConfigBlockBytes h c).length) % 65536,
          a.take (CMD_POSITION_DATA + length) ++ gpioConfigBlockBytes h c
            ++ a.drop (CMD_POSITION_DATA + length + (gpioConfigBlockBytes h c).length)) := by
  obtain ⟨hID, hOD, hOI, hPD, hPI, hPO⟩ := gpio_codes_ne h hnd
  rcases hv with hD | ⟨hI, v, hval⟩ | ⟨hO, v, hval⟩ | ⟨hP, period, ratio, hval⟩
  · have hb : gpioConfigBlockBytes h c = [3, c.gpioId % 256, c.function % 256, 0x00] := by
      simp only [gpioConfigBlockBytes, if_pos hD]
    rw [hb] at hfit ⊢
    simp only [gpioWriteConfigBlock, if_pos hD]
    rw [writes_at_four _ _ _ _ _ a hfit]
    rfl
  · have nD : ¬ c.function = h.ProteusIII_GPIO_IO_Disconnected := by rw [hI]; exact hID
    have hb : gpioConfigBlockBytes h c = [3, c.gpioId % 256, c.function % 256, v % 256] := by
      simp only [gpioConfigBlockBytes, if_neg nD, if_pos hI, hval]
    rw [hb] at hfit ⊢
    simp only [gpioWriteConfigBlock, if_neg nD, if_pos hI, hval]
    rw [writes_at_four _ _ _ _ _ a hfit]
    rfl
  · have nD : ¬ c.function = h.ProteusIII_GPIO_IO_Disconnected := by rw [hO]; exact hOD
    have nI : ¬ c.function = h.ProteusIII_GPIO_IO_Input := by rw [hO]; exact hOI
    have hb : gpioConfigBlockBytes h c = [3, c.gpioId % 256, c.function % 256, v % 256] := by
      simp only [gpioConfigBlockBytes, if_neg nD, if_neg nI, if_pos hO, hval]
    rw [hb] at hfit ⊢
    simp only [gpioWriteConfigBlock, if_neg nD, if_neg nI, if_pos hO, hval]
    rw [writes_at_four _ _ _ _ _ a hfit]
    rfl
  · have nD : ¬ c.function = h.ProteusIII_GPIO_IO_Disconnected := by rw [hP]; exact hPD
    have nI : ¬ c.function = h.ProteusIII_GPIO_IO_Input := by rw [hP]; exact hPI
    have nO : ¬ c.function = h.ProteusIII_GPIO_IO_Output := by rw [hP]; exact hPO
    have hb : gpioConfigBlockBytes h c
        = [5, c.gpioId % 256, c.function % 256, period % 256, period / 256 % 256,
            ratio % 256] := by
      simp only [gpioConfigBlockBytes, if_neg nD, if_neg nI, if_neg nO, if_pos hP, hval]
    rw [hb] at hfit ⊢
    obtain ⟨a1, a2, h1, h2, h3⟩ := writes_pwm_block a (CMD_POSITION_DATA + length) 5
      (c.gpioId % 256) (c.function % 256) (period % 256) (period / 256 % 256) (ratio % 256) hfit
    simp only [gpioWriteConfigBlock, if_neg nD, if_neg nI, if_neg nO, if_pos hP, hval, h1, h2,
      h3]
    rfl

end ProteusIII

namespace ProteusIII
open WCON

/-- The `for` loop of `ProteusIII_GPIOLocalWriteConfig` puts the blocks of the elements
one behind the other, in the order of the array. -/
theorem gpioWriteConfigLoop_bytes (h : Header)
    (hnd : [h.ProteusIII_GPIO_IO_Disconnected, h.ProteusIII_GPIO_IO_Input,
      h.ProteusIII_GPIO_IO_Output, h.ProteusIII_GPIO_IO_PWM].Nodup)
    (blocks : List GPIOConfigBlock) : ∀ (done : List GPIOConfigBlock) (length : Nat)
      (a : List Nat),
    (∀ c ∈ blocks, c.function = h.ProteusIII_GPIO_IO_Disconnected
      ∨ (c.function = h.ProteusIII_GPIO_IO_Input ∧ ∃ v, c.value = GPIOValue.input v)
      ∨ (c.function = h.ProteusIII_GPIO_IO_Output ∧ ∃ v, c.value = GPIOValue.output v)
      ∨ (c.function = h.ProteusIII_GPIO_IO_PWM
          ∧ ∃ period ratio, c.value = GPIOValue.pwm period ratio)) →
    CMD_POSITION_DATA + length + (blocks.flatMap (gpioConfigBlockBytes h)).length ≤ a.length →
    length + (blocks.flatMap (gpioConfigBlockBytes h)).length < 65536 →
    gpioWriteConfigLoop h (done ++ blocks) blocks.length length done.length a
      = some (length + (blocks.flatMap (gpioConfigBlockBytes h)).length,
          a.take (CMD_POSITION_DATA + length) ++ blocks.flatMap (gpioConfigBlockBytes h)
            ++ a.drop (CMD_POSITION_DATA + length
                + (blocks.flatMap (gpioConfigBlockBytes h)).length)) := by
  induction blocks with
  | nil =>
    intro done length a _ _ _
    simp [gpioWriteConfigLoop]
  | cons c cs ih =>
    intro done length a hv hfit hlt
    rw [List.flatMap_cons, List.length_append] at hfit hlt
    have hget : (done ++ c :: cs)[done.length]? = some c := by
      rw [List.getElem?_append_right (le_refl _), Nat.sub_self]
      exact List.getElem?_cons_zero
    have hblock := gpioWriteConfigBlock_bytes h c length a hnd (hv c (List.mem_cons_self _ _))
      (by omega)
    rw [Nat.mod_eq_of_lt (by omega)] at hblock
    have hih := ih (done ++ [c]) (length + (gpioConfigBlockBytes h c).length)
      (a.take (CMD_POSITION_DATA + length) ++ gpioConfigBlockBytes h c
        ++ a.drop (CMD_POSITION_DATA + length + (gpioConfigBlockBytes h c).length))
      (fun x hx => hv x (List.mem_cons_of_mem _ hx))
      (by
        simp only [List.length_append, List.length_take, List.length_drop]
        omega)
      (by omega)
    rw [List.append_assoc, List.singleton_append, List.length_append, List.length_singleton]
      at hih
    simp only [List.length_cons, gpioWriteConfigLoop, hget, hblock, hih, List.flatMap_cons,
      List.length_append, Option.some.injEq, Prod.mk.injEq]
    refine ⟨by omega, ?_⟩
    have hpre : (a.take (CMD_POSITION_DATA + length) ++ gpioConfigBlockBytes h c).length
        = CMD_POSITION_DATA + (length + (gpioConfigBlockBytes h c).length) := by
      simp only [List.length_append, List.length_take]
      omega
    rw [List.take_left' hpre]
    have hdrop : CMD_POSITION_DATA + (length + (gpioConfigBlockBytes h c).length)
          + (cs.flatMap (gpioConfigBlockBytes h)).length
        = (a.take (CMD_POSITION_DATA + length) ++ gpioConfigBlockBytes h c).length
          + (cs.flatMap (gpioConfigBlockBytes h)).length := by rw [hpre]
    rw [hdrop, List.drop_append, List.drop_drop]
    simp only [List.append_assoc, Nat.add_assoc]

end ProteusIII

namespace ProteusIII
open WCON

/-- The block of an element with one of the four functions, its union member in place and
all values in the range of their types. -/
theorem gpioConfigBlockBytes_eq (h : Header) (c : GPIOConfigBlock)
    (hnd : [h.ProteusIII_GPIO_IO_Disconnected, h.ProteusIII_GPIO_IO_Input,
      h.ProteusIII_GPIO_IO_Output, h.ProteusIII_GPIO_IO_PWM].Nodup)
    (hlt : ∀ x ∈ [h.ProteusIII_GPIO_IO_Disconnected, h.ProteusIII_GPIO_IO_Input,
      h.ProteusIII_GPIO_IO_Output, h.ProteusIII_GPIO_IO_PWM], x < 256)
    (hid : c.gpioId < 256)
    (hv : c.function = h.ProteusIII_GPIO_IO_Disconnected
      ∨ (c.function = h.ProteusIII_GPIO_IO_Input
          ∧ ∃ v, v < 256 ∧ c.value = GPIOValue.input v)
      ∨ (c.function = h.ProteusIII_GPIO_IO_Output
          ∧ ∃ v, v < 256 ∧ c.value = GPIOValue.output v)
      ∨ (c.function = h.ProteusIII_GPIO_IO_PWM
          ∧ ∃ period ratio, period < 65536 ∧ ratio < 256
            ∧ c.value = GPIOValue.pwm period ratio)) :
    (c.function = h.ProteusIII_GPIO_IO_Disconnected
        ∧ gpioConfigBlockBytes h c = [3, c.gpioId, c.function, 0x00])
    ∨ (c.function = h.ProteusIII_GPIO_IO_Input
        ∧ c.function ≠ h.ProteusIII_GPIO_IO_Disconnected
        ∧ ∃ v, c.value = GPIOValue.input v
          ∧ gpioConfigBlockBytes h c = [3, c.gpioId, c.function, v])
    ∨ (c.function = h.ProteusIII_GPIO_IO_Output
        ∧ c.function ≠ h.ProteusIII_GPIO_IO_Disconnected
        ∧ c.function ≠ h.ProteusIII_GPIO_IO_Input
        ∧ ∃ v, c.value = GPIOValue.output v
          ∧ gpioConfigBlockBytes h c = [3, c.gpioId, c.function, v])
    ∨ (c.function = h.ProteusIII_GPIO_IO_PWM
        ∧ c.function ≠ h.ProteusIII_GPIO_IO_Disconnected
        ∧ c.function ≠ h.ProteusIII_GPIO_IO_Input
        ∧ c.function ≠ h.ProteusIII_GPIO_IO_Output
        ∧ ∃ p0 p1 ratio, c.value = GPIOValue.pwm (p0 + p1 * 256) ratio
          ∧ gpioConfigBlockBytes h c = [5, c.gpioId, c.function, p0, p1, ratio]) := by
  obtain ⟨hID, hOD, hOI, hPD, hPI, hPO⟩ := gpio_codes_ne h hnd
  have hidm : c.gpioId % 256 = c.gpioId := Nat.mod_eq_of_lt hid
  rcases hv with hD | ⟨hI, v, hv, hval⟩ | ⟨hO, v, hv, hval⟩ | ⟨hP, period, ratio, hp, hr, hval⟩
  · have hf : c.function % 256 = c.function :=
      Nat.mod_eq_of_lt (by rw [hD]; exact hlt _ (by simp))
    refine Or.inl ⟨hD, ?_⟩
    simp only [gpioConfigBlockBytes, if_pos hD, hidm, hf]
  · have nD : ¬ c.function = h.ProteusIII_GPIO_IO_Disconnected := by rw [hI]; exact hID
    have hf : c.function % 256 = c.function :=
      Nat.mod_eq_of_lt (by rw [hI]; exact hlt _ (by simp))
    refine Or.inr (Or.inl ⟨hI, nD, v, hval, ?_⟩)
    simp only [gpioConfigBlockBytes, if_neg nD, if_pos hI, hval, hidm, hf,
      Nat.mod_eq_of_lt hv]
  · have nD : ¬ c.function = h.ProteusIII_GPIO_IO_Disconnected := by rw [hO]; exact hOD
    have nI : ¬ c.function = h.ProteusIII_GPIO_IO_Input := by rw [hO]; exact hOI
    have hf : c.function % 256 = c.function :=
      Nat.mod_eq_of_lt (by rw [hO]; exact hlt _ (by simp))
    refine Or.inr (Or.inr (Or.inl ⟨hO, nD, nI, v, hval, ?_⟩))
    simp only [gpioConfigBlockBytes, if_neg nD, if_neg nI, if_pos hO, hval, hidm, hf,
      Nat.mod_eq_of_lt hv]
  · have nD : ¬ c.function = h.ProteusIII_GPIO_IO_Disconnected := by rw [hP]; exact hPD
    have nI : ¬ c.function = h.ProteusIII_GPIO_IO_Input := by rw [hP]; exact hPI
    have nO : ¬ c.function = h.ProteusIII_GPIO_IO_Output := by rw [hP]; exact hPO
    have hf : c.function % 256 = c.function :=
      Nat.mod_eq_of_lt (by rw [hP]; exact hlt _ (by simp))
    have hper : period % 256 + period / 256 % 256 * 256 = period := by omega
    refine Or.inr (Or.inr (Or.inr ⟨hP, nD, nI, nO, period % 256, period / 256 % 256, ratio,
      by rw [hper]; exact hval, ?_⟩))
    simp only [gpioConfigBlockBytes, if_neg nD, if_neg nI, if_neg nO, if_pos hP, hval, hidm,
      hf, Nat.mod_eq_of_lt hr]

/-- The `switch` of the read loop on the block of an element: the element comes back,
a disconnected one with the value the caller's array held. -/
theorem gpioReadConfigBlock_bytes (h : Header) (c old : GPIOConfigBlock) (rx : List Nat)
    (uartP : Nat) (out : List GPIOConfigBlock) (running n : Nat)
    (hnd : [h.ProteusIII_GPIO_IO_Disconnected, h.ProteusIII_GPIO_IO_Input,
      h.ProteusIII_GPIO_IO_Output, h.ProteusIII_GPIO_IO_PWM].Nodup)
    (hlt : ∀ x ∈ [h.ProteusIII_GPIO_IO_Disconnected, h.ProteusIII_GPIO_IO_Input,
      h.ProteusIII_GPIO_IO_Output, h.ProteusIII_GPIO_IO_PWM], x < 256)
    (hid : c.gpioId < 256)
    (hv : c.function = h.ProteusIII_GPIO_IO_Disconnected
      ∨ (c.function = h.ProteusIII_GPIO_IO_Input
          ∧ ∃ v, v < 256 ∧ c.value = GPIOValue.input v)
      ∨ (c.function = h.ProteusIII_GPIO_IO_Output
          ∧ ∃ v, v < 256 ∧ c.value = GPIOValue.output v)
      ∨ (c.function = h.ProteusIII_GPIO_IO_PWM
          ∧ ∃ period ratio, period < 65536 ∧ ratio < 256
            ∧ c.value = GPIOValue.pwm period ratio))
    (hrx : ∀ k, k < (gpioConfigBlockBytes h c).length →
      rx[uartP + k]? = (gpioConfigBlockBytes h c)[k]?)
    (hold : out[running]? = some old) :
    4 ≤ (gpioConfigBlockBytes h c).length
    ∧ rx[uartP]? = some ((gpioConfigBlockBytes h c).length - 1)
    ∧ rx[uartP + 2]? = some c.function
    ∧ gpioReadConfigBlock h rx uartP ((gpioConfigBlockBytes h c).length - 1) c.function out
        running n
      = some (out.set running
          { gpioId := c.gpioId, function := c.function,
            value := if c.function = h.ProteusIII_GPIO_IO_Disconnected then old.value
              else c.value },
        running + 1, (n + 1) % 65536) := by
  rcases gpioConfigBlockBytes_eq h c hnd hlt hid hv with
    ⟨hD, hb⟩ | ⟨hI, nD, v, hval, hb⟩ | ⟨hO, nD, nI, v, hval, hb⟩
      | ⟨hP, nD, nI, nO, p0, p1, ratio, hval, hb⟩
  · rw [hb] at hrx ⊢
    have r0 := hrx 0 (by simp)
    have r1 := hrx 1 (by simp)
    have r2 := hrx 2 (by simp)
    simp only [Nat.add_zero, List.getElem?_cons_zero, List.getElem?_cons_succ] at r0 r1 r2
    refine ⟨by simp, r0, r2, ?_⟩
    simp only [gpioReadConfigBlock, if_pos hD, List.length_cons, List.length_nil, r1, hold]
    simp
  · rw [hb] at hrx ⊢
    have r0 := hrx 0 (by simp)
    have r1 := hrx 1 (by simp)
    have r2 := hrx 2 (by simp)
    have r3 := hrx 3 (by simp)
    simp only [Nat.add_zero, List.getElem?_cons_zero, List.getElem?_cons_succ] at r0 r1 r2 r3
    refine ⟨by simp, r0, r2, ?_⟩
    simp only [gpioReadConfigBlock, if_neg nD, if_pos hI, List.length_cons, List.length_nil,
      r1, r3, hold, hval]
    simp
  · rw [hb] at hrx ⊢
    have r0 := hrx 0 (by simp)
    have r1 := hrx 1 (by simp)
    have r2 := hrx 2 (by simp)
    have r3 := hrx 3 (by simp)
    simp only [Nat.add_zero, List.getElem?_cons_zero, List.getElem?_cons_succ] at r0 r1 r2 r3
    refine ⟨by simp, r0, r2, ?_⟩
    simp only [gpioReadConfigBlock, if_neg nD, if_neg nI, if_pos hO, List.length_cons,
      List.length_nil, r1, r3, hold, hval]
    simp
  · rw [hb] at hrx ⊢
    have r0 := hrx 0 (by simp)
    have r1 := hrx 1 (by simp)
    have r2 := hrx 2 (by simp)
    have r3 := hrx 3 (by simp)
    have r4 := hrx 4 (by simp)
    have r5 := hrx 5 (by simp)
    simp only [Nat.add_zero, List.getElem?_cons_zero, List.getElem?_cons_succ]
      at r0 r1 r2 r3 r4 r5
    refine ⟨by simp, r0, r2, ?_⟩
    simp only [gpioReadConfigBlock, if_neg nD, if_neg nI, if_neg nO, if_pos hP,
      List.length_cons, List.length_nil, r1, r3, r4, r5, hold, hval]
    simp

end ProteusIII

namespace ProteusIII
open WCON

/-- The `while` loop of `ProteusIII_GPIOLocalReadConfig` on a packet that holds, from
`uartP` on, the blocks of the elements of `blocks`: it leaves after one pass per block,
with the elements stored in the caller's array from index `running` on. -/
theorem gpioReadConfigLoop_blocks (h : Header) (rx : List Nat)
    (hnd : [h.ProteusIII_GPIO_IO_Disconnected, h.ProteusIII_GPIO_IO_Input,
      h.ProteusIII_GPIO_IO_Output, h.ProteusIII_GPIO_IO_PWM].Nodup)
    (hlt : ∀ x ∈ [h.ProteusIII_GPIO_IO_Disconnected, h.ProteusIII_GPIO_IO_Input,
      h.ProteusIII_GPIO_IO_Output, h.ProteusIII_GPIO_IO_PWM], x < 256)
    (blocks : List GPIOConfigBlock) :
    ∀ (uartP fuel : Nat) (out : List GPIOConfigBlock) (running n : Nat),
    (∀ c ∈ blocks, c.gpioId < 256
      ∧ (c.function = h.ProteusIII_GPIO_IO_Disconnected
        ∨ (c.function = h.ProteusIII_GPIO_IO_Input
            ∧ ∃ v, v < 256 ∧ c.value = GPIOValue.input v)
        ∨ (c.function = h.ProteusIII_GPIO_IO_Output
            ∧ ∃ v, v < 256 ∧ c.value = GPIOValue.output v)
        ∨ (c.function = h.ProteusIII_GPIO_IO_PWM
            ∧ ∃ period ratio, period < 65536 ∧ ratio < 256
              ∧ c.value = GPIOValue.pwm period ratio))) →
    (∀ k, k < (blocks.flatMap (gpioConfigBlockBytes h)).length →
      rx[uartP + k]? = (blocks.flatMap (gpioConfigBlockBytes h))[k]?) →
    running + blocks.length ≤ out.length →
    n + blocks.length < 65536 →
    blocks.length < fuel →
    ∃ out1, gpioReadConfigLoop h rx (uartP + (blocks.flatMap (gpioConfigBlockBytes h)).length)
          fuel uartP out running n = some (out1, n + blocks.length)
      ∧ out1.length = out.length
      ∧ (∀ i c, blocks[i]? = some c → ∃ old, out[running + i]? = some old
          ∧ out1[running + i]? = some
              { gpioId := c.gpioId, function := c.function,
                value := if c.function = h.ProteusIII_GPIO_IO_Disconnected then old.value
                  else c.value })
      ∧ (∀ j, j < running ∨ running + blocks.length ≤ j → out1[j]? = out[j]?) := by
  induction blocks with
  | nil =>
    intro uartP fuel out running n _ _ _ _ hf
    obtain ⟨fuel, rfl⟩ : ∃ f, fuel = f + 1 := ⟨fuel - 1, by
      simp only [List.length_nil] at hf; omega⟩
    refine ⟨out, ?_, rfl, ?_, fun _ _ => rfl⟩
    · simp [gpioReadConfigLoop]
    · intro i c hi
      simp at hi
  | cons c cs ih =>
    intro uartP fuel out running n hv hrx hout hn hf
    obtain ⟨fuel, rfl⟩ : ∃ f, fuel = f + 1 := ⟨fuel - 1, by omega⟩
    simp only [List.length_cons] at hout hn hf
    obtain ⟨old, hold⟩ : ∃ old, out[running]? = some old :=
      ⟨_, List.getElem?_eq_getElem (show running < out.length by omega)⟩
    obtain ⟨hid, hvc⟩ := hv c (List.mem_cons_self _ _)
    have hrxc : ∀ k, k < (gpioConfigBlockBytes h c).length →
        rx[uartP + k]? = (gpioConfigBlockBytes h c)[k]? := by
      intro k hk
      rw [hrx k (by rw [List.flatMap_cons, List.length_append]; omega), List.flatMap_cons,
        List.getElem?_append_left hk]
    obtain ⟨h4, r0, r2, hblock⟩ := gpioReadConfigBlock_bytes h c old rx uartP out running n
      hnd hlt hid hvc hrxc hold
    have hih := ih (uartP + (gpioConfigBlockBytes h c).length) fuel
      (out.set running
        { gpioId := c.gpioId, function := c.function,
          value := if c.function = h.ProteusIII_GPIO_IO_Disconnected then old.value
            else c.value })
      (running + 1) (n + 1)
      (fun x hx => hv x (List.mem_cons_of_mem _ hx))
      (by
        intro k hk
        rw [Nat.add_assoc, hrx _ (by rw [List.flatMap_cons, List.length_append]; omega),
          List.flatMap_cons, List.getElem?_append_right (by omega)]
        congr 1
        omega)
      (by rw [List.length_set]; omega) (by omega) (by omega)
    obtain ⟨out1, hloop, hlen, hset, hrest⟩ := hih
    refine ⟨out1, ?_, by rw [hlen, List.length_set], ?_, ?_⟩
    · rw [gpioReadConfigLoop, if_pos (by rw [List.flatMap_cons, List.length_append]; omega),
        r2, r0]
      simp only [hblock]
      rw [Nat.mod_eq_of_lt (by omega),
        show uartP + ((gpioConfigBlockBytes h c).length - 1 + 1)
          = uartP + (gpioConfigBlockBytes h c).length by omega,
        show uartP + ((c :: cs).flatMap (gpioConfigBlockBytes h)).length
          = uartP + (gpioConfigBlockBytes h c).length
            + (cs.flatMap (gpioConfigBlockBytes h)).length by
          rw [List.flatMap_cons, List.length_append]; omega,
        hloop]
      simp only [List.length_cons, Option.some.injEq, Prod.mk.injEq, true_and]
      omega
    · intro i x hi
      cases i with
      | zero =>
        simp only [List.getElem?_cons_zero, Option.some.injEq] at hi
        subst hi
        refine ⟨old, hold, ?_⟩
        rw [Nat.add_zero, hrest running (Or.inl (by omega)),
          List.getElem?_set_self (by omega)]
      | succ i =>
        simp only [List.getElem?_cons_succ] at hi
        obtain ⟨o, ho, h1⟩ := hset i x hi
        rw [List.getElem?_set_ne (by omega)] at ho
        refine ⟨o, by rw [show running + (i + 1) = running + 1 + i by omega]; exact ho, ?_⟩
        rw [show running + (i + 1) = running + 1 + i by omega]
        exact h1
    · intro j hj
      simp only [List.length_cons] at hj
      rw [hrest j (by omega), List.getElem?_set_ne (by omega)]

/-- The number of bytes of the blocks, counted from the functions of the elements. -/
theorem gpioConfigBytes_length (h : Header)
    (hnd : [h.ProteusIII_GPIO_IO_Disconnected, h.ProteusIII_GPIO_IO_Input,
      h.ProteusIII_GPIO_IO_Output, h.ProteusIII_GPIO_IO_PWM].Nodup)
    (blocks : List GPIOConfigBlock)
    (hv : ∀ c ∈ blocks, c.function = h.ProteusIII_GPIO_IO_Disconnected
      ∨ (c.function = h.ProteusIII_GPIO_IO_Input ∧ ∃ v, c.value = GPIOValue.input v)
      ∨ (c.function = h.ProteusIII_GPIO_IO_Output ∧ ∃ v, c.value = GPIOValue.output v)
      ∨ (c.function = h.ProteusIII_GPIO_IO_PWM
          ∧ ∃ period ratio, c.value = GPIOValue.pwm period ratio)) :
    (blocks.flatMap (gpioConfigBlockBytes h)).length
      = (blocks.map (fun c => if c.function = h.ProteusIII_GPIO_IO_PWM then 6 else 4)).sum := by
  obtain ⟨hID, hOD, hOI, hPD, hPI, hPO⟩ := gpio_codes_ne h hnd
  induction blocks with
  | nil => rfl
  | cons c cs ih =>
    rw [List.flatMap_cons, List.length_append, List.map_cons, List.sum_cons,
      ih (fun x hx => hv x (List.mem_cons_of_mem _ hx))]
    congr 1
    rcases hv c (List.mem_cons_self _ _) with hD | ⟨hI, v, hval⟩ | ⟨hO, v, hval⟩
      | ⟨hP, period, ratio, hval⟩
    · have nP : ¬ c.function = h.ProteusIII_GPIO_IO_PWM := by rw [hD]; exact Ne.symm hPD
      simp only [gpioConfigBlockBytes, if_pos hD, if_neg nP, List.length_cons, List.length_nil]
    · have nD : ¬ c.function = h.ProteusIII_GPIO_IO_Disconnected := by rw [hI]; exact hID
      have nP : ¬ c.function = h.ProteusIII_GPIO_IO_PWM := by rw [hI]; exact Ne.symm hPI
      simp only [gpioConfigBlockBytes, if_neg nD, if_pos hI, hval, if_neg nP, List.length_cons,
        List.length_nil]
    · have nD : ¬ c.function = h.ProteusIII_GPIO_IO_Disconnected := by rw [hO]; exact hOD
      have nI : ¬ c.function = h.ProteusIII_GPIO_IO_Input := by rw [hO]; exact hOI
      have nP : ¬ c.function = h.ProteusIII_GPIO_IO_PWM := by rw [hO]; exact Ne.symm hPO
      simp only [gpioConfigBlockBytes, if_neg nD, if_neg nI, if_pos hO, hval, if_neg nP,
        List.length_cons, List.length_nil]
    · have nD : ¬ c.function = h.ProteusIII_GPIO_IO_Disconnected := by rw [hP]; exact hPD
      have nI : ¬ c.function = h.ProteusIII_GPIO_IO_Input := by rw [hP]; exact hPI
      have nO : ¬ c.function = h.ProteusIII_GPIO_IO_Output := by rw [hP]; exact hPO
      simp only [gpioConfigBlockBytes, if_neg nD, if_neg nI, if_neg nO, if_pos hP, hval,
        List.length_cons, List.length_nil]

/-- There are at least four bytes per element. -/
theorem gpioConfigBytes_count (h : Header) (blocks : List GPIOConfigBlock) :
    4 * blocks.length
      ≤ (blocks.map (fun c => if c.function = h.ProteusIII_GPIO_IO_PWM then 6 else 4)).sum := by
  induction blocks with
  | nil => simp
  | cons c cs ih =>
    rw [List.map_cons, List.sum_cons, List.length_cons]
    split_ifs <;> omega

end ProteusIII

namespace WCON

/-- The high byte of a 16-bit length, as the request functions compute it. -/
theorem length_high_byte (L : Nat) (h : L < 65536) : (L &&& 0xFF00) >>> 8 = L / 256 := by
  have e : L / 256 = L >>> 8 := by rw [Nat.shiftRight_eq_div_pow]
  rw [e]
  apply Nat.eq_of_testBit_eq
  intro i
  rw [Nat.testBit_shiftRight, Nat.testBit_and, Nat.testBit_shiftRight]
  by_cases hi : i < 8
  · have hm : Nat.testBit 0xFF00 (8 + i) = true := by
      interval_cases i <;> rfl
    rw [hm, Bool.and_true]
  · have hl : L.testBit (8 + i) = false :=
      Nat.testBit_lt_two_pow (lt_of_lt_of_le h
        (by
          have : 2 ^ 16 ≤ 2 ^ (8 + i) := Nat.pow_le_pow_right (by decide) (by omega)
          simpa using this))
    rw [hl, Bool.false_and]

end WCON

namespace ProteusIII
open WCON

/-- The request part of `ProteusIII_GPIOLocalWriteConfig`: the blocks of the elements
are the payload of the frame handed to `WE_UART_Transmit`. -/
theorem pro_gpioWriteConfig_request (h : Header) (s : State) (blocks : List GPIOConfigBlock)
    (hnd : [h.ProteusIII_GPIO_IO_Disconnected, h.ProteusIII_GPIO_IO_Input,
      h.ProteusIII_GPIO_IO_Output, h.ProteusIII_GPIO_IO_PWM].Nodup)
    (hv : ∀ c ∈ blocks, c.function = h.ProteusIII_GPIO_IO_Disconnected
      ∨ (c.function = h.ProteusIII_GPIO_IO_Input ∧ ∃ v, c.value = GPIOValue.input v)
      ∨ (c.function = h.ProteusIII_GPIO_IO_Output ∧ ∃ v, c.value = GPIOValue.output v)
      ∨ (c.function = h.ProteusIII_GPIO_IO_PWM
          ∧ ∃ period ratio, c.value = GPIOValue.pwm period ratio))
    (hfit : (blocks.flatMap (gpioConfigBlockBytes h)).length + 5 ≤ s.cmdArray.length)
    (hL : (blocks.flatMap (gpioConfigBlockBytes h)).length ≤ 65530) :
    ProteusIII_GPIOLocalWriteConfig.request h s blocks blocks.length
      = some (true, { s with
          cmdArray := frame PROTEUSIII_CMD_GPIO_LOCAL_WRITECONFIG_REQ
              (blocks.flatMap (gpioConfigBlockBytes h))
            ++ s.cmdArray.drop ((blocks.flatMap (gpioConfigBlockBytes h)).length + 5)
          trace := s.trace ++ [Event.transmit
            (frame PROTEUSIII_CMD_GPIO_LOCAL_WRITECONFIG_REQ
              (blocks.flatMap (gpioConfigBlockBytes h)))
            ((blocks.flatMap (gpioConfigBlockBytes h)).length + 5)] }) := by
  have hloop := gpioWriteConfigLoop_bytes h hnd blocks [] 0 s.cmdArray hv
    (by simp only [CMD_POSITION_DATA]; omega) (by omega)
  simp only [List.nil_append, List.length_nil, Nat.zero_add, Nat.add_zero] at hloop
  generalize hB : blocks.flatMap (gpioConfigBlockBytes h) = B at *
  have hdrop : (s.cmdArray.take CMD_POSITION_DATA ++ B
      ++ s.cmdArray.drop (CMD_POSITION_DATA + B.length)).drop 4
      = B ++ (s.cmdArray.drop (CMD_POSITION_DATA + B.length)).head!
          :: s.cmdArray.drop (B.length + 5) := by
    have h4 : (s.cmdArray.take CMD_POSITION_DATA).length = 4 := by
      rw [List.length_take]; simp only [CMD_POSITION_DATA]; omega
    rw [List.append_assoc, List.drop_left' h4]
    congr 1
    have hn : CMD_POSITION_DATA + B.length < s.cmdArray.length := by
      simp only [CMD_POSITION_DATA]; omega
    rw [List.drop_eq_getElem_cons hn]
    simp only [List.head!_cons, CMD_POSITION_DATA]
    rw [show 4 + B.length + 1 = B.length + 5 by omega]
  have hfr := pro_fillAndTransmit_frame s PROTEUSIII_CMD_GPIO_LOCAL_WRITECONFIG_REQ B
    (s.cmdArray.drop (CMD_POSITION_DATA + B.length)).head! (s.cmdArray.drop (B.length + 5)) hL
  unfold ProteusIII_GPIOLocalWriteConfig.request
  rw [hloop]
  simp only
  rw [writes_four _ _ _ _ _ (by
      simp only [List.length_append, List.length_take, List.length_drop, CMD_POSITION_DATA]
      omega),
    hdrop, Nat.and_pow_two_sub_one_eq_mod B.length 8, length_high_byte B.length (by omega)]
  exact hfr

end ProteusIII

open WCON ProteusIII in
/-- C37 (Proteus-III), for function codes that are four different byte values.  Let every
element of `blocks` have one of the functions Disconnected, Input, Output, PWM, hold the
member of `value` that belongs to its function, and have a pin, input or output value
and PWM ratio below 256 and a PWM period below 65536; let the encoding (four bytes per
element, six for PWM) fit the command array.  Then `ProteusIII_GPIOLocalWriteConfig`
sends a `GPIO_LOCAL_WRITECONFIG_REQ` frame whose payload `B` has that many bytes, and
for every status byte, every content of `rxPacket` behind the frame and every caller's
array with room for the elements, the loop of `ProteusIII_GPIOLocalReadConfig` on an
`rxPacket` that holds a `GPIO_LOCAL_READCONFIG_CNF` frame with the payload `status, B`
(its length bytes give `length = |B| + 1`) ends within the `length + 1` passes it has,
reports `blocks.length` elements and has stored, at each index `i`, the pin and the
function of `blocks[i]` and, unless the function is Disconnected, its value. -/
theorem C37_gpio_config_round_trip (h : Header) (s : State) (blocks : List GPIOConfigBlock)
    (hnd : [h.ProteusIII_GPIO_IO_Disconnected, h.ProteusIII_GPIO_IO_Input,
      h.ProteusIII_GPIO_IO_Output, h.ProteusIII_GPIO_IO_PWM].Nodup)
    (hlt : ∀ x ∈ [h.ProteusIII_GPIO_IO_Disconnected, h.ProteusIII_GPIO_IO_Input,
      h.ProteusIII_GPIO_IO_Output, h.ProteusIII_GPIO_IO_PWM], x < 256)
    (hv : ∀ c ∈ blocks, c.gpioId < 256
      ∧ (c.function = h.ProteusIII_GPIO_IO_Disconnected
        ∨ (c.function = h.ProteusIII_GPIO_IO_Input
            ∧ ∃ v, v < 256 ∧ c.value = GPIOValue.input v)
        ∨ (c.function = h.ProteusIII_GPIO_IO_Output
            ∧ ∃ v, v < 256 ∧ c.value = GPIOValue.output v)
        ∨ (c.function = h.ProteusIII_GPIO_IO_PWM
            ∧ ∃ period ratio, period < 65536 ∧ ratio < 256
              ∧ c.value = GPIOValue.pwm period ratio)))
    (hfit : (blocks.map
        (fun c => if c.function = h.ProteusIII_GPIO_IO_PWM then 6 else 4)).sum + 5
      ≤ s.cmdArray.length)
    (hmax : s.cmdArray.length ≤ 65535) :
    ∃ B s1, ProteusIII_GPIOLocalWriteConfig.request h s blocks blocks.length = some (true, s1)
      ∧ transmitted s1.trace
          = transmitted s.trace ++ [frame PROTEUSIII_CMD_GPIO_LOCAL_WRITECONFIG_REQ B]
      ∧ B.length = (blocks.map
          (fun c => if c.function = h.ProteusIII_GPIO_IO_PWM then 6 else 4)).sum
      ∧ ∀ (st : Nat) (tail : List Nat) (out : List GPIOConfigBlock),
          blocks.length ≤ out.length →
          ∃ lsb msb out1,
            (frame PROTEUSIII_CMD_GPIO_LOCAL_READCONFIG_CNF (st :: B)
                ++ tail)[CMD_POSITION_LENGTH_LSB]? = some lsb
            ∧ (frame PROTEUSIII_CMD_GPIO_LOCAL_READCONFIG_CNF (st :: B)
                ++ tail)[CMD_POSITION_LENGTH_MSB]? = some msb
            ∧ ((lsb <<< 0) + (msb <<< 8)) % 65536 = B.length + 1
            ∧ gpioReadConfigLoop h
                (frame PROTEUSIII_CMD_GPIO_LOCAL_READCONFIG_CNF (st :: B) ++ tail)
                (CMD_POSITION_DATA + (B.length + 1)) (B.length + 1 + 1)
                (CMD_POSITION_DATA + 1) out 0 0 = some (out1, blocks.length)
            ∧ out1.length = out.length
            ∧ ∀ (i : Nat) (c : GPIOConfigBlock), blocks[i]? = some c →
                ∃ r : GPIOConfigBlock, out1[i]? = some r ∧ r.gpioId = c.gpioId ∧ r.function = c.function
                  ∧ (c.function ≠ h.ProteusIII_GPIO_IO_Disconnected → r.value = c.value) := by
  have hvw : ∀ c ∈ blocks, c.function = h.ProteusIII_GPIO_IO_Disconnected
      ∨ (c.function = h.ProteusIII_GPIO_IO_Input ∧ ∃ v, c.value = GPIOValue.input v)
      ∨ (c.function = h.ProteusIII_GPIO_IO_Output ∧ ∃ v, c.value = GPIOValue.output v)
      ∨ (c.function = h.ProteusIII_GPIO_IO_PWM
          ∧ ∃ period ratio, c.value = GPIOValue.pwm period ratio) := by
    intro c hc
    rcases (hv c hc).2 with hD | ⟨hI, v, _, hval⟩ | ⟨hO, v, _, hval⟩
      | ⟨hP, period, ratio, _, _, hval⟩
    · exact Or.inl hD
    · exact Or.inr (Or.inl ⟨hI, v, hval⟩)
    · exact Or.inr (Or.inr (Or.inl ⟨hO, v, hval⟩))
    · exact Or.inr (Or.inr (Or.inr ⟨hP, period, ratio, hval⟩))
  have hlen := gpioConfigBytes_length h hnd blocks hvw
  have hcount := gpioConfigBytes_count h blocks
  have hreq := pro_gpioWriteConfig_request h s blocks hnd hvw (by omega) (by omega)
  refine ⟨blocks.flatMap (gpioConfigBlockBytes h), _, hreq, ?_, hlen, ?_⟩
  · simp [pro_transmitted_append, transmitted]
  · intro st tail out hout
    obtain ⟨lsb, msb, h2, h3, hL⟩ := frame_length_field
      PROTEUSIII_CMD_GPIO_LOCAL_READCONFIG_CNF
      (st :: blocks.flatMap (gpioConfigBlockBytes h)) tail
      (by rw [List.length_cons]; omega)
    obtain ⟨out1, hloop, hl1, hset, _⟩ := gpioReadConfigLoop_blocks h
      (frame PROTEUSIII_CMD_GPIO_LOCAL_READCONFIG_CNF
        (st :: blocks.flatMap (gpioConfigBlockBytes h)) ++ tail)
      hnd hlt blocks (CMD_POSITION_DATA + 1)
      ((blocks.flatMap (gpioConfigBlockBytes h)).length + 1 + 1) out 0 0 hv
      (by
        intro k hk
        rw [frame_append, show CMD_POSITION_DATA + 1 + k = k + 1 + 1 + 1 + 1 + 1 by
          simp only [CMD_POSITION_DATA]; omega]
        simp only [List.getElem?_cons_succ, List.cons_append]
        exact List.getElem?_append_left hk)
      (by omega) (by omega) (by omega)
    refine ⟨lsb, msb, out1, h2, h3, by rw [hL, List.length_cons], ?_, hl1, ?_⟩
    · rw [show CMD_POSITION_DATA + ((blocks.flatMap (gpioConfigBlockBytes h)).length + 1)
          = CMD_POSITION_DATA + 1 + (blocks.flatMap (gpioConfigBlockBytes h)).length by omega,
        hloop, Nat.zero_add]
    · intro i c hi
      obtain ⟨old, _, h1⟩ := hset i c hi
      rw [Nat.zero_add] at h1
      refine ⟨_, h1, rfl, rfl, ?_⟩
      intro hne
      simp only [if_neg hne]

set_option maxRecDepth 400000 in
open WCON ProteusIII in
/-- Witness of C37: a disconnected pin, an input, an output and a PWM pin (period 1000,
ratio 128) with the function codes 0 to 3.  The request sent is
`02 25 12 00 | 03 01 00 00 | 03 02 01 01 | 03 03 02 01 | 05 04 03 E8 03 80 | 5C`. -/
theorem C37_gpio_config_round_trip_witness :
    (ProteusIII_GPIOLocalWriteConfig.request exampleHeader (idleState exampleHeader noCallbacks)
        [{ gpioId := 1, function := 0, value := GPIOValue.zero },
         { gpioId := 2, function := 1, value := GPIOValue.input 1 },
         { gpioId := 3, function := 2, value := GPIOValue.output 1 },
         { gpioId := 4, function := 3, value := GPIOValue.pwm 1000 128 }] 4).map
      (fun r => (r.1, transmitted r.2.trace))
      = some (true, [[0x02, 0x25, 0x12, 0x00, 0x03, 0x01, 0x00, 0x00, 0x03, 0x02, 0x01, 0x01,
          0x03, 0x03, 0x02, 0x01, 0x05, 0x04, 0x03, 0xE8, 0x03, 0x80, 0x5C]])
    ∧ ∃ B s1, ProteusIII_GPIOLocalWriteConfig.request exampleHeader
          (idleState exampleHeader noCallbacks)
          [{ gpioId := 1, function := 0, value := GPIOValue.zero },
           { gpioId := 2, function := 1, value := GPIOValue.input 1 },
           { gpioId := 3, function := 2, value := GPIOValue.output 1 },
           { gpioId := 4, function := 3, value := GPIOValue.pwm 1000 128 }] 4 = some (true, s1)
        ∧ transmitted s1.trace = transmitted (idleState exampleHeader noCallbacks).trace
            ++ [frame PROTEUSIII_CMD_GPIO_LOCAL_WRITECONFIG_REQ B]
        ∧ B.length = 18
        ∧ ∀ (st : Nat) (tail : List Nat) (out : List GPIOConfigBlock), 4 ≤ out.length →
            ∃ lsb msb out1,
              (frame PROTEUSIII_CMD_GPIO_LOCAL_READCONFIG_CNF (st :: B)
                  ++ tail)[CMD_POSITION_LENGTH_LSB]? = some lsb
              ∧ (frame PROTEUSIII_CMD_GPIO_LOCAL_READCONFIG_CNF (st :: B)
                  ++ tail)[CMD_POSITION_LENGTH_MSB]? = some msb
              ∧ ((lsb <<< 0) + (msb <<< 8)) % 65536 = B.length + 1
              ∧ gpioReadConfigLoop exampleHeader
                  (frame PROTEUSIII_CMD_GPIO_LOCAL_READCONFIG_CNF (st :: B) ++ tail)
                  (CMD_POSITION_DATA + (B.length + 1)) (B.length + 1 + 1)
                  (CMD_POSITION_DATA + 1) out 0 0 = some (out1, 4)
              ∧ out1.length = out.length
              ∧ ∀ (i : Nat) (c : GPIOConfigBlock),
                  [({ gpioId := 1, function := 0, value := GPIOValue.zero } : GPIOConfigBlock),
                   { gpioId := 2, function := 1, value := GPIOValue.input 1 },
                   { gpioId := 3, function := 2, value := GPIOValue.output 1 },
                   { gpioId := 4, function := 3, value := GPIOValue.pwm 1000 128 }][i]?
                    = some c →
                  ∃ r : GPIOConfigBlock, out1[i]? = some r ∧ r.gpioId = c.gpioId
                    ∧ r.function = c.function
                    ∧ (c.function ≠ exampleHeader.ProteusIII_GPIO_IO_Disconnected →
                        r.value = c.value) :=
  ⟨by decide,
    C37_gpio_config_round_trip exampleHeader (idleState exampleHeader noCallbacks)
      [{ gpioId := 1, function := 0, value := GPIOValue.zero },
       { gpioId := 2, function := 1, value := GPIOValue.input 1 },
       { gpioId := 3, function := 2, value := GPIOValue.output 1 },
       { gpioId := 4, function := 3, value := GPIOValue.pwm 1000 128 }]
      (by decide) (by decide)
      (fun c hc => by
        simp only [List.mem_cons, List.mem_singleton, List.not_mem_nil, or_false] at hc
        rcases hc with rfl | rfl | rfl | rfl
        · exact ⟨by decide, Or.inl rfl⟩
        · exact ⟨by decide, Or.inr (Or.inl ⟨rfl, 1, by decide, rfl⟩)⟩
        · exact ⟨by decide, Or.inr (Or.inr (Or.inl ⟨rfl, 1, by decide, rfl⟩))⟩
        · exact ⟨by decide, Or.inr (Or.inr (Or.inr ⟨rfl, 1000, 128, by decide, by decide,
            rfl⟩))⟩)
      (by decide) (by decide)⟩

/-! ## The frame length bound along a byte stream (C14) -/

namespace ThyoneI
open WCON

/-- One call of `WE_UART_HandleRxByte` has a result in every state in which the counter is
inside the buffer, the buffers have their declared size and, past the header,
`BytesToReceive` is the length that the length bytes in the buffer declare, not above
`MAX_CMD_LENGTH`. -/
theorem thy_step_returns (s : State) (b : Nat)
    (hbuf : s.RxBuffer.length = MAX_CMD_LENGTH) (hpkt : s.RxPacket.length = MAX_CMD_LENGTH)
    (hc : s.RxByteCounter < MAX_CMD_LENGTH)
    (h4 : 4 ≤ s.RxByteCounter → ∃ lsb msb, s.RxBuffer[2]? = some lsb
      ∧ s.RxBuffer[3]? = some msb ∧ s.BytesToReceive = lsb + 256 * msb + 5
      ∧ s.BytesToReceive ≤ MAX_CMD_LENGTH) :
    ∃ s1, WE_UART_HandleRxByte s b = some s1 ∧ s1.RxPacket.length = MAX_CMD_LENGTH := by
  have hbuf' : s.RxBuffer.length = 235 := hbuf
  have hpkt' : s.RxPacket.length = 235 := hpkt
  have hc' : s.RxByteCounter < 235 := hc
  by_cases c0 : s.RxByteCounter = 0
  · by_cases hs : b = CMD_STX
    · subst hs
      exact ⟨_, thy_step_idle_stx s c0 (by omega), hpkt⟩
    · exact ⟨_, thy_step_idle_other s b c0 hs (by omega), hpkt⟩
  by_cases c1 : s.RxByteCounter = 1
  · exact ⟨_, thy_step_cmd s b c1 (by omega), hpkt⟩
  by_cases c2 : s.RxByteCounter = 2
  · exact ⟨_, thy_step_lsb s b c2 (by omega), hpkt⟩
  by_cases c3 : s.RxByteCounter = 3
  · rw [thy_step_msb s b c3 (by omega)]
    split_ifs
    · exact ⟨_, rfl, hpkt⟩
    · exact ⟨_, rfl, hpkt⟩
  have c4 : 4 ≤ s.RxByteCounter := by omega
  by_cases hne : s.RxByteCounter + 1 = s.BytesToReceive
  · rw [thy_step_last s b c4 (by omega) (by omega) hne.symm]
    have hcrc : checkCRC (s.RxBuffer.set s.RxByteCounter b) (s.RxByteCounter + 1)
        = some (xorAll ((s.RxBuffer.set s.RxByteCounter b).take s.RxByteCounter), b) := by
      simp only [checkCRC, Nat.add_sub_cancel]
      rw [xorFrom_zero _ _ (by rw [List.length_set]; omega)]
      simp only [Nat.succ_ne_zero, if_false]
      rw [List.getElem?_set_self (by omega)]
    rw [hcrc]
    simp only
    split_ifs
    · obtain ⟨lsb, msb, g2, g3, hB, hmax⟩ := h4 c4
      have hmax' : s.BytesToReceive ≤ 235 := hmax
      obtain ⟨conf, calls, _, _, hH⟩ := thy_HandleRxPacket_eq
        { s with RxBuffer := s.RxBuffer.set s.RxByteCounter b,
                 RxByteCounter := s.RxByteCounter + 1,
                 checksum := xorAll ((s.RxBuffer.set s.RxByteCounter b).take s.RxByteCounter) }
        (s.RxBuffer.set s.RxByteCounter b) lsb msb
        (by rw [List.getElem?_set_ne (show s.RxByteCounter ≠ 2 by omega)]; exact g2)
        (by rw [List.getElem?_set_ne (show s.RxByteCounter ≠ 3 by omega)]; exact g3)
        (by omega) (by rw [List.length_set]; omega) (by simp only; omega)
        (by simp only; omega)
      rw [hH]
      refine ⟨_, rfl, ?_⟩
      simp only
      rw [memcpy_length _ _ _ (by rw [List.length_set]; omega) (by omega)]
      exact hpkt
    · exact ⟨_, rfl, hpkt⟩
  · exact ⟨_, thy_step_data s b c4 (by omega) (by omega) hne, hpkt⟩

/-- Along a byte stream in which the length test never wraps, every call of
`WE_UART_HandleRxByte` has a result. -/
theorem thy_feed_returns (stream : List Nat) : ∀ (s : State),
    (∀ b ∈ stream, b < 256) →
    s.RxBuffer.length = MAX_CMD_LENGTH → s.RxPacket.length = MAX_CMD_LENGTH →
    (s.RxByteCounter = 3 →
      s.BytesToReceive < 256 ∧ s.RxBuffer[2]? = some s.BytesToReceive) →
    (4 ≤ s.RxByteCounter → ∃ lsb msb, s.RxBuffer[2]? = some lsb
      ∧ s.RxBuffer[3]? = some msb ∧ lsb < 256 ∧ msb < 256
      ∧ s.BytesToReceive = (lsb + 256 * msb + 5) % 65536
      ∧ s.BytesToReceive ≤ MAX_CMD_LENGTH) →
    (4 ≤ s.RxByteCounter →
      s.RxByteCounter < s.BytesToReceive ∧ s.BytesToReceive ≤ MAX_CMD_LENGTH) →
    s.RxByteCounter < MAX_CMD_LENGTH →
    (∀ i, i < stream.length → ∀ t ∈ feed s (stream.take i), t.RxByteCounter = 3 →
      t.BytesToReceive + ((stream.getD i 0 <<< 8) + 5) < 65536) →
    ∃ s1, feed s stream = some s1 := by
  induction stream with
  | nil => intro s _ _ _ _ _ _ _ _; exact ⟨s, rfl⟩
  | cons b stream ih =>
    intro s hbytes hbuf hpkt h3 h4 hinv hc hnw
    have hbuf' : s.RxBuffer.length = 235 := hbuf
    obtain ⟨s2, hstep, hp2⟩ := thy_step_returns s b hbuf hpkt hc
      (fun c4 => by
        obtain ⟨lsb, msb, g2, g3, hl, hm, hB, hmax⟩ := h4 c4
        obtain ⟨hlt, _⟩ := hinv c4
        exact ⟨lsb, msb, g2, g3, by omega, hmax⟩)
    obtain ⟨_, k3, k4, _⟩ := thy_step_bound s s2 b (hbytes b (List.mem_cons_self _ _))
      (by omega) h3 h4 hstep
    obtain ⟨hl2, hi2, hc2⟩ := thy_step_index s s2 b hbuf hinv
      (fun e3 => hnw 0 (Nat.succ_pos _) s rfl e3) hstep
    obtain ⟨s1, hf⟩ := ih s2 (fun x hx => hbytes x (List.mem_cons_of_mem _ hx)) hl2 hp2 k3 k4
      hi2 hc2
      (fun i hi t ht e3 => by
        have h := hnw (i + 1) (Nat.succ_lt_succ hi) t
          (by
            rw [List.take_succ_cons]
            show feed s (b :: List.take i stream) = some t
            rw [thy_feed_cons, hstep, Option.some_bind]
            exact ht) e3
        simpa using h)
    exact ⟨s1, by rw [thy_feed_cons, hstep, Option.some_bind]; exact hf⟩

end ThyoneI

/-- C14, amended (frame size enforced on receive, Thyone-I): the bound is on the whole
frame, `L + 5 <= MAX_CMD_LENGTH = 235`, i.e. on a declared payload length of 230.
Every header that declares a payload length `L` with `230 < L <= 65530` resets the
reassembler to the idle state without any dispatch.  And for every byte stream in which
no header makes the 16-bit sum of the length test reach `2^16` (no header declares a
length above 65530), fed to the idle receiver with buffers of their declared size, every
byte is handled, and every frame handed to `HandleRxPacket` is as long as its length
bytes declare, with a declared payload length of at most 230. -/
theorem C14_frame_length_bound :
    (∀ (s : ThyoneI.State) (c lsb msb : Nat),
      s.RxByteCounter = 0 → 4 ≤ s.RxBuffer.length →
      230 < lsb + 256 * msb → lsb + 256 * msb ≤ 65530 →
      ∃ s1, ThyoneI.feed s [0x02, c, lsb, msb] = some s1
        ∧ s1.RxByteCounter = 0 ∧ s1.BytesToReceive = 0 ∧ s1.trace = s.trace) ∧
    (∀ (s : ThyoneI.State) (stream : List Nat),
      s.RxByteCounter = 0 → s.RxBuffer.length = ThyoneI.MAX_CMD_LENGTH →
      s.RxPacket.length = ThyoneI.MAX_CMD_LENGTH →
      (∀ b ∈ stream, b < 256) →
      (∀ i, i < stream.length → ∀ t ∈ ThyoneI.feed s (stream.take i),
        t.RxByteCounter = 3 →
        t.BytesToReceive + ((stream.getD i 0 <<< 8) + 5) < 65536) →
      ∃ s1, ThyoneI.feed s stream = some s1
        ∧ ∀ f ∈ ThyoneI.dispatched s1.trace, f ∈ ThyoneI.dispatched s.trace
          ∨ ∃ lsb msb, f[2]? = some lsb ∧ f[3]? = some msb
            ∧ f.length = lsb + 256 * msb + 5 ∧ lsb + 256 * msb ≤ 230) := by
  constructor
  · intro s c lsb msb hidle hl hgt hle
    obtain ⟨s1, hf, htr, _, hrej, _⟩ := ThyoneI.thy_header_check s c lsb msb hidle hl
    have hmod : (lsb + 256 * msb + 5) % 65536 = lsb + 256 * msb + 5 :=
      Nat.mod_eq_of_lt (by omega)
    obtain ⟨h0, hB⟩ := hrej (by rw [hmod, ThyoneI.thy_MAX_CMD_LENGTH_eq]; omega)
    exact ⟨s1, hf, h0, hB, htr⟩
  · intro s stream hidle hbuf hpkt hbytes hnw
    obtain ⟨s1, hfeed⟩ := ThyoneI.thy_feed_returns stream s hbytes hbuf hpkt
      (fun h => by omega) (fun h => by omega) (fun h => by omega)
      (by rw [hidle, ThyoneI.thy_MAX_CMD_LENGTH_eq]; decide) hnw
    refine ⟨s1, hfeed, fun f hf => ?_⟩
    rcases ThyoneI.thy_feed_bound stream s s1 hbytes
      (by rw [hbuf, ThyoneI.thy_MAX_CMD_LENGTH_eq]; omega)
      (fun h => by omega) (fun h => by omega) hfeed f hf with h | ⟨lsb, msb, h2, h3, hl, hm⟩
    · exact Or.inl h
    · rw [ThyoneI.thy_MAX_CMD_LENGTH_eq] at hm
      exact Or.inr ⟨lsb, msb, h2, h3, hl, by omega⟩

set_option maxRecDepth 200000 in
/-- Witness of C14 (amended): the header `0x02, 0x84, 0xE7, 0x00` (declared payload
length 231) fed to the idle receiver, and the stream `02 44 01 00 00 47 02 41`, whose
one complete frame declares the length 1. -/
theorem C14_frame_length_bound_witness :
    (∃ s1, ThyoneI.feed (ThyoneI.idleState false) [0x02, 0x84, 0xE7, 0x00] = some s1
      ∧ s1.RxByteCounter = 0 ∧ s1.BytesToReceive = 0
      ∧ s1.trace = (ThyoneI.idleState false).trace)
    ∧ (ThyoneI.feed (ThyoneI.idleState false)
          [0x02, 0x44, 0x01, 0x00, 0x00, 0x47, 0x02, 0x41]).map
        (fun s => ThyoneI.dispatched s.trace) = some [[0x02, 0x44, 0x01, 0x00, 0x00, 0x47]]
    ∧ ∃ s1, ThyoneI.feed (ThyoneI.idleState false)
          [0x02, 0x44, 0x01, 0x00, 0x00, 0x47, 0x02, 0x41] = some s1
        ∧ ∀ f ∈ ThyoneI.dispatched s1.trace,
            f ∈ ThyoneI.dispatched (ThyoneI.idleState false).trace
            ∨ ∃ lsb msb, f[2]? = some lsb ∧ f[3]? = some msb
              ∧ f.length = lsb + 256 * msb + 5 ∧ lsb + 256 * msb ≤ 230 :=
  ⟨C14_frame_length_bound.1 (ThyoneI.idleState false) 0x84 0xE7 0x00 rfl
      (by rw [ThyoneI.thy_idle_buffer]; decide) (by decide) (by decide),
    by decide,
    C14_frame_length_bound.2 (ThyoneI.idleState false)
      [0x02, 0x44, 0x01, 0x00, 0x00, 0x47, 0x02, 0x41] rfl
      (by rw [ThyoneI.thy_idle_buffer]; rfl) (by rw [ThyoneI.thy_idle_packet]; rfl)
      (by decide) (by decide)⟩
